import Mathlib

/-!
# SummerCart64 controller: USB command engine (`sw/controller/src/usb.c`)

A shallow embedding of the receive / transmit state machines of `usb.c`.

Conventions of the embedding

* `uint8_t` and `uint32_t` values are natural numbers; every store that can
  leave the range is reduced modulo `256` or `2 ^ 32`.
* `struct process p` and the four file-level `static` cursors live in `Process`.
* Everything outside the module (FPGA registers and FIFOs, the timer, the
  feature modules) lives in `World`.  Register writes, FIFO pushes, timer
  re-arms, collaborator calls and completion callbacks are appended to
  `World.trace` in program order.  A DMA start makes the busy flag read busy
  at once; every other reaction of the hardware happens between ticks.
* Functions and constants of headers other than `usb.c` are fields of `Env`.
-/

namespace SC64

/-! ## Constants of `usb.c` -/

def BOOTLOADER_ADDRESS : Nat := 0x04E00000
def BOOTLOADER_LENGTH : Nat := 1920 * 1024
def MEMORY_LENGTH : Nat := 0x05002980
def RX_FLUSH_ADDRESS : Nat := 0x07F00000
def RX_FLUSH_LENGTH : Nat := 1 * 1024 * 1024
def DEBUG_WRITE_TIMEOUT_TICKS : Nat := 100

def CMP_TOKEN : Nat := 0x434D5000
def ERR_TOKEN : Nat := 0x45525200
def PKT_TOKEN : Nat := 0x504B5400

/-- Modulus of `uint32_t` arithmetic. -/
def U32 : Nat := 4294967296

/-- Modulus of `uint8_t` arithmetic. -/
def U8 : Nat := 256

/-- The array `CMD_TOKEN[3] = { 'C', 'M', 'D' }`; an index past the end reads 0. -/
def CMD_TOKEN (i : Nat) : Nat :=
  if i = 0 then 67 else if i = 1 then 77 else if i = 2 then 68 else 0

/-! ## Bounds validation -/

/-- The function `usb_validate_address_length`: `true` means reject.  The sum
`address + length` is a `uint32_t` sum, so it is taken modulo `2 ^ 32`. -/
def usb_validate_address_length (address length : Nat) (exclude_bootloader : Bool) : Bool :=
  if address ≥ MEMORY_LENGTH ∨ length > MEMORY_LENGTH then true
  else if (address + length) % U32 > MEMORY_LENGTH then true
  else if exclude_bootloader then
    if (address + length) % U32 > BOOTLOADER_ADDRESS ∧
        address < (BOOTLOADER_ADDRESS + BOOTLOADER_LENGTH) % U32 then true
    else false
  else false

/-- The byte range `[address, address + length)` shares no byte with the
bootloader region `[BOOTLOADER_ADDRESS, BOOTLOADER_ADDRESS + BOOTLOADER_LENGTH)`. -/
def DisjointFromBootloader (address length : Nat) : Prop :=
  ∀ x, address ≤ x → x < address + length →
    ¬ (BOOTLOADER_ADDRESS ≤ x ∧ x < BOOTLOADER_ADDRESS + BOOTLOADER_LENGTH)

/-! ## Data model -/

inductive RxState where
  | idle
  | args
  | data
  | flush
  deriving DecidableEq, Repr

inductive TxState where
  | idle
  | token
  | data
  | dma
  | flush
  deriving DecidableEq, Repr

/-- Values of a `done_callback` function pointer: `update_start`, or a function
of another module identified by a number. -/
inductive Callback where
  | update_start
  | other (id : Nat)
  deriving DecidableEq, Repr

/-- The descriptor `usb_tx_info_t`; `data0 .. data3` are `data[0] .. data[3]`. -/
structure TxInfo where
  cmd : Nat
  data_length : Nat
  data0 : Nat
  data1 : Nat
  data2 : Nat
  data3 : Nat
  dma_length : Nat
  dma_address : Nat
  done_callback : Option Callback
  deriving DecidableEq, Repr

/-- Read of `info.data[i]`; an index past the end reads 0. -/
def TxInfo.data (info : TxInfo) (i : Nat) : Nat :=
  if i = 0 then info.data0 else if i = 1 then info.data1
  else if i = 2 then info.data2 else if i = 3 then info.data3 else 0

/-- The `struct process p` of `usb.c` together with the file-level statics
`usb_rx_word_counter`, `usb_rx_word_buffer`, `usb_tx_word_counter` and
`usb_rx_cmd_counter`. -/
structure Process where
  rx_state : RxState
  rx_counter : Nat
  rx_cmd : Nat
  rx_args0 : Nat
  rx_args1 : Nat
  rx_dma_running : Bool
  tx_state : TxState
  tx_counter : Nat
  tx_info : TxInfo
  tx_token : Nat
  tx_dma_running : Bool
  flush_response : Bool
  flush_packet : Bool
  response_pending : Bool
  response_error : Bool
  response_info : TxInfo
  packet_pending : Bool
  packet_info : TxInfo
  read_ready : Bool
  read_length : Nat
  read_address : Nat
  usb_rx_word_counter : Nat
  usb_rx_word_buffer : Nat
  usb_tx_word_counter : Nat
  usb_rx_cmd_counter : Nat
  deriving DecidableEq, Repr

/-- Values written to `REG_USB_DMA_SCR`. -/
inductive DmaScr where
  | START
  | DIRECTION_START
  | STOP
  deriving DecidableEq, Repr

/-- Values written to `REG_USB_SCR`. -/
inductive UsbScr where
  | WRITE_FLUSH
  | FIFO_FLUSH
  | RESET_ACK
  deriving DecidableEq, Repr

/-- Functions of the feature modules that `usb_rx_process` calls. -/
inductive Collab where
  | cfg_get_identifier
  | version_firmware
  | cfg_reset_state
  | cic_reset_parameters
  | cic_set_parameters
  | cfg_query
  | cfg_update
  | cfg_query_setting
  | cfg_update_setting
  | cfg_get_time
  | cfg_set_time
  | dd_set_block_ready
  | writeback_enable
  | flash_wait_busy
  | flash_erase_block
  | cfg_set_rom_write_enable
  | update_backup
  | update_prepare
  | app_get_stack_usage
  deriving DecidableEq, Repr

/-- Actions of the module that are visible outside it, in program order. -/
inductive Ev where
  | reg_set_dma_address (v : Nat)
  | reg_set_dma_length (v : Nat)
  | reg_set_dma_scr (v : DmaScr)
  | reg_set_usb_scr (v : UsbScr)
  | usb_push (byte : Nat)
  | timer_set (ticks : Nat)
  | call (f : Collab) (args : List Nat)
  | done_callback (cb : Callback)
  deriving DecidableEq, Repr

/-- Everything outside `usb.c`: FIFOs, DMA busy flag, the `TIMER_ID_USB`
countdown, the link bits of `REG_USB_SCR`, the two debug registers, the state
`ext` of the feature modules, and the trace of actions. -/
structure World (X : Type) where
  rx : List Nat
  tx_space : Nat
  dma_busy : Bool
  timer : Nat
  scr_pwrsav : Bool
  scr_reset_state : Bool
  scr_reset_pending : Bool
  debug0 : Nat
  debug1 : Nat
  trace : List Ev
  ext : X

/-- Constants and functions of the other modules (`cfg.h`, `cic.h`, `dd.h`,
`flash.h`, `update.h`, `version.h`, `writeback.h`, `app.h`, `usb.h`), acting on
their own state `X`.  A function that receives `uint32_t *args` returns the two
words it leaves there; an out-parameter is returned next to the result. -/
structure Env (X : Type) where
  FLASH_ERASE_BLOCK_SIZE : Nat
  PACKET_CMD_DATA_FLUSHED : Nat
  UPDATE_OK : Nat
  cfg_get_identifier : X → Nat × X
  version_firmware : Nat → Nat → X → Nat × Nat × X
  cfg_reset_state : X → X
  cic_reset_parameters : X → X
  cic_set_parameters : Nat → Nat → X → Nat × Nat × X
  cfg_query : Nat → Nat → X → Bool × Nat × Nat × X
  cfg_update : Nat → Nat → X → Bool × Nat × Nat × X
  cfg_query_setting : Nat → Nat → X → Bool × Nat × Nat × X
  cfg_update_setting : Nat → Nat → X → Bool × Nat × Nat × X
  cfg_get_time : Nat → Nat → X → Nat × Nat × X
  cfg_set_time : Nat → Nat → X → Nat × Nat × X
  dd_set_block_ready : Bool → X → X
  writeback_enable : X → X
  flash_wait_busy : X → X
  flash_erase_block : Nat → X → Bool × X
  cfg_set_rom_write_enable : Bool → X → X
  update_backup : Nat → Nat → X → Nat × Nat × X
  update_prepare : Nat → Nat → X → Nat × X
  app_get_stack_usage : TxInfo → X → Nat × Nat × Nat × Nat × X
  run_callback : Callback → X → X

/-- The module state together with its surroundings. -/
structure State (X : Type) where
  p : Process
  w : World X

variable {X : Type}

/-! ## Hardware access -/

/-- Appends one action to the trace. -/
def State.emit (s : State X) (e : Ev) : State X :=
  { s with w := { s.w with trace := s.w.trace ++ [e] } }

/-- Replaces the state of the feature modules. -/
def State.setExt (s : State X) (x : X) : State X :=
  { s with w := { s.w with ext := x } }

/-- The function `usb_dma_ready`. -/
def usb_dma_ready (s : State X) : Bool := !s.w.dma_busy

/-- Modelled from the spec: the reaction of the DMA engine to a start write (the
FPGA is not among the sources): the busy flag reads busy immediately after the
start.  The three register writes themselves are those of `usb.c`. -/
def dma_start (address length : Nat) (scr : DmaScr) (s : State X) : State X :=
  let s1 := ((s.emit (Ev.reg_set_dma_address address)).emit
    (Ev.reg_set_dma_length length)).emit (Ev.reg_set_dma_scr scr)
  { s1 with w := { s1.w with dma_busy := true } }

/-- The call `timer_set(TIMER_ID_USB, ticks)`. -/
def timer_set (ticks : Nat) (s : State X) : State X :=
  let s1 := s.emit (Ev.timer_set ticks)
  { s1 with w := { s1.w with timer := ticks } }

/-- The function `usb_rx_byte`: pops one byte if the inbound FIFO is not empty. -/
def usb_rx_byte (s : State X) : Option Nat × State X :=
  match s.w.rx with
  | [] => (none, s)
  | b :: bs => (some (b % U8), { s with w := { s.w with rx := bs } })

/-- The function `usb_tx_byte`: pushes one byte if the outbound FIFO has room. -/
def usb_tx_byte (data : Nat) (s : State X) : Bool × State X :=
  if s.w.tx_space = 0 then (false, s)
  else (true, { s with w := { s.w with tx_space := s.w.tx_space - 1,
                                       trace := s.w.trace ++ [Ev.usb_push (data % U8)] } })

/-! ## Byte / word framer and command scanner -/

/-- The loop of `usb_rx_word`; the first argument counts the bytes the inbound
FIFO still holds, so `0` is the case in which `usb_rx_byte` fails. -/
def usb_rx_word_loop : Nat → State X → Option Nat × State X
  | 0, s => (none, s)
  | n + 1, s =>
    match usb_rx_byte s with
    | (none, s1) => (none, s1)
    | (some tmp, s1) =>
      let buffer := ((s1.p.usb_rx_word_buffer <<< 8) ||| tmp) % U32
      let counter := (s1.p.usb_rx_word_counter + 1) % U8
      if counter = 4 then
        (some buffer,
          { s1 with p := { s1.p with usb_rx_word_counter := 0, usb_rx_word_buffer := 0 } })
      else
        usb_rx_word_loop n
          { s1 with p := { s1.p with usb_rx_word_counter := counter,
                                     usb_rx_word_buffer := buffer } }

/-- The function `usb_rx_word`: `some word` when the fourth byte arrived. -/
def usb_rx_word (s : State X) : Option Nat × State X :=
  usb_rx_word_loop s.w.rx.length s

/-- The loop of `usb_tx_word`; the first argument counts the free room of the
outbound FIFO, so `0` is the case in which `usb_tx_byte` fails.  The cursor is
at most 3 whenever the loop is entered from a reachable state; for a larger
cursor the shift amount `(3 - cursor) * 8` is taken as 0. -/
def usb_tx_word_loop (data : Nat) : Nat → State X → Bool × State X
  | 0, s => (false, s)
  | n + 1, s =>
    match usb_tx_byte (data >>> ((3 - s.p.usb_tx_word_counter) * 8)) s with
    | (false, s1) => (false, s1)
    | (true, s1) =>
      let counter := (s1.p.usb_tx_word_counter + 1) % U8
      if counter = 4 then
        (true, { s1 with p := { s1.p with usb_tx_word_counter := 0 } })
      else
        usb_tx_word_loop data n { s1 with p := { s1.p with usb_tx_word_counter := counter } }

/-- The function `usb_tx_word`: `true` when the fourth byte was pushed. -/
def usb_tx_word (data : Nat) (s : State X) : Bool × State X :=
  usb_tx_word_loop data s.w.tx_space s

/-- The loop of `usb_rx_cmd`; the first argument counts the bytes the inbound
FIFO still holds. -/
def usb_rx_cmd_loop : Nat → State X → Option Nat × State X
  | 0, s => (none, s)
  | n + 1, s =>
    match usb_rx_byte s with
    | (none, s1) => (none, s1)
    | (some data, s1) =>
      if s1.p.usb_rx_cmd_counter = 3 then
        (some data, { s1 with p := { s1.p with usb_rx_cmd_counter := 0 } })
      else if data ≠ CMD_TOKEN s1.p.usb_rx_cmd_counter then
        (none, { s1 with p := { s1.p with usb_rx_cmd_counter := 0 } })
      else
        usb_rx_cmd_loop n
          { s1 with p := { s1.p with
              usb_rx_cmd_counter := (s1.p.usb_rx_cmd_counter + 1) % U8 } }

/-- The function `usb_rx_cmd`: `some cmd` when the byte after the marker arrived. -/
def usb_rx_cmd (s : State X) : Option Nat × State X :=
  usb_rx_cmd_loop s.w.rx.length s

/-! ## Notification queue and staging buffer -/

/-- The function `usb_create_packet`. -/
def usb_create_packet (cmd : Nat) : TxInfo :=
  { cmd := cmd % U8, data_length := 0, data0 := 0, data1 := 0, data2 := 0, data3 := 0,
    dma_length := 0, dma_address := 0, done_callback := none }

/-- The function `usb_enqueue_packet`. -/
def usb_enqueue_packet (info : TxInfo) (p : Process) : Bool × Process :=
  if p.packet_pending then (false, p)
  else (true, { p with packet_pending := true, packet_info := info })

/-- The function `usb_prepare_read`, with `address = args[0]` and `length = args[1]`. -/
def usb_prepare_read (address length : Nat) (p : Process) : Bool × Process :=
  if !p.read_ready then (false, p)
  else (true, { p with read_length := length, read_address := address })

/-! ## Receive machine -/

/-- Records the call of a feature-module function and its effect on that module. -/
def State.call (s : State X) (f : Collab) (args : List Nat) (x : X) : State X :=
  (s.emit (Ev.call f args)).setExt x

/-- The pair of assignments `p.rx_state = RX_STATE_IDLE; p.response_pending = true;`. -/
def State.respond (s : State X) : State X :=
  { s with p := { s.p with rx_state := RxState.idle, response_pending := true } }

/-- Update of `p.response_info`. -/
def State.setInfo (s : State X) (f : TxInfo → TxInfo) : State X :=
  { s with p := { s.p with response_info := f s.p.response_info } }

/-- Store to `p.rx_args[0]` and `p.rx_args[1]`. -/
def State.setArgs (s : State X) (a0 a1 : Nat) : State X :=
  { s with p := { s.p with rx_args0 := a0 % U32, rx_args1 := a1 % U32 } }

/-- The block `if (p.rx_state == RX_STATE_IDLE)` of `usb_rx_process`. -/
def rx_idle (s : State X) : State X :=
  if s.p.response_pending then s
  else
    match usb_rx_cmd s with
    | (none, s1) => s1
    | (some cmd, s1) =>
      let s2 : State X := { s1 with p := { s1.p with
          rx_cmd := cmd,
          rx_state := RxState.args,
          rx_counter := 0,
          rx_dma_running := false,
          flush_response := false,
          flush_packet := false,
          response_error := false,
          response_info := { s1.p.response_info with
            cmd := cmd, data_length := 0, dma_length := 0, done_callback := none } } }
      if cmd = 85 then timer_set DEBUG_WRITE_TIMEOUT_TICKS s2 else s2

/-- Store through the pointer `&p.rx_args[p.rx_counter]`; an index past the end
stores nothing. -/
def set_rx_arg (p : Process) (word : Nat) : Process :=
  if p.rx_counter = 0 then { p with rx_args0 := word }
  else if p.rx_counter = 1 then { p with rx_args1 := word }
  else p

/-- The `while` loop of the block `if (p.rx_state == RX_STATE_ARGS)`; the first
argument counts the bytes the inbound FIFO still holds. -/
def rx_args_loop : Nat → State X → State X
  | 0, s => s
  | n + 1, s =>
    match usb_rx_word s with
    | (none, s1) => s1
    | (some word, s1) =>
      let p1 := set_rx_arg s1.p word
      let p2 := { p1 with rx_counter := (p1.rx_counter + 1) % U8 }
      if p2.rx_counter = 2 then
        { s1 with p := { p2 with rx_counter := 0, rx_state := RxState.data } }
      else rx_args_loop n { s1 with p := p2 }

/-- The block `if (p.rx_state == RX_STATE_ARGS)` of `usb_rx_process`. -/
def rx_args (s : State X) : State X :=
  rx_args_loop s.w.rx.length s

/-- Opcode `'v'`. -/
def rx_data_v (env : Env X) (s : State X) : State X :=
  let r := env.cfg_get_identifier s.w.ext
  ((s.respond.setInfo fun i => { i with data_length := 4 }).call
      Collab.cfg_get_identifier [] r.2).setInfo fun i => { i with data0 := r.1 % U32 }

/-- Opcode `'V'`. -/
def rx_data_V (env : Env X) (s : State X) : State X :=
  let r := env.version_firmware s.p.response_info.data0 s.p.response_info.data1 s.w.ext
  ((s.respond.setInfo fun i => { i with data_length := 8 }).call
      Collab.version_firmware [] r.2.2).setInfo
    fun i => { i with data0 := r.1 % U32, data1 := r.2.1 % U32 }

/-- Opcode `'R'`. -/
def rx_data_R (env : Env X) (s : State X) : State X :=
  let s1 := s.call Collab.cfg_reset_state [] (env.cfg_reset_state s.w.ext)
  (s1.call Collab.cic_reset_parameters [] (env.cic_reset_parameters s1.w.ext)).respond

/-- Opcode `'B'`. -/
def rx_data_B (env : Env X) (s : State X) : State X :=
  let r := env.cic_set_parameters s.p.rx_args0 s.p.rx_args1 s.w.ext
  ((s.call Collab.cic_set_parameters [s.p.rx_args0, s.p.rx_args1] r.2.2).setArgs
    r.1 r.2.1).respond

/-- Opcode `'c'`. -/
def rx_data_c (env : Env X) (s : State X) : State X :=
  let r := env.cfg_query s.p.rx_args0 s.p.rx_args1 s.w.ext
  let s1 := (s.call Collab.cfg_query [s.p.rx_args0, s.p.rx_args1] r.2.2.2).setArgs r.2.1 r.2.2.1
  let s2 : State X := { s1 with p := { s1.p with response_error := r.1 } }
  s2.respond.setInfo fun i => { i with data_length := 4, data0 := s2.p.rx_args1 }

/-- Opcode `'C'`. -/
def rx_data_C (env : Env X) (s : State X) : State X :=
  let r := env.cfg_update s.p.rx_args0 s.p.rx_args1 s.w.ext
  let s1 := (s.call Collab.cfg_update [s.p.rx_args0, s.p.rx_args1] r.2.2.2).setArgs r.2.1 r.2.2.1
  State.respond { s1 with p := { s1.p with response_error := r.1 } }

/-- Opcode `'a'`. -/
def rx_data_a (env : Env X) (s : State X) : State X :=
  let r := env.cfg_query_setting s.p.rx_args0 s.p.rx_args1 s.w.ext
  let s1 := (s.call Collab.cfg_query_setting [s.p.rx_args0, s.p.rx_args1] r.2.2.2).setArgs
    r.2.1 r.2.2.1
  let s2 : State X := { s1 with p := { s1.p with response_error := r.1 } }
  s2.respond.setInfo fun i => { i with data_length := 4, data0 := s2.p.rx_args1 }

/-- Opcode `'A'`. -/
def rx_data_A (env : Env X) (s : State X) : State X :=
  let r := env.cfg_update_setting s.p.rx_args0 s.p.rx_args1 s.w.ext
  let s1 := (s.call Collab.cfg_update_setting [s.p.rx_args0, s.p.rx_args1] r.2.2.2).setArgs
    r.2.1 r.2.2.1
  State.respond { s1 with p := { s1.p with response_error := r.1 } }

/-- Opcode `'t'`. -/
def rx_data_t (env : Env X) (s : State X) : State X :=
  let r := env.cfg_get_time s.p.rx_args0 s.p.rx_args1 s.w.ext
  let s1 := (s.call Collab.cfg_get_time [s.p.rx_args0, s.p.rx_args1] r.2.2).setArgs r.1 r.2.1
  s1.respond.setInfo fun i =>
    { i with data_length := 8, data0 := s1.p.rx_args0, data1 := s1.p.rx_args1 }

/-- Opcode `'T'`. -/
def rx_data_T (env : Env X) (s : State X) : State X :=
  let r := env.cfg_set_time s.p.rx_args0 s.p.rx_args1 s.w.ext
  ((s.call Collab.cfg_set_time [s.p.rx_args0, s.p.rx_args1] r.2.2).setArgs r.1 r.2.1).respond

/-- Opcode `'m'`. -/
def rx_data_m (s : State X) : State X :=
  let s1 := s.respond
  if usb_validate_address_length s1.p.rx_args0 s1.p.rx_args1 false then
    { s1 with p := { s1.p with response_error := true } }
  else
    s1.setInfo fun i => { i with dma_address := s1.p.rx_args0, dma_length := s1.p.rx_args1 }

/-- Opcode `'M'`. -/
def rx_data_M (s : State X) : State X :=
  if usb_dma_ready s then
    if !s.p.rx_dma_running then
      if usb_validate_address_length s.p.rx_args0 s.p.rx_args1 true then
        { s with p := { s.p with rx_state := RxState.flush, flush_response := true } }
      else
        let s1 := dma_start s.p.rx_args0 s.p.rx_args1 DmaScr.DIRECTION_START s
        { s1 with p := { s1.p with rx_dma_running := true } }
    else s.respond
  else s

/-- Opcode `'U'`. -/
def rx_data_U (s : State X) : State X :=
  if s.p.rx_args1 = 0 then
    { s with p := { s.p with rx_state := RxState.idle } }
  else if usb_dma_ready s then
    if s.p.read_length > 0 then
      let length := if s.p.read_length > s.p.rx_args1 then s.p.rx_args1 else s.p.read_length
      if !s.p.rx_dma_running then
        let s1 := dma_start s.p.read_address length DmaScr.DIRECTION_START s
        { s1 with p := { s1.p with rx_dma_running := true, read_ready := false } }
      else
        timer_set DEBUG_WRITE_TIMEOUT_TICKS
          { s with p := { s.p with
              rx_args1 := (s.p.rx_args1 + U32 - length) % U32,
              rx_dma_running := false,
              read_length := (s.p.read_length + U32 - length) % U32,
              read_address := (s.p.read_address + length) % U32,
              read_ready := true } }
    else if s.w.timer = 0 then
      { s with p := { s.p with rx_state := RxState.flush, flush_packet := true } }
    else s
  else s

/-- Opcode `'D'`. -/
def rx_data_D (env : Env X) (s : State X) : State X :=
  (s.call Collab.dd_set_block_ready [if s.p.rx_args0 = 0 then 1 else 0]
    (env.dd_set_block_ready (decide (s.p.rx_args0 = 0)) s.w.ext)).respond

/-- Opcode `'W'`. -/
def rx_data_W (env : Env X) (s : State X) : State X :=
  (s.call Collab.writeback_enable [] (env.writeback_enable s.w.ext)).respond

/-- Opcode `'p'`. -/
def rx_data_p (env : Env X) (s : State X) : State X :=
  let s1 := if s.p.rx_args0 ≠ 0 then
      s.call Collab.flash_wait_busy [] (env.flash_wait_busy s.w.ext)
    else s
  s1.respond.setInfo fun i =>
    { i with data_length := 4, data0 := env.FLASH_ERASE_BLOCK_SIZE % U32 }

/-- Opcode `'P'`. -/
def rx_data_P (env : Env X) (s : State X) : State X :=
  let s1 : State X :=
    if usb_validate_address_length s.p.rx_args0 (env.FLASH_ERASE_BLOCK_SIZE % U32) true then
      { s with p := { s.p with response_error := true } }
    else
      let r := env.flash_erase_block s.p.rx_args0 s.w.ext
      let s2 := s.call Collab.flash_erase_block [s.p.rx_args0] r.2
      { s2 with p := { s2.p with response_error := r.1 } }
  s1.respond

/-- Opcode `'f'`. -/
def rx_data_f (env : Env X) (s : State X) : State X :=
  let s1 := s.call Collab.cfg_set_rom_write_enable [0] (env.cfg_set_rom_write_enable false s.w.ext)
  let r := env.update_backup s1.p.rx_args0 s1.p.response_info.data1 s1.w.ext
  let s2 := (s1.call Collab.update_backup [s1.p.rx_args0] r.2.2).setInfo
    fun i => { i with data0 := r.1 % U32, data1 := r.2.1 % U32 }
  let s3 := s2.respond
  State.setInfo
    { s3 with p := { s3.p with
        response_error := decide (s3.p.response_info.data0 ≠ env.UPDATE_OK % U32) } }
    fun i => { i with data_length := 8 }

/-- Opcode `'F'`. -/
def rx_data_F (env : Env X) (s : State X) : State X :=
  let s1 := s.call Collab.cfg_set_rom_write_enable [0] (env.cfg_set_rom_write_enable false s.w.ext)
  let r := env.update_prepare s1.p.rx_args0 s1.p.rx_args1 s1.w.ext
  let s2 := (s1.call Collab.update_prepare [s1.p.rx_args0, s1.p.rx_args1] r.2).setInfo
    fun i => { i with data0 := r.1 % U32 }
  let s3 := s2.respond.setInfo fun i => { i with data_length := 4 }
  if s3.p.response_info.data0 = env.UPDATE_OK % U32 then
    s3.setInfo fun i => { i with done_callback := some Callback.update_start }
  else
    { s3 with p := { s3.p with response_error := true } }

/-- Opcode `'?'`. -/
def rx_data_debug (s : State X) : State X :=
  s.respond.setInfo fun i =>
    { i with data_length := 8, data0 := s.w.debug0 % U32, data1 := s.w.debug1 % U32 }

/-- Opcode `'%'`. -/
def rx_data_stack (env : Env X) (s : State X) : State X :=
  let s1 := s.respond.setInfo fun i => { i with data_length := 16 }
  let r := env.app_get_stack_usage s1.p.response_info s1.w.ext
  (s1.call Collab.app_get_stack_usage [] r.2.2.2.2).setInfo fun i =>
    { i with data0 := r.1 % U32, data1 := r.2.1 % U32,
             data2 := r.2.2.1 % U32, data3 := r.2.2.2.1 % U32 }

/-- The `default:` branch of the opcode switch. -/
def rx_data_default (s : State X) : State X :=
  let s1 := s.respond
  State.setInfo { s1 with p := { s1.p with response_error := true } }
    fun i => { i with data_length := 4, data0 := 0xFFFFFFFF }

/-- The block `if (p.rx_state == RX_STATE_DATA)` of `usb_rx_process`: the
`switch (p.rx_cmd)`. -/
def rx_data (env : Env X) (s : State X) : State X :=
  if s.p.rx_cmd = 118 then rx_data_v env s          -- 'v'
  else if s.p.rx_cmd = 86 then rx_data_V env s      -- 'V'
  else if s.p.rx_cmd = 82 then rx_data_R env s      -- 'R'
  else if s.p.rx_cmd = 66 then rx_data_B env s      -- 'B'
  else if s.p.rx_cmd = 99 then rx_data_c env s      -- 'c'
  else if s.p.rx_cmd = 67 then rx_data_C env s      -- 'C'
  else if s.p.rx_cmd = 97 then rx_data_a env s      -- 'a'
  else if s.p.rx_cmd = 65 then rx_data_A env s      -- 'A'
  else if s.p.rx_cmd = 116 then rx_data_t env s     -- 't'
  else if s.p.rx_cmd = 84 then rx_data_T env s      -- 'T'
  else if s.p.rx_cmd = 109 then rx_data_m s         -- 'm'
  else if s.p.rx_cmd = 77 then rx_data_M s          -- 'M'
  else if s.p.rx_cmd = 85 then rx_data_U s          -- 'U'
  else if s.p.rx_cmd = 68 then rx_data_D env s      -- 'D'
  else if s.p.rx_cmd = 87 then rx_data_W env s      -- 'W'
  else if s.p.rx_cmd = 112 then rx_data_p env s     -- 'p'
  else if s.p.rx_cmd = 80 then rx_data_P env s      -- 'P'
  else if s.p.rx_cmd = 102 then rx_data_f env s     -- 'f'
  else if s.p.rx_cmd = 70 then rx_data_F env s      -- 'F'
  else if s.p.rx_cmd = 63 then rx_data_debug s      -- '?'
  else if s.p.rx_cmd = 37 then rx_data_stack env s  -- '%'
  else rx_data_default s

/-- The block `if (p.rx_state == RX_STATE_FLUSH)` of `usb_rx_process`. -/
def rx_flush (env : Env X) (s : State X) : State X :=
  if usb_dma_ready s then
    if s.p.rx_args1 ≠ 0 then
      let length := if s.p.rx_args1 > RX_FLUSH_LENGTH then RX_FLUSH_LENGTH else s.p.rx_args1
      let s1 := dma_start RX_FLUSH_ADDRESS length DmaScr.DIRECTION_START s
      { s1 with p := { s1.p with rx_args1 := (s1.p.rx_args1 + U32 - length) % U32 } }
    else if s.p.flush_response then
      { s with p := { s.p with rx_state := RxState.idle, response_pending := true,
                               response_error := true } }
    else if s.p.flush_packet then
      let r := usb_enqueue_packet (usb_create_packet env.PACKET_CMD_DATA_FLUSHED) s.p
      if r.1 then { s with p := { r.2 with rx_state := RxState.idle } }
      else { s with p := r.2 }
    else
      { s with p := { s.p with rx_state := RxState.idle } }
  else s

/-- The function `usb_rx_process`. -/
def usb_rx_process (env : Env X) (s : State X) : State X :=
  let s1 := if s.p.rx_state = RxState.idle then rx_idle s else s
  let s2 := if s1.p.rx_state = RxState.args then rx_args s1 else s1
  let s3 := if s2.p.rx_state = RxState.data then rx_data env s2 else s2
  if s3.p.rx_state = RxState.flush then rx_flush env s3 else s3

/-! ## Transmit machine -/

/-- Invocation of a `done_callback` function pointer. -/
def run_done_callback (env : Env X) (cb : Callback) (s : State X) : State X :=
  (s.emit (Ev.done_callback cb)).setExt (env.run_callback cb s.w.ext)

/-- The block `if (p.tx_state == TX_STATE_IDLE)` of `usb_tx_process`. -/
def tx_idle (s : State X) : State X :=
  if s.p.response_pending then
    { s with p := { s.p with
        response_pending := false,
        tx_state := TxState.token,
        tx_counter := 0,
        tx_info := s.p.response_info,
        tx_token := if s.p.response_error then ERR_TOKEN else CMP_TOKEN,
        tx_dma_running := false } }
  else if s.p.packet_pending then
    { s with p := { s.p with
        packet_pending := false,
        tx_state := TxState.token,
        tx_counter := 0,
        tx_info := s.p.packet_info,
        tx_token := PKT_TOKEN,
        tx_dma_running := false } }
  else s

/-- The block `if (p.tx_state == TX_STATE_TOKEN)` of `usb_tx_process`. -/
def tx_token (s : State X) : State X :=
  let s1 : State X :=
    if s.p.tx_counter = 0 then
      match usb_tx_word (s.p.tx_token ||| s.p.tx_info.cmd) s with
      | (true, s0) => { s0 with p := { s0.p with tx_counter := (s0.p.tx_counter + 1) % U8 } }
      | (false, s0) => s0
    else s
  if s1.p.tx_counter = 1 then
    match usb_tx_word ((s1.p.tx_info.data_length + s1.p.tx_info.dma_length) % U32) s1 with
    | (true, s2) => { s2 with p := { s2.p with tx_state := TxState.data, tx_counter := 0 } }
    | (false, s2) => s2
  else s1

/-- The `while` loop of the block `if (p.tx_state == TX_STATE_DATA)`; the first
argument counts the free room of the outbound FIFO. -/
def tx_data_loop : Nat → State X → State X
  | 0, s => s
  | n + 1, s =>
    match usb_tx_word (s.p.tx_info.data s.p.tx_counter) s with
    | (false, s1) => s1
    | (true, s1) =>
      let counter := (s1.p.tx_counter + 1) % U8
      if counter = s1.p.tx_info.data_length / 4 then
        { s1 with p := { s1.p with tx_state := TxState.dma, tx_counter := 0 } }
      else tx_data_loop n { s1 with p := { s1.p with tx_counter := counter } }

/-- The block `if (p.tx_state == TX_STATE_DATA)` of `usb_tx_process`. -/
def tx_data (s : State X) : State X :=
  if s.p.tx_info.data_length > 0 then tx_data_loop s.w.tx_space s
  else { s with p := { s.p with tx_state := TxState.dma } }

/-- The block `if (p.tx_state == TX_STATE_DMA)` of `usb_tx_process`. -/
def tx_dma (s : State X) : State X :=
  if s.p.tx_info.dma_length > 0 then
    if usb_dma_ready s then
      if !s.p.tx_dma_running then
        dma_start s.p.tx_info.dma_address s.p.tx_info.dma_length DmaScr.START
          { s with p := { s.p with tx_dma_running := true } }
      else { s with p := { s.p with tx_state := TxState.flush } }
    else s
  else { s with p := { s.p with tx_state := TxState.flush } }

/-- The block `if (p.tx_state == TX_STATE_FLUSH)` of `usb_tx_process`. -/
def tx_flush (env : Env X) (s : State X) : State X :=
  let s1 := s.emit (Ev.reg_set_usb_scr UsbScr.WRITE_FLUSH)
  let s2 := match s1.p.tx_info.done_callback with
    | some cb => run_done_callback env cb s1
    | none => s1
  { s2 with p := { s2.p with tx_state := TxState.idle } }

/-- The function `usb_tx_process`. -/
def usb_tx_process (env : Env X) (s : State X) : State X :=
  let s1 := if s.p.tx_state = TxState.idle then tx_idle s else s
  let s2 := if s1.p.tx_state = TxState.token then tx_token s1 else s1
  let s3 := if s2.p.tx_state = TxState.data then tx_data s2 else s2
  let s4 := if s3.p.tx_state = TxState.dma then tx_dma s3 else s3
  if s4.p.tx_state = TxState.flush then tx_flush env s4 else s4

/-! ## Initialisation and the poll entry point -/

/-- The function `usb_init`. -/
def usb_init (s : State X) : State X :=
  let s1 := (s.emit (Ev.reg_set_dma_scr DmaScr.STOP)).emit (Ev.reg_set_usb_scr UsbScr.FIFO_FLUSH)
  { s1 with p := { s1.p with
      rx_state := RxState.idle,
      tx_state := TxState.idle,
      response_pending := false,
      packet_pending := false,
      read_ready := true,
      read_length := 0,
      read_address := 0,
      usb_rx_word_counter := 0,
      usb_rx_word_buffer := 0,
      usb_tx_word_counter := 0,
      usb_rx_cmd_counter := 0 } }

/-- The function `usb_process`. -/
def usb_process (env : Env X) (s : State X) : State X :=
  if s.w.scr_pwrsav || s.w.scr_reset_state || s.w.scr_reset_pending then
    let s1 : State X :=
      match s.p.packet_pending, s.p.packet_info.done_callback with
      | true, some cb =>
        run_done_callback env cb { s with p := { s.p with packet_pending := false } }
      | _, _ => s
    if s1.w.scr_reset_pending then
      let s2 : State X :=
        match s1.p.tx_state, s1.p.tx_info.done_callback with
        | TxState.idle, _ => s1
        | _, some cb => run_done_callback env cb s1
        | _, none => s1
      (usb_init s2).emit (Ev.reg_set_usb_scr UsbScr.RESET_ACK)
    else s1
  else usb_tx_process env (usb_rx_process env s)

/-- All-zero descriptor. -/
def TxInfo.zero : TxInfo :=
  { cmd := 0, data_length := 0, data0 := 0, data1 := 0, data2 := 0, data3 := 0,
    dma_length := 0, dma_address := 0, done_callback := none }

/-- The value of `p` and of the static cursors at program start: objects of
static storage duration are zero-initialised. -/
def Process.zero : Process :=
  { rx_state := RxState.idle, rx_counter := 0, rx_cmd := 0, rx_args0 := 0, rx_args1 := 0,
    rx_dma_running := false, tx_state := TxState.idle, tx_counter := 0, tx_info := TxInfo.zero,
    tx_token := 0, tx_dma_running := false, flush_response := false, flush_packet := false,
    response_pending := false, response_error := false, response_info := TxInfo.zero,
    packet_pending := false, packet_info := TxInfo.zero, read_ready := false, read_length := 0,
    read_address := 0, usb_rx_word_counter := 0, usb_rx_word_buffer := 0,
    usb_tx_word_counter := 0, usb_rx_cmd_counter := 0 }

/-! ## Observation of the trace and reachable states -/

/-- The DMA transfers a sequence of actions starts: a start write launches a
transfer with the address and length registers as they stand at that moment
(`address`, `length` are their contents before the first action). -/
def dma_starts : List Ev → Nat → Nat → List (Nat × Nat × DmaScr)
  | [], _, _ => []
  | Ev.reg_set_dma_address a :: evs, _, length => dma_starts evs a length
  | Ev.reg_set_dma_length l :: evs, address, _ => dma_starts evs address l
  | Ev.reg_set_dma_scr DmaScr.STOP :: evs, address, length => dma_starts evs address length
  | Ev.reg_set_dma_scr c :: evs, address, length =>
    (address, length, c) :: dma_starts evs address length
  | _ :: evs, address, length => dma_starts evs address length

/-- States reachable from `usb_init` at program start by `usb_process` ticks,
calls of `usb_prepare_read` and `usb_enqueue_packet`, and changes of the
surroundings between calls (bytes arriving, DMA finishing, link and timer
changes), which leave the trace alone. -/
inductive Reachable (env : Env X) : State X → Prop where
  | init (w : World X) : Reachable env (usb_init { p := Process.zero, w := w })
  | tick {s : State X} : Reachable env s → Reachable env (usb_process env s)
  | prepare_read {s : State X} (address length : Nat) :
      address < U32 → length < U32 → Reachable env s →
      Reachable env { s with p := (usb_prepare_read address length s.p).2 }
  | enqueue_packet {s : State X} (info : TxInfo) :
      Reachable env s → Reachable env { s with p := (usb_enqueue_packet info s.p).2 }
  | hardware {s : State X} (w : World X) :
      w.trace = s.w.trace → Reachable env s → Reachable env { s with w := w }

/-- A descriptor whose DMA part is absent or has passed bounds validation. -/
def TxInfo.dmaOk (i : TxInfo) : Prop :=
  i.dma_length = 0 ∨ usb_validate_address_length i.dma_address i.dma_length false = false

/-- What a tick may do with hardware, given `StartOk`-style conditions: every
DMA transfer started by the actions `evs` satisfies `C`, and every address
passed to `flash_erase_block` satisfies `V`. -/
def Allowed (C : Nat × Nat × DmaScr → Prop) (V : Nat → Prop) (evs : List Ev) : Prop :=
  (∀ a l, ∀ st ∈ dma_starts evs a l, C st) ∧
  (∀ x, Ev.call Collab.flash_erase_block [x] ∈ evs → V x)

/-- The kinds of DMA transfer the module starts: one that has passed bounds
validation; a receive-side transfer to the scratch region of at most
`RX_FLUSH_LENGTH` bytes; a receive-side stream-write chunk at cursor `ra` of at
most `rl` bytes (opcode `cmd` is `'U'`); a transmit-side transfer `(ta, tl)` of
a notification (token `tok` is `PKT_TOKEN`). -/
def StartOk (cmd ra rl tok ta tl : Nat) (st : Nat × Nat × DmaScr) : Prop :=
  usb_validate_address_length st.1 st.2.1 false = false ∨
  (st.2.2 = DmaScr.DIRECTION_START ∧ st.1 = RX_FLUSH_ADDRESS ∧ st.2.1 ≤ RX_FLUSH_LENGTH) ∨
  (st.2.2 = DmaScr.DIRECTION_START ∧ cmd = 85 ∧ st.1 = ra ∧ st.2.1 ≤ rl) ∨
  (st.2.2 = DmaScr.START ∧ tok = PKT_TOKEN ∧ st.1 = ta ∧ st.2.1 = tl)

/-- The invariant behind the validation of transmit-side transfers: the
response descriptor, and the descriptor in transmission unless it is a
notification, have an absent or validated DMA part. -/
def DmaInv (p : Process) : Prop :=
  p.response_info.dmaOk ∧
  (p.tx_state ≠ TxState.idle → p.tx_token = PKT_TOKEN ∨ p.tx_info.dmaOk)

/-- Actions that neither touch the DMA address / length registers, nor start a
transfer, nor call `flash_erase_block`. -/
def Ev.plain : Ev → Bool
  | Ev.reg_set_dma_address _ => false
  | Ev.reg_set_dma_length _ => false
  | Ev.reg_set_dma_scr DmaScr.STOP => true
  | Ev.reg_set_dma_scr _ => false
  | Ev.call Collab.flash_erase_block _ => false
  | _ => true

/-- State `s1` continues the trace of `s` by actions that satisfy `P`. -/
def Extends (s s1 : State X) (P : List Ev → Prop) : Prop :=
  ∃ evs, s1.w.trace = s.w.trace ++ evs ∧ P evs

/-- What the Data block of the receive machine guarantees about DMA transfers
when it takes `s` to `s1`. -/
def RxDataOk (env : Env X) (s s1 : State X) (tok ta tl : Nat) : Prop :=
  s1.p.rx_cmd = s.p.rx_cmd ∧
  s1.p.tx_state = s.p.tx_state ∧
  s1.p.tx_token = s.p.tx_token ∧
  s1.p.tx_info = s.p.tx_info ∧
  s1.p.response_info.dmaOk ∧
  Extends s s1 (Allowed (StartOk s.p.rx_cmd s.p.read_address s.p.read_length tok ta tl)
    (fun x => usb_validate_address_length x (env.FLASH_ERASE_BLOCK_SIZE % U32) true = false))

/-! ## Words on the wire -/

/-- The value `usb_rx_word` accumulates from four bytes, starting from an
empty buffer: shift left by 8, then insert, four times. -/
def rx_word_value (b0 b1 b2 b3 : Nat) : Nat :=
  ((((((((0 <<< 8) ||| (b0 % U8)) % U32) <<< 8 ||| (b1 % U8)) % U32) <<< 8 |||
    (b2 % U8)) % U32) <<< 8 ||| (b3 % U8)) % U32

/-- The four bytes `usb_tx_word` pushes for a word, in the order pushed. -/
def tx_word_bytes (data : Nat) : List Nat :=
  [(data >>> 24) % U8, (data >>> 16) % U8, (data >>> 8) % U8, (data >>> 0) % U8]

/-! ## Requests in service -/

/-- The receive machine is serving a request: it is in the Data state as the
Idle block leaves it (no response pending, `flush_response` clear), or in the
Flush state entered from opcode `'M'` (with `flush_response`) or from opcode
`'U'` (with `flush_packet` only), and no response is pending. -/
def Serving (p : Process) : Prop :=
  p.response_pending = false ∧
  ((p.rx_state = RxState.data ∧ p.flush_response = false) ∨
   (p.rx_state = RxState.flush ∧
     ((p.rx_cmd = 77 ∧ p.flush_response = true) ∨
      (p.rx_cmd = 85 ∧ p.flush_response = false ∧ p.flush_packet = true))))

/-- The request served in `s` has returned to Idle in `s1`, with a response
queued unless its opcode is `'U'`. -/
def Completed (s s1 : State X) : Prop :=
  s1.p.rx_state = RxState.idle ∧
  (s.p.rx_cmd ≠ 85 → s1.p.response_pending = true) ∧
  (s.p.rx_cmd = 85 → s1.p.response_pending = false)

/-- The request served in `s` is still being served in `s1`. -/
def StillServing (s s1 : State X) : Prop :=
  Serving s1.p ∧ s1.p.rx_cmd = s.p.rx_cmd

/-- The DMA engine has finished: the busy flag reads clear. -/
def State.dmaDone (s : State X) : State X :=
  { s with w := { s.w with dma_busy := false } }

/-- The transmit machine leaves the fields of the request in service alone and
never sets `response_pending`. -/
def RxKept (p p1 : Process) : Prop :=
  p1.rx_state = p.rx_state ∧ p1.rx_cmd = p.rx_cmd ∧
  p1.flush_response = p.flush_response ∧ p1.flush_packet = p.flush_packet ∧
  (p1.response_pending = true → p.response_pending = true)

/-! ## Draining a rejected memory-write -/

/-- One `usb_process` tick on which the DMA engine reads ready. -/
def tick_ready (env : Env X) (s : State X) : State X :=
  usb_process env s.dmaDone

/-- A number of ticks, the DMA engine reading ready on each. -/
def ticks_ready (env : Env X) : Nat → State X → State X
  | 0, s => s
  | n + 1, s => ticks_ready env n (tick_ready env s)

/-- The burst lengths that drain `r` announced bytes: full bursts of
`RX_FLUSH_LENGTH`, then the remainder if there is one. -/
def burst_lengths (r : Nat) : List Nat :=
  List.replicate (r / RX_FLUSH_LENGTH) RX_FLUSH_LENGTH ++
    (if r % RX_FLUSH_LENGTH = 0 then [] else [r % RX_FLUSH_LENGTH])

/-- The register writes of into-memory transfers to the scratch region, one
transfer per length. -/
def burst_events : List Nat → List Ev
  | [] => []
  | l :: ls =>
    Ev.reg_set_dma_address RX_FLUSH_ADDRESS :: Ev.reg_set_dma_length l ::
      Ev.reg_set_dma_scr DmaScr.DIRECTION_START :: burst_events ls

/-- The receive machine drains a rejected memory-write with `r` bytes left,
while the transmit machine is idle with nothing queued, the link is up and
the outbound FIFO has room for `m + 8` bytes. -/
def FlushQuiet (s : State X) (r m : Nat) : Prop :=
  s.p.rx_state = RxState.flush ∧ s.p.flush_response = true ∧ s.p.rx_args1 = r ∧ r < U32 ∧
  s.p.response_pending = false ∧ s.p.response_info.cmd = 77 ∧
  s.p.response_info.data_length = 0 ∧ s.p.response_info.dma_length = 0 ∧
  s.p.response_info.done_callback = none ∧ s.p.tx_state = TxState.idle ∧
  s.p.packet_pending = false ∧ s.p.usb_tx_word_counter = 0 ∧
  s.w.scr_pwrsav = false ∧ s.w.scr_reset_state = false ∧ s.w.scr_reset_pending = false ∧
  s.w.tx_space = m + 8

/-! ## Starts of the DMA engine within a call -/

/-- The start writes to `REG_USB_DMA_SCR` among a sequence of actions, in
order (a stop write is not a start). -/
def start_writes : List Ev → List DmaScr
  | [] => []
  | Ev.reg_set_dma_scr DmaScr.STOP :: evs => start_writes evs
  | Ev.reg_set_dma_scr c :: evs => c :: start_writes evs
  | _ :: evs => start_writes evs

/-- How a call uses the DMA engine when it appends `evs` to the trace and
takes the busy flag from `busy` to `busy1`: it writes no start and leaves the
flag alone, or it finds the flag clear, writes exactly one start, of kind
`dir`, and leaves the flag set. -/
def DmaUse (dir : DmaScr) (busy busy1 : Bool) (evs : List Ev) : Prop :=
  (busy1 = busy ∧ start_writes evs = []) ∨
  (busy = false ∧ busy1 = true ∧ start_writes evs = [dir])

/-- What a call of the transmit machine changes: its own fields, the two
pending flags (which it only clears), the cursor of `usb_tx_word`, the room
of the outbound FIFO, the busy flag, the trace and the feature modules (through
a completion callback).  Everything else is as before. -/
def TxFrame (s s1 : State X) : Prop :=
  ∃ (ts : TxState) (tc : Nat) (ti : TxInfo) (tt : Nat) (tdr rp pp : Bool) (c sp : Nat)
    (busy : Bool) (evs : List Ev) (ext : X),
    s1 = { p := { s.p with tx_state := ts, tx_counter := tc, tx_info := ti, tx_token := tt,
                           tx_dma_running := tdr, response_pending := rp,
                           packet_pending := pp, usb_tx_word_counter := c },
           w := { s.w with tx_space := sp, dma_busy := busy, trace := s.w.trace ++ evs,
                           ext := ext } } ∧
    (rp = true → s.p.response_pending = true) ∧
    (pp = true → s.p.packet_pending = true) ∧
    DmaUse DmaScr.START s.w.dma_busy busy evs

/-- The link bits of `REG_USB_SCR` read as up: neither power-save, nor
reset-state, nor reset-pending. -/
def World.linkUp (w : World X) : Prop :=
  w.scr_pwrsav = false ∧ w.scr_reset_state = false ∧ w.scr_reset_pending = false

/-! ## Link down -/

/-- The link bits of `REG_USB_SCR` read as down: power-save, reset-state or
reset-pending is set. -/
def World.linkDown (w : World X) : Prop :=
  w.scr_pwrsav = true ∨ w.scr_reset_state = true ∨ w.scr_reset_pending = true

/-- The completion callback of the pending notification, if one is pending
and has a callback. -/
def notify_done (p : Process) : Option Callback :=
  if p.packet_pending then p.packet_info.done_callback else none

/-- The completion callback of the frame in transmission, if the transmit
machine is not Idle and the frame has a callback. -/
def frame_done (p : Process) : Option Callback :=
  if p.tx_state = TxState.idle then none else p.tx_info.done_callback

/-- The invocation of a callback as it appears in the trace. -/
def callback_events : Option Callback → List Ev
  | none => []
  | some cb => [Ev.done_callback cb]

/-- The effect of an invoked callback on the feature modules. -/
def callback_effect (env : Env X) : Option Callback → X → X
  | none, x => x
  | some cb, x => env.run_callback cb x

/-! ## The command scanner over several calls -/

/-- The marker bytes `CMD_TOKEN[k], .., CMD_TOKEN[k + j - 1]`. -/
def marker_bytes (k : Nat) : Nat → List Nat
  | 0 => []
  | j + 1 => CMD_TOKEN k :: marker_bytes (k + 1) j

/-- Bytes arrive from the host: they are appended to the inbound FIFO. -/
def State.arrive (s : State X) (bytes : List Nat) : State X :=
  { s with w := { s.w with rx := s.w.rx ++ bytes } }

/-- Calls of `usb_rx_cmd`, one per chunk: the bytes of the chunk arrive in the
inbound FIFO, then the function is called once.  Returns the results of the
calls in order. -/
def cmd_calls : List (List Nat) → State X → List (Option Nat) × State X
  | [], s => ([], s)
  | chunk :: chunks, s =>
    let r := usb_rx_cmd (s.arrive chunk)
    let t := cmd_calls chunks r.2
    (r.1 :: t.1, t.2)

/-- Scanning the bytes from position `k` on never reads a byte at position 3. -/
def Silent : Nat → List Nat → Prop
  | _, [] => True
  | k, b :: bs =>
    k ≠ 3 ∧ (if b % U8 ≠ CMD_TOKEN k then Silent 0 bs else Silent ((k + 1) % U8) bs)

/-! ## The word framer over several calls -/

/-- The outbound FIFO has room for `room` bytes. -/
def State.room (s : State X) (room : Nat) : State X :=
  { s with w := { s.w with tx_space := room } }

/-- Calls of `usb_tx_word data` repeated until one returns true, one call per
entry of the list: before each call the outbound FIFO has room for that many
bytes.  Returns whether a call returned true. -/
def tx_word_calls (data : Nat) : List Nat → State X → Bool × State X
  | [], s => (false, s)
  | room :: rooms, s =>
    match usb_tx_word data (s.room room) with
    | (true, s1) => (true, s1)
    | (false, s1) => tx_word_calls data rooms s1

/-- Calls of `usb_rx_word`, one per chunk: the bytes of the chunk arrive in the
inbound FIFO, then the function is called once.  Returns the results of the
calls in order. -/
def rx_word_calls : List (List Nat) → State X → List (Option Nat) × State X
  | [], s => ([], s)
  | chunk :: chunks, s =>
    let r := usb_rx_word (s.arrive chunk)
    let t := rx_word_calls chunks r.2
    (r.1 :: t.1, t.2)

/-- One pass of the loop of `usb_rx_word` on the buffer: shift left by 8, then
insert the byte. -/
def rx_word_step (buffer byte : Nat) : Nat :=
  ((buffer <<< 8) ||| (byte % U8)) % U32

/-! ## Frames on the wire -/

/-- The bytes `usb_tx_word` pushes for a list of words, word after word. -/
def words_bytes : List Nat → List Nat
  | [] => []
  | w :: ws => tx_word_bytes w ++ words_bytes ws

/-- The inline words `data[i], .., data[data_length / 4 - 1]` of a descriptor. -/
def data_words (info : TxInfo) (i : Nat) : List Nat :=
  (List.range (info.data_length / 4 - i)).map fun j => info.data (i + j)

/-- The register writes that start the out-of-memory transfer of a
descriptor. -/
def dma_events (info : TxInfo) : List Ev :=
  [Ev.reg_set_dma_address info.dma_address, Ev.reg_set_dma_length info.dma_length,
   Ev.reg_set_dma_scr DmaScr.START]

/-- The output commit and the completion callback that end a frame. -/
def commit_events (info : TxInfo) : List Ev :=
  Ev.reg_set_usb_scr UsbScr.WRITE_FLUSH :: callback_events info.done_callback

/-- The actions of one whole frame with token `tok` and descriptor `info`: the
bytes of the header word, of the length word and of the inline words, the
start of the transfer if `dma_length > 0`, the output commit, the callback. -/
def frame_events (tok : Nat) (info : TxInfo) : List Ev :=
  (words_bytes ([tok ||| info.cmd, (info.data_length + info.dma_length) % U32] ++
      data_words info 0)).map Ev.usb_push ++
    ((if info.dma_length > 0 then dma_events info else []) ++ commit_events info)

/-- The words the transmit machine has not yet completed, the word in progress
first. -/
def tx_words_left (p : Process) : List Nat :=
  match p.tx_state with
  | TxState.token =>
    (if p.tx_counter = 0 then [p.tx_token ||| p.tx_info.cmd] else []) ++
      ((p.tx_info.data_length + p.tx_info.dma_length) % U32 :: data_words p.tx_info 0)
  | TxState.data => data_words p.tx_info p.tx_counter
  | _ => []

/-- The actions the transmit machine still owes for the frame in
transmission: the bytes not yet pushed, the start of the transfer unless
there is none or it has been started, the output commit and the callback.
Nothing when the machine is Idle. -/
def tx_remaining (p : Process) : List Ev :=
  match p.tx_state with
  | TxState.idle => []
  | TxState.flush => commit_events p.tx_info
  | _ =>
    ((words_bytes (tx_words_left p)).drop p.usb_tx_word_counter).map Ev.usb_push ++
      ((if p.tx_info.dma_length > 0 ∧ p.tx_dma_running = false then dma_events p.tx_info
        else []) ++ commit_events p.tx_info)

/-- Well-formedness of the transmit side: the inline length of the frame in
transmission is a multiple of 4 and at most 16, the word cursor is at most 3
and is 0 outside the Token and Data states, the Token state is at word 0 or 1,
and the Data state is at an inline word that exists (or there is none and the
state is about to be left). -/
def TxWf (p : Process) : Prop :=
  p.usb_tx_word_counter ≤ 3 ∧
  (p.tx_state = TxState.idle → p.usb_tx_word_counter = 0) ∧
  (p.tx_state ≠ TxState.idle → p.tx_info.data_length % 4 = 0 ∧ p.tx_info.data_length ≤ 16) ∧
  (p.tx_state = TxState.token → p.tx_counter ≤ 1) ∧
  (p.tx_state = TxState.data →
    (p.tx_info.data_length = 0 ∧ p.usb_tx_word_counter = 0) ∨
      p.tx_counter < p.tx_info.data_length / 4) ∧
  (p.tx_state = TxState.dma → p.usb_tx_word_counter = 0) ∧
  (p.tx_state = TxState.flush → p.usb_tx_word_counter = 0)

/-- A call takes the transmit machine from `s` to `s1` within its frame: the
actions it appends to the trace are the next ones of those owed, and the
well-formedness is kept. -/
def TxStep (s s1 : State X) : Prop :=
  TxWf s1.p ∧ ∃ evs, s1.w.trace = s.w.trace ++ evs ∧ evs ++ tx_remaining s1.p = tx_remaining s.p

/-- The surroundings as a call finds them: the outbound FIFO has room for
`room` bytes and the DMA engine reads ready or busy as `ready` says. -/
def State.offer (s : State X) (room : Nat) (ready : Bool) : State X :=
  { s with w := { s.w with tx_space := room, dma_busy := !ready } }

/-- Calls of `usb_tx_process`, one per entry of the schedule, until a call
ends with the machine Idle; the entry says what the call finds. -/
def tx_frame_calls (env : Env X) : List (Nat × Bool) → State X → State X
  | [], s => s
  | (room, ready) :: schedule, s =>
    let s1 := usb_tx_process env (s.offer room ready)
    if s1.p.tx_state = TxState.idle then s1 else tx_frame_calls env schedule s1

/-- The number of bytes the transmit machine still has to push for the frame
in transmission. -/
def owed_bytes (p : Process) : Nat :=
  match p.tx_state with
  | TxState.token =>
    4 * ((if p.tx_counter = 0 then 2 else 1) + p.tx_info.data_length / 4) -
      p.usb_tx_word_counter
  | TxState.data => 4 * (p.tx_info.data_length / 4 - p.tx_counter) - p.usb_tx_word_counter
  | _ => 0

/-- A block of the transmit machine that only pushes bytes takes `s` to `s1`:
every byte pushed takes one byte of room, and the descriptor, the busy flag
and `tx_dma_running` are left alone. -/
def TxRoom (s s1 : State X) : Prop :=
  s1.w.tx_space + owed_bytes s.p = s.w.tx_space + owed_bytes s1.p ∧
  s1.w.dma_busy = s.w.dma_busy ∧ s1.p.tx_info = s.p.tx_info ∧
  s1.p.tx_dma_running = s.p.tx_dma_running


/-- The descriptor the transmit machine is to pick up at Idle according to
the specification: the response if one is pending, else the notification. -/
def frame_info (p : Process) : TxInfo :=
  if p.response_pending then p.response_info else p.packet_info

/-- The token of the frame the transmit machine is to pick up at Idle
according to the specification: `ERR_TOKEN` for a response with the error
flag, `CMP_TOKEN` for a response without it, `PKT_TOKEN` for a notification. -/
def frame_token (p : Process) : Nat :=
  if p.response_pending then (if p.response_error then ERR_TOKEN else CMP_TOKEN)
  else PKT_TOKEN

/-! ## Frame of the receive machine -/

/-- Actions that belong to the transmit side and to `usb_process` itself: a
byte pushed to the outbound FIFO, a write to `REG_USB_SCR`, a completion
callback. -/
def Ev.tx_side : Ev → Bool
  | Ev.usb_push _ => true
  | Ev.reg_set_usb_scr _ => true
  | Ev.done_callback _ => true
  | _ => false

/-- Actions of the receive machine other than writes to the DMA registers: a
call of a feature module, a re-arm of the timer. -/
def Ev.rx_quiet : Ev → Bool
  | Ev.call _ _ => true
  | Ev.timer_set _ => true
  | _ => false

/-- What a call of the receive machine leaves alone: the fields of the
transmit machine, the cursor of `usb_tx_word`, the room of the outbound FIFO
and the link bits; the actions it appends are none of the transmit side, and
it uses the DMA engine for at most one into-memory start. -/
def RxFrame (s s1 : State X) : Prop :=
  s1.p.tx_state = s.p.tx_state ∧ s1.p.tx_counter = s.p.tx_counter ∧
  s1.p.tx_info = s.p.tx_info ∧ s1.p.tx_token = s.p.tx_token ∧
  s1.p.tx_dma_running = s.p.tx_dma_running ∧
  s1.p.usb_tx_word_counter = s.p.usb_tx_word_counter ∧
  s1.w.tx_space = s.w.tx_space ∧ s1.w.scr_pwrsav = s.w.scr_pwrsav ∧
  s1.w.scr_reset_state = s.w.scr_reset_state ∧
  s1.w.scr_reset_pending = s.w.scr_reset_pending ∧
  ∃ evs, s1.w.trace = s.w.trace ++ evs ∧ (∀ e ∈ evs, e.tx_side = false) ∧
    DmaUse DmaScr.DIRECTION_START s.w.dma_busy s1.w.dma_busy evs


/-- The receive machine waits for the DMA engine: it is in the Data state of a
memory-write (`'M'`) or of a stream-write (`'U'`) with bytes remaining, with
`rx_dma_running` set, or it is in the Flush state. -/
def RxWaiting (p : Process) : Prop :=
  (p.rx_state = RxState.data ∧ p.rx_dma_running = true ∧
    (p.rx_cmd = 77 ∨ (p.rx_cmd = 85 ∧ p.rx_args1 ≠ 0))) ∨
  p.rx_state = RxState.flush

/-- A call of the receive machine takes `s` to `s1`: it leaves alone what the
receive machine leaves alone, and if it has started a transfer it is waiting
for the engine. -/
def RxBlock (s s1 : State X) : Prop :=
  RxFrame s s1 ∧ (s.w.dma_busy = false → s1.w.dma_busy = true → RxWaiting s1.p)

/-- The transmit machine waits for the DMA engine: it is in the Dma state of a
frame with a DMA part, with `tx_dma_running` set. -/
def TxWaiting (p : Process) : Prop :=
  p.tx_state = TxState.dma ∧ p.tx_dma_running = true ∧ 0 < p.tx_info.dma_length

/-! ## Prepare-update -/

/-- A stream-write waits for staging capacity: the receive machine is in the
Data state of opcode `'U'` with `r > 0` announced bytes left, the consumer has
provided no capacity (`read_length` is 0), and no response is pending. -/
def StreamStalled (p : Process) (r : Nat) : Prop :=
  p.rx_state = RxState.data ∧ p.rx_cmd = 85 ∧ p.rx_args1 = r ∧ 0 < r ∧ r < U32 ∧
  p.read_length = 0 ∧ p.flush_response = false ∧ p.response_pending = false

/-- The transmit machine is idle with no notification queued, the link is up
and the outbound FIFO has room for `m + 8` bytes. -/
def TxQuiet (s : State X) (m : Nat) : Prop :=
  s.p.tx_state = TxState.idle ∧ s.p.packet_pending = false ∧ s.p.usb_tx_word_counter = 0 ∧
  s.w.scr_pwrsav = false ∧ s.w.scr_reset_state = false ∧ s.w.scr_reset_pending = false ∧
  s.w.tx_space = m + 8

/-- A stream-write with `r` bytes left is being abandoned while the transmit
machine is quiet: it waits without capacity and the timer reads 0, or it is
already in the Flush state with the notify intent. -/
def NotifyQuiet (s : State X) (r m : Nat) : Prop :=
  ((s.p.rx_state = RxState.flush ∧ s.p.flush_packet = true) ∨
    (s.p.rx_state = RxState.data ∧ s.p.read_length = 0 ∧ s.w.timer = 0 ∧ 0 < r)) ∧
  s.p.rx_cmd = 85 ∧ s.p.flush_response = false ∧ s.p.rx_args1 = r ∧ r < U32 ∧
  s.p.response_pending = false ∧ TxQuiet s m

/-- The bytes and the output commit of the data-flushed notification. -/
def notify_frame (env : Env X) : List Ev :=
  [Ev.usb_push 0x50, Ev.usb_push 0x4B, Ev.usb_push 0x54,
   Ev.usb_push (env.PACKET_CMD_DATA_FLUSHED % 256),
   Ev.usb_push 0x00, Ev.usb_push 0x00, Ev.usb_push 0x00, Ev.usb_push 0x00,
   Ev.reg_set_usb_scr UsbScr.WRITE_FLUSH]

/-! ## Inline lengths and array bounds -/

/-- The inline data of a descriptor is a whole number of words and fits the
four words of `data`. -/
def TxInfo.lenOk (i : TxInfo) : Prop :=
  i.data_length % 4 = 0 ∧ i.data_length ≤ 16

/-- What the receive side maintains: the response descriptor has a sound inline
length while a request is in service or its response is pending, a pending
notification has a sound inline length, the argument index is 0 or 1 in the
Args state, and the scanner position is at most 3. -/
def RxWf (p : Process) : Prop :=
  (p.response_pending = true ∨ p.rx_state ≠ RxState.idle → p.response_info.lenOk) ∧
  (p.packet_pending = true → p.packet_info.lenOk) ∧
  (p.rx_state = RxState.args → p.rx_counter ≤ 1) ∧
  p.usb_rx_cmd_counter ≤ 3

/-- States reachable from `usb_init` (called on any prior state) by
`usb_process` ticks, calls of `usb_prepare_read`, calls of
`usb_enqueue_packet` with a descriptor whose inline length is 0, 4, 8, 12 or
16, and changes of the surroundings between calls. -/
inductive ReachableAligned (env : Env X) : State X → Prop where
  | init (s0 : State X) : ReachableAligned env (usb_init s0)
  | tick {s : State X} : ReachableAligned env s → ReachableAligned env (usb_process env s)
  | prepare_read {s : State X} (address length : Nat) :
      ReachableAligned env s →
      ReachableAligned env { s with p := (usb_prepare_read address length s.p).2 }
  | enqueue_packet {s : State X} (info : TxInfo) :
      info.lenOk → ReachableAligned env s →
      ReachableAligned env { s with p := (usb_enqueue_packet info s.p).2 }
  | hardware {s : State X} (w : World X) :
      w.trace = s.w.trace → ReachableAligned env s → ReachableAligned env { s with w := w }

/-- The loop of `usb_tx_word` with the shift checked: `none` when the loop
condition is evaluated with a cursor above 3, for which the shift amount
`(3 - usb_tx_word_counter) * 8` is negative. -/
def usb_tx_word_loop_checked (data : Nat) : Nat → State X → Option (Bool × State X)
  | 0, s => if s.p.usb_tx_word_counter ≤ 3 then some (false, s) else none
  | n + 1, s =>
    if s.p.usb_tx_word_counter ≤ 3 then
      match usb_tx_byte (data >>> ((3 - s.p.usb_tx_word_counter) * 8)) s with
      | (false, s1) => some (false, s1)
      | (true, s1) =>
        let counter := (s1.p.usb_tx_word_counter + 1) % U8
        if counter = 4 then
          some (true, { s1 with p := { s1.p with usb_tx_word_counter := 0 } })
        else
          usb_tx_word_loop_checked data n
            { s1 with p := { s1.p with usb_tx_word_counter := counter } }
    else none

/-- The function `usb_tx_word` with the shift checked. -/
def usb_tx_word_checked (data : Nat) (s : State X) : Option (Bool × State X) :=
  usb_tx_word_loop_checked data s.w.tx_space s

/-- The loop of `usb_rx_cmd` with the index checked: `none` when
`CMD_TOKEN[usb_rx_cmd_counter]` is read at a position above 2. -/
def usb_rx_cmd_loop_checked : Nat → State X → Option (Option Nat × State X)
  | 0, s => some (none, s)
  | n + 1, s =>
    match usb_rx_byte s with
    | (none, s1) => some (none, s1)
    | (some data, s1) =>
      if s1.p.usb_rx_cmd_counter = 3 then
        some (some data, { s1 with p := { s1.p with usb_rx_cmd_counter := 0 } })
      else if 3 ≤ s1.p.usb_rx_cmd_counter then none
      else if data ≠ CMD_TOKEN s1.p.usb_rx_cmd_counter then
        some (none, { s1 with p := { s1.p with usb_rx_cmd_counter := 0 } })
      else
        usb_rx_cmd_loop_checked n
          { s1 with p := { s1.p with
              usb_rx_cmd_counter := (s1.p.usb_rx_cmd_counter + 1) % U8 } }

/-- The function `usb_rx_cmd` with the index checked. -/
def usb_rx_cmd_checked (s : State X) : Option (Option Nat × State X) :=
  usb_rx_cmd_loop_checked s.w.rx.length s

/-- The Idle block of `usb_rx_process` with the scanner index checked. -/
def rx_idle_checked (s : State X) : Option (State X) :=
  if s.p.response_pending then some s
  else
    match usb_rx_cmd_checked s with
    | none => none
    | some (none, s1) => some s1
    | some (some cmd, s1) =>
      let s2 : State X := { s1 with p := { s1.p with
          rx_cmd := cmd,
          rx_state := RxState.args,
          rx_counter := 0,
          rx_dma_running := false,
          flush_response := false,
          flush_packet := false,
          response_error := false,
          response_info := { s1.p.response_info with
            cmd := cmd, data_length := 0, dma_length := 0, done_callback := none } } }
      some (if cmd = 85 then timer_set DEBUG_WRITE_TIMEOUT_TICKS s2 else s2)

/-- The `while` loop of the Args block with the index checked: `none` when the
loop condition forms `&p.rx_args[p.rx_counter]` with an index above 1. -/
def rx_args_loop_checked : Nat → State X → Option (State X)
  | 0, s => if s.p.rx_counter < 2 then some s else none
  | n + 1, s =>
    if s.p.rx_counter < 2 then
      match usb_rx_word s with
      | (none, s1) => some s1
      | (some word, s1) =>
        let p1 := set_rx_arg s1.p word
        let p2 := { p1 with rx_counter := (p1.rx_counter + 1) % U8 }
        if p2.rx_counter = 2 then
          some { s1 with p := { p2 with rx_counter := 0, rx_state := RxState.data } }
        else rx_args_loop_checked n { s1 with p := p2 }
    else none

/-- The Args block of `usb_rx_process` with the index checked. -/
def rx_args_checked (s : State X) : Option (State X) :=
  rx_args_loop_checked s.w.rx.length s

/-- The function `usb_rx_process` with every index checked; the Data and Flush
blocks index `rx_args` and `data` with constants only. -/
def usb_rx_process_checked (env : Env X) (s : State X) : Option (State X) :=
  (if s.p.rx_state = RxState.idle then rx_idle_checked s else some s).bind fun s1 =>
  (if s1.p.rx_state = RxState.args then rx_args_checked s1 else some s1).bind fun s2 =>
  let s3 := if s2.p.rx_state = RxState.data then rx_data env s2 else s2
  some (if s3.p.rx_state = RxState.flush then rx_flush env s3 else s3)

/-- The Token block of `usb_tx_process` with the shifts checked. -/
def tx_token_checked (s : State X) : Option (State X) :=
  (if s.p.tx_counter = 0 then
    match usb_tx_word_checked (s.p.tx_token ||| s.p.tx_info.cmd) s with
    | none => none
    | some (true, s0) =>
      some { s0 with p := { s0.p with tx_counter := (s0.p.tx_counter + 1) % U8 } }
    | some (false, s0) => some s0
  else some s).bind fun s1 =>
  if s1.p.tx_counter = 1 then
    match usb_tx_word_checked
        ((s1.p.tx_info.data_length + s1.p.tx_info.dma_length) % U32) s1 with
    | none => none
    | some (true, s2) =>
      some { s2 with p := { s2.p with tx_state := TxState.data, tx_counter := 0 } }
    | some (false, s2) => some s2
  else some s1

/-- The `while` loop of the Data block of `usb_tx_process` with the index and
the shifts checked: `none` when the loop condition reads
`p.tx_info.data[p.tx_counter]` with an index above 3, or shifts with a cursor
above 3 (also on the evaluation that finds the outbound FIFO full). -/
def tx_data_loop_checked : Nat → State X → Option (State X)
  | 0, s => if s.p.tx_counter < 4 ∧ s.p.usb_tx_word_counter ≤ 3 then some s else none
  | n + 1, s =>
    if s.p.tx_counter < 4 then
      match usb_tx_word_checked (s.p.tx_info.data s.p.tx_counter) s with
      | none => none
      | some (false, s1) => some s1
      | some (true, s1) =>
        let counter := (s1.p.tx_counter + 1) % U8
        if counter = s1.p.tx_info.data_length / 4 then
          some { s1 with p := { s1.p with tx_state := TxState.dma, tx_counter := 0 } }
        else tx_data_loop_checked n { s1 with p := { s1.p with tx_counter := counter } }
    else none

/-- The Data block of `usb_tx_process` with the index and the shifts checked. -/
def tx_data_checked (s : State X) : Option (State X) :=
  if s.p.tx_info.data_length > 0 then tx_data_loop_checked s.w.tx_space s
  else some { s with p := { s.p with tx_state := TxState.dma } }

/-- The function `usb_tx_process` with every index and shift checked; the
Idle, DMA and Flush blocks have none. -/
def usb_tx_process_checked (env : Env X) (s : State X) : Option (State X) :=
  let s1 := if s.p.tx_state = TxState.idle then tx_idle s else s
  (if s1.p.tx_state = TxState.token then tx_token_checked s1 else some s1).bind fun s2 =>
  (if s2.p.tx_state = TxState.data then tx_data_checked s2 else some s2).bind fun s3 =>
  let s4 := if s3.p.tx_state = TxState.dma then tx_dma s3 else s3
  some (if s4.p.tx_state = TxState.flush then tx_flush env s4 else s4)

/-- The function `usb_process` with every index and shift checked; the branch
taken while the link is down has none. -/
def usb_process_checked (env : Env X) (s : State X) : Option (State X) :=
  if s.w.scr_pwrsav || s.w.scr_reset_state || s.w.scr_reset_pending then
    some (usb_process env s)
  else (usb_rx_process_checked env s).bind (usb_tx_process_checked env)

/-- What a block of the receive machine after the Args block leaves of the
bounds: a sound inline length of the response stays sound, the notification
slot and the scanner position are untouched, and the state is kept or becomes
Idle or Flush. -/
def RxLen (s s1 : State X) : Prop :=
  (s.p.response_info.lenOk → s1.p.response_info.lenOk) ∧
  s1.p.packet_pending = s.p.packet_pending ∧ s1.p.packet_info = s.p.packet_info ∧
  s1.p.usb_rx_cmd_counter = s.p.usb_rx_cmd_counter ∧
  (s1.p.rx_state = s.p.rx_state ∨ s1.p.rx_state = RxState.idle ∨
    s1.p.rx_state = RxState.flush)

/-! ## A response is produced -/

/-- The number of DMA-ready ticks a memory-write in service takes before the
call of `usb_rx_process` that answers it: none when its transfer is running,
one when the transfer is still to be started, and one per scratch burst when
the range is rejected or the drain is under way. -/
def write_ticks_left (p : Process) : Nat :=
  if p.rx_state = RxState.flush then (burst_lengths p.rx_args1).length
  else if p.rx_dma_running then 0
  else if usb_validate_address_length p.rx_args0 p.rx_args1 true then
    (burst_lengths p.rx_args1).length
  else 1

/-- The receive machine is back in Idle with a response queued. -/
def Answered (p : Process) : Prop :=
  p.rx_state = RxState.idle ∧ p.response_pending = true

/-! ## Concrete instances used to exercise the theorems -/

/-- Feature modules without state, answering every query with fixed words. -/
def Env.sample : Env Unit :=
  { FLASH_ERASE_BLOCK_SIZE := 0x10000
    PACKET_CMD_DATA_FLUSHED := 71
    UPDATE_OK := 0
    cfg_get_identifier := fun x => (0x53437632, x)
    version_firmware := fun _ _ x => (0x00020014, 0, x)
    cfg_reset_state := fun x => x
    cic_reset_parameters := fun x => x
    cic_set_parameters := fun a b x => (a, b, x)
    cfg_query := fun a _ x => (false, a, 0, x)
    cfg_update := fun a b x => (false, a, b, x)
    cfg_query_setting := fun a _ x => (false, a, 0, x)
    cfg_update_setting := fun a b x => (false, a, b, x)
    cfg_get_time := fun _ _ x => (0, 0, x)
    cfg_set_time := fun a b x => (a, b, x)
    dd_set_block_ready := fun _ x => x
    writeback_enable := fun x => x
    flash_wait_busy := fun x => x
    flash_erase_block := fun _ x => (false, x)
    cfg_set_rom_write_enable := fun _ x => x
    update_backup := fun _ d x => (0, d, x)
    update_prepare := fun _ _ x => (0, x)
    app_get_stack_usage := fun _ x => (0, 0, 0, 0, x)
    run_callback := fun _ x => x }

/-- Link up, DMA engine idle, the given inbound bytes and outbound room. -/
def World.sample (rx : List Nat) (tx_space : Nat) : World Unit :=
  { rx := rx, tx_space := tx_space, dma_busy := false, timer := 0, scr_pwrsav := false,
    scr_reset_state := false, scr_reset_pending := false, debug0 := 0, debug1 := 0,
    trace := [], ext := () }

/-- The state right after `usb_init` at program start, with an empty trace. -/
def State.boot (rx : List Nat) (tx_space : Nat) : State Unit :=
  let s := usb_init { p := Process.zero, w := World.sample rx tx_space }
  { s with w := { s.w with trace := [] } }

/-- The receive machine in the Data state for opcode `cmd` with the given
arguments, as the Idle and Args blocks leave it after boot. -/
def State.request (cmd a0 a1 : Nat) : State Unit :=
  let s := State.boot [] 64
  { s with p := { s.p with rx_state := RxState.data, rx_cmd := cmd, rx_args0 := a0,
                           rx_args1 := a1,
                           response_info := { s.p.response_info with cmd := cmd } } }

/-- The state after boot and one tick that receives a memory-write request for
4 bytes at address `0x05002980`, which is rejected. -/
def State.rejectedWrite : State Unit :=
  usb_process Env.sample
    (usb_init { p := Process.zero,
                w := World.sample [67, 77, 68, 77, 0x05, 0x00, 0x29, 0x80, 0, 0, 0, 4] 64 })

/-- The state after `usb_init` at program start, with a memory-write request
for 16 bytes at address 0 waiting in the inbound FIFO. -/
def State.pendingWrite : State Unit :=
  usb_init { p := Process.zero,
             w := World.sample [67, 77, 68, 77, 0, 0, 0, 0, 0, 0, 0, 16] 64 }

/-- A state after boot in which a response is pending while command bytes wait
in the inbound FIFO. -/
def State.responsePending : State Unit :=
  let s := State.boot [67, 77, 68, 118, 0, 0, 0, 0, 0, 0, 0, 0] 0
  { s with p := { s.p with response_pending := true } }

/-- A notification descriptor with one inline word and a completion callback. -/
def TxInfo.sample : TxInfo :=
  { cmd := 66, data_length := 4, data0 := 0xCAFE, data1 := 0, data2 := 0, data3 := 0,
    dma_length := 0, dma_address := 0, done_callback := some (Callback.other 1) }

/-- The state at program start, before `usb_init`, with a request for the
opcode `'x'`, which is not in the opcode table, waiting in the inbound FIFO. -/
def State.unknownRequest : State Unit :=
  { p := Process.zero, w := World.sample [67, 77, 68, 120, 1, 2, 3, 4, 5, 6, 7, 8] 64 }

/-- The state at program start, before `usb_init`, with a query-id request
waiting in the inbound FIFO. -/
def State.identifierRequest : State Unit :=
  { p := Process.zero, w := World.sample [67, 77, 68, 118, 0, 0, 0, 0, 0, 0, 0, 0] 64 }

/-- The Data state the Idle and Args blocks produce after boot from a
stream-write request (`'U'`) announcing 4 bytes, with 4 bytes of staging
capacity at `0x1000` acquired through `usb_prepare_read`. -/
def State.streamWrite : State Unit :=
  let s := rx_args (rx_idle (State.boot [67, 77, 68, 85, 0, 0, 0, 0, 0, 0, 0, 4] 64))
  { s with p := (usb_prepare_read 0x1000 4 s.p).2 }

/-- The Data state the Idle and Args blocks produce after boot from a
memory-write request (`'M'`) for 16 bytes at address 0. -/
def State.servingWrite : State Unit :=
  rx_args (rx_idle (State.boot [67, 77, 68, 77, 0, 0, 0, 0, 0, 0, 0, 16] 64))

/-- The state after boot with a memory-write request for 4 bytes at address
`0x05002980` (rejected: outside the memory window) in the inbound FIFO. -/
def State.rejectedRequest : State Unit :=
  State.boot [67, 77, 68, 77, 0x05, 0x00, 0x29, 0x80, 0, 0, 0, 4] 64

/-- The state after boot with a memory-write request for 4 bytes at address
`0x07F00000`, the scratch address, in the inbound FIFO. -/
def State.scratchRequest : State Unit :=
  State.boot [67, 77, 68, 77, 0x07, 0xF0, 0x00, 0x00, 0, 0, 0, 4] 64

/-- A state after boot in which the link reads power-save while a notification
without completion callback is pending. -/
def State.pausedNotification : State Unit :=
  let s := State.boot [] 64
  { p := (usb_enqueue_packet (usb_create_packet 71) s.p).2,
    w := { s.w with scr_pwrsav := true } }

/-- A state after boot in which the link reads reset-pending while the
transmit machine is in the Data state for a frame with a callback and a
notification with a callback is pending. -/
def State.resetMidFrame : State Unit :=
  let s := State.boot [1, 2, 3] 5
  { p := { (usb_enqueue_packet TxInfo.sample s.p).2 with
      tx_state := TxState.data,
      tx_info := { TxInfo.sample with done_callback := some Callback.update_start } },
    w := { s.w with scr_reset_pending := true } }

/-- The state after boot with the notification `TxInfo.sample` enqueued. -/
def State.notification : State Unit :=
  let s := State.boot [] 64
  { s with p := (usb_enqueue_packet TxInfo.sample s.p).2 }

/-- The state after boot with a stream-write request (`'U'`) announcing 4 bytes
in the inbound FIFO; the consumer has provided no staging capacity. -/
def State.streamRequest : State Unit :=
  State.boot [67, 77, 68, 85, 0, 0, 0, 0, 0, 0, 0, 4] 64

/-- The state `State.streamRequest` after the tick that accepts the request, at
the time the idle timer has run out. -/
def State.stalledStream : State Unit :=
  let s := usb_process Env.sample State.streamRequest
  { s with w := { s.w with timer := 0 } }

/-- A state that is not reachable: after boot with a response pending, the
cursor of `usb_tx_word` holds 4. -/
def State.cursorOutOfRange : State Unit :=
  let s := State.boot [] 64
  { s with p := { s.p with response_pending := true, usb_tx_word_counter := 4 } }

/-! ## Bounds validation: theorems -/

/-- On 32-bit inputs the wrapping sum inside `usb_validate_address_length` is
only reached when it cannot wrap, so the function is the exact interval test. -/
theorem usb_validate_address_length_exact (address length : Nat) (e : Bool)
    (ha : address < U32) (hl : length < U32) :
    usb_validate_address_length address length e = false ↔
      (address < MEMORY_LENGTH ∧ address + length ≤ MEMORY_LENGTH ∧
        (e = true → ¬ (address + length > BOOTLOADER_ADDRESS ∧
          address < BOOTLOADER_ADDRESS + BOOTLOADER_LENGTH))) := by
  simp only [U32] at ha hl
  unfold usb_validate_address_length
  simp only [MEMORY_LENGTH, BOOTLOADER_ADDRESS, BOOTLOADER_LENGTH, U32]
  cases e <;> simp <;> omega

/-- For a non-empty range the interval test of the code is disjointness from
the bootloader region. -/
theorem disjointFromBootloader_iff (address length : Nat) (hl : 0 < length) :
    DisjointFromBootloader address length ↔
      ¬ (address + length > BOOTLOADER_ADDRESS ∧
          address < BOOTLOADER_ADDRESS + BOOTLOADER_LENGTH) := by
  unfold DisjointFromBootloader
  simp only [BOOTLOADER_ADDRESS, BOOTLOADER_LENGTH]
  constructor
  · intro h hc
    by_cases h1 : address ≤ 0x04E00000
    · exact h 0x04E00000 h1 (by omega) ⟨by omega, by omega⟩
    · exact h address (le_refl _) (by omega) ⟨by omega, by omega⟩
  · intro h x h1 h2 hx
    apply h
    omega

/-- C1 (as stated, refuted): at `address = MEMORY_LENGTH`, `length = 0`, no
exclusion, the exact sum is within `MEMORY_LENGTH`, yet the code rejects. -/
theorem c1_counterexample :
    ¬ (usb_validate_address_length 0x05002980 0 false = false ↔
        (0x05002980 + 0 ≤ MEMORY_LENGTH ∧
          (false = true → DisjointFromBootloader 0x05002980 0))) := by
  have h : usb_validate_address_length 0x05002980 0 false = true := by decide
  rw [h]
  simp [MEMORY_LENGTH]

/-- C1 (amended): for 32-bit inputs, `usb_validate_address_length` returns ok
(false) exactly when `address < MEMORY_LENGTH`, the exact sum
`address + length` is at most `MEMORY_LENGTH`, and, if `exclude_bootloader` is
set, it is not the case that `address + length > BOOTLOADER_ADDRESS` and
`address < BOOTLOADER_ADDRESS + BOOTLOADER_LENGTH`; for `length > 0` this last
condition is disjointness of `[address, address + length)` from the bootloader
region.  Every other input is rejected (true). -/
theorem c1_validate_characterisation (address length : Nat) (e : Bool)
    (ha : address < U32) (hl : length < U32) :
    (usb_validate_address_length address length e = false ↔
      (address < MEMORY_LENGTH ∧ address + length ≤ MEMORY_LENGTH ∧
        (e = true → ¬ (address + length > 0x04E00000 ∧ address < 0x04FE0000)))) ∧
    (usb_validate_address_length address length e = true ↔
      ¬ (address < MEMORY_LENGTH ∧ address + length ≤ MEMORY_LENGTH ∧
        (e = true → ¬ (address + length > 0x04E00000 ∧ address < 0x04FE0000)))) ∧
    (0 < length →
      (DisjointFromBootloader address length ↔
        ¬ (address + length > 0x04E00000 ∧ address < 0x04FE0000))) := by
  have h := usb_validate_address_length_exact address length e ha hl
  simp only [BOOTLOADER_ADDRESS, BOOTLOADER_LENGTH] at h
  norm_num at h
  refine ⟨?_, ?_, ?_⟩
  · rw [h]; norm_num
  · rw [← Bool.not_eq_false, h]; norm_num
  · intro h0
    have h2 := disjointFromBootloader_iff address length h0
    simp only [BOOTLOADER_ADDRESS, BOOTLOADER_LENGTH] at h2
    norm_num at h2
    rw [h2]; norm_num

/-- Witness for C1 (amended): an accepted range below the bootloader. -/
theorem c1_validate_characterisation_witness :
    usb_validate_address_length 0x1000 0x100 true = false ∧
    DisjointFromBootloader 0x1000 0x100 := by
  have h := c1_validate_characterisation 0x1000 0x100 true (by decide) (by decide)
  refine ⟨by decide, (h.2.2 (by decide)).2 (by omega)⟩

/-! ## Bootloader protection -/

/-- Bootloader protection in the Data block alone: opcode `'M'` writes nothing
to hardware unless it programs the DMA engine with `(rx_args[0], rx_args[1])`, and then, in exact
arithmetic, `arg0 + arg1 <= 0x05002980` and not (`arg0 + arg1 > 0x04E00000` and
`arg0 < 0x04FE0000`); opcode `'P'` calls nothing unless it calls
`flash_erase_block(rx_args[0])`, and then the same holds for
`(arg0, FLASH_ERASE_BLOCK_SIZE)`; and the 32-bit sum inside
`usb_validate_address_length` does not wrap whenever it is reached. -/
theorem rx_data_guarded (env : Env X) (s : State X)
    (h0 : s.p.rx_args0 < U32) (h1 : s.p.rx_args1 < U32)
    (hB : env.FLASH_ERASE_BLOCK_SIZE < U32) :
    (s.p.rx_cmd = 77 →
      (rx_data env s).w.trace = s.w.trace ∨
      ((rx_data env s).w.trace = s.w.trace ++
          [Ev.reg_set_dma_address s.p.rx_args0, Ev.reg_set_dma_length s.p.rx_args1,
           Ev.reg_set_dma_scr DmaScr.DIRECTION_START] ∧
        s.p.rx_args0 + s.p.rx_args1 ≤ 0x05002980 ∧
        ¬ (s.p.rx_args0 + s.p.rx_args1 > 0x04E00000 ∧ s.p.rx_args0 < 0x04FE0000))) ∧
    (s.p.rx_cmd = 80 →
      (rx_data env s).w.trace = s.w.trace ∨
      ((rx_data env s).w.trace = s.w.trace ++
          [Ev.call Collab.flash_erase_block [s.p.rx_args0]] ∧
        s.p.rx_args0 + env.FLASH_ERASE_BLOCK_SIZE ≤ 0x05002980 ∧
        ¬ (s.p.rx_args0 + env.FLASH_ERASE_BLOCK_SIZE > 0x04E00000 ∧
            s.p.rx_args0 < 0x04FE0000))) ∧
    (∀ address length : Nat, address < U32 → length < U32 →
      ¬ (address ≥ MEMORY_LENGTH ∨ length > MEMORY_LENGTH) →
      (address + length) % U32 = address + length) := by
  refine ⟨?_, ?_, ?_⟩
  · intro hc
    have hv := usb_validate_address_length_exact s.p.rx_args0 s.p.rx_args1 true h0 h1
    simp only [BOOTLOADER_ADDRESS, BOOTLOADER_LENGTH, MEMORY_LENGTH] at hv
    norm_num at hv
    simp only [rx_data, hc, rx_data_M]
    norm_num
    by_cases hr : usb_dma_ready s = true
    · by_cases hd : s.p.rx_dma_running = true
      · simp [hr, hd, State.respond]
      · cases hval : usb_validate_address_length s.p.rx_args0 s.p.rx_args1 true
        · right
          have := hv.1 hval
          simp [hr, hd, hval, dma_start, State.emit]
          omega
        · simp [hr, hd, hval]
    · simp [hr]
  · intro hc
    have hv := usb_validate_address_length_exact s.p.rx_args0
      (env.FLASH_ERASE_BLOCK_SIZE % U32) true h0 (Nat.mod_lt _ (by decide))
    rw [Nat.mod_eq_of_lt hB] at hv
    simp only [BOOTLOADER_ADDRESS, BOOTLOADER_LENGTH, MEMORY_LENGTH] at hv
    norm_num at hv
    simp only [rx_data, hc, rx_data_P]
    norm_num
    rw [Nat.mod_eq_of_lt hB]
    cases hval : usb_validate_address_length s.p.rx_args0 env.FLASH_ERASE_BLOCK_SIZE true
    · right
      have := hv.1 hval
      simp [State.respond, State.call, State.emit, State.setExt]
      omega
    · simp [State.respond]
  · intro a l ha hl h
    simp only [U32, MEMORY_LENGTH] at *
    omega

/-! ## Validation of DMA transfers -/

/-- C3 (as stated, refuted): after boot, one tick that receives a rejected
memory-write of 4 bytes starts a DMA transfer to the scratch address
`0x07F00000`, which bounds validation rejects. -/
theorem c3_counterexample :
    Reachable Env.sample State.rejectedWrite ∧
    (RX_FLUSH_ADDRESS, 4, DmaScr.DIRECTION_START) ∈ dma_starts State.rejectedWrite.w.trace 0 0 ∧
    usb_validate_address_length RX_FLUSH_ADDRESS 4 false = true := by
  refine ⟨Reachable.tick (Reachable.init _), ?_, by decide⟩
  decide

/-! ## Trace bookkeeping -/

theorem validate_excl_imp (a l : Nat)
    (h : usb_validate_address_length a l true = false) :
    usb_validate_address_length a l false = false := by
  unfold usb_validate_address_length at *
  by_cases h1 : a ≥ MEMORY_LENGTH ∨ l > MEMORY_LENGTH
  · simp [h1] at h
  · by_cases h2 : (a + l) % U32 > MEMORY_LENGTH
    · simp [h1, h2] at h
    · simp [h1, h2]

theorem dma_starts_plain (evs : List Ev) (h : evs.all Ev.plain = true) (a l : Nat) :
    dma_starts evs a l = [] := by
  induction evs generalizing a l with
  | nil => rfl
  | cons e es ih =>
    simp only [List.all_cons, Bool.and_eq_true] at h
    cases e with
    | reg_set_dma_scr c => cases c <;> simp_all [dma_starts, Ev.plain]
    | _ => simp_all [dma_starts, Ev.plain]

theorem allowed_of_plain {C : Nat × Nat × DmaScr → Prop} {V : Nat → Prop} {evs : List Ev}
    (h : evs.all Ev.plain = true) : Allowed C V evs := by
  refine ⟨fun a l st hst => ?_, fun x hx => ?_⟩
  · rw [dma_starts_plain evs h] at hst
    cases hst
  · rw [List.all_eq_true] at h
    have := h _ hx
    simp [Ev.plain] at this

theorem dma_starts_append (e1 e2 : List Ev) (a l : Nat) :
    ∃ a1 l1, dma_starts (e1 ++ e2) a l = dma_starts e1 a l ++ dma_starts e2 a1 l1 := by
  induction e1 generalizing a l with
  | nil => exact ⟨a, l, rfl⟩
  | cons e es ih =>
    cases e with
    | reg_set_dma_scr c =>
      cases c <;> simp only [List.cons_append, dma_starts] <;>
        obtain ⟨a1, l1, h⟩ := ih a l <;> exact ⟨a1, l1, by first | exact h | exact congrArg (List.cons _) h⟩
    | reg_set_dma_address v =>
      simp only [List.cons_append, dma_starts]; exact ih v l
    | reg_set_dma_length v =>
      simp only [List.cons_append, dma_starts]; exact ih a v
    | _ => simp only [List.cons_append, dma_starts]; exact ih a l

theorem allowed_nil {C : Nat × Nat × DmaScr → Prop} {V : Nat → Prop} : Allowed C V [] :=
  allowed_of_plain rfl

theorem allowed_append {C : Nat × Nat × DmaScr → Prop} {V : Nat → Prop} {e1 e2 : List Ev}
    (h1 : Allowed C V e1) (h2 : Allowed C V e2) : Allowed C V (e1 ++ e2) := by
  refine ⟨fun a l st hst => ?_, fun x hx => ?_⟩
  · obtain ⟨a1, l1, h⟩ := dma_starts_append e1 e2 a l
    rw [h, List.mem_append] at hst
    rcases hst with hst | hst
    · exact h1.1 a l st hst
    · exact h2.1 a1 l1 st hst
  · rw [List.mem_append] at hx
    rcases hx with hx | hx
    · exact h1.2 x hx
    · exact h2.2 x hx

theorem allowed_mono {C D : Nat × Nat × DmaScr → Prop} {V : Nat → Prop} {evs : List Ev}
    (hCD : ∀ st, C st → D st) (h : Allowed C V evs) : Allowed D V evs :=
  ⟨fun a l st hst => hCD st (h.1 a l st hst), h.2⟩

theorem allowed_start {C : Nat × Nat × DmaScr → Prop} {V : Nat → Prop} (a l : Nat) (c : DmaScr)
    (h : C (a, l, c)) :
    Allowed C V [Ev.reg_set_dma_address a, Ev.reg_set_dma_length l, Ev.reg_set_dma_scr c] := by
  refine ⟨fun a0 l0 st hst => ?_, fun x hx => ?_⟩
  · cases c <;> simp [dma_starts] at hst <;> subst hst <;> exact h
  · simp at hx

theorem extends_refl {P : List Ev → Prop} (s : State X) (h : P []) : Extends s s P :=
  ⟨[], by simp, h⟩

theorem extends_trans {C : Nat × Nat × DmaScr → Prop} {V : Nat → Prop} {s s1 s2 : State X}
    (h1 : Extends s s1 (Allowed C V)) (h2 : Extends s1 s2 (Allowed C V)) :
    Extends s s2 (Allowed C V) := by
  obtain ⟨e1, ht1, ha1⟩ := h1
  obtain ⟨e2, ht2, ha2⟩ := h2
  exact ⟨e1 ++ e2, by rw [ht2, ht1, List.append_assoc], allowed_append ha1 ha2⟩

/-! ## Frame lemmas for the loops -/

theorem usb_rx_cmd_loop_frame (n : Nat) (s : State X) :
    ∃ c rx, (usb_rx_cmd_loop n s).2 =
      { p := { s.p with usb_rx_cmd_counter := c }, w := { s.w with rx := rx } } := by
  induction n generalizing s with
  | zero => exact ⟨s.p.usb_rx_cmd_counter, s.w.rx, rfl⟩
  | succ n ih =>
    unfold usb_rx_cmd_loop usb_rx_byte
    cases hrx : s.w.rx with
    | nil => exact ⟨s.p.usb_rx_cmd_counter, s.w.rx, rfl⟩
    | cons b bs =>
      simp only []
      split_ifs with h1 h2
      · exact ⟨0, bs, rfl⟩
      · exact ⟨0, bs, rfl⟩
      · obtain ⟨c, rx, h⟩ := ih
          { p := { s.p with usb_rx_cmd_counter := (s.p.usb_rx_cmd_counter + 1) % U8 },
            w := { s.w with rx := bs } }
        exact ⟨c, rx, h⟩

theorem usb_rx_word_loop_frame (n : Nat) (s : State X) :
    ∃ c b rx, (usb_rx_word_loop n s).2 =
      { p := { s.p with usb_rx_word_counter := c, usb_rx_word_buffer := b },
        w := { s.w with rx := rx } } := by
  induction n generalizing s with
  | zero => exact ⟨s.p.usb_rx_word_counter, s.p.usb_rx_word_buffer, s.w.rx, rfl⟩
  | succ n ih =>
    unfold usb_rx_word_loop usb_rx_byte
    cases hrx : s.w.rx with
    | nil => exact ⟨s.p.usb_rx_word_counter, s.p.usb_rx_word_buffer, s.w.rx, rfl⟩
    | cons b bs =>
      simp only []
      split_ifs with h1
      · exact ⟨0, 0, bs, rfl⟩
      · obtain ⟨c, b1, rx, h⟩ := ih
          { p := { s.p with
              usb_rx_word_counter := (s.p.usb_rx_word_counter + 1) % U8,
              usb_rx_word_buffer := ((s.p.usb_rx_word_buffer <<< 8) ||| (b % U8)) % U32 },
            w := { s.w with rx := bs } }
        exact ⟨c, b1, rx, h⟩

theorem usb_rx_word_frame (s : State X) :
    ∃ c b rx, (usb_rx_word s).2 =
      { p := { s.p with usb_rx_word_counter := c, usb_rx_word_buffer := b },
        w := { s.w with rx := rx } } :=
  usb_rx_word_loop_frame _ s

theorem usb_rx_cmd_frame (s : State X) :
    ∃ c rx, (usb_rx_cmd s).2 =
      { p := { s.p with usb_rx_cmd_counter := c }, w := { s.w with rx := rx } } :=
  usb_rx_cmd_loop_frame _ s

theorem rx_args_loop_frame (n : Nat) (s : State X) :
    ∃ st cnt a0 a1 c b rx, rx_args_loop n s =
      { p := { s.p with rx_state := st, rx_counter := cnt, rx_args0 := a0, rx_args1 := a1,
                        usb_rx_word_counter := c, usb_rx_word_buffer := b },
        w := { s.w with rx := rx } } ∧ (st = s.p.rx_state ∨ st = RxState.data) := by
  induction n generalizing s with
  | zero => exact ⟨_, _, _, _, _, _, _, rfl, Or.inl rfl⟩
  | succ n ih =>
    unfold rx_args_loop
    obtain ⟨c, b, rx, h⟩ := usb_rx_word_frame s
    rcases hw : usb_rx_word s with ⟨r, s1⟩
    rw [hw] at h
    simp only [] at h
    subst h
    cases r with
    | none => exact ⟨_, _, _, _, _, _, _, rfl, Or.inl rfl⟩
    | some word =>
      simp only [set_rx_arg]
      split_ifs with h1 h2 h3 h4 h5
      all_goals first
        | exact ⟨_, _, _, _, _, _, _, rfl, Or.inr rfl⟩
        | (obtain ⟨st, cnt, a0, a1, c1, b1, rx1, h, hst⟩ := ih _
           rw [h]
           exact ⟨_, _, _, _, _, _, _, rfl, hst⟩)

theorem usb_tx_word_loop_frame (data n : Nat) (s : State X) :
    ∃ (c sp : Nat) (bytes : List Nat), (usb_tx_word_loop data n s).2 =
      { p := { s.p with usb_tx_word_counter := c },
        w := { s.w with tx_space := sp, trace := s.w.trace ++ bytes.map Ev.usb_push } } := by
  induction n generalizing s with
  | zero =>
    refine ⟨s.p.usb_tx_word_counter, s.w.tx_space, [], ?_⟩
    simp only [usb_tx_word_loop, List.map_nil, List.append_nil]
  | succ n ih =>
    unfold usb_tx_word_loop usb_tx_byte
    by_cases hsp : s.w.tx_space = 0
    · refine ⟨s.p.usb_tx_word_counter, s.w.tx_space, [], ?_⟩
      rw [if_pos hsp]
      simp only [List.map_nil, List.append_nil]
    · simp only [hsp, if_false]
      split_ifs with h1
      · exact ⟨0, s.w.tx_space - 1, [_], rfl⟩
      · obtain ⟨c, sp, bytes, h⟩ := ih
          { p := { s.p with usb_tx_word_counter := (s.p.usb_tx_word_counter + 1) % U8 },
            w := { s.w with tx_space := s.w.tx_space - 1,
                            trace := s.w.trace ++ [Ev.usb_push
                              ((data >>> ((3 - s.p.usb_tx_word_counter) * 8)) % U8)] } }
        refine ⟨c, sp, ((data >>> ((3 - s.p.usb_tx_word_counter) * 8)) % U8) :: bytes, ?_⟩
        rw [h]
        simp

theorem usb_tx_word_frame (data : Nat) (s : State X) :
    ∃ (c sp : Nat) (bytes : List Nat), (usb_tx_word data s).2 =
      { p := { s.p with usb_tx_word_counter := c },
        w := { s.w with tx_space := sp, trace := s.w.trace ++ bytes.map Ev.usb_push } } :=
  usb_tx_word_loop_frame data _ s

theorem tx_data_loop_frame (n : Nat) (s : State X) :
    ∃ (st : TxState) (cnt c sp : Nat) (bytes : List Nat), tx_data_loop n s =
      { p := { s.p with tx_state := st, tx_counter := cnt, usb_tx_word_counter := c },
        w := { s.w with tx_space := sp, trace := s.w.trace ++ bytes.map Ev.usb_push } } ∧
      (st = s.p.tx_state ∨ st = TxState.dma) := by
  induction n generalizing s with
  | zero =>
    refine ⟨s.p.tx_state, s.p.tx_counter, s.p.usb_tx_word_counter, s.w.tx_space, [], ?_,
      Or.inl rfl⟩
    simp only [tx_data_loop, List.map_nil, List.append_nil]
  | succ n ih =>
    unfold tx_data_loop
    obtain ⟨c, sp, bytes, h⟩ := usb_tx_word_frame (s.p.tx_info.data s.p.tx_counter) s
    rcases hw : usb_tx_word (s.p.tx_info.data s.p.tx_counter) s with ⟨r, s1⟩
    rw [hw] at h
    simp only [] at h
    subst h
    cases r with
    | false => exact ⟨_, _, _, _, bytes, rfl, Or.inl rfl⟩
    | true =>
      simp only []
      split_ifs with h1
      · exact ⟨_, _, _, _, bytes, rfl, Or.inr rfl⟩
      · obtain ⟨st, cnt, c1, sp1, bytes1, h, hst⟩ := ih
          { p := { s.p with usb_tx_word_counter := c,
                            tx_counter := (s.p.tx_counter + 1) % U8 },
            w := { s.w with tx_space := sp, trace := s.w.trace ++ bytes.map Ev.usb_push } }
        refine ⟨st, cnt, c1, sp1, bytes ++ bytes1, ?_, hst⟩
        rw [h]
        simp

/-! ## Validation of DMA transfers: the phases of a tick -/

theorem rx_idle_dma (s : State X) (hI : s.p.response_info.dmaOk) :
    (rx_idle s).p.response_info.dmaOk ∧
    (rx_idle s).p.read_address = s.p.read_address ∧
    (rx_idle s).p.read_length = s.p.read_length ∧
    (rx_idle s).p.tx_state = s.p.tx_state ∧
    (rx_idle s).p.tx_token = s.p.tx_token ∧
    (rx_idle s).p.tx_info = s.p.tx_info ∧
    ∃ evs, (rx_idle s).w.trace = s.w.trace ++ evs ∧ evs.all Ev.plain = true := by
  unfold rx_idle
  split_ifs with h1
  · exact ⟨hI, rfl, rfl, rfl, rfl, rfl, [], by simp, rfl⟩
  · obtain ⟨c, rx, h⟩ := usb_rx_cmd_frame s
    rcases hw : usb_rx_cmd s with ⟨r, s1⟩
    rw [hw] at h
    simp only [] at h
    subst h
    cases r with
    | none => exact ⟨hI, rfl, rfl, rfl, rfl, rfl, [], by simp, rfl⟩
    | some cmd =>
      simp only []
      split_ifs with h2
      · exact ⟨Or.inl rfl, rfl, rfl, rfl, rfl, rfl, [Ev.timer_set DEBUG_WRITE_TIMEOUT_TICKS],
          rfl, rfl⟩
      · exact ⟨Or.inl rfl, rfl, rfl, rfl, rfl, rfl, [], by simp, rfl⟩

theorem rx_args_dma (s : State X) :
    (rx_args s).p.response_info = s.p.response_info ∧
    (rx_args s).p.read_address = s.p.read_address ∧
    (rx_args s).p.read_length = s.p.read_length ∧
    (rx_args s).p.rx_cmd = s.p.rx_cmd ∧
    (rx_args s).p.tx_state = s.p.tx_state ∧
    (rx_args s).p.tx_token = s.p.tx_token ∧
    (rx_args s).p.tx_info = s.p.tx_info ∧
    (rx_args s).w.trace = s.w.trace := by
  obtain ⟨st, cnt, a0, a1, c, b, rx, h, -⟩ := rx_args_loop_frame s.w.rx.length s
  unfold rx_args
  rw [h]
  exact ⟨rfl, rfl, rfl, rfl, rfl, rfl, rfl, rfl⟩

theorem dma_start_trace (a l : Nat) (c : DmaScr) (s : State X) :
    (dma_start a l c s).w.trace =
      s.w.trace ++ [Ev.reg_set_dma_address a, Ev.reg_set_dma_length l, Ev.reg_set_dma_scr c] := by
  simp [dma_start, State.emit]

theorem extends_dma_start {C : Nat × Nat × DmaScr → Prop} {V : Nat → Prop} (a l : Nat)
    (c : DmaScr) (s : State X) (h : C (a, l, c)) :
    Extends s (dma_start a l c s) (Allowed C V) :=
  ⟨_, dma_start_trace a l c s, allowed_start a l c h⟩

theorem rx_flush_dma (env : Env X) (s : State X) (cmd ra rl tok ta tl : Nat)
    (V : Nat → Prop) :
    (rx_flush env s).p.response_info = s.p.response_info ∧
    (rx_flush env s).p.rx_cmd = s.p.rx_cmd ∧
    (rx_flush env s).p.tx_state = s.p.tx_state ∧
    (rx_flush env s).p.tx_token = s.p.tx_token ∧
    (rx_flush env s).p.tx_info = s.p.tx_info ∧
    Extends s (rx_flush env s) (Allowed (StartOk cmd ra rl tok ta tl) V) := by
  unfold rx_flush
  by_cases h1 : usb_dma_ready s = true
  · rw [if_pos h1]
    by_cases h2 : s.p.rx_args1 ≠ 0
    · rw [if_pos h2]
      refine ⟨rfl, rfl, rfl, rfl, rfl, ?_⟩
      apply extends_dma_start
      right; left
      refine ⟨rfl, rfl, ?_⟩
      simp only []
      split_ifs with h6
      · exact le_refl _
      · exact Nat.le_of_not_gt h6
    · rw [if_neg h2]
      by_cases h3 : s.p.flush_response = true
      · rw [if_pos h3]
        exact ⟨rfl, rfl, rfl, rfl, rfl, extends_refl _ allowed_nil⟩
      · rw [if_neg h3]
        by_cases h4 : s.p.flush_packet = true
        · rw [if_pos h4]
          unfold usb_enqueue_packet
          by_cases h5 : s.p.packet_pending = true
          · simp only [h5, if_true]
            exact ⟨rfl, rfl, rfl, rfl, rfl, extends_refl _ allowed_nil⟩
          · simp only [h5, if_false]
            exact ⟨rfl, rfl, rfl, rfl, rfl, extends_refl _ allowed_nil⟩
        · rw [if_neg h4]
          exact ⟨rfl, rfl, rfl, rfl, rfl, extends_refl _ allowed_nil⟩
  · rw [if_neg h1]
    exact ⟨rfl, rfl, rfl, rfl, rfl, extends_refl _ allowed_nil⟩

/-! ## Validation of DMA transfers: the Data block -/

theorem allowed_erase {C : Nat × Nat × DmaScr → Prop} {V : Nat → Prop} (x : Nat) (h : V x) :
    Allowed C V [Ev.call Collab.flash_erase_block [x]] := by
  refine ⟨fun a l st hst => ?_, fun y hy => ?_⟩
  · simp [dma_starts] at hst
  · simp at hy
    subst hy
    exact h

theorem rx_data_v_ok (env : Env X) (s : State X) (tok ta tl : Nat)
    (hI : s.p.response_info.dmaOk) : RxDataOk env s (rx_data_v env s) tok ta tl := by
  refine ⟨rfl, rfl, rfl, rfl, hI, ?_⟩
  simp only [Extends, rx_data_v, State.call, State.emit, State.respond, State.setInfo,
    State.setExt, State.setArgs, List.append_assoc, List.singleton_append,
    List.append_cancel_left_eq, exists_eq_left', List.append_nil, List.self_eq_append_right]
  exact allowed_of_plain rfl

theorem rx_data_V_ok (env : Env X) (s : State X) (tok ta tl : Nat)
    (hI : s.p.response_info.dmaOk) : RxDataOk env s (rx_data_V env s) tok ta tl := by
  refine ⟨rfl, rfl, rfl, rfl, hI, ?_⟩
  simp only [Extends, rx_data_V, State.call, State.emit, State.respond, State.setInfo,
    State.setExt, State.setArgs, List.append_assoc, List.singleton_append,
    List.append_cancel_left_eq, exists_eq_left', List.append_nil, List.self_eq_append_right]
  exact allowed_of_plain rfl

theorem rx_data_R_ok (env : Env X) (s : State X) (tok ta tl : Nat)
    (hI : s.p.response_info.dmaOk) : RxDataOk env s (rx_data_R env s) tok ta tl := by
  refine ⟨rfl, rfl, rfl, rfl, hI, ?_⟩
  simp only [Extends, rx_data_R, State.call, State.emit, State.respond, State.setInfo,
    State.setExt, State.setArgs, List.append_assoc, List.singleton_append,
    List.append_cancel_left_eq, exists_eq_left', List.append_nil, List.self_eq_append_right]
  exact allowed_of_plain rfl

theorem rx_data_B_ok (env : Env X) (s : State X) (tok ta tl : Nat)
    (hI : s.p.response_info.dmaOk) : RxDataOk env s (rx_data_B env s) tok ta tl := by
  refine ⟨rfl, rfl, rfl, rfl, hI, ?_⟩
  simp only [Extends, rx_data_B, State.call, State.emit, State.respond, State.setInfo,
    State.setExt, State.setArgs, List.append_assoc, List.singleton_append,
    List.append_cancel_left_eq, exists_eq_left', List.append_nil, List.self_eq_append_right]
  exact allowed_of_plain rfl

theorem rx_data_c_ok (env : Env X) (s : State X) (tok ta tl : Nat)
    (hI : s.p.response_info.dmaOk) : RxDataOk env s (rx_data_c env s) tok ta tl := by
  refine ⟨rfl, rfl, rfl, rfl, hI, ?_⟩
  simp only [Extends, rx_data_c, State.call, State.emit, State.respond, State.setInfo,
    State.setExt, State.setArgs, List.append_assoc, List.singleton_append,
    List.append_cancel_left_eq, exists_eq_left', List.append_nil, List.self_eq_append_right]
  exact allowed_of_plain rfl

theorem rx_data_C_ok (env : Env X) (s : State X) (tok ta tl : Nat)
    (hI : s.p.response_info.dmaOk) : RxDataOk env s (rx_data_C env s) tok ta tl := by
  refine ⟨rfl, rfl, rfl, rfl, hI, ?_⟩
  simp only [Extends, rx_data_C, State.call, State.emit, State.respond, State.setInfo,
    State.setExt, State.setArgs, List.append_assoc, List.singleton_append,
    List.append_cancel_left_eq, exists_eq_left', List.append_nil, List.self_eq_append_right]
  exact allowed_of_plain rfl

theorem rx_data_a_ok (env : Env X) (s : State X) (tok ta tl : Nat)
    (hI : s.p.response_info.dmaOk) : RxDataOk env s (rx_data_a env s) tok ta tl := by
  refine ⟨rfl, rfl, rfl, rfl, hI, ?_⟩
  simp only [Extends, rx_data_a, State.call, State.emit, State.respond, State.setInfo,
    State.setExt, State.setArgs, List.append_assoc, List.singleton_append,
    List.append_cancel_left_eq, exists_eq_left', List.append_nil, List.self_eq_append_right]
  exact allowed_of_plain rfl

theorem rx_data_A_ok (env : Env X) (s : State X) (tok ta tl : Nat)
    (hI : s.p.response_info.dmaOk) : RxDataOk env s (rx_data_A env s) tok ta tl := by
  refine ⟨rfl, rfl, rfl, rfl, hI, ?_⟩
  simp only [Extends, rx_data_A, State.call, State.emit, State.respond, State.setInfo,
    State.setExt, State.setArgs, List.append_assoc, List.singleton_append,
    List.append_cancel_left_eq, exists_eq_left', List.append_nil, List.self_eq_append_right]
  exact allowed_of_plain rfl

theorem rx_data_t_ok (env : Env X) (s : State X) (tok ta tl : Nat)
    (hI : s.p.response_info.dmaOk) : RxDataOk env s (rx_data_t env s) tok ta tl := by
  refine ⟨rfl, rfl, rfl, rfl, hI, ?_⟩
  simp only [Extends, rx_data_t, State.call, State.emit, State.respond, State.setInfo,
    State.setExt, State.setArgs, List.append_assoc, List.singleton_append,
    List.append_cancel_left_eq, exists_eq_left', List.append_nil, List.self_eq_append_right]
  exact allowed_of_plain rfl

theorem rx_data_T_ok (env : Env X) (s : State X) (tok ta tl : Nat)
    (hI : s.p.response_info.dmaOk) : RxDataOk env s (rx_data_T env s) tok ta tl := by
  refine ⟨rfl, rfl, rfl, rfl, hI, ?_⟩
  simp only [Extends, rx_data_T, State.call, State.emit, State.respond, State.setInfo,
    State.setExt, State.setArgs, List.append_assoc, List.singleton_append,
    List.append_cancel_left_eq, exists_eq_left', List.append_nil, List.self_eq_append_right]
  exact allowed_of_plain rfl

theorem rx_data_D_ok (env : Env X) (s : State X) (tok ta tl : Nat)
    (hI : s.p.response_info.dmaOk) : RxDataOk env s (rx_data_D env s) tok ta tl := by
  refine ⟨rfl, rfl, rfl, rfl, hI, ?_⟩
  simp only [Extends, rx_data_D, State.call, State.emit, State.respond, State.setInfo,
    State.setExt, State.setArgs, List.append_assoc, List.singleton_append,
    List.append_cancel_left_eq, exists_eq_left', List.append_nil, List.self_eq_append_right]
  exact allowed_of_plain rfl

theorem rx_data_W_ok (env : Env X) (s : State X) (tok ta tl : Nat)
    (hI : s.p.response_info.dmaOk) : RxDataOk env s (rx_data_W env s) tok ta tl := by
  refine ⟨rfl, rfl, rfl, rfl, hI, ?_⟩
  simp only [Extends, rx_data_W, State.call, State.emit, State.respond, State.setInfo,
    State.setExt, State.setArgs, List.append_assoc, List.singleton_append,
    List.append_cancel_left_eq, exists_eq_left', List.append_nil, List.self_eq_append_right]
  exact allowed_of_plain rfl

theorem rx_data_debug_ok (env : Env X) (s : State X) (tok ta tl : Nat)
    (hI : s.p.response_info.dmaOk) : RxDataOk env s (rx_data_debug s) tok ta tl := by
  exact ⟨rfl, rfl, rfl, rfl, hI, extends_refl _ allowed_nil⟩

theorem rx_data_stack_ok (env : Env X) (s : State X) (tok ta tl : Nat)
    (hI : s.p.response_info.dmaOk) : RxDataOk env s (rx_data_stack env s) tok ta tl := by
  refine ⟨rfl, rfl, rfl, rfl, hI, ?_⟩
  simp only [Extends, rx_data_stack, State.call, State.emit, State.respond, State.setInfo,
    State.setExt, State.setArgs, List.append_assoc, List.singleton_append,
    List.append_cancel_left_eq, exists_eq_left', List.append_nil, List.self_eq_append_right]
  exact allowed_of_plain rfl

theorem rx_data_default_ok (env : Env X) (s : State X) (tok ta tl : Nat)
    (hI : s.p.response_info.dmaOk) : RxDataOk env s (rx_data_default s) tok ta tl := by
  exact ⟨rfl, rfl, rfl, rfl, hI, extends_refl _ allowed_nil⟩

theorem rx_data_f_ok (env : Env X) (s : State X) (tok ta tl : Nat)
    (hI : s.p.response_info.dmaOk) : RxDataOk env s (rx_data_f env s) tok ta tl := by
  refine ⟨rfl, rfl, rfl, rfl, hI, ?_⟩
  simp only [Extends, rx_data_f, State.call, State.emit, State.respond, State.setInfo,
    State.setExt, State.setArgs, List.append_assoc, List.singleton_append,
    List.append_cancel_left_eq, exists_eq_left', List.append_nil, List.self_eq_append_right]
  exact allowed_of_plain rfl

theorem rx_data_p_ok (env : Env X) (s : State X) (tok ta tl : Nat)
    (hI : s.p.response_info.dmaOk) : RxDataOk env s (rx_data_p env s) tok ta tl := by
  unfold rx_data_p
  by_cases h : s.p.rx_args0 ≠ 0
  · simp only [if_pos h]
    exact ⟨rfl, rfl, rfl, rfl, hI, [Ev.call Collab.flash_wait_busy []], rfl,
      allowed_of_plain rfl⟩
  · simp only [if_neg h]
    exact ⟨rfl, rfl, rfl, rfl, hI, extends_refl _ allowed_nil⟩

theorem rx_data_F_ok (env : Env X) (s : State X) (tok ta tl : Nat)
    (hI : s.p.response_info.dmaOk) : RxDataOk env s (rx_data_F env s) tok ta tl := by
  unfold rx_data_F
  simp only []
  split_ifs with h
  all_goals
    refine ⟨rfl, rfl, rfl, rfl, hI, ?_⟩
    simp only [Extends, State.call, State.emit, State.respond, State.setInfo,
      State.setExt, State.setArgs, List.append_assoc, List.singleton_append,
      List.append_cancel_left_eq, exists_eq_left']
    exact allowed_of_plain rfl

theorem rx_data_m_ok (env : Env X) (s : State X) (tok ta tl : Nat)
    (hI : s.p.response_info.dmaOk) : RxDataOk env s (rx_data_m s) tok ta tl := by
  unfold rx_data_m
  simp only []
  cases hv : usb_validate_address_length s.respond.p.rx_args0 s.respond.p.rx_args1 false
  · rw [if_neg (by simp)]
    exact ⟨rfl, rfl, rfl, rfl, Or.inr hv, extends_refl _ allowed_nil⟩
  · rw [if_pos rfl]
    exact ⟨rfl, rfl, rfl, rfl, hI, extends_refl _ allowed_nil⟩

theorem rx_data_M_ok (env : Env X) (s : State X) (tok ta tl : Nat)
    (hI : s.p.response_info.dmaOk) : RxDataOk env s (rx_data_M s) tok ta tl := by
  unfold rx_data_M
  by_cases h1 : usb_dma_ready s = true
  · rw [if_pos h1]
    by_cases h2 : (!s.p.rx_dma_running) = true
    · rw [if_pos h2]
      cases hv : usb_validate_address_length s.p.rx_args0 s.p.rx_args1 true
      · rw [if_neg (by simp)]
        refine ⟨rfl, rfl, rfl, rfl, hI, ?_⟩
        exact extends_dma_start _ _ _ s (Or.inl (validate_excl_imp _ _ hv))
      · rw [if_pos rfl]
        exact ⟨rfl, rfl, rfl, rfl, hI, extends_refl _ allowed_nil⟩
    · rw [if_neg h2]
      exact ⟨rfl, rfl, rfl, rfl, hI, extends_refl _ allowed_nil⟩
  · rw [if_neg h1]
    exact ⟨rfl, rfl, rfl, rfl, hI, extends_refl _ allowed_nil⟩

theorem rx_data_U_ok (env : Env X) (s : State X) (tok ta tl : Nat)
    (hI : s.p.response_info.dmaOk) (hc : s.p.rx_cmd = 85) :
    RxDataOk env s (rx_data_U s) tok ta tl := by
  unfold rx_data_U
  by_cases h0 : s.p.rx_args1 = 0
  · rw [if_pos h0]
    exact ⟨rfl, rfl, rfl, rfl, hI, extends_refl _ allowed_nil⟩
  · rw [if_neg h0]
    by_cases h1 : usb_dma_ready s = true
    · rw [if_pos h1]
      by_cases h2 : s.p.read_length > 0
      · rw [if_pos h2]
        simp only []
        by_cases h3 : (!s.p.rx_dma_running) = true
        · rw [if_pos h3]
          refine ⟨rfl, rfl, rfl, rfl, hI, ?_⟩
          apply extends_dma_start
          right; right; left
          refine ⟨rfl, hc, rfl, ?_⟩
          simp only []
          split_ifs with h6
          · exact Nat.le_of_lt h6
          · exact le_refl _
        · rw [if_neg h3]
          exact ⟨rfl, rfl, rfl, rfl, hI, [Ev.timer_set DEBUG_WRITE_TIMEOUT_TICKS], rfl,
            allowed_of_plain rfl⟩
      · rw [if_neg h2]
        by_cases h4 : s.w.timer = 0
        · rw [if_pos h4]
          exact ⟨rfl, rfl, rfl, rfl, hI, extends_refl _ allowed_nil⟩
        · rw [if_neg h4]
          exact ⟨rfl, rfl, rfl, rfl, hI, extends_refl _ allowed_nil⟩
    · rw [if_neg h1]
      exact ⟨rfl, rfl, rfl, rfl, hI, extends_refl _ allowed_nil⟩

theorem rx_data_P_ok (env : Env X) (s : State X) (tok ta tl : Nat)
    (hI : s.p.response_info.dmaOk) : RxDataOk env s (rx_data_P env s) tok ta tl := by
  unfold rx_data_P
  cases hv : usb_validate_address_length s.p.rx_args0 (env.FLASH_ERASE_BLOCK_SIZE % U32) true
  · simp only [Bool.false_eq_true, if_false]
    exact ⟨rfl, rfl, rfl, rfl, hI, [Ev.call Collab.flash_erase_block [s.p.rx_args0]], rfl,
      allowed_erase _ hv⟩
  · simp only [if_true]
    exact ⟨rfl, rfl, rfl, rfl, hI, extends_refl _ allowed_nil⟩

theorem rx_data_ok (env : Env X) (s : State X) (tok ta tl : Nat)
    (hI : s.p.response_info.dmaOk) : RxDataOk env s (rx_data env s) tok ta tl := by
  unfold rx_data
  by_cases h : s.p.rx_cmd = 118
  · rw [if_pos h]; exact rx_data_v_ok env s tok ta tl hI
  rw [if_neg h]; clear h
  by_cases h : s.p.rx_cmd = 86
  · rw [if_pos h]; exact rx_data_V_ok env s tok ta tl hI
  rw [if_neg h]; clear h
  by_cases h : s.p.rx_cmd = 82
  · rw [if_pos h]; exact rx_data_R_ok env s tok ta tl hI
  rw [if_neg h]; clear h
  by_cases h : s.p.rx_cmd = 66
  · rw [if_pos h]; exact rx_data_B_ok env s tok ta tl hI
  rw [if_neg h]; clear h
  by_cases h : s.p.rx_cmd = 99
  · rw [if_pos h]; exact rx_data_c_ok env s tok ta tl hI
  rw [if_neg h]; clear h
  by_cases h : s.p.rx_cmd = 67
  · rw [if_pos h]; exact rx_data_C_ok env s tok ta tl hI
  rw [if_neg h]; clear h
  by_cases h : s.p.rx_cmd = 97
  · rw [if_pos h]; exact rx_data_a_ok env s tok ta tl hI
  rw [if_neg h]; clear h
  by_cases h : s.p.rx_cmd = 65
  · rw [if_pos h]; exact rx_data_A_ok env s tok ta tl hI
  rw [if_neg h]; clear h
  by_cases h : s.p.rx_cmd = 116
  · rw [if_pos h]; exact rx_data_t_ok env s tok ta tl hI
  rw [if_neg h]; clear h
  by_cases h : s.p.rx_cmd = 84
  · rw [if_pos h]; exact rx_data_T_ok env s tok ta tl hI
  rw [if_neg h]; clear h
  by_cases h : s.p.rx_cmd = 109
  · rw [if_pos h]; exact rx_data_m_ok env s tok ta tl hI
  rw [if_neg h]; clear h
  by_cases h : s.p.rx_cmd = 77
  · rw [if_pos h]; exact rx_data_M_ok env s tok ta tl hI
  rw [if_neg h]; clear h
  by_cases h : s.p.rx_cmd = 85
  · rw [if_pos h]; exact rx_data_U_ok env s tok ta tl hI h
  rw [if_neg h]; clear h
  by_cases h : s.p.rx_cmd = 68
  · rw [if_pos h]; exact rx_data_D_ok env s tok ta tl hI
  rw [if_neg h]; clear h
  by_cases h : s.p.rx_cmd = 87
  · rw [if_pos h]; exact rx_data_W_ok env s tok ta tl hI
  rw [if_neg h]; clear h
  by_cases h : s.p.rx_cmd = 112
  · rw [if_pos h]; exact rx_data_p_ok env s tok ta tl hI
  rw [if_neg h]; clear h
  by_cases h : s.p.rx_cmd = 80
  · rw [if_pos h]; exact rx_data_P_ok env s tok ta tl hI
  rw [if_neg h]; clear h
  by_cases h : s.p.rx_cmd = 102
  · rw [if_pos h]; exact rx_data_f_ok env s tok ta tl hI
  rw [if_neg h]; clear h
  by_cases h : s.p.rx_cmd = 70
  · rw [if_pos h]; exact rx_data_F_ok env s tok ta tl hI
  rw [if_neg h]; clear h
  by_cases h : s.p.rx_cmd = 63
  · rw [if_pos h]; exact rx_data_debug_ok env s tok ta tl hI
  rw [if_neg h]; clear h
  by_cases h : s.p.rx_cmd = 37
  · rw [if_pos h]; exact rx_data_stack_ok env s tok ta tl hI
  rw [if_neg h]; clear h
  exact rx_data_default_ok env s tok ta tl hI

/-! ## Validation of DMA transfers: the receive machine -/

theorem extends_plain {C : Nat × Nat × DmaScr → Prop} {V : Nat → Prop} {s s1 : State X}
    (h : ∃ evs, s1.w.trace = s.w.trace ++ evs ∧ evs.all Ev.plain = true) :
    Extends s s1 (Allowed C V) := by
  obtain ⟨evs, h1, h2⟩ := h
  exact ⟨evs, h1, allowed_of_plain h2⟩

theorem extends_of_trace_eq {P : List Ev → Prop} {s s1 : State X}
    (h : s1.w.trace = s.w.trace) (hP : P []) : Extends s s1 P :=
  ⟨[], by rw [h, List.append_nil], hP⟩

theorem usb_rx_process_dma (env : Env X) (s : State X) (tok ta tl : Nat)
    (hI : s.p.response_info.dmaOk) :
    (usb_rx_process env s).p.response_info.dmaOk ∧
    (usb_rx_process env s).p.tx_state = s.p.tx_state ∧
    (usb_rx_process env s).p.tx_token = s.p.tx_token ∧
    (usb_rx_process env s).p.tx_info = s.p.tx_info ∧
    Extends s (usb_rx_process env s)
      (Allowed (StartOk (usb_rx_process env s).p.rx_cmd s.p.read_address s.p.read_length
          tok ta tl)
        (fun x =>
          usb_validate_address_length x (env.FLASH_ERASE_BLOCK_SIZE % U32) true = false)) := by
  unfold usb_rx_process
  simp only []
  generalize hs1 : (if s.p.rx_state = RxState.idle then rx_idle s else s) = s1
  generalize hs2 : (if s1.p.rx_state = RxState.args then rx_args s1 else s1) = s2
  generalize hs3 : (if s2.p.rx_state = RxState.data then rx_data env s2 else s2) = s3
  generalize hs4 : (if s3.p.rx_state = RxState.flush then rx_flush env s3 else s3) = s4
  -- Idle block
  have f1 : s1.p.response_info.dmaOk ∧ s1.p.read_address = s.p.read_address ∧
      s1.p.read_length = s.p.read_length ∧ s1.p.tx_state = s.p.tx_state ∧
      s1.p.tx_token = s.p.tx_token ∧ s1.p.tx_info = s.p.tx_info ∧
      ∃ evs, s1.w.trace = s.w.trace ++ evs ∧ evs.all Ev.plain = true := by
    subst hs1
    split_ifs
    · exact rx_idle_dma s hI
    · exact ⟨hI, rfl, rfl, rfl, rfl, rfl, [], by simp, rfl⟩
  obtain ⟨i1, ra1, rl1, ts1, tt1, ti1, e1⟩ := f1
  -- Args block
  have f2 : s2.p.response_info = s1.p.response_info ∧ s2.p.read_address = s1.p.read_address ∧
      s2.p.read_length = s1.p.read_length ∧ s2.p.rx_cmd = s1.p.rx_cmd ∧
      s2.p.tx_state = s1.p.tx_state ∧ s2.p.tx_token = s1.p.tx_token ∧
      s2.p.tx_info = s1.p.tx_info ∧ s2.w.trace = s1.w.trace := by
    subst hs2
    split_ifs
    · exact rx_args_dma s1
    · exact ⟨rfl, rfl, rfl, rfl, rfl, rfl, rfl, rfl⟩
  obtain ⟨i2, ra2, rl2, -, ts2, tt2, ti2, e2⟩ := f2
  -- Data block
  have f3 : RxDataOk env s2 s3 tok ta tl := by
    subst hs3
    split_ifs
    · exact rx_data_ok env s2 tok ta tl (by rw [i2]; exact i1)
    · exact ⟨rfl, rfl, rfl, rfl, by rw [i2]; exact i1, extends_refl _ allowed_nil⟩
  obtain ⟨c3, ts3, tt3, ti3, i3, e3⟩ := f3
  -- Flush block
  have f4 : s4.p.response_info = s3.p.response_info ∧ s4.p.rx_cmd = s3.p.rx_cmd ∧
      s4.p.tx_state = s3.p.tx_state ∧ s4.p.tx_token = s3.p.tx_token ∧
      s4.p.tx_info = s3.p.tx_info ∧
      Extends s3 s4 (Allowed (StartOk s2.p.rx_cmd s2.p.read_address s2.p.read_length tok ta tl)
        (fun x =>
          usb_validate_address_length x (env.FLASH_ERASE_BLOCK_SIZE % U32) true = false)) := by
    subst hs4
    split_ifs
    · exact rx_flush_dma env s3 _ _ _ _ _ _ _
    · exact ⟨rfl, rfl, rfl, rfl, rfl, extends_refl _ allowed_nil⟩
  obtain ⟨i4, c4, ts4, tt4, ti4, e4⟩ := f4
  refine ⟨by rw [i4]; exact i3, by rw [ts4, ts3, ts2, ts1], by rw [tt4, tt3, tt2, tt1],
    by rw [ti4, ti3, ti2, ti1], ?_⟩
  rw [c4, c3, ← ra1, ← rl1, ← ra2, ← rl2]
  exact extends_trans (extends_trans (extends_trans (extends_plain e1)
    (extends_of_trace_eq e2 allowed_nil)) e3) e4

/-! ## Validation of DMA transfers: the transmit machine -/

theorem pushes_plain (bytes : List Nat) : (bytes.map Ev.usb_push).all Ev.plain = true := by
  induction bytes with
  | nil => rfl
  | cons b bs ih => simp [Ev.plain]

theorem tx_idle_dma (s : State X) (hI : DmaInv s.p) :
    DmaInv (tx_idle s).p ∧ (tx_idle s).p.rx_cmd = s.p.rx_cmd ∧
    (tx_idle s).w.trace = s.w.trace := by
  unfold tx_idle
  by_cases h1 : s.p.response_pending = true
  · rw [if_pos h1]
    exact ⟨⟨hI.1, fun _ => Or.inr hI.1⟩, rfl, rfl⟩
  · rw [if_neg h1]
    by_cases h2 : s.p.packet_pending = true
    · rw [if_pos h2]
      exact ⟨⟨hI.1, fun _ => Or.inl rfl⟩, rfl, rfl⟩
    · rw [if_neg h2]
      exact ⟨hI, rfl, rfl⟩

theorem tx_token_dma (s : State X) :
    (tx_token s).p.response_info = s.p.response_info ∧
    (tx_token s).p.rx_cmd = s.p.rx_cmd ∧
    (tx_token s).p.tx_token = s.p.tx_token ∧
    (tx_token s).p.tx_info = s.p.tx_info ∧
    ∃ evs, (tx_token s).w.trace = s.w.trace ++ evs ∧ evs.all Ev.plain = true := by
  unfold tx_token
  simp only []
  generalize hs1 : (if s.p.tx_counter = 0 then
      match usb_tx_word (s.p.tx_token ||| s.p.tx_info.cmd) s with
      | (true, s0) => { s0 with p := { s0.p with tx_counter := (s0.p.tx_counter + 1) % U8 } }
      | (false, s0) => s0
    else s) = s1
  have f1 : s1.p.response_info = s.p.response_info ∧ s1.p.rx_cmd = s.p.rx_cmd ∧
      s1.p.tx_token = s.p.tx_token ∧ s1.p.tx_info = s.p.tx_info ∧
      ∃ evs, s1.w.trace = s.w.trace ++ evs ∧ evs.all Ev.plain = true := by
    subst hs1
    split_ifs
    · obtain ⟨c, sp, bytes, h⟩ := usb_tx_word_frame (s.p.tx_token ||| s.p.tx_info.cmd) s
      rcases hw : usb_tx_word (s.p.tx_token ||| s.p.tx_info.cmd) s with ⟨r, s0⟩
      rw [hw] at h
      simp only [] at h
      subst h
      cases r <;> exact ⟨rfl, rfl, rfl, rfl, _, rfl, pushes_plain bytes⟩
    · exact ⟨rfl, rfl, rfl, rfl, [], by simp, rfl⟩
  obtain ⟨a1, a2, a3, a4, e1, ht1, hp1⟩ := f1
  split_ifs
  · obtain ⟨c, sp, bytes, h⟩ :=
      usb_tx_word_frame ((s1.p.tx_info.data_length + s1.p.tx_info.dma_length) % U32) s1
    rcases hw : usb_tx_word ((s1.p.tx_info.data_length + s1.p.tx_info.dma_length) % U32) s1
      with ⟨r, s2⟩
    rw [hw] at h
    simp only [] at h
    subst h
    cases r <;>
      exact ⟨a1, a2, a3, a4, e1 ++ bytes.map Ev.usb_push,
        by simp only [ht1, List.append_assoc],
        by rw [List.all_append, hp1, pushes_plain]; rfl⟩
  · exact ⟨a1, a2, a3, a4, e1, ht1, hp1⟩

theorem tx_data_dma (s : State X) :
    (tx_data s).p.response_info = s.p.response_info ∧
    (tx_data s).p.rx_cmd = s.p.rx_cmd ∧
    (tx_data s).p.tx_token = s.p.tx_token ∧
    (tx_data s).p.tx_info = s.p.tx_info ∧
    ∃ evs, (tx_data s).w.trace = s.w.trace ++ evs ∧ evs.all Ev.plain = true := by
  unfold tx_data
  split_ifs
  · obtain ⟨st, cnt, c, sp, bytes, h, -⟩ := tx_data_loop_frame s.w.tx_space s
    rw [h]
    exact ⟨rfl, rfl, rfl, rfl, _, rfl, pushes_plain bytes⟩
  · exact ⟨rfl, rfl, rfl, rfl, [], by simp, rfl⟩

theorem tx_dma_dma (s : State X) (cmd ra rl : Nat) (V : Nat → Prop)
    (hI : s.p.tx_token = PKT_TOKEN ∨ s.p.tx_info.dmaOk) :
    (tx_dma s).p.response_info = s.p.response_info ∧
    (tx_dma s).p.rx_cmd = s.p.rx_cmd ∧
    (tx_dma s).p.tx_token = s.p.tx_token ∧
    (tx_dma s).p.tx_info = s.p.tx_info ∧
    Extends s (tx_dma s)
      (Allowed (StartOk cmd ra rl s.p.tx_token s.p.tx_info.dma_address s.p.tx_info.dma_length)
        V) := by
  unfold tx_dma
  by_cases h1 : s.p.tx_info.dma_length > 0
  · rw [if_pos h1]
    by_cases h2 : usb_dma_ready s = true
    · rw [if_pos h2]
      by_cases h3 : (!s.p.tx_dma_running) = true
      · rw [if_pos h3]
        refine ⟨rfl, rfl, rfl, rfl, ?_⟩
        obtain ⟨evs, ht, ha⟩ := extends_dma_start
          (C := StartOk cmd ra rl s.p.tx_token s.p.tx_info.dma_address s.p.tx_info.dma_length)
          (V := V) s.p.tx_info.dma_address s.p.tx_info.dma_length DmaScr.START
          { s with p := { s.p with tx_dma_running := true } }
          (by
            rcases hI with hI | hI
            · exact Or.inr (Or.inr (Or.inr ⟨rfl, hI, rfl, rfl⟩))
            · rcases hI with hI | hI
              · exact absurd hI (Nat.pos_iff_ne_zero.mp h1)
              · exact Or.inl hI)
        exact ⟨evs, ht, ha⟩
      · rw [if_neg h3]
        exact ⟨rfl, rfl, rfl, rfl, extends_refl _ allowed_nil⟩
    · rw [if_neg h2]
      exact ⟨rfl, rfl, rfl, rfl, extends_refl _ allowed_nil⟩
  · rw [if_neg h1]
    exact ⟨rfl, rfl, rfl, rfl, extends_refl _ allowed_nil⟩

theorem tx_flush_none (env : Env X) (s : State X) (h : s.p.tx_info.done_callback = none) :
    tx_flush env s =
      { p := { s.p with tx_state := TxState.idle },
        w := { s.w with trace := s.w.trace ++ [Ev.reg_set_usb_scr UsbScr.WRITE_FLUSH] } } := by
  simp [tx_flush, State.emit, h]

theorem tx_flush_some (env : Env X) (s : State X) (cb : Callback)
    (h : s.p.tx_info.done_callback = some cb) :
    tx_flush env s =
      { p := { s.p with tx_state := TxState.idle },
        w := { s.w with
          trace := s.w.trace ++ [Ev.reg_set_usb_scr UsbScr.WRITE_FLUSH, Ev.done_callback cb],
          ext := env.run_callback cb s.w.ext } } := by
  simp [tx_flush, State.emit, h, run_done_callback, State.setExt]

theorem tx_flush_dma (env : Env X) (s : State X) :
    (tx_flush env s).p.response_info = s.p.response_info ∧
    (tx_flush env s).p.rx_cmd = s.p.rx_cmd ∧
    (tx_flush env s).p.tx_token = s.p.tx_token ∧
    (tx_flush env s).p.tx_info = s.p.tx_info ∧
    (tx_flush env s).p.tx_state = TxState.idle ∧
    ∃ evs, (tx_flush env s).w.trace = s.w.trace ++ evs ∧ evs.all Ev.plain = true := by
  cases h : s.p.tx_info.done_callback with
  | none =>
    rw [tx_flush_none env s h]
    exact ⟨rfl, rfl, rfl, rfl, rfl, _, rfl, rfl⟩
  | some cb =>
    rw [tx_flush_some env s cb h]
    exact ⟨rfl, rfl, rfl, rfl, rfl, _, rfl, rfl⟩

theorem usb_tx_process_dma (env : Env X) (s : State X) (cmd ra rl : Nat) (V : Nat → Prop)
    (hI : DmaInv s.p) :
    DmaInv (usb_tx_process env s).p ∧
    (usb_tx_process env s).p.rx_cmd = s.p.rx_cmd ∧
    Extends s (usb_tx_process env s)
      (Allowed (StartOk cmd ra rl (usb_tx_process env s).p.tx_token
        (usb_tx_process env s).p.tx_info.dma_address
        (usb_tx_process env s).p.tx_info.dma_length) V) := by
  unfold usb_tx_process
  simp only []
  generalize hs1 : (if s.p.tx_state = TxState.idle then tx_idle s else s) = s1
  have f1 : DmaInv s1.p ∧ s1.p.rx_cmd = s.p.rx_cmd ∧ s1.w.trace = s.w.trace := by
    subst hs1
    split_ifs
    · exact tx_idle_dma s hI
    · exact ⟨hI, rfl, rfl⟩
  obtain ⟨i1, c1, e1⟩ := f1
  by_cases hidle : s1.p.tx_state = TxState.idle
  · simp only [hidle, if_false, reduceCtorEq]
    exact ⟨i1, c1, extends_of_trace_eq e1 allowed_nil⟩
  · have K := i1.2 hidle
    generalize hs2 : (if s1.p.tx_state = TxState.token then tx_token s1 else s1) = s2
    generalize hs3 : (if s2.p.tx_state = TxState.data then tx_data s2 else s2) = s3
    generalize hs4 : (if s3.p.tx_state = TxState.dma then tx_dma s3 else s3) = s4
    generalize hs5 : (if s4.p.tx_state = TxState.flush then tx_flush env s4 else s4) = s5
    have f2 : s2.p.response_info = s1.p.response_info ∧ s2.p.rx_cmd = s1.p.rx_cmd ∧
        s2.p.tx_token = s1.p.tx_token ∧ s2.p.tx_info = s1.p.tx_info ∧
        ∃ evs, s2.w.trace = s1.w.trace ++ evs ∧ evs.all Ev.plain = true := by
      subst hs2
      split_ifs
      · exact tx_token_dma s1
      · exact ⟨rfl, rfl, rfl, rfl, [], by simp, rfl⟩
    obtain ⟨i2, c2, t2, n2, e2⟩ := f2
    have f3 : s3.p.response_info = s2.p.response_info ∧ s3.p.rx_cmd = s2.p.rx_cmd ∧
        s3.p.tx_token = s2.p.tx_token ∧ s3.p.tx_info = s2.p.tx_info ∧
        ∃ evs, s3.w.trace = s2.w.trace ++ evs ∧ evs.all Ev.plain = true := by
      subst hs3
      split_ifs
      · exact tx_data_dma s2
      · exact ⟨rfl, rfl, rfl, rfl, [], by simp, rfl⟩
    obtain ⟨i3, c3, t3, n3, e3⟩ := f3
    have K3 : s3.p.tx_token = PKT_TOKEN ∨ s3.p.tx_info.dmaOk := by
      rw [t3, t2, n3, n2]; exact K
    have f4 : s4.p.response_info = s3.p.response_info ∧ s4.p.rx_cmd = s3.p.rx_cmd ∧
        s4.p.tx_token = s3.p.tx_token ∧ s4.p.tx_info = s3.p.tx_info ∧
        Extends s3 s4 (Allowed (StartOk cmd ra rl s3.p.tx_token s3.p.tx_info.dma_address
          s3.p.tx_info.dma_length) V) := by
      subst hs4
      split_ifs
      · exact tx_dma_dma s3 cmd ra rl V K3
      · exact ⟨rfl, rfl, rfl, rfl, extends_refl _ allowed_nil⟩
    obtain ⟨i4, c4, t4, n4, e4⟩ := f4
    have f5 : s5.p.response_info = s4.p.response_info ∧ s5.p.rx_cmd = s4.p.rx_cmd ∧
        s5.p.tx_token = s4.p.tx_token ∧ s5.p.tx_info = s4.p.tx_info ∧
        ∃ evs, s5.w.trace = s4.w.trace ++ evs ∧ evs.all Ev.plain = true := by
      subst hs5
      split_ifs
      · obtain ⟨a, b, c, d, -, e⟩ := tx_flush_dma env s4
        exact ⟨a, b, c, d, e⟩
      · exact ⟨rfl, rfl, rfl, rfl, [], by simp, rfl⟩
    obtain ⟨i5, c5, t5, n5, e5⟩ := f5
    refine ⟨⟨by rw [i5, i4, i3, i2]; exact i1.1, fun _ => by rw [t5, t4, n5, n4]; exact K3⟩,
      by rw [c5, c4, c3, c2, c1], ?_⟩
    rw [t5, t4, n5, n4]
    exact extends_trans (extends_trans (extends_trans (extends_trans
      (extends_of_trace_eq e1 allowed_nil) (extends_plain e2)) (extends_plain e3)) e4)
      (extends_plain e5)

theorem usb_init_dma (s : State X) (hI : DmaInv s.p) :
    DmaInv (usb_init s).p ∧
    ∃ evs, (usb_init s).w.trace = s.w.trace ++ evs ∧ evs.all Ev.plain = true := by
  refine ⟨⟨hI.1, fun h => absurd rfl h⟩, [Ev.reg_set_dma_scr DmaScr.STOP,
    Ev.reg_set_usb_scr UsbScr.FIFO_FLUSH], ?_, rfl⟩
  simp [usb_init, State.emit]

theorem run_done_callback_plain (env : Env X) (cb : Callback) (s : State X) :
    (run_done_callback env cb s).p = s.p ∧
    ∃ evs, (run_done_callback env cb s).w.trace = s.w.trace ++ evs ∧
      evs.all Ev.plain = true :=
  ⟨rfl, [Ev.done_callback cb], rfl, rfl⟩

theorem usb_process_dma (env : Env X) (s : State X) (hI : DmaInv s.p) :
    DmaInv (usb_process env s).p ∧
    Extends s (usb_process env s)
      (Allowed (StartOk (usb_process env s).p.rx_cmd s.p.read_address s.p.read_length
          (usb_process env s).p.tx_token (usb_process env s).p.tx_info.dma_address
          (usb_process env s).p.tx_info.dma_length)
        (fun x =>
          usb_validate_address_length x (env.FLASH_ERASE_BLOCK_SIZE % U32) true = false)) := by
  unfold usb_process
  by_cases hl : (s.w.scr_pwrsav || s.w.scr_reset_state || s.w.scr_reset_pending) = true
  · rw [if_pos hl]
    simp only []
    generalize hs1 : (match s.p.packet_pending, s.p.packet_info.done_callback with
      | true, some cb =>
        run_done_callback env cb { s with p := { s.p with packet_pending := false } }
      | _, _ => s) = s1
    have f1 : DmaInv s1.p ∧
        ∃ evs, s1.w.trace = s.w.trace ++ evs ∧ evs.all Ev.plain = true := by
      subst hs1
      split
      · exact ⟨hI, [_], rfl, rfl⟩
      · exact ⟨hI, [], by simp, rfl⟩
    obtain ⟨i1, e1⟩ := f1
    split_ifs
    · generalize hs2 : (match s1.p.tx_state, s1.p.tx_info.done_callback with
        | TxState.idle, _ => s1
        | _, some cb => run_done_callback env cb s1
        | _, none => s1) = s2
      have f2 : DmaInv s2.p ∧
          ∃ evs, s2.w.trace = s1.w.trace ++ evs ∧ evs.all Ev.plain = true := by
        subst hs2
        split
        · exact ⟨i1, [], by simp, rfl⟩
        · exact ⟨i1, [_], rfl, rfl⟩
        · exact ⟨i1, [], by simp, rfl⟩
      obtain ⟨i2, e2⟩ := f2
      obtain ⟨i3, e3⟩ := usb_init_dma s2 i2
      refine ⟨i3, ?_⟩
      exact extends_trans (extends_trans (extends_trans (extends_plain e1) (extends_plain e2))
        (extends_plain e3)) (extends_plain ⟨[Ev.reg_set_usb_scr UsbScr.RESET_ACK], rfl, rfl⟩)
    · exact ⟨i1, extends_plain e1⟩
  · rw [if_neg hl]
    obtain ⟨i1, ts, tt, ti, e1⟩ := usb_rx_process_dma env s
      (usb_tx_process env (usb_rx_process env s)).p.tx_token
      (usb_tx_process env (usb_rx_process env s)).p.tx_info.dma_address
      (usb_tx_process env (usb_rx_process env s)).p.tx_info.dma_length hI.1
    have hI1 : DmaInv (usb_rx_process env s).p := ⟨i1, by rw [ts, tt, ti]; exact hI.2⟩
    obtain ⟨i2, c2, e2⟩ := usb_tx_process_dma env (usb_rx_process env s)
      (usb_rx_process env s).p.rx_cmd s.p.read_address s.p.read_length
      (fun x => usb_validate_address_length x (env.FLASH_ERASE_BLOCK_SIZE % U32) true = false)
      hI1
    refine ⟨i2, ?_⟩
    rw [c2]
    exact extends_trans e1 e2

theorem reachable_dmaInv (env : Env X) (s : State X) (h : Reachable env s) : DmaInv s.p := by
  induction h with
  | init w => exact ⟨Or.inl rfl, fun h => absurd rfl h⟩
  | tick _ ih => exact (usb_process_dma env _ ih).1
  | prepare_read a l _ _ _ ih =>
    unfold usb_prepare_read
    split_ifs <;> exact ih
  | enqueue_packet info _ ih =>
    unfold usb_enqueue_packet
    split_ifs <;> exact ih
  | hardware w _ _ ih => exact ih

/-- C3 (amended): in every state reachable from `usb_init`, every DMA transfer
started by a `usb_process` tick has passed bounds validation
(`usb_validate_address_length(address, length, false)` returns ok), except
(i) the scratch transfers of the Flush state, which go into memory at
`RX_FLUSH_ADDRESS` with at most `RX_FLUSH_LENGTH` bytes, (ii) stream-write
chunks (opcode `'U'`), which go into memory at the cursor `read_address` with at
most `read_length` bytes as set through `usb_prepare_read`, and (iii) the
out-of-memory transfer of a notification (token `PKT_TOKEN`), which is the
`(dma_address, dma_length)` of the descriptor given to `usb_enqueue_packet`;
and every address passed to `flash_erase_block` has passed validation for
`FLASH_ERASE_BLOCK_SIZE` bytes with the bootloader excluded. -/
theorem c3_dma_starts_classified (env : Env X) (s : State X) (hr : Reachable env s)
    (evs : List Ev) (ht : (usb_process env s).w.trace = s.w.trace ++ evs) :
    (∀ a l, ∀ st ∈ dma_starts evs a l,
      usb_validate_address_length st.1 st.2.1 false = false ∨
      (st.2.2 = DmaScr.DIRECTION_START ∧ st.1 = RX_FLUSH_ADDRESS ∧
        st.2.1 ≤ RX_FLUSH_LENGTH) ∨
      (st.2.2 = DmaScr.DIRECTION_START ∧ (usb_process env s).p.rx_cmd = 85 ∧
        st.1 = s.p.read_address ∧ st.2.1 ≤ s.p.read_length) ∨
      (st.2.2 = DmaScr.START ∧ (usb_process env s).p.tx_token = PKT_TOKEN ∧
        st.1 = (usb_process env s).p.tx_info.dma_address ∧
        st.2.1 = (usb_process env s).p.tx_info.dma_length)) ∧
    (∀ x, Ev.call Collab.flash_erase_block [x] ∈ evs →
      usb_validate_address_length x (env.FLASH_ERASE_BLOCK_SIZE % U32) true = false) := by
  obtain ⟨-, evs1, ht1, ha⟩ := usb_process_dma env s (reachable_dmaInv env s hr)
  rw [ht1] at ht
  have := List.append_cancel_left ht
  subst this
  exact ha

/-- Witness for C3 (amended): after boot, the tick that receives a memory-write
of 16 bytes at address 0 starts exactly that transfer, and it is a validated one. -/
theorem c3_dma_starts_classified_witness :
    (0, 16, DmaScr.DIRECTION_START) ∈
      dma_starts [Ev.reg_set_dma_address 0, Ev.reg_set_dma_length 16,
        Ev.reg_set_dma_scr DmaScr.DIRECTION_START] 0 0 ∧
    usb_validate_address_length 0 16 false = false := by
  have h := (c3_dma_starts_classified Env.sample State.pendingWrite (Reachable.init _)
    [Ev.reg_set_dma_address 0, Ev.reg_set_dma_length 16,
      Ev.reg_set_dma_scr DmaScr.DIRECTION_START] (by decide)).1 0 0
    (0, 16, DmaScr.DIRECTION_START) (by decide)
  refine ⟨by decide, ?_⟩
  rcases h with h | h | h | h
  · exact h
  · exact absurd h.2.1 (by decide)
  · exact absurd h.2.1 (by decide)
  · exact absurd h.1 (by decide)

/-! ## Gating of the scanner, notification queue, staging buffer -/

/-- C8: when the receive machine is Idle and a response is pending,
`usb_rx_process` leaves the whole state unchanged, whatever the inbound FIFO
holds: no byte is popped and no receive field, cursor or descriptor changes.
Hence a call from Idle that changes anything started with `response_pending`
false. -/
theorem c8_scanner_inert_while_response_pending (env : Env X) (s : State X)
    (hidle : s.p.rx_state = RxState.idle) :
    (s.p.response_pending = true → usb_rx_process env s = s) ∧
    (usb_rx_process env s ≠ s → s.p.response_pending = false) := by
  have h : s.p.response_pending = true → usb_rx_process env s = s := by
    intro hp
    simp [usb_rx_process, hidle, rx_idle, hp]
  refine ⟨h, fun hne => ?_⟩
  cases hp : s.p.response_pending
  · rfl
  · exact absurd (h hp) hne

/-- Witness for C8: with a response pending and a whole query-id request in the
inbound FIFO, `usb_rx_process` changes nothing. -/
theorem c8_scanner_inert_while_response_pending_witness :
    usb_rx_process Env.sample State.responsePending = State.responsePending ∧
    (usb_rx_process Env.sample State.responsePending).w.rx =
      [67, 77, 68, 118, 0, 0, 0, 0, 0, 0, 0, 0] :=
  have h := (c8_scanner_inert_while_response_pending Env.sample State.responsePending
    (by decide)).1 (by decide)
  ⟨h, by rw [h]; decide⟩

/-- C9: if a notification is pending, `usb_enqueue_packet` returns false and
leaves the whole state unchanged; if none is pending it returns true, sets
`packet_pending`, stores `info` in `packet_info` and changes nothing else.  A
second call right after any call fails and changes nothing, whatever
descriptor it is given, so the stored copy does not follow the caller. -/
theorem c9_enqueue_packet (info info2 : TxInfo) (p : Process) :
    (p.packet_pending = true → usb_enqueue_packet info p = (false, p)) ∧
    (p.packet_pending = false →
      usb_enqueue_packet info p =
        (true, { p with packet_pending := true, packet_info := info })) ∧
    usb_enqueue_packet info2 (usb_enqueue_packet info p).2 =
      (false, (usb_enqueue_packet info p).2) := by
  refine ⟨fun h => ?_, fun h => ?_, ?_⟩
  · simp [usb_enqueue_packet, h]
  · simp [usb_enqueue_packet, h]
  · cases h : p.packet_pending <;> simp [usb_enqueue_packet, h]

/-- Witness for C9: enqueueing into the empty slot after boot succeeds and
stores the descriptor; the next attempt fails. -/
theorem c9_enqueue_packet_witness :
    (usb_enqueue_packet TxInfo.sample (State.boot [] 64).p).1 = true ∧
    (usb_enqueue_packet TxInfo.sample (State.boot [] 64).p).2.packet_info = TxInfo.sample ∧
    (usb_enqueue_packet TxInfo.zero
      (usb_enqueue_packet TxInfo.sample (State.boot [] 64).p).2).1 = false := by
  have h := c9_enqueue_packet TxInfo.sample TxInfo.zero (State.boot [] 64).p
  have h1 := h.2.1 (by decide)
  refine ⟨by rw [h1], by rw [h1], by rw [h.2.2]⟩

/-- C10 (as stated, refuted): after boot a first `usb_prepare_read` succeeds and
leaves `read_ready` true, and a second one right after it succeeds as well and
overwrites the capacity and the cursor. -/
theorem c10_counterexample :
    (usb_prepare_read 0x1000 16 (State.boot [] 64).p).1 = true ∧
    (usb_prepare_read 0x1000 16 (State.boot [] 64).p).2.read_ready = true ∧
    (usb_prepare_read 0x2000 32 (usb_prepare_read 0x1000 16 (State.boot [] 64).p).2).1 = true ∧
    (usb_prepare_read 0x2000 32
      (usb_prepare_read 0x1000 16 (State.boot [] 64).p).2).2.read_length = 32 ∧
    (usb_prepare_read 0x2000 32
      (usb_prepare_read 0x1000 16 (State.boot [] 64).p).2).2.read_address = 0x2000 := by
  decide

/-- C10 (amended): `usb_prepare_read` returns true if and only if `read_ready` is
true; on failure the state is unchanged; on success it sets
`read_length = length` and `read_address = address` and changes nothing else,
so `read_ready` is still true afterwards and a second call right after a
successful one succeeds too and overwrites the capacity and cursor. -/
theorem c10_prepare_read (address length address2 length2 : Nat) (p : Process) :
    ((usb_prepare_read address length p).1 = true ↔ p.read_ready = true) ∧
    (p.read_ready = false → usb_prepare_read address length p = (false, p)) ∧
    (p.read_ready = true →
      usb_prepare_read address length p =
        (true, { p with read_length := length, read_address := address }) ∧
      (usb_prepare_read address length p).2.read_ready = true ∧
      usb_prepare_read address2 length2 (usb_prepare_read address length p).2 =
        (true, { p with read_length := length2, read_address := address2 })) := by
  cases h : p.read_ready <;> simp [usb_prepare_read, h]

/-- Witness for C10 (amended): the staging buffer is acquired after boot. -/
theorem c10_prepare_read_witness :
    usb_prepare_read 0x1000 16 (State.boot [] 64).p =
      (true, { (State.boot [] 64).p with read_length := 16, read_address := 0x1000 }) :=
  ((c10_prepare_read 0x1000 16 0 0 (State.boot [] 64).p).2.2 (by decide)).1

/-! ## One request, one tick -/

theorem usb_rx_cmd_marker (s : State X) (op : Nat) (rest : List Nat)
    (hc : s.p.usb_rx_cmd_counter = 0) (hrx : s.w.rx = 67 :: 77 :: 68 :: op :: rest) :
    usb_rx_cmd s = (some (op % U8), { s with w := { s.w with rx := rest } }) := by
  rcases s with ⟨p, w⟩
  cases p
  cases w
  simp only at hc hrx
  subst hc hrx
  simp [usb_rx_cmd, usb_rx_cmd_loop, usb_rx_byte, CMD_TOKEN, U8]

theorem usb_rx_word_four (s : State X) (b0 b1 b2 b3 : Nat) (rest : List Nat)
    (hc : s.p.usb_rx_word_counter = 0) (hb : s.p.usb_rx_word_buffer = 0)
    (hrx : s.w.rx = b0 :: b1 :: b2 :: b3 :: rest) :
    usb_rx_word s =
      (some (rx_word_value b0 b1 b2 b3), { s with w := { s.w with rx := rest } }) := by
  rcases s with ⟨p, w⟩
  cases p
  cases w
  simp only at hc hb hrx
  subst hc hb hrx
  simp [usb_rx_word, usb_rx_word_loop, usb_rx_byte, rx_word_value, U8]

theorem rx_args_eight (s : State X) (a0 a1 a2 a3 a4 a5 a6 a7 : Nat) (rest : List Nat)
    (hn : s.p.rx_counter = 0)
    (hc : s.p.usb_rx_word_counter = 0) (hb : s.p.usb_rx_word_buffer = 0)
    (hrx : s.w.rx = a0 :: a1 :: a2 :: a3 :: a4 :: a5 :: a6 :: a7 :: rest) :
    rx_args s =
      { p := { s.p with rx_state := RxState.data,
                        rx_args0 := rx_word_value a0 a1 a2 a3,
                        rx_args1 := rx_word_value a4 a5 a6 a7 },
        w := { s.w with rx := rest } } := by
  have h1 := usb_rx_word_four s a0 a1 a2 a3 (a4 :: a5 :: a6 :: a7 :: rest) hc hb hrx
  have h2 := usb_rx_word_four
    { p := { set_rx_arg s.p (rx_word_value a0 a1 a2 a3) with rx_counter := 1 },
      w := { s.w with rx := a4 :: a5 :: a6 :: a7 :: rest } } a4 a5 a6 a7 rest
    (by simp [set_rx_arg, hn, hc]) (by simp [set_rx_arg, hn, hb]) rfl
  rcases s with ⟨p, w⟩
  cases p
  cases w
  simp only at hn hc hb hrx h1 h2
  subst hn hc hb hrx
  simp only [rx_args, List.length_cons, rx_args_loop, h1]
  simp [set_rx_arg, U8] at h2 ⊢
  simp [rx_args_loop, h2, set_rx_arg, U8]

theorem usb_tx_word_full (data : Nat) (s : State X) (m : Nat)
    (hc : s.p.usb_tx_word_counter = 0) (hsp : s.w.tx_space = m + 4) :
    usb_tx_word data s =
      (true, { s with w := { s.w with tx_space := m,
                                      trace := s.w.trace ++ (tx_word_bytes data).map Ev.usb_push } }) := by
  rcases s with ⟨p, w⟩
  cases p
  cases w
  simp only at hc hsp
  subst hc hsp
  simp [usb_tx_word, usb_tx_word_loop, usb_tx_byte, tx_word_bytes, U8]

theorem usb_tx_process_one_word (env : Env X) (s : State X) (m : Nat)
    (hts : s.p.tx_state = TxState.idle) (hrp : s.p.response_pending = true)
    (hdl : s.p.response_info.data_length = 4) (hml : s.p.response_info.dma_length = 0)
    (hcb : s.p.response_info.done_callback = none)
    (hc : s.p.usb_tx_word_counter = 0) (hsp : s.w.tx_space = m + 12) :
    usb_tx_process env s =
      { p := { s.p with
          response_pending := false,
          tx_counter := 0,
          tx_info := s.p.response_info,
          tx_token := if s.p.response_error then ERR_TOKEN else CMP_TOKEN,
          tx_dma_running := false },
        w := { s.w with
          tx_space := m,
          trace := s.w.trace ++
            (tx_word_bytes ((if s.p.response_error then ERR_TOKEN else CMP_TOKEN) |||
                s.p.response_info.cmd) ++
              tx_word_bytes 4 ++ tx_word_bytes s.p.response_info.data0).map Ev.usb_push ++
            [Ev.reg_set_usb_scr UsbScr.WRITE_FLUSH] } } := by
  rcases s with ⟨p, w⟩
  cases p
  cases w
  simp only at hts hrp hdl hml hcb hc hsp
  subst hts hrp hc hsp
  simp [hdl, hml, hcb, usb_tx_process, tx_idle, tx_token, tx_data, tx_data_loop, tx_dma, tx_flush,
    usb_tx_word, usb_tx_word_loop, usb_tx_byte, tx_word_bytes, U8, U32, State.emit,
    TxInfo.data]

theorem usb_tx_process_no_word (env : Env X) (s : State X) (m : Nat)
    (hts : s.p.tx_state = TxState.idle) (hrp : s.p.response_pending = true)
    (hdl : s.p.response_info.data_length = 0) (hml : s.p.response_info.dma_length = 0)
    (hcb : s.p.response_info.done_callback = none)
    (hc : s.p.usb_tx_word_counter = 0) (hsp : s.w.tx_space = m + 8) :
    usb_tx_process env s =
      { p := { s.p with
          response_pending := false,
          tx_counter := 0,
          tx_info := s.p.response_info,
          tx_token := if s.p.response_error then ERR_TOKEN else CMP_TOKEN,
          tx_dma_running := false },
        w := { s.w with
          tx_space := m,
          trace := s.w.trace ++
            (tx_word_bytes ((if s.p.response_error then ERR_TOKEN else CMP_TOKEN) |||
                s.p.response_info.cmd) ++ tx_word_bytes 0).map Ev.usb_push ++
            [Ev.reg_set_usb_scr UsbScr.WRITE_FLUSH] } } := by
  rcases s with ⟨p, w⟩
  cases p
  cases w
  simp only at hts hrp hdl hml hcb hc hsp
  subst hts hrp hc hsp
  simp [hdl, hml, hcb, usb_tx_process, tx_idle, tx_token, tx_data, tx_dma, tx_flush,
    usb_tx_word, usb_tx_word_loop, usb_tx_byte, tx_word_bytes, U8, U32, State.emit]

/-- The Data-state the Idle and Args blocks produce from a whole request. -/
theorem usb_rx_process_request (env : Env X) (s : State X) (op a0 a1 a2 a3 a4 a5 a6 a7 : Nat)
    (rest : List Nat)
    (hst : s.p.rx_state = RxState.idle) (hrp : s.p.response_pending = false)
    (hcc : s.p.usb_rx_cmd_counter = 0)
    (hc : s.p.usb_rx_word_counter = 0) (hb : s.p.usb_rx_word_buffer = 0)
    (hop : op < 256) (hU : op ≠ 85)
    (hrx : s.w.rx = 67 :: 77 :: 68 :: op :: a0 :: a1 :: a2 :: a3 :: a4 :: a5 :: a6 :: a7 :: rest) :
    usb_rx_process env s =
      (if (rx_data env
            { p := { s.p with
                rx_state := RxState.data, rx_cmd := op, rx_counter := 0,
                rx_dma_running := false, flush_response := false, flush_packet := false,
                response_error := false,
                response_info := { s.p.response_info with
                  cmd := op, data_length := 0, dma_length := 0, done_callback := none },
                rx_args0 := rx_word_value a0 a1 a2 a3,
                rx_args1 := rx_word_value a4 a5 a6 a7 },
              w := { s.w with rx := rest } }).p.rx_state = RxState.flush
       then rx_flush env (rx_data env
            { p := { s.p with
                rx_state := RxState.data, rx_cmd := op, rx_counter := 0,
                rx_dma_running := false, flush_response := false, flush_packet := false,
                response_error := false,
                response_info := { s.p.response_info with
                  cmd := op, data_length := 0, dma_length := 0, done_callback := none },
                rx_args0 := rx_word_value a0 a1 a2 a3,
                rx_args1 := rx_word_value a4 a5 a6 a7 },
              w := { s.w with rx := rest } })
       else rx_data env
            { p := { s.p with
                rx_state := RxState.data, rx_cmd := op, rx_counter := 0,
                rx_dma_running := false, flush_response := false, flush_packet := false,
                response_error := false,
                response_info := { s.p.response_info with
                  cmd := op, data_length := 0, dma_length := 0, done_callback := none },
                rx_args0 := rx_word_value a0 a1 a2 a3,
                rx_args1 := rx_word_value a4 a5 a6 a7 },
              w := { s.w with rx := rest } }) := by
  have hm := usb_rx_cmd_marker s op (a0 :: a1 :: a2 :: a3 :: a4 :: a5 :: a6 :: a7 :: rest)
    hcc hrx
  have hidle : rx_idle s =
      { p := { s.p with
          rx_state := RxState.args, rx_cmd := op, rx_counter := 0,
          rx_dma_running := false, flush_response := false, flush_packet := false,
          response_error := false,
          response_info := { s.p.response_info with
            cmd := op, data_length := 0, dma_length := 0, done_callback := none } },
        w := { s.w with rx := a0 :: a1 :: a2 :: a3 :: a4 :: a5 :: a6 :: a7 :: rest } } := by
    simp [rx_idle, hrp, hm, U8, Nat.mod_eq_of_lt hop, hU]
  have hargs := rx_args_eight (rx_idle s) a0 a1 a2 a3 a4 a5 a6 a7 rest
    (by rw [hidle]) (by rw [hidle]; exact hc) (by rw [hidle]; exact hb) (by rw [hidle])
  unfold usb_rx_process
  simp only [hst, if_true]
  rw [hargs, hidle]
  simp

theorem token_or_cmd (tok cmd : Nat) (h : cmd < 256) :
    (256 * tok) ||| cmd = 256 * tok + cmd :=
  (Nat.mul_add_lt_is_or (i := 8) (by simpa using h) tok).symm

theorem tx_word_bytes_err (op : Nat) (h : op < 256) :
    tx_word_bytes (ERR_TOKEN ||| op) = [0x45, 0x52, 0x52, op] := by
  have : ERR_TOKEN = 256 * 0x455252 := by decide
  rw [this, token_or_cmd _ _ h]
  simp only [tx_word_bytes, U8, Nat.shiftRight_eq_div_pow]
  norm_num
  refine ⟨?_, ?_, ?_, ?_⟩ <;> omega

theorem tx_word_bytes_cmp (op : Nat) (h : op < 256) :
    tx_word_bytes (CMP_TOKEN ||| op) = [0x43, 0x4D, 0x50, op] := by
  have : CMP_TOKEN = 256 * 0x434D50 := by decide
  rw [this, token_or_cmd _ _ h]
  simp only [tx_word_bytes, U8, Nat.shiftRight_eq_div_pow]
  norm_num
  refine ⟨?_, ?_, ?_, ?_⟩ <;> omega

theorem rx_data_unknown (env : Env X) (s : State X)
    (h : s.p.rx_cmd ∉ [118, 86, 82, 66, 99, 67, 97, 65, 116, 84, 109, 77, 85, 68, 87, 112, 80,
      102, 70, 63, 37]) :
    rx_data env s = rx_data_default s := by
  simp only [List.mem_cons, List.mem_singleton, List.not_mem_nil, not_or, or_false] at h
  obtain ⟨h1, h2, h3, h4, h5, h6, h7, h8, h9, h10, h11, h12, h13, h14, h15, h16, h17, h18,
    h19, h20, h21⟩ := h
  unfold rx_data
  rw [if_neg h1, if_neg h2, if_neg h3, if_neg h4, if_neg h5, if_neg h6, if_neg h7, if_neg h8,
    if_neg h9, if_neg h10, if_neg h11, if_neg h12, if_neg h13, if_neg h14, if_neg h15,
    if_neg h16, if_neg h17, if_neg h18, if_neg h19, if_neg h20, if_neg h21]

/-- C6: after `usb_init`, with the link up, the bytes `'C','M','D',op` and
eight argument bytes in the inbound FIFO and room for 12 bytes in the outbound
FIFO, one `usb_process` tick for an opcode `op` outside the opcode table emits
exactly the 12 bytes `45 52 52 op, 00 00 00 04, FF FF FF FF` followed by the
output commit; it writes no DMA register, calls no collaborator (the trace holds
nothing else and the state of the feature modules and the DMA busy flag are
unchanged), consumes exactly the request, and both machines are Idle again. -/
theorem c6_unknown_opcode (env : Env X) (s0 : State X)
    (op a0 a1 a2 a3 a4 a5 a6 a7 : Nat) (rest : List Nat) (m : Nat)
    (hop : op < 256)
    (hunk : op ∉ [118, 86, 82, 66, 99, 67, 97, 65, 116, 84, 109, 77, 85, 68, 87, 112, 80,
      102, 70, 63, 37])
    (hl1 : s0.w.scr_pwrsav = false) (hl2 : s0.w.scr_reset_state = false)
    (hl3 : s0.w.scr_reset_pending = false)
    (hrx : s0.w.rx =
      67 :: 77 :: 68 :: op :: a0 :: a1 :: a2 :: a3 :: a4 :: a5 :: a6 :: a7 :: rest)
    (hsp : s0.w.tx_space = m + 12) :
    (usb_process env (usb_init s0)).w.trace =
      (usb_init s0).w.trace ++
        [Ev.usb_push 0x45, Ev.usb_push 0x52, Ev.usb_push 0x52, Ev.usb_push op,
         Ev.usb_push 0x00, Ev.usb_push 0x00, Ev.usb_push 0x00, Ev.usb_push 0x04,
         Ev.usb_push 0xFF, Ev.usb_push 0xFF, Ev.usb_push 0xFF, Ev.usb_push 0xFF,
         Ev.reg_set_usb_scr UsbScr.WRITE_FLUSH] ∧
    (usb_process env (usb_init s0)).w.ext = s0.w.ext ∧
    (usb_process env (usb_init s0)).w.dma_busy = s0.w.dma_busy ∧
    (usb_process env (usb_init s0)).w.rx = rest ∧
    (usb_process env (usb_init s0)).w.tx_space = m ∧
    (usb_process env (usb_init s0)).p.rx_state = RxState.idle ∧
    (usb_process env (usb_init s0)).p.tx_state = TxState.idle ∧
    (usb_process env (usb_init s0)).p.response_pending = false := by
  have hU : op ≠ 85 := by
    intro h; subst h; simp at hunk
  have hr := usb_rx_process_request env (usb_init s0) op a0 a1 a2 a3 a4 a5 a6 a7 rest
    rfl rfl rfl rfl rfl hop hU hrx
  rw [rx_data_unknown env _ hunk] at hr
  rw [if_neg (by simp [rx_data_default, State.respond, State.setInfo])] at hr
  have ht := usb_tx_process_one_word env (usb_rx_process env (usb_init s0)) m
    (by rw [hr]; rfl) (by rw [hr]; rfl) (by rw [hr]; rfl) (by rw [hr]; rfl) (by rw [hr]; rfl)
    (by rw [hr]; rfl) (by rw [hr]; exact hsp)
  have hlink : ((usb_init s0).w.scr_pwrsav || (usb_init s0).w.scr_reset_state ||
      (usb_init s0).w.scr_reset_pending) = false := by
    show (s0.w.scr_pwrsav || s0.w.scr_reset_state || s0.w.scr_reset_pending) = false
    rw [hl1, hl2, hl3]; rfl
  have hp : usb_process env (usb_init s0) =
      usb_tx_process env (usb_rx_process env (usb_init s0)) := by
    unfold usb_process
    rw [hlink]
    simp
  rw [hp, ht, hr]
  have hb1 : tx_word_bytes (ERR_TOKEN ||| op) = [0x45, 0x52, 0x52, op] :=
    tx_word_bytes_err op hop
  have hb2 : tx_word_bytes 4 = [0, 0, 0, 4] := by decide
  have hb3 : tx_word_bytes 0xFFFFFFFF = [0xFF, 0xFF, 0xFF, 0xFF] := by decide
  simp [rx_data_default, State.respond, State.setInfo, hb1, hb2, hb3, usb_init, State.emit]

/-- Witness for C6: opcode `'x'` after boot. -/
theorem c6_unknown_opcode_witness :
    (usb_process Env.sample (usb_init State.unknownRequest)).w.trace =
      (usb_init State.unknownRequest).w.trace ++
        [Ev.usb_push 0x45, Ev.usb_push 0x52, Ev.usb_push 0x52, Ev.usb_push 120,
         Ev.usb_push 0x00, Ev.usb_push 0x00, Ev.usb_push 0x00, Ev.usb_push 0x04,
         Ev.usb_push 0xFF, Ev.usb_push 0xFF, Ev.usb_push 0xFF, Ev.usb_push 0xFF,
         Ev.reg_set_usb_scr UsbScr.WRITE_FLUSH] :=
  (c6_unknown_opcode Env.sample State.unknownRequest 120 1 2 3 4 5 6 7 8 [] 52
    (by decide) (by decide) rfl rfl rfl rfl rfl).1

theorem usb_process_quiet (env : Env X) (s : State X)
    (hl1 : s.w.scr_pwrsav = false) (hl2 : s.w.scr_reset_state = false)
    (hl3 : s.w.scr_reset_pending = false) (hrx : s.w.rx = [])
    (hr : s.p.rx_state = RxState.idle) (ht : s.p.tx_state = TxState.idle)
    (hrp : s.p.response_pending = false) (hpp : s.p.packet_pending = false) :
    usb_process env s = s := by
  rcases s with ⟨p, w⟩
  cases p
  cases w
  simp only at hl1 hl2 hl3 hrx hr ht hrp hpp
  subst hl1 hl2 hl3 hrx hr ht hrp hpp
  simp [usb_process, usb_rx_process, rx_idle, usb_rx_cmd, usb_rx_cmd_loop, usb_tx_process,
    tx_idle]

/-- C7: after `usb_init`, with the link up, a query-id request (`'C','M','D','v'`
and eight argument bytes) in the inbound FIFO and room for 12 bytes in the
outbound FIFO, one `usb_process` tick calls `cfg_get_identifier` once and emits
exactly the 12 bytes `43 4D 50 76, 00 00 00 04` and the identifier as four
big-endian bytes, then the output commit; afterwards, as long as the inbound
FIFO stays empty and the link stays up, further ticks change nothing and emit
nothing. -/
theorem c7_query_identifier (env : Env X) (s0 : State X)
    (a0 a1 a2 a3 a4 a5 a6 a7 : Nat) (rest : List Nat) (m : Nat)
    (hid : (env.cfg_get_identifier s0.w.ext).1 < U32)
    (hl1 : s0.w.scr_pwrsav = false) (hl2 : s0.w.scr_reset_state = false)
    (hl3 : s0.w.scr_reset_pending = false)
    (hrx : s0.w.rx =
      67 :: 77 :: 68 :: 118 :: a0 :: a1 :: a2 :: a3 :: a4 :: a5 :: a6 :: a7 :: rest)
    (hsp : s0.w.tx_space = m + 12) :
    (usb_process env (usb_init s0)).w.trace =
      (usb_init s0).w.trace ++
        [Ev.call Collab.cfg_get_identifier [],
         Ev.usb_push 0x43, Ev.usb_push 0x4D, Ev.usb_push 0x50, Ev.usb_push 0x76,
         Ev.usb_push 0x00, Ev.usb_push 0x00, Ev.usb_push 0x00, Ev.usb_push 0x04,
         Ev.usb_push (((env.cfg_get_identifier s0.w.ext).1 >>> 24) % 256),
         Ev.usb_push (((env.cfg_get_identifier s0.w.ext).1 >>> 16) % 256),
         Ev.usb_push (((env.cfg_get_identifier s0.w.ext).1 >>> 8) % 256),
         Ev.usb_push ((env.cfg_get_identifier s0.w.ext).1 % 256),
         Ev.reg_set_usb_scr UsbScr.WRITE_FLUSH] ∧
    (usb_process env (usb_init s0)).w.rx = rest ∧
    (usb_process env (usb_init s0)).p.rx_state = RxState.idle ∧
    (usb_process env (usb_init s0)).p.tx_state = TxState.idle ∧
    (usb_process env (usb_init s0)).p.response_pending = false ∧
    (∀ w : World X, w.rx = [] → w.scr_pwrsav = false → w.scr_reset_state = false →
      w.scr_reset_pending = false →
      usb_process env { p := (usb_process env (usb_init s0)).p, w := w } =
        { p := (usb_process env (usb_init s0)).p, w := w }) := by
  have hr := usb_rx_process_request env (usb_init s0) 118 a0 a1 a2 a3 a4 a5 a6 a7 rest
    rfl rfl rfl rfl rfl (by decide) (by decide) hrx
  have hv : ∀ s : State X, s.p.rx_cmd = 118 → rx_data env s = rx_data_v env s := by
    intro s h
    unfold rx_data
    rw [if_pos h]
  rw [hv _ rfl] at hr
  rw [if_neg (by simp [rx_data_v, State.respond, State.setInfo, State.call, State.emit,
    State.setExt])] at hr
  have ht := usb_tx_process_one_word env (usb_rx_process env (usb_init s0)) m
    (by rw [hr]; rfl) (by rw [hr]; rfl) (by rw [hr]; rfl) (by rw [hr]; rfl) (by rw [hr]; rfl)
    (by rw [hr]; rfl) (by rw [hr]; exact hsp)
  have hlink : ((usb_init s0).w.scr_pwrsav || (usb_init s0).w.scr_reset_state ||
      (usb_init s0).w.scr_reset_pending) = false := by
    show (s0.w.scr_pwrsav || s0.w.scr_reset_state || s0.w.scr_reset_pending) = false
    rw [hl1, hl2, hl3]; rfl
  have hp : usb_process env (usb_init s0) =
      usb_tx_process env (usb_rx_process env (usb_init s0)) := by
    unfold usb_process
    rw [hlink]
    simp
  have hb2 : tx_word_bytes 4 = [0, 0, 0, 4] := by decide
  have hfin : (usb_process env (usb_init s0)).p.rx_state = RxState.idle ∧
      (usb_process env (usb_init s0)).p.tx_state = TxState.idle ∧
      (usb_process env (usb_init s0)).p.response_pending = false ∧
      (usb_process env (usb_init s0)).p.packet_pending = false := by
    rw [hp, ht, hr]
    simp [rx_data_v, State.respond, State.setInfo, State.call, State.emit, State.setExt,
      usb_init]
  refine ⟨?_, ?_, hfin.1, hfin.2.1, hfin.2.2.1, ?_⟩
  · rw [hp, ht, hr]
    simp [rx_data_v, State.respond, State.setInfo, State.call, State.emit, State.setExt,
      hb2, usb_init, tx_word_bytes, U8, Nat.mod_eq_of_lt hid]
    decide
  · rw [hp, ht, hr]
    simp [rx_data_v, State.respond, State.setInfo, State.call, State.emit, State.setExt]
  · intro w h1 h2 h3 h4
    exact usb_process_quiet env _ h2 h3 h4 h1 hfin.1 hfin.2.1 hfin.2.2.1 hfin.2.2.2

/-- Witness for C7: the identifier `0x53437632` of the sample environment. -/
theorem c7_query_identifier_witness :
    (usb_process Env.sample (usb_init State.identifierRequest)).w.trace =
      (usb_init State.identifierRequest).w.trace ++
        [Ev.call Collab.cfg_get_identifier [],
         Ev.usb_push 0x43, Ev.usb_push 0x4D, Ev.usb_push 0x50, Ev.usb_push 0x76,
         Ev.usb_push 0x00, Ev.usb_push 0x00, Ev.usb_push 0x00, Ev.usb_push 0x04,
         Ev.usb_push 0x53, Ev.usb_push 0x43, Ev.usb_push 0x76, Ev.usb_push 0x32,
         Ev.reg_set_usb_scr UsbScr.WRITE_FLUSH] :=
  (c7_query_identifier Env.sample State.identifierRequest 0 0 0 0 0 0 0 0 [] 52
    (by decide) rfl rfl rfl rfl rfl).1

/-! ## Exactly one response per request: the Data and Flush blocks -/

theorem serving_data (p : Process) (hS : Serving p) (hd : p.rx_state = RxState.data) :
    p.response_pending = false ∧ p.flush_response = false := by
  obtain ⟨h1, h2 | h2⟩ := hS
  · exact ⟨h1, h2.2⟩
  · rw [hd] at h2
    exact absurd h2.1 (by decide)

theorem rx_data_v_step (env : Env X) (s : State X) (hc : s.p.rx_cmd = 118) :
    Completed s (rx_data_v env s) ∨ StillServing s (rx_data_v env s) := by
  refine Or.inl ⟨rfl, fun _ => rfl, fun h => ?_⟩
  rw [hc] at h
  exact absurd h (by decide)

theorem rx_data_V_step (env : Env X) (s : State X) (hc : s.p.rx_cmd = 86) :
    Completed s (rx_data_V env s) ∨ StillServing s (rx_data_V env s) := by
  refine Or.inl ⟨rfl, fun _ => rfl, fun h => ?_⟩
  rw [hc] at h
  exact absurd h (by decide)

theorem rx_data_R_step (env : Env X) (s : State X) (hc : s.p.rx_cmd = 82) :
    Completed s (rx_data_R env s) ∨ StillServing s (rx_data_R env s) := by
  refine Or.inl ⟨rfl, fun _ => rfl, fun h => ?_⟩
  rw [hc] at h
  exact absurd h (by decide)

theorem rx_data_B_step (env : Env X) (s : State X) (hc : s.p.rx_cmd = 66) :
    Completed s (rx_data_B env s) ∨ StillServing s (rx_data_B env s) := by
  refine Or.inl ⟨rfl, fun _ => rfl, fun h => ?_⟩
  rw [hc] at h
  exact absurd h (by decide)

theorem rx_data_c_step (env : Env X) (s : State X) (hc : s.p.rx_cmd = 99) :
    Completed s (rx_data_c env s) ∨ StillServing s (rx_data_c env s) := by
  refine Or.inl ⟨rfl, fun _ => rfl, fun h => ?_⟩
  rw [hc] at h
  exact absurd h (by decide)

theorem rx_data_C_step (env : Env X) (s : State X) (hc : s.p.rx_cmd = 67) :
    Completed s (rx_data_C env s) ∨ StillServing s (rx_data_C env s) := by
  refine Or.inl ⟨rfl, fun _ => rfl, fun h => ?_⟩
  rw [hc] at h
  exact absurd h (by decide)

theorem rx_data_a_step (env : Env X) (s : State X) (hc : s.p.rx_cmd = 97) :
    Completed s (rx_data_a env s) ∨ StillServing s (rx_data_a env s) := by
  refine Or.inl ⟨rfl, fun _ => rfl, fun h => ?_⟩
  rw [hc] at h
  exact absurd h (by decide)

theorem rx_data_A_step (env : Env X) (s : State X) (hc : s.p.rx_cmd = 65) :
    Completed s (rx_data_A env s) ∨ StillServing s (rx_data_A env s) := by
  refine Or.inl ⟨rfl, fun _ => rfl, fun h => ?_⟩
  rw [hc] at h
  exact absurd h (by decide)

theorem rx_data_t_step (env : Env X) (s : State X) (hc : s.p.rx_cmd = 116) :
    Completed s (rx_data_t env s) ∨ StillServing s (rx_data_t env s) := by
  refine Or.inl ⟨rfl, fun _ => rfl, fun h => ?_⟩
  rw [hc] at h
  exact absurd h (by decide)

theorem rx_data_T_step (env : Env X) (s : State X) (hc : s.p.rx_cmd = 84) :
    Completed s (rx_data_T env s) ∨ StillServing s (rx_data_T env s) := by
  refine Or.inl ⟨rfl, fun _ => rfl, fun h => ?_⟩
  rw [hc] at h
  exact absurd h (by decide)

theorem rx_data_m_step (_env : Env X) (s : State X) (hc : s.p.rx_cmd = 109) :
    Completed s (rx_data_m s) ∨ StillServing s (rx_data_m s) := by
  refine Or.inl ⟨?_, fun _ => ?_, fun h => ?_⟩
  · unfold rx_data_m
    simp only []
    split_ifs <;> rfl
  · unfold rx_data_m
    simp only []
    split_ifs <;> rfl
  · rw [hc] at h
    exact absurd h (by decide)

theorem rx_data_D_step (env : Env X) (s : State X) (hc : s.p.rx_cmd = 68) :
    Completed s (rx_data_D env s) ∨ StillServing s (rx_data_D env s) := by
  refine Or.inl ⟨rfl, fun _ => rfl, fun h => ?_⟩
  rw [hc] at h
  exact absurd h (by decide)

theorem rx_data_W_step (env : Env X) (s : State X) (hc : s.p.rx_cmd = 87) :
    Completed s (rx_data_W env s) ∨ StillServing s (rx_data_W env s) := by
  refine Or.inl ⟨rfl, fun _ => rfl, fun h => ?_⟩
  rw [hc] at h
  exact absurd h (by decide)

theorem rx_data_p_step (env : Env X) (s : State X) (hc : s.p.rx_cmd = 112) :
    Completed s (rx_data_p env s) ∨ StillServing s (rx_data_p env s) := by
  refine Or.inl ⟨?_, fun _ => ?_, fun h => ?_⟩
  · unfold rx_data_p
    simp only []
    split_ifs <;> rfl
  · unfold rx_data_p
    simp only []
    split_ifs <;> rfl
  · rw [hc] at h
    exact absurd h (by decide)

theorem rx_data_P_step (env : Env X) (s : State X) (hc : s.p.rx_cmd = 80) :
    Completed s (rx_data_P env s) ∨ StillServing s (rx_data_P env s) := by
  refine Or.inl ⟨?_, fun _ => ?_, fun h => ?_⟩
  · unfold rx_data_P
    simp only []
    split_ifs <;> rfl
  · unfold rx_data_P
    simp only []
    split_ifs <;> rfl
  · rw [hc] at h
    exact absurd h (by decide)

theorem rx_data_f_step (env : Env X) (s : State X) (hc : s.p.rx_cmd = 102) :
    Completed s (rx_data_f env s) ∨ StillServing s (rx_data_f env s) := by
  refine Or.inl ⟨rfl, fun _ => rfl, fun h => ?_⟩
  rw [hc] at h
  exact absurd h (by decide)

theorem rx_data_F_step (env : Env X) (s : State X) (hc : s.p.rx_cmd = 70) :
    Completed s (rx_data_F env s) ∨ StillServing s (rx_data_F env s) := by
  refine Or.inl ⟨?_, fun _ => ?_, fun h => ?_⟩
  · unfold rx_data_F
    simp only []
    split_ifs <;> rfl
  · unfold rx_data_F
    simp only []
    split_ifs <;> rfl
  · rw [hc] at h
    exact absurd h (by decide)

theorem rx_data_debug_step (_env : Env X) (s : State X) (hc : s.p.rx_cmd = 63) :
    Completed s (rx_data_debug s) ∨ StillServing s (rx_data_debug s) := by
  refine Or.inl ⟨rfl, fun _ => rfl, fun h => ?_⟩
  rw [hc] at h
  exact absurd h (by decide)

theorem rx_data_stack_step (env : Env X) (s : State X) (hc : s.p.rx_cmd = 37) :
    Completed s (rx_data_stack env s) ∨ StillServing s (rx_data_stack env s) := by
  refine Or.inl ⟨rfl, fun _ => rfl, fun h => ?_⟩
  rw [hc] at h
  exact absurd h (by decide)

theorem rx_data_default_step (_env : Env X) (s : State X) (hc : s.p.rx_cmd ≠ 85) :
    Completed s (rx_data_default s) ∨ StillServing s (rx_data_default s) :=
  Or.inl ⟨rfl, fun _ => rfl, fun h => absurd h hc⟩

theorem rx_data_M_step (_env : Env X) (s : State X) (hS : Serving s.p)
    (hd : s.p.rx_state = RxState.data) (hc : s.p.rx_cmd = 77) :
    Completed s (rx_data_M s) ∨ StillServing s (rx_data_M s) := by
  obtain ⟨hrp, hfr⟩ := serving_data s.p hS hd
  unfold rx_data_M
  by_cases h1 : usb_dma_ready s = true
  · rw [if_pos h1]
    by_cases h2 : (!s.p.rx_dma_running) = true
    · rw [if_pos h2]
      by_cases h3 : usb_validate_address_length s.p.rx_args0 s.p.rx_args1 true = true
      · rw [if_pos h3]
        exact Or.inr ⟨⟨hrp, Or.inr ⟨rfl, Or.inl ⟨hc, rfl⟩⟩⟩, rfl⟩
      · rw [if_neg h3]
        exact Or.inr ⟨⟨hrp, Or.inl ⟨hd, hfr⟩⟩, rfl⟩
    · rw [if_neg h2]
      refine Or.inl ⟨rfl, fun _ => rfl, fun h => ?_⟩
      rw [hc] at h
      exact absurd h (by decide)
  · rw [if_neg h1]
    exact Or.inr ⟨hS, rfl⟩

theorem rx_data_U_step (_env : Env X) (s : State X) (hS : Serving s.p)
    (hd : s.p.rx_state = RxState.data) (hc : s.p.rx_cmd = 85) :
    Completed s (rx_data_U s) ∨ StillServing s (rx_data_U s) := by
  obtain ⟨hrp, hfr⟩ := serving_data s.p hS hd
  unfold rx_data_U
  by_cases h0 : s.p.rx_args1 = 0
  · rw [if_pos h0]
    exact Or.inl ⟨rfl, fun h => absurd hc h, fun _ => hrp⟩
  · rw [if_neg h0]
    by_cases h1 : usb_dma_ready s = true
    · rw [if_pos h1]
      by_cases h2 : s.p.read_length > 0
      · rw [if_pos h2]
        simp only []
        by_cases h3 : (!s.p.rx_dma_running) = true
        · rw [if_pos h3]
          exact Or.inr ⟨⟨hrp, Or.inl ⟨hd, hfr⟩⟩, rfl⟩
        · rw [if_neg h3]
          exact Or.inr ⟨⟨hrp, Or.inl ⟨hd, hfr⟩⟩, rfl⟩
      · rw [if_neg h2]
        by_cases h4 : s.w.timer = 0
        · rw [if_pos h4]
          exact Or.inr ⟨⟨hrp, Or.inr ⟨rfl, Or.inr ⟨hc, hfr, rfl⟩⟩⟩, rfl⟩
        · rw [if_neg h4]
          exact Or.inr ⟨hS, rfl⟩
    · rw [if_neg h1]
      exact Or.inr ⟨hS, rfl⟩

theorem rx_data_step (env : Env X) (s : State X) (hS : Serving s.p)
    (hd : s.p.rx_state = RxState.data) :
    Completed s (rx_data env s) ∨ StillServing s (rx_data env s) := by
  unfold rx_data
  by_cases h : s.p.rx_cmd = 118
  · rw [if_pos h]; exact rx_data_v_step env s h
  rw [if_neg h]; clear h
  by_cases h : s.p.rx_cmd = 86
  · rw [if_pos h]; exact rx_data_V_step env s h
  rw [if_neg h]; clear h
  by_cases h : s.p.rx_cmd = 82
  · rw [if_pos h]; exact rx_data_R_step env s h
  rw [if_neg h]; clear h
  by_cases h : s.p.rx_cmd = 66
  · rw [if_pos h]; exact rx_data_B_step env s h
  rw [if_neg h]; clear h
  by_cases h : s.p.rx_cmd = 99
  · rw [if_pos h]; exact rx_data_c_step env s h
  rw [if_neg h]; clear h
  by_cases h : s.p.rx_cmd = 67
  · rw [if_pos h]; exact rx_data_C_step env s h
  rw [if_neg h]; clear h
  by_cases h : s.p.rx_cmd = 97
  · rw [if_pos h]; exact rx_data_a_step env s h
  rw [if_neg h]; clear h
  by_cases h : s.p.rx_cmd = 65
  · rw [if_pos h]; exact rx_data_A_step env s h
  rw [if_neg h]; clear h
  by_cases h : s.p.rx_cmd = 116
  · rw [if_pos h]; exact rx_data_t_step env s h
  rw [if_neg h]; clear h
  by_cases h : s.p.rx_cmd = 84
  · rw [if_pos h]; exact rx_data_T_step env s h
  rw [if_neg h]; clear h
  by_cases h : s.p.rx_cmd = 109
  · rw [if_pos h]; exact rx_data_m_step env s h
  rw [if_neg h]; clear h
  by_cases h : s.p.rx_cmd = 77
  · rw [if_pos h]; exact rx_data_M_step env s hS hd h
  rw [if_neg h]; clear h
  by_cases h : s.p.rx_cmd = 85
  · rw [if_pos h]; exact rx_data_U_step env s hS hd h
  rw [if_neg h]; have hU := h; clear h
  by_cases h : s.p.rx_cmd = 68
  · rw [if_pos h]; exact rx_data_D_step env s h
  rw [if_neg h]; clear h
  by_cases h : s.p.rx_cmd = 87
  · rw [if_pos h]; exact rx_data_W_step env s h
  rw [if_neg h]; clear h
  by_cases h : s.p.rx_cmd = 112
  · rw [if_pos h]; exact rx_data_p_step env s h
  rw [if_neg h]; clear h
  by_cases h : s.p.rx_cmd = 80
  · rw [if_pos h]; exact rx_data_P_step env s h
  rw [if_neg h]; clear h
  by_cases h : s.p.rx_cmd = 102
  · rw [if_pos h]; exact rx_data_f_step env s h
  rw [if_neg h]; clear h
  by_cases h : s.p.rx_cmd = 70
  · rw [if_pos h]; exact rx_data_F_step env s h
  rw [if_neg h]; clear h
  by_cases h : s.p.rx_cmd = 63
  · rw [if_pos h]; exact rx_data_debug_step env s h
  rw [if_neg h]; clear h
  by_cases h : s.p.rx_cmd = 37
  · rw [if_pos h]; exact rx_data_stack_step env s h
  rw [if_neg h]; clear h
  exact rx_data_default_step env s hU

theorem rx_flush_step (env : Env X) (s : State X) (hS : Serving s.p)
    (hf : s.p.rx_state = RxState.flush) :
    Completed s (rx_flush env s) ∨ StillServing s (rx_flush env s) := by
  obtain ⟨hrp, h | ⟨-, h⟩⟩ := hS
  · rw [hf] at h
    exact absurd h.1 (by decide)
  unfold rx_flush
  by_cases h1 : usb_dma_ready s = true
  · rw [if_pos h1]
    by_cases h2 : s.p.rx_args1 ≠ 0
    · rw [if_pos h2]
      exact Or.inr ⟨⟨hrp, Or.inr ⟨hf, h⟩⟩, rfl⟩
    · rw [if_neg h2]
      rcases h with ⟨hc, hfr⟩ | ⟨hc, hfr, hfp⟩
      · rw [if_pos hfr]
        refine Or.inl ⟨rfl, fun _ => rfl, fun h => ?_⟩
        rw [hc] at h
        exact absurd h (by decide)
      · rw [if_neg (by rw [hfr]; decide), if_pos hfp]
        unfold usb_enqueue_packet
        by_cases h5 : s.p.packet_pending = true
        · simp only [h5, if_true]
          exact Or.inr ⟨⟨hrp, Or.inr ⟨hf, Or.inr ⟨hc, hfr, hfp⟩⟩⟩, rfl⟩
        · simp only [h5, if_false]
          exact Or.inl ⟨rfl, fun h => absurd hc h, fun _ => hrp⟩
  · rw [if_neg h1]
    exact Or.inr ⟨⟨hrp, Or.inr ⟨hf, h⟩⟩, rfl⟩

/-! ## Exactly one response per request: whole calls -/

theorem rxKept_refl (p : Process) : RxKept p p := ⟨rfl, rfl, rfl, rfl, id⟩

theorem rxKept_trans {p p1 p2 : Process} (h1 : RxKept p p1) (h2 : RxKept p1 p2) :
    RxKept p p2 :=
  ⟨h2.1.trans h1.1, h2.2.1.trans h1.2.1, h2.2.2.1.trans h1.2.2.1,
    h2.2.2.2.1.trans h1.2.2.2.1, fun h => h1.2.2.2.2 (h2.2.2.2.2 h)⟩

theorem tx_idle_rxKept (s : State X) : RxKept s.p (tx_idle s).p := by
  unfold tx_idle
  by_cases h1 : s.p.response_pending = true
  · rw [if_pos h1]
    exact ⟨rfl, rfl, rfl, rfl, fun _ => h1⟩
  · rw [if_neg h1]
    by_cases h2 : s.p.packet_pending = true
    · rw [if_pos h2]
      exact ⟨rfl, rfl, rfl, rfl, id⟩
    · rw [if_neg h2]
      exact rxKept_refl _

theorem tx_token_rxKept (s : State X) : RxKept s.p (tx_token s).p := by
  unfold tx_token
  simp only []
  generalize hs1 : (if s.p.tx_counter = 0 then
      match usb_tx_word (s.p.tx_token ||| s.p.tx_info.cmd) s with
      | (true, s0) => { s0 with p := { s0.p with tx_counter := (s0.p.tx_counter + 1) % U8 } }
      | (false, s0) => s0
    else s) = s1
  have f1 : RxKept s.p s1.p := by
    subst hs1
    split_ifs
    · obtain ⟨c, sp, bytes, h⟩ := usb_tx_word_frame (s.p.tx_token ||| s.p.tx_info.cmd) s
      rcases hw : usb_tx_word (s.p.tx_token ||| s.p.tx_info.cmd) s with ⟨r, s0⟩
      rw [hw] at h
      simp only [] at h
      subst h
      cases r <;> exact ⟨rfl, rfl, rfl, rfl, id⟩
    · exact rxKept_refl _
  refine rxKept_trans f1 ?_
  split_ifs
  · obtain ⟨c, sp, bytes, h⟩ :=
      usb_tx_word_frame ((s1.p.tx_info.data_length + s1.p.tx_info.dma_length) % U32) s1
    rcases hw : usb_tx_word ((s1.p.tx_info.data_length + s1.p.tx_info.dma_length) % U32) s1
      with ⟨r, s2⟩
    rw [hw] at h
    simp only [] at h
    subst h
    cases r <;> exact ⟨rfl, rfl, rfl, rfl, id⟩
  · exact rxKept_refl _

theorem tx_data_rxKept (s : State X) : RxKept s.p (tx_data s).p := by
  unfold tx_data
  split_ifs
  · obtain ⟨st, cnt, c, sp, bytes, h, -⟩ := tx_data_loop_frame s.w.tx_space s
    rw [h]
    exact ⟨rfl, rfl, rfl, rfl, id⟩
  · exact ⟨rfl, rfl, rfl, rfl, id⟩

theorem tx_dma_rxKept (s : State X) : RxKept s.p (tx_dma s).p := by
  unfold tx_dma
  by_cases h1 : s.p.tx_info.dma_length > 0
  · rw [if_pos h1]
    by_cases h2 : usb_dma_ready s = true
    · rw [if_pos h2]
      by_cases h3 : (!s.p.tx_dma_running) = true
      · rw [if_pos h3]
        exact ⟨rfl, rfl, rfl, rfl, id⟩
      · rw [if_neg h3]
        exact ⟨rfl, rfl, rfl, rfl, id⟩
    · rw [if_neg h2]
      exact rxKept_refl _
  · rw [if_neg h1]
    exact ⟨rfl, rfl, rfl, rfl, id⟩

theorem tx_flush_rxKept (env : Env X) (s : State X) : RxKept s.p (tx_flush env s).p := by
  cases h : s.p.tx_info.done_callback with
  | none =>
    rw [tx_flush_none env s h]
    exact ⟨rfl, rfl, rfl, rfl, id⟩
  | some cb =>
    rw [tx_flush_some env s cb h]
    exact ⟨rfl, rfl, rfl, rfl, id⟩

theorem usb_tx_process_rxKept (env : Env X) (s : State X) :
    RxKept s.p (usb_tx_process env s).p := by
  unfold usb_tx_process
  simp only []
  generalize hs1 : (if s.p.tx_state = TxState.idle then tx_idle s else s) = s1
  generalize hs2 : (if s1.p.tx_state = TxState.token then tx_token s1 else s1) = s2
  generalize hs3 : (if s2.p.tx_state = TxState.data then tx_data s2 else s2) = s3
  generalize hs4 : (if s3.p.tx_state = TxState.dma then tx_dma s3 else s3) = s4
  have f1 : RxKept s.p s1.p := by
    subst hs1; split_ifs
    · exact tx_idle_rxKept s
    · exact rxKept_refl _
  have f2 : RxKept s1.p s2.p := by
    subst hs2; split_ifs
    · exact tx_token_rxKept s1
    · exact rxKept_refl _
  have f3 : RxKept s2.p s3.p := by
    subst hs3; split_ifs
    · exact tx_data_rxKept s2
    · exact rxKept_refl _
  have f4 : RxKept s3.p s4.p := by
    subst hs4; split_ifs
    · exact tx_dma_rxKept s3
    · exact rxKept_refl _
  have f5 : RxKept s4.p (if s4.p.tx_state = TxState.flush then tx_flush env s4 else s4).p := by
    split_ifs
    · exact tx_flush_rxKept env s4
    · exact rxKept_refl _
  exact rxKept_trans (rxKept_trans (rxKept_trans (rxKept_trans f1 f2) f3) f4) f5

theorem serving_of_rxKept {p p1 : Process} (h : RxKept p p1) (hS : Serving p) : Serving p1 := by
  obtain ⟨h1, h2, h3, h4, h5⟩ := h
  obtain ⟨hrp, hcase⟩ := hS
  refine ⟨?_, ?_⟩
  · cases hp : p1.response_pending
    · rfl
    · rw [h5 hp] at hrp
      exact absurd hrp (by decide)
  · rw [h1, h2, h3, h4]
    exact hcase

theorem usb_rx_process_step (env : Env X) (s : State X) (hS : Serving s.p) :
    Completed s (usb_rx_process env s) ∨ StillServing s (usb_rx_process env s) := by
  have hst : s.p.rx_state = RxState.data ∨ s.p.rx_state = RxState.flush := by
    obtain ⟨-, h | h⟩ := hS
    · exact Or.inl h.1
    · exact Or.inr h.1
  unfold usb_rx_process
  rcases hst with hd | hf
  · simp only [hd, if_true, if_false, reduceCtorEq]
    rcases rx_data_step env s hS hd with hC | hSS
    · rw [if_neg (by rw [hC.1]; decide)]
      exact Or.inl hC
    · by_cases hf : (rx_data env s).p.rx_state = RxState.flush
      · rw [if_pos hf]
        rcases rx_flush_step env (rx_data env s) hSS.1 hf with h | h
        · exact Or.inl ⟨h.1, by rw [← hSS.2]; exact h.2.1, by rw [← hSS.2]; exact h.2.2⟩
        · exact Or.inr ⟨h.1, h.2.trans hSS.2⟩
      · rw [if_neg hf]
        exact Or.inr hSS
  · simp only [hf, if_true, if_false, reduceCtorEq]
    exact rx_flush_step env s hS hf

/-- C5 (as stated, refuted): a stream-write request (`'U'`) announcing 4 bytes
(`arg1 = 4`, not 0), with 4 bytes of staging capacity, is in the Data state,
has its chunk transferred and confirmed, and is back in Idle after the third
call of `usb_rx_process`, and `response_pending` is false after every call. -/
theorem c5_counterexample :
    State.streamWrite.p.rx_state = RxState.data ∧
    State.streamWrite.p.rx_cmd = 85 ∧
    State.streamWrite.p.rx_args1 = 4 ∧
    State.streamWrite.p.response_pending = false ∧
    (usb_rx_process Env.sample State.streamWrite).p.response_pending = false ∧
    (usb_rx_process Env.sample
      (usb_rx_process Env.sample State.streamWrite).dmaDone).p.response_pending = false ∧
    (usb_rx_process Env.sample (usb_rx_process Env.sample
      (usb_rx_process Env.sample State.streamWrite).dmaDone).dmaDone).p.response_pending
        = false ∧
    (usb_rx_process Env.sample (usb_rx_process Env.sample
      (usb_rx_process Env.sample State.streamWrite).dmaDone).dmaDone).p.rx_state
        = RxState.idle := by
  decide

/-! ## Draining a rejected memory-write: lemmas -/

theorem burst_lengths_zero : burst_lengths 0 = [] := by
  simp [burst_lengths, RX_FLUSH_LENGTH]

theorem burst_lengths_pos (r : Nat) (h : 0 < r) :
    burst_lengths r =
      (if r > RX_FLUSH_LENGTH then RX_FLUSH_LENGTH else r) ::
        burst_lengths (r - (if r > RX_FLUSH_LENGTH then RX_FLUSH_LENGTH else r)) := by
  have hL : RX_FLUSH_LENGTH = 1048576 := by norm_num [RX_FLUSH_LENGTH]
  rw [hL]
  by_cases h1 : r > 1048576
  · rw [if_pos h1]
    unfold burst_lengths
    rw [hL]
    have hq : r / 1048576 = (r - 1048576) / 1048576 + 1 := by omega
    have hm : r % 1048576 = (r - 1048576) % 1048576 := by omega
    rw [hq, hm, List.replicate_succ, List.cons_append]
  · rw [if_neg h1, Nat.sub_self, burst_lengths_zero]
    unfold burst_lengths
    rw [hL]
    by_cases h2 : r = 1048576
    · subst h2
      simp
    · have hq : r / 1048576 = 0 := by omega
      have hm : r % 1048576 = r := by omega
      rw [hq, hm, if_neg (by omega)]
      rfl

theorem burst_lengths_sum (r : Nat) : (burst_lengths r).sum = r := by
  unfold burst_lengths
  simp only [RX_FLUSH_LENGTH]
  norm_num
  split_ifs with h
  · simp
    omega
  · simp
    omega

theorem burst_lengths_bound (r l : Nat) (h : l ∈ burst_lengths r) :
    0 < l ∧ l ≤ RX_FLUSH_LENGTH := by
  unfold burst_lengths at h
  simp only [RX_FLUSH_LENGTH] at *
  norm_num at *
  rcases h with h | h <;> omega

theorem burst_lengths_dropLast (r l : Nat) (h : l ∈ (burst_lengths r).dropLast) :
    l = RX_FLUSH_LENGTH := by
  unfold burst_lengths at h
  split_ifs at h with h0
  · rw [List.append_nil] at h
    exact (List.mem_replicate.mp (List.mem_of_mem_dropLast h)).2
  · rw [List.dropLast_append_of_ne_nil _ (by simp)] at h
    simp at h
    exact h.2

theorem burst_lengths_length (r : Nat) :
    (burst_lengths r).length = (r + RX_FLUSH_LENGTH - 1) / RX_FLUSH_LENGTH := by
  unfold burst_lengths
  simp only [RX_FLUSH_LENGTH]
  norm_num
  split_ifs with h
  · simp
    omega
  · simp
    omega

set_option maxRecDepth 4000 in
theorem flush_tick_burst (env : Env X) (s : State X) (r m : Nat) (h : FlushQuiet s r m)
    (hr : 0 < r) :
    FlushQuiet (tick_ready env s)
      (r - (if r > RX_FLUSH_LENGTH then RX_FLUSH_LENGTH else r)) m ∧
    (tick_ready env s).w.trace =
      s.w.trace ++ burst_events [if r > RX_FLUSH_LENGTH then RX_FLUSH_LENGTH else r] := by
  obtain ⟨h1, h2, h3, h4, h5, h6, h7, h8, h9, h10, h11, h12, h13, h14, h15, h16⟩ := h
  have hne : r ≠ 0 := Nat.pos_iff_ne_zero.mp hr
  have harith : (r + U32 - (if RX_FLUSH_LENGTH < r then RX_FLUSH_LENGTH else r)) % U32 =
      r - (if RX_FLUSH_LENGTH < r then RX_FLUSH_LENGTH else r) := by
    simp only [U32, RX_FLUSH_LENGTH] at *
    split_ifs <;> omega
  have hlt : r - (if RX_FLUSH_LENGTH < r then RX_FLUSH_LENGTH else r) < U32 := by
    simp only [U32, RX_FLUSH_LENGTH] at *
    split_ifs <;> omega
  rcases s with ⟨p, w⟩
  cases p
  cases w
  simp only at h1 h2 h3 h5 h6 h7 h8 h9 h10 h11 h12 h13 h14 h15 h16
  subst h1 h2 h3 h5 h10 h11 h12 h13 h14 h15 h16
  simp [tick_ready, State.dmaDone, usb_process, usb_rx_process, rx_flush, usb_dma_ready, hne,
    dma_start, State.emit, usb_tx_process, tx_idle, FlushQuiet, h6, h7, h8, h9, harith, hlt,
    burst_events]

set_option maxRecDepth 4000 in
theorem flush_tick_final (env : Env X) (s : State X) (m : Nat) (h : FlushQuiet s 0 m) :
    (tick_ready env s).w.trace =
      s.w.trace ++
        [Ev.usb_push 0x45, Ev.usb_push 0x52, Ev.usb_push 0x52, Ev.usb_push 0x4D,
         Ev.usb_push 0x00, Ev.usb_push 0x00, Ev.usb_push 0x00, Ev.usb_push 0x00,
         Ev.reg_set_usb_scr UsbScr.WRITE_FLUSH] ∧
    (tick_ready env s).p.rx_state = RxState.idle ∧
    (tick_ready env s).p.tx_state = TxState.idle ∧
    (tick_ready env s).p.response_pending = false ∧
    (tick_ready env s).p.tx_token = ERR_TOKEN ∧
    (tick_ready env s).p.rx_args1 = 0 := by
  obtain ⟨h1, h2, h3, h4, h5, h6, h7, h8, h9, h10, h11, h12, h13, h14, h15, h16⟩ := h
  have hb1 : tx_word_bytes (ERR_TOKEN ||| 77) = [0x45, 0x52, 0x52, 0x4D] := by decide
  have hb2 : tx_word_bytes 0 = [0, 0, 0, 0] := by decide
  have hrx : usb_rx_process env s.dmaDone =
      { p := { s.p with rx_state := RxState.idle, response_pending := true,
                        response_error := true },
        w := { s.w with dma_busy := false } } := by
    rcases s with ⟨p, w⟩
    cases p
    cases w
    simp only at h1 h2 h3 h5 h6 h7 h8 h9 h10 h11 h12 h13 h14 h15 h16
    subst h1 h2 h3 h5 h10 h11 h12 h13 h14 h15 h16
    simp [State.dmaDone, usb_rx_process, rx_flush, usb_dma_ready]
  have ht := usb_tx_process_no_word env (usb_rx_process env s.dmaDone) m
    (by rw [hrx]; exact h10) (by rw [hrx]) (by rw [hrx]; exact h7) (by rw [hrx]; exact h8)
    (by rw [hrx]; exact h9) (by rw [hrx]; exact h12) (by rw [hrx]; exact h16)
  have hp : tick_ready env s = usb_tx_process env (usb_rx_process env s.dmaDone) := by
    unfold tick_ready usb_process
    have : (s.dmaDone.w.scr_pwrsav || s.dmaDone.w.scr_reset_state ||
        s.dmaDone.w.scr_reset_pending) = false := by
      show (s.w.scr_pwrsav || s.w.scr_reset_state || s.w.scr_reset_pending) = false
      rw [h13, h14, h15]; rfl
    rw [this]
    simp
  rw [hp, ht, hrx]
  simp [h6, hb1, hb2, h3, h10]

theorem flush_run (env : Env X) (k : Nat) :
    ∀ (r : Nat) (s : State X) (m : Nat), FlushQuiet s r m → (burst_lengths r).length = k →
      (∀ j, j ≤ k →
        FlushQuiet (ticks_ready env j s) (r - ((burst_lengths r).take j).sum) m ∧
        (ticks_ready env j s).w.trace =
          s.w.trace ++ burst_events ((burst_lengths r).take j)) ∧
      (ticks_ready env (k + 1) s).w.trace =
        s.w.trace ++ burst_events (burst_lengths r) ++
          [Ev.usb_push 0x45, Ev.usb_push 0x52, Ev.usb_push 0x52, Ev.usb_push 0x4D,
           Ev.usb_push 0x00, Ev.usb_push 0x00, Ev.usb_push 0x00, Ev.usb_push 0x00,
           Ev.reg_set_usb_scr UsbScr.WRITE_FLUSH] ∧
      (ticks_ready env (k + 1) s).p.rx_state = RxState.idle ∧
      (ticks_ready env (k + 1) s).p.tx_state = TxState.idle ∧
      (ticks_ready env (k + 1) s).p.response_pending = false ∧
      (ticks_ready env (k + 1) s).p.tx_token = ERR_TOKEN := by
  induction k with
  | zero =>
    intro r s m hq hlen
    have hnil : burst_lengths r = [] := List.length_eq_zero.mp hlen
    have hr0 : r = 0 := by
      have := burst_lengths_sum r
      rw [hnil] at this
      exact this.symm
    subst hr0
    refine ⟨fun j hj => ?_, ?_⟩
    · have : j = 0 := Nat.le_zero.mp hj
      subst this
      simp [ticks_ready, burst_events]
      exact hq
    · obtain ⟨h1, h2, h3, h4, h5, -⟩ := flush_tick_final env s m hq
      simp only [ticks_ready, hnil, burst_events, List.append_nil]
      exact ⟨h1, h2, h3, h4, h5⟩
  | succ k ih =>
    intro r s m hq hlen
    have hr : 0 < r := by
      rcases Nat.eq_zero_or_pos r with h | h
      · subst h
        rw [burst_lengths_zero] at hlen
        cases hlen
      · exact h
    have hcons := burst_lengths_pos r hr
    obtain ⟨hq1, ht1⟩ := flush_tick_burst env s r m hq hr
    have hlen1 : (burst_lengths
        (r - (if r > RX_FLUSH_LENGTH then RX_FLUSH_LENGTH else r))).length = k := by
      rw [hcons] at hlen
      simpa using hlen
    obtain ⟨ihj, ihf⟩ := ih _ _ m hq1 hlen1
    refine ⟨fun j hj => ?_, ?_⟩
    · cases j with
      | zero =>
        simp [ticks_ready, burst_events]
        exact hq
      | succ j =>
        obtain ⟨a, b⟩ := ihj j (Nat.le_of_succ_le_succ hj)
        rw [hcons]
        simp only [ticks_ready, List.take_succ_cons, List.sum_cons, burst_events]
        refine ⟨?_, ?_⟩
        · rw [← Nat.sub_sub]
          exact a
        · rw [b, ht1]
          simp [burst_events]
    · obtain ⟨a, b⟩ := ihf
      refine ⟨?_, b⟩
      show (ticks_ready env (k + 1) (tick_ready env s)).w.trace = _
      rw [a, ht1]
      conv_rhs => rw [hcons]
      simp [burst_events]

theorem dma_starts_bursts (ls : List Nat) (tail : List Ev) (a l : Nat)
    (ht : tail.all Ev.plain = true) :
    dma_starts (burst_events ls ++ tail) a l =
      ls.map (fun n => (RX_FLUSH_ADDRESS, n, DmaScr.DIRECTION_START)) := by
  induction ls generalizing a l with
  | nil => simpa [burst_events] using dma_starts_plain tail ht a l
  | cons n ns ih => simp [burst_events, dma_starts, ih]

set_option maxRecDepth 4000 in
theorem rejected_write_first_tick (env : Env X) (s : State X)
    (a0 a1 a2 a3 a4 a5 a6 a7 : Nat) (rest : List Nat) (m : Nat)
    (hst : s.p.rx_state = RxState.idle) (hrp : s.p.response_pending = false)
    (hcc : s.p.usb_rx_cmd_counter = 0)
    (hc : s.p.usb_rx_word_counter = 0) (hb : s.p.usb_rx_word_buffer = 0)
    (hts : s.p.tx_state = TxState.idle) (hpp : s.p.packet_pending = false)
    (htc : s.p.usb_tx_word_counter = 0)
    (hl1 : s.w.scr_pwrsav = false) (hl2 : s.w.scr_reset_state = false)
    (hl3 : s.w.scr_reset_pending = false)
    (hrx : s.w.rx = 67 :: 77 :: 68 :: 77 :: a0 :: a1 :: a2 :: a3 :: a4 :: a5 :: a6 :: a7 :: rest)
    (hsp : s.w.tx_space = m + 8)
    (hrej : usb_validate_address_length (rx_word_value a0 a1 a2 a3)
      (rx_word_value a4 a5 a6 a7) true = true) :
    ∃ s1 : State X, FlushQuiet s1 (rx_word_value a4 a5 a6 a7) m ∧ s1.w.trace = s.w.trace ∧
      tick_ready env s = tick_ready env s1 := by
  refine ⟨{ p := { s.p with
              rx_state := RxState.flush, rx_cmd := 77, rx_counter := 0,
              rx_dma_running := false, flush_response := true, flush_packet := false,
              response_error := false,
              response_info := { s.p.response_info with
                cmd := 77, data_length := 0, dma_length := 0, done_callback := none },
              rx_args0 := rx_word_value a0 a1 a2 a3,
              rx_args1 := rx_word_value a4 a5 a6 a7 },
            w := { s.w with rx := rest, dma_busy := false } }, ?_, rfl, ?_⟩
  · exact ⟨rfl, rfl, rfl, Nat.mod_lt _ (by decide), hrp, rfl, rfl, rfl, rfl, hts, hpp, htc,
      hl1, hl2, hl3, hsp⟩
  · have hr := usb_rx_process_request env s.dmaDone 77 a0 a1 a2 a3 a4 a5 a6 a7 rest
      hst hrp hcc hc hb (by decide) (by decide) hrx
    have hM : ∀ t : State X, t.p.rx_cmd = 77 → rx_data env t = rx_data_M t := by
      intro t h
      unfold rx_data
      rw [if_neg (by rw [h]; decide), if_neg (by rw [h]; decide), if_neg (by rw [h]; decide),
        if_neg (by rw [h]; decide), if_neg (by rw [h]; decide), if_neg (by rw [h]; decide),
        if_neg (by rw [h]; decide), if_neg (by rw [h]; decide), if_neg (by rw [h]; decide),
        if_neg (by rw [h]; decide), if_neg (by rw [h]; decide), if_pos h]
    rw [hM _ rfl] at hr
    have hM2 : rx_data_M
        { p := { s.dmaDone.p with
            rx_state := RxState.data, rx_cmd := 77, rx_counter := 0,
            rx_dma_running := false, flush_response := false, flush_packet := false,
            response_error := false,
            response_info := { s.dmaDone.p.response_info with
              cmd := 77, data_length := 0, dma_length := 0, done_callback := none },
            rx_args0 := rx_word_value a0 a1 a2 a3,
            rx_args1 := rx_word_value a4 a5 a6 a7 },
          w := { s.dmaDone.w with rx := rest } } =
        { p := { s.p with
            rx_state := RxState.flush, rx_cmd := 77, rx_counter := 0,
            rx_dma_running := false, flush_response := true, flush_packet := false,
            response_error := false,
            response_info := { s.p.response_info with
              cmd := 77, data_length := 0, dma_length := 0, done_callback := none },
            rx_args0 := rx_word_value a0 a1 a2 a3,
            rx_args1 := rx_word_value a4 a5 a6 a7 },
          w := { s.w with rx := rest, dma_busy := false } } := by
      simp [rx_data_M, usb_dma_ready, hrej, State.dmaDone]
    rw [hM2, if_pos rfl] at hr
    have hlink : ∀ t : State X, t.w.scr_pwrsav = false → t.w.scr_reset_state = false →
        t.w.scr_reset_pending = false →
        tick_ready env t = usb_tx_process env (usb_rx_process env t.dmaDone) := by
      intro t h1 h2 h3
      unfold tick_ready usb_process
      have : (t.dmaDone.w.scr_pwrsav || t.dmaDone.w.scr_reset_state ||
          t.dmaDone.w.scr_reset_pending) = false := by
        show (t.w.scr_pwrsav || t.w.scr_reset_state || t.w.scr_reset_pending) = false
        rw [h1, h2, h3]; rfl
      rw [this]
      simp
    refine (hlink s hl1 hl2 hl3).trans ?_
    refine Eq.trans ?_ (hlink _ (by exact hl1) (by exact hl2) (by exact hl3)).symm
    rw [hr]
    congr 1

/-- C4 (as stated, refuted): a memory-write request for 4 bytes at address
`0x07F00000` is rejected by bounds validation, and the tick that receives it
starts an into-memory DMA transfer at address `0x07F00000`, that is at `arg0`. -/
theorem c4_counterexample :
    rx_word_value 0x07 0xF0 0x00 0x00 = 0x07F00000 ∧
    rx_word_value 0 0 0 4 = 4 ∧
    usb_validate_address_length 0x07F00000 4 true = true ∧
    (0x07F00000, 4, DmaScr.DIRECTION_START) ∈
      dma_starts (tick_ready Env.sample State.scratchRequest).w.trace 0 0 := by
  decide

/-- C4 (amended): for every memory-write request (`'M'`) received by an idle
engine whose `(arg0, arg1)` is rejected by
`usb_validate_address_length(arg0, arg1, true)`, with the DMA engine ready on
every tick, the link up and room for 8 bytes in the outbound FIFO: the only DMA
transfers started are into-memory transfers to the scratch address
`RX_FLUSH_ADDRESS` (so none at `arg0` unless `arg0` is the scratch address
itself), one per tick, each of at most `RX_FLUSH_LENGTH` bytes, all but the
last of exactly `RX_FLUSH_LENGTH` bytes, summing to `arg1`, in
`ceil(arg1 / RX_FLUSH_LENGTH)` bursts; while bursts remain the machine is in
the Flush state with no response pending; on the next tick it returns to Idle
and exactly one response is transmitted: `45 52 52 4D` (ERROR token, opcode
`'M'`), total length `00 00 00 00`, then the output commit. -/
theorem c4_rejected_write_drain (env : Env X) (s : State X)
    (a0 a1 a2 a3 a4 a5 a6 a7 : Nat) (rest : List Nat) (m : Nat)
    (hst : s.p.rx_state = RxState.idle) (hrp : s.p.response_pending = false)
    (hcc : s.p.usb_rx_cmd_counter = 0)
    (hc : s.p.usb_rx_word_counter = 0) (hb : s.p.usb_rx_word_buffer = 0)
    (hts : s.p.tx_state = TxState.idle) (hpp : s.p.packet_pending = false)
    (htc : s.p.usb_tx_word_counter = 0)
    (hl1 : s.w.scr_pwrsav = false) (hl2 : s.w.scr_reset_state = false)
    (hl3 : s.w.scr_reset_pending = false)
    (hrx : s.w.rx = 67 :: 77 :: 68 :: 77 :: a0 :: a1 :: a2 :: a3 :: a4 :: a5 :: a6 :: a7 :: rest)
    (hsp : s.w.tx_space = m + 8)
    (hrej : usb_validate_address_length (rx_word_value a0 a1 a2 a3)
      (rx_word_value a4 a5 a6 a7) true = true) :
    (∀ j, 1 ≤ j → j ≤ (burst_lengths (rx_word_value a4 a5 a6 a7)).length →
      (ticks_ready env j s).p.rx_state = RxState.flush ∧
      (ticks_ready env j s).p.response_pending = false ∧
      (ticks_ready env j s).w.trace =
        s.w.trace ++ burst_events ((burst_lengths (rx_word_value a4 a5 a6 a7)).take j)) ∧
    ((ticks_ready env ((burst_lengths (rx_word_value a4 a5 a6 a7)).length + 1) s).w.trace =
        s.w.trace ++ burst_events (burst_lengths (rx_word_value a4 a5 a6 a7)) ++
          [Ev.usb_push 0x45, Ev.usb_push 0x52, Ev.usb_push 0x52, Ev.usb_push 0x4D,
           Ev.usb_push 0x00, Ev.usb_push 0x00, Ev.usb_push 0x00, Ev.usb_push 0x00,
           Ev.reg_set_usb_scr UsbScr.WRITE_FLUSH] ∧
      (ticks_ready env ((burst_lengths (rx_word_value a4 a5 a6 a7)).length + 1) s).p.rx_state
        = RxState.idle ∧
      (ticks_ready env ((burst_lengths (rx_word_value a4 a5 a6 a7)).length + 1) s).p.tx_state
        = TxState.idle ∧
      (ticks_ready env
        ((burst_lengths (rx_word_value a4 a5 a6 a7)).length + 1) s).p.response_pending
        = false) ∧
    (∀ a l, dma_starts (burst_events (burst_lengths (rx_word_value a4 a5 a6 a7)) ++
          [Ev.usb_push 0x45, Ev.usb_push 0x52, Ev.usb_push 0x52, Ev.usb_push 0x4D,
           Ev.usb_push 0x00, Ev.usb_push 0x00, Ev.usb_push 0x00, Ev.usb_push 0x00,
           Ev.reg_set_usb_scr UsbScr.WRITE_FLUSH]) a l =
        (burst_lengths (rx_word_value a4 a5 a6 a7)).map
          (fun n => (RX_FLUSH_ADDRESS, n, DmaScr.DIRECTION_START))) ∧
    (burst_lengths (rx_word_value a4 a5 a6 a7)).sum = rx_word_value a4 a5 a6 a7 ∧
    (∀ n ∈ burst_lengths (rx_word_value a4 a5 a6 a7), 0 < n ∧ n ≤ RX_FLUSH_LENGTH) ∧
    (∀ n ∈ (burst_lengths (rx_word_value a4 a5 a6 a7)).dropLast, n = RX_FLUSH_LENGTH) ∧
    (burst_lengths (rx_word_value a4 a5 a6 a7)).length =
      (rx_word_value a4 a5 a6 a7 + RX_FLUSH_LENGTH - 1) / RX_FLUSH_LENGTH := by
  obtain ⟨s1, hq, htr, htick⟩ := rejected_write_first_tick env s a0 a1 a2 a3 a4 a5 a6 a7 rest m
    hst hrp hcc hc hb hts hpp htc hl1 hl2 hl3 hrx hsp hrej
  have hstep : ∀ j, ticks_ready env (j + 1) s = ticks_ready env (j + 1) s1 := by
    intro j
    show ticks_ready env j (tick_ready env s) = ticks_ready env j (tick_ready env s1)
    rw [htick]
  obtain ⟨hj, hf1, hf2, hf3, hf4, -⟩ := flush_run env _ _ s1 m hq rfl
  refine ⟨fun j h1 h2 => ?_, ⟨?_, ?_, ?_, ?_⟩, fun a l => ?_, burst_lengths_sum _,
    fun n hn => burst_lengths_bound _ n hn, fun n hn => burst_lengths_dropLast _ n hn,
    burst_lengths_length _⟩
  · obtain ⟨j, rfl⟩ : ∃ i, j = i + 1 := ⟨j - 1, by omega⟩
    rw [hstep]
    obtain ⟨a, b⟩ := hj (j + 1) h2
    exact ⟨a.1, a.2.2.2.2.1, by rw [b, htr]⟩
  · rw [hstep, hf1, htr]
  · rw [hstep, hf2]
  · rw [hstep, hf3]
  · rw [hstep, hf4]
  · exact dma_starts_bursts _ _ a l rfl

/-- Witness for C4 (amended): after boot, the rejected memory-write of 4 bytes
at `0x05002980` is drained in one burst and answered on the second tick. -/
theorem c4_rejected_write_drain_witness :
    (ticks_ready Env.sample ((burst_lengths (rx_word_value 0 0 0 4)).length + 1)
        State.rejectedRequest).w.trace =
      State.rejectedRequest.w.trace ++ burst_events (burst_lengths (rx_word_value 0 0 0 4)) ++
        [Ev.usb_push 0x45, Ev.usb_push 0x52, Ev.usb_push 0x52, Ev.usb_push 0x4D,
         Ev.usb_push 0x00, Ev.usb_push 0x00, Ev.usb_push 0x00, Ev.usb_push 0x00,
         Ev.reg_set_usb_scr UsbScr.WRITE_FLUSH] ∧
    burst_lengths (rx_word_value 0 0 0 4) = [4] :=
  ⟨(c4_rejected_write_drain Env.sample State.rejectedRequest 0x05 0x00 0x29 0x80 0 0 0 4 [] 56
      rfl rfl rfl rfl rfl rfl rfl rfl rfl rfl rfl rfl rfl (by decide)).2.1.1,
    by simp [burst_lengths, rx_word_value, RX_FLUSH_LENGTH, U8, U32]⟩

/-! ## The loop counters never cut a loop short

Each loop is defined by recursion on the number of bytes (or of free room) the
FIFO holds; a larger count gives the same result, so a loop only ends where the
C loop ends: on a failing `usb_rx_byte` / `usb_tx_byte`, or on its `return` /
`break`. -/

theorem usb_rx_word_loop_enough (n : Nat) (s : State X) (h : s.w.rx.length ≤ n) :
    usb_rx_word_loop n s = usb_rx_word_loop s.w.rx.length s := by
  induction n generalizing s with
  | zero =>
    rw [Nat.le_zero.mp h]
  | succ n ih =>
    rcases s with ⟨p, w⟩
    cases w with
    | mk rx tx_space dma_busy timer p1 p2 p3 d0 d1 trace ext =>
      cases rx with
      | nil => simp [usb_rx_word_loop, usb_rx_byte]
      | cons b bs =>
        simp only [List.length_cons, Nat.add_le_add_iff_right] at h
        simp only [usb_rx_word_loop, usb_rx_byte, List.length_cons]
        split_ifs
        · rfl
        · rw [ih _ h]

theorem usb_rx_cmd_loop_enough (n : Nat) (s : State X) (h : s.w.rx.length ≤ n) :
    usb_rx_cmd_loop n s = usb_rx_cmd_loop s.w.rx.length s := by
  induction n generalizing s with
  | zero =>
    rw [Nat.le_zero.mp h]
  | succ n ih =>
    rcases s with ⟨p, w⟩
    cases w with
    | mk rx tx_space dma_busy timer p1 p2 p3 d0 d1 trace ext =>
      cases rx with
      | nil => simp [usb_rx_cmd_loop, usb_rx_byte]
      | cons b bs =>
        simp only [List.length_cons, Nat.add_le_add_iff_right] at h
        simp only [usb_rx_cmd_loop, usb_rx_byte, List.length_cons]
        split_ifs
        · rfl
        · rfl
        · rw [ih _ h]

theorem usb_tx_word_loop_enough (data n : Nat) (s : State X) (h : s.w.tx_space ≤ n) :
    usb_tx_word_loop data n s = usb_tx_word_loop data s.w.tx_space s := by
  induction n generalizing s with
  | zero =>
    rw [Nat.le_zero.mp h]
  | succ n ih =>
    rcases s with ⟨p, w⟩
    cases w with
    | mk rx tx_space dma_busy timer p1 p2 p3 d0 d1 trace ext =>
      cases tx_space with
      | zero => simp [usb_tx_word_loop, usb_tx_byte]
      | succ k =>
        simp only [Nat.add_le_add_iff_right] at h
        simp only [usb_tx_word_loop, usb_tx_byte, Nat.add_one_ne_zero, if_false,
          Nat.add_sub_cancel]
        split_ifs
        · rfl
        · rw [ih _ h]

theorem usb_rx_word_loop_consumes (n : Nat) (s : State X) :
    (usb_rx_word_loop n s).2.w.rx.length ≤ s.w.rx.length ∧
    ((usb_rx_word_loop n s).1 ≠ none →
      (usb_rx_word_loop n s).2.w.rx.length < s.w.rx.length) := by
  induction n generalizing s with
  | zero => exact ⟨le_refl _, fun h => absurd rfl h⟩
  | succ n ih =>
    rcases s with ⟨p, w⟩
    cases w with
    | mk rx tx_space dma_busy timer p1 p2 p3 d0 d1 trace ext =>
      cases rx with
      | nil => simp [usb_rx_word_loop, usb_rx_byte]
      | cons b bs =>
        simp only [usb_rx_word_loop, usb_rx_byte, List.length_cons]
        split_ifs
        · exact ⟨Nat.le_succ _, fun _ => Nat.lt_succ_self _⟩
        · have h := (ih
            { p := { p with
                usb_rx_word_counter := (p.usb_rx_word_counter + 1) % U8,
                usb_rx_word_buffer := ((p.usb_rx_word_buffer <<< 8) ||| (b % U8)) % U32 },
              w := { rx := bs, tx_space := tx_space, dma_busy := dma_busy, timer := timer,
                     scr_pwrsav := p1, scr_reset_state := p2, scr_reset_pending := p3,
                     debug0 := d0, debug1 := d1, trace := trace, ext := ext } }).1
          exact ⟨Nat.le_succ_of_le h, fun _ => Nat.lt_succ_of_le h⟩

theorem rx_args_loop_enough (n : Nat) :
    ∀ (m : Nat) (s : State X), s.w.rx.length ≤ n → s.w.rx.length ≤ m →
      rx_args_loop n s = rx_args_loop m s := by
  induction n with
  | zero =>
    intro m s hn hm
    have h0 : s.w.rx.length = 0 := Nat.le_zero.mp hn
    cases m with
    | zero => rfl
    | succ m =>
      have hw : usb_rx_word s = (none, s) := by
        unfold usb_rx_word
        rw [h0]
        rfl
      simp [rx_args_loop, hw]
  | succ n ih =>
    intro m s hn hm
    cases m with
    | zero =>
      have h0 : s.w.rx.length = 0 := Nat.le_zero.mp hm
      have hw : usb_rx_word s = (none, s) := by
        unfold usb_rx_word
        rw [h0]
        rfl
      simp [rx_args_loop, hw]
    | succ m =>
      have hc := usb_rx_word_loop_consumes s.w.rx.length s
      unfold rx_args_loop
      rcases hw : usb_rx_word s with ⟨r, s1⟩
      have hw1 : usb_rx_word_loop s.w.rx.length s = (r, s1) := hw
      rw [hw1] at hc
      cases r with
      | none => rfl
      | some word =>
        simp only []
        split_ifs
        · rfl
        · have hlt := hc.2 (by simp)
          simp only at hlt
          exact ih m _ (by simp only []; omega) (by simp only []; omega)

theorem usb_tx_word_loop_consumes (data n : Nat) (s : State X) :
    (usb_tx_word_loop data n s).2.w.tx_space ≤ s.w.tx_space ∧
    ((usb_tx_word_loop data n s).1 = true →
      (usb_tx_word_loop data n s).2.w.tx_space < s.w.tx_space) := by
  induction n generalizing s with
  | zero => exact ⟨le_refl _, fun h => absurd h (by simp [usb_tx_word_loop])⟩
  | succ n ih =>
    rcases s with ⟨p, w⟩
    cases w with
    | mk rx tx_space dma_busy timer p1 p2 p3 d0 d1 trace ext =>
      cases tx_space with
      | zero => simp [usb_tx_word_loop, usb_tx_byte]
      | succ k =>
        simp only [usb_tx_word_loop, usb_tx_byte, Nat.add_one_ne_zero, if_false,
          Nat.add_sub_cancel]
        split_ifs
        · exact ⟨Nat.le_succ _, fun _ => Nat.lt_succ_self _⟩
        · have h := (ih
            { p := { p with usb_tx_word_counter := (p.usb_tx_word_counter + 1) % U8 },
              w := { rx := rx, tx_space := k, dma_busy := dma_busy, timer := timer,
                     scr_pwrsav := p1, scr_reset_state := p2, scr_reset_pending := p3,
                     debug0 := d0, debug1 := d1,
                     trace := trace ++ [Ev.usb_push
                       ((data >>> ((3 - p.usb_tx_word_counter) * 8)) % U8)],
                     ext := ext } }).1
          exact ⟨Nat.le_succ_of_le h, fun _ => Nat.lt_succ_of_le h⟩

theorem tx_data_loop_enough (n : Nat) :
    ∀ (m : Nat) (s : State X), s.w.tx_space ≤ n → s.w.tx_space ≤ m →
      tx_data_loop n s = tx_data_loop m s := by
  induction n with
  | zero =>
    intro m s hn hm
    have h0 : s.w.tx_space = 0 := Nat.le_zero.mp hn
    cases m with
    | zero => rfl
    | succ m =>
      have hw : usb_tx_word (s.p.tx_info.data s.p.tx_counter) s = (false, s) := by
        unfold usb_tx_word
        rw [h0]
        rfl
      simp [tx_data_loop, hw]
  | succ n ih =>
    intro m s hn hm
    cases m with
    | zero =>
      have h0 : s.w.tx_space = 0 := Nat.le_zero.mp hm
      have hw : usb_tx_word (s.p.tx_info.data s.p.tx_counter) s = (false, s) := by
        unfold usb_tx_word
        rw [h0]
        rfl
      simp [tx_data_loop, hw]
    | succ m =>
      have hc := usb_tx_word_loop_consumes (s.p.tx_info.data s.p.tx_counter) s.w.tx_space s
      unfold tx_data_loop
      rcases hw : usb_tx_word (s.p.tx_info.data s.p.tx_counter) s with ⟨r, s1⟩
      have hw1 : usb_tx_word_loop (s.p.tx_info.data s.p.tx_counter) s.w.tx_space s = (r, s1) :=
        hw
      rw [hw1] at hc
      cases r with
      | false => rfl
      | true =>
        simp only []
        split_ifs
        · rfl
        · have hlt := hc.2 rfl
          simp only at hlt
          exact ih m _ (by simp only []; omega) (by simp only []; omega)

/-! ## Frame of the transmit machine -/

theorem start_writes_append (e1 e2 : List Ev) :
    start_writes (e1 ++ e2) = start_writes e1 ++ start_writes e2 := by
  induction e1 with
  | nil => rfl
  | cons e es ih =>
    cases e with
    | reg_set_dma_scr c => cases c <;> simp [start_writes, ih]
    | _ => simp [start_writes, ih]

theorem start_writes_pushes (bytes : List Nat) : start_writes (bytes.map Ev.usb_push) = [] := by
  induction bytes with
  | nil => rfl
  | cons b bs ih => simpa [start_writes] using ih

theorem dma_starts_of_no_start_writes (evs : List Ev) (h : start_writes evs = []) (a l : Nat) :
    dma_starts evs a l = [] := by
  induction evs generalizing a l with
  | nil => rfl
  | cons e es ih =>
    cases e with
    | reg_set_dma_scr c => cases c <;> simp_all [dma_starts, start_writes]
    | _ => simp_all [dma_starts, start_writes]

theorem dmaUse_refl (dir : DmaScr) (b : Bool) : DmaUse dir b b [] := Or.inl ⟨rfl, rfl⟩

theorem dmaUse_trans {dir : DmaScr} {b b1 b2 : Bool} {e1 e2 : List Ev}
    (h1 : DmaUse dir b b1 e1) (h2 : DmaUse dir b1 b2 e2) : DmaUse dir b b2 (e1 ++ e2) := by
  unfold DmaUse at *
  rw [start_writes_append]
  rcases h1 with ⟨h1, h1e⟩ | ⟨h1, h1b, h1e⟩ <;> rcases h2 with ⟨h2, h2e⟩ | ⟨h2, h2b, h2e⟩
  · left; exact ⟨h2.trans h1, by rw [h1e, h2e]; rfl⟩
  · right; exact ⟨h1 ▸ h2, h2b, by rw [h1e, h2e]; rfl⟩
  · right; exact ⟨h1, h2.trans h1b, by rw [h1e, h2e]; rfl⟩
  · rw [h1b] at h2; cases h2

theorem txFrame_refl (s : State X) : TxFrame s s :=
  ⟨s.p.tx_state, s.p.tx_counter, s.p.tx_info, s.p.tx_token, s.p.tx_dma_running,
    s.p.response_pending, s.p.packet_pending, s.p.usb_tx_word_counter, s.w.tx_space,
    s.w.dma_busy, [], s.w.ext, by simp, id, id, dmaUse_refl _ _⟩

theorem txFrame_trans {s s1 s2 : State X} (h1 : TxFrame s s1) (h2 : TxFrame s1 s2) :
    TxFrame s s2 := by
  obtain ⟨ts, tc, ti, tt, tdr, rp, pp, c, sp, busy, evs, ext, rfl, hr, hp, hd⟩ := h1
  obtain ⟨ts2, tc2, ti2, tt2, tdr2, rp2, pp2, c2, sp2, busy2, evs2, ext2, rfl, hr2, hp2, hd2⟩ := h2
  refine ⟨ts2, tc2, ti2, tt2, tdr2, rp2, pp2, c2, sp2, busy2, evs ++ evs2, ext2, ?_,
    fun h => hr (hr2 h), fun h => hp (hp2 h), dmaUse_trans hd hd2⟩
  simp [List.append_assoc]

theorem txFrame_pushes (s : State X) (ts : TxState) (tc c sp : Nat) (bytes : List Nat) :
    TxFrame s { p := { s.p with tx_state := ts, tx_counter := tc, usb_tx_word_counter := c },
                w := { s.w with tx_space := sp,
                                trace := s.w.trace ++ bytes.map Ev.usb_push } } :=
  ⟨ts, tc, s.p.tx_info, s.p.tx_token, s.p.tx_dma_running, s.p.response_pending,
    s.p.packet_pending, c, sp, s.w.dma_busy, bytes.map Ev.usb_push, s.w.ext, rfl, id, id,
    Or.inl ⟨rfl, start_writes_pushes bytes⟩⟩

theorem txFrame_state (s : State X) (ts : TxState) :
    TxFrame s { s with p := { s.p with tx_state := ts } } :=
  ⟨ts, s.p.tx_counter, s.p.tx_info, s.p.tx_token, s.p.tx_dma_running,
    s.p.response_pending, s.p.packet_pending, s.p.usb_tx_word_counter, s.w.tx_space,
    s.w.dma_busy, [], s.w.ext, by simp, id, id, dmaUse_refl _ _⟩

theorem tx_idle_frame (s : State X) : TxFrame s (tx_idle s) := by
  unfold tx_idle
  by_cases h1 : s.p.response_pending = true
  · rw [if_pos h1]
    exact ⟨TxState.token, 0, s.p.response_info,
      (if s.p.response_error then ERR_TOKEN else CMP_TOKEN), false, false, s.p.packet_pending,
      s.p.usb_tx_word_counter, s.w.tx_space, s.w.dma_busy, [], s.w.ext, by simp, by simp, id,
      dmaUse_refl _ _⟩
  · rw [if_neg h1]
    by_cases h2 : s.p.packet_pending = true
    · rw [if_pos h2]
      exact ⟨TxState.token, 0, s.p.packet_info, PKT_TOKEN, false, s.p.response_pending, false,
        s.p.usb_tx_word_counter, s.w.tx_space, s.w.dma_busy, [], s.w.ext, by simp, id, by simp,
        dmaUse_refl _ _⟩
    · rw [if_neg h2]
      exact txFrame_refl s

theorem tx_token_frame (s : State X) : TxFrame s (tx_token s) := by
  have step1 : TxFrame s (if s.p.tx_counter = 0 then
      match usb_tx_word (s.p.tx_token ||| s.p.tx_info.cmd) s with
      | (true, s0) => { s0 with p := { s0.p with tx_counter := (s0.p.tx_counter + 1) % U8 } }
      | (false, s0) => s0
    else s) := by
    by_cases h : s.p.tx_counter = 0
    · rw [if_pos h]
      obtain ⟨c, sp, bytes, hw⟩ := usb_tx_word_frame (s.p.tx_token ||| s.p.tx_info.cmd) s
      rcases hr : usb_tx_word (s.p.tx_token ||| s.p.tx_info.cmd) s with ⟨r, s0⟩
      rw [hr] at hw
      simp only [] at hw
      subst hw
      cases r
      · exact txFrame_pushes s _ _ _ _ bytes
      · exact txFrame_pushes s _ _ _ _ bytes
    · rw [if_neg h]
      exact txFrame_refl s
  have step2 : ∀ s1 : State X, TxFrame s1 (if s1.p.tx_counter = 1 then
      match usb_tx_word ((s1.p.tx_info.data_length + s1.p.tx_info.dma_length) % U32) s1 with
      | (true, s2) => { s2 with p := { s2.p with tx_state := TxState.data, tx_counter := 0 } }
      | (false, s2) => s2
    else s1) := by
    intro s1
    by_cases h : s1.p.tx_counter = 1
    · rw [if_pos h]
      obtain ⟨c, sp, bytes, hw⟩ :=
        usb_tx_word_frame ((s1.p.tx_info.data_length + s1.p.tx_info.dma_length) % U32) s1
      rcases hr : usb_tx_word ((s1.p.tx_info.data_length + s1.p.tx_info.dma_length) % U32) s1
        with ⟨r, s0⟩
      rw [hr] at hw
      simp only [] at hw
      subst hw
      cases r
      · exact txFrame_pushes s1 _ _ _ _ bytes
      · exact txFrame_pushes s1 _ _ _ _ bytes
    · rw [if_neg h]
      exact txFrame_refl s1
  exact txFrame_trans step1 (step2 _)

theorem tx_data_frame (s : State X) : TxFrame s (tx_data s) := by
  unfold tx_data
  by_cases h : s.p.tx_info.data_length > 0
  · rw [if_pos h]
    obtain ⟨st, cnt, c, sp, bytes, hw, _⟩ := tx_data_loop_frame s.w.tx_space s
    rw [hw]
    exact txFrame_pushes s _ _ _ _ bytes
  · rw [if_neg h]
    exact txFrame_state s TxState.dma

theorem tx_dma_frame (s : State X) : TxFrame s (tx_dma s) := by
  unfold tx_dma usb_dma_ready
  by_cases h1 : s.p.tx_info.dma_length > 0
  · rw [if_pos h1]
    by_cases h2 : (!s.w.dma_busy) = true
    · rw [if_pos h2]
      by_cases h3 : (!s.p.tx_dma_running) = true
      · rw [if_pos h3]
        have h2f : s.w.dma_busy = false := by simpa using h2
        refine ⟨s.p.tx_state, s.p.tx_counter, s.p.tx_info, s.p.tx_token, true,
          s.p.response_pending, s.p.packet_pending, s.p.usb_tx_word_counter, s.w.tx_space,
          true, [Ev.reg_set_dma_address s.p.tx_info.dma_address,
            Ev.reg_set_dma_length s.p.tx_info.dma_length, Ev.reg_set_dma_scr DmaScr.START],
          s.w.ext, ?_, id, id, Or.inr ⟨h2f, rfl, rfl⟩⟩
        simp [dma_start, State.emit]
      · rw [if_neg h3]
        exact txFrame_state s TxState.flush
    · rw [if_neg h2]
      exact txFrame_refl s
  · rw [if_neg h1]
    exact txFrame_state s TxState.flush

theorem tx_flush_frame (env : Env X) (s : State X) : TxFrame s (tx_flush env s) := by
  cases h : s.p.tx_info.done_callback with
  | none =>
    rw [tx_flush_none env s h]
    exact ⟨TxState.idle, s.p.tx_counter, s.p.tx_info, s.p.tx_token, s.p.tx_dma_running,
      s.p.response_pending, s.p.packet_pending, s.p.usb_tx_word_counter, s.w.tx_space,
      s.w.dma_busy, [Ev.reg_set_usb_scr UsbScr.WRITE_FLUSH], s.w.ext, rfl, id, id,
      Or.inl ⟨rfl, rfl⟩⟩
  | some cb =>
    rw [tx_flush_some env s cb h]
    exact ⟨TxState.idle, s.p.tx_counter, s.p.tx_info, s.p.tx_token, s.p.tx_dma_running,
      s.p.response_pending, s.p.packet_pending, s.p.usb_tx_word_counter, s.w.tx_space,
      s.w.dma_busy, [Ev.reg_set_usb_scr UsbScr.WRITE_FLUSH, Ev.done_callback cb],
      env.run_callback cb s.w.ext, rfl, id, id, Or.inl ⟨rfl, rfl⟩⟩

theorem usb_tx_process_frame (env : Env X) (s : State X) : TxFrame s (usb_tx_process env s) := by
  unfold usb_tx_process
  have h1 : TxFrame s (if s.p.tx_state = TxState.idle then tx_idle s else s) := by
    split_ifs
    · exact tx_idle_frame s
    · exact txFrame_refl s
  generalize (if s.p.tx_state = TxState.idle then tx_idle s else s) = s1 at h1
  simp only []
  have h2 : TxFrame s1 (if s1.p.tx_state = TxState.token then tx_token s1 else s1) := by
    split_ifs
    · exact tx_token_frame s1
    · exact txFrame_refl s1
  generalize (if s1.p.tx_state = TxState.token then tx_token s1 else s1) = s2 at h2
  have h3 : TxFrame s2 (if s2.p.tx_state = TxState.data then tx_data s2 else s2) := by
    split_ifs
    · exact tx_data_frame s2
    · exact txFrame_refl s2
  generalize (if s2.p.tx_state = TxState.data then tx_data s2 else s2) = s3 at h3
  have h4 : TxFrame s3 (if s3.p.tx_state = TxState.dma then tx_dma s3 else s3) := by
    split_ifs
    · exact tx_dma_frame s3
    · exact txFrame_refl s3
  generalize (if s3.p.tx_state = TxState.dma then tx_dma s3 else s3) = s4 at h4
  refine txFrame_trans h1 (txFrame_trans h2 (txFrame_trans h3 (txFrame_trans h4 ?_)))
  split_ifs
  · exact tx_flush_frame env s4
  · exact txFrame_refl s4

/-! ## Stream-write: one chunk -/

theorem rx_data_stream (env : Env X) (s : State X) (hc : s.p.rx_cmd = 85) :
    rx_data env s = rx_data_U s := by
  simp [rx_data, hc]

theorem usb_rx_process_stream (env : Env X) (s : State X) (hd : s.p.rx_state = RxState.data)
    (hc : s.p.rx_cmd = 85) :
    usb_rx_process env s =
      if (rx_data_U s).p.rx_state = RxState.flush then rx_flush env (rx_data_U s)
      else rx_data_U s := by
  simp [usb_rx_process, hd, rx_data_stream env s hc]

theorem stream_start (env : Env X) (s : State X) (hd : s.p.rx_state = RxState.data)
    (hc : s.p.rx_cmd = 85) (hR : 0 < s.p.rx_args1) (hL : 0 < s.p.read_length)
    (hrun : s.p.rx_dma_running = false) (hready : s.w.dma_busy = false) :
    usb_rx_process env s =
      { p := { s.p with rx_dma_running := true, read_ready := false },
        w := { s.w with dma_busy := true, trace := s.w.trace ++
          [Ev.reg_set_dma_address s.p.read_address,
           Ev.reg_set_dma_length (min s.p.read_length s.p.rx_args1),
           Ev.reg_set_dma_scr DmaScr.DIRECTION_START] } } := by
  rw [usb_rx_process_stream env s hd hc]
  have hmin : (if s.p.read_length > s.p.rx_args1 then s.p.rx_args1 else s.p.read_length) =
      min s.p.read_length s.p.rx_args1 := by
    split_ifs with h
    · exact (Nat.min_eq_right (Nat.le_of_lt h)).symm
    · exact (Nat.min_eq_left (Nat.le_of_not_lt h)).symm
  have h1 : rx_data_U s =
      { p := { s.p with rx_dma_running := true, read_ready := false },
        w := { s.w with dma_busy := true, trace := s.w.trace ++
          [Ev.reg_set_dma_address s.p.read_address,
           Ev.reg_set_dma_length (min s.p.read_length s.p.rx_args1),
           Ev.reg_set_dma_scr DmaScr.DIRECTION_START] } } := by
    unfold rx_data_U usb_dma_ready
    rw [if_neg (Nat.pos_iff_ne_zero.mp hR), hready]
    simp only [Bool.not_false, if_true]
    rw [if_pos hL, hrun, hmin]
    simp [dma_start, State.emit]
  rw [h1]
  simp [hd]

theorem stream_confirm (env : Env X) (s : State X) (hd : s.p.rx_state = RxState.data)
    (hc : s.p.rx_cmd = 85) (hR : 0 < s.p.rx_args1) (hL : 0 < s.p.read_length)
    (hR32 : s.p.rx_args1 < U32) (hL32 : s.p.read_length < U32)
    (hrun : s.p.rx_dma_running = true) (hready : s.w.dma_busy = false) :
    usb_rx_process env s =
      { p := { s.p with
          rx_args1 := s.p.rx_args1 - min s.p.read_length s.p.rx_args1,
          rx_dma_running := false,
          read_length := s.p.read_length - min s.p.read_length s.p.rx_args1,
          read_address := (s.p.read_address + min s.p.read_length s.p.rx_args1) % U32,
          read_ready := true },
        w := { s.w with timer := 100, trace := s.w.trace ++ [Ev.timer_set 100] } } := by
  rw [usb_rx_process_stream env s hd hc]
  have hmin : (if s.p.read_length > s.p.rx_args1 then s.p.rx_args1 else s.p.read_length) =
      min s.p.read_length s.p.rx_args1 := by
    split_ifs with h
    · exact (Nat.min_eq_right (Nat.le_of_lt h)).symm
    · exact (Nat.min_eq_left (Nat.le_of_not_lt h)).symm
  have hU : U32 = 4294967296 := by norm_num [U32]
  have e1 : (s.p.rx_args1 + U32 - min s.p.read_length s.p.rx_args1) % U32 =
      s.p.rx_args1 - min s.p.read_length s.p.rx_args1 := by
    rw [hU] at hR32 hL32 ⊢; omega
  have e2 : (s.p.read_length + U32 - min s.p.read_length s.p.rx_args1) % U32 =
      s.p.read_length - min s.p.read_length s.p.rx_args1 := by
    rw [hU] at hR32 hL32 ⊢; omega
  have h1 : rx_data_U s =
      { p := { s.p with
          rx_args1 := s.p.rx_args1 - min s.p.read_length s.p.rx_args1,
          rx_dma_running := false,
          read_length := s.p.read_length - min s.p.read_length s.p.rx_args1,
          read_address := (s.p.read_address + min s.p.read_length s.p.rx_args1) % U32,
          read_ready := true },
        w := { s.w with timer := 100, trace := s.w.trace ++ [Ev.timer_set 100] } } := by
    unfold rx_data_U usb_dma_ready
    rw [if_neg (Nat.pos_iff_ne_zero.mp hR), hready]
    simp only [Bool.not_false, if_true]
    rw [if_pos hL, hrun, hmin, e1, e2]
    simp [timer_set, State.emit, DEBUG_WRITE_TIMEOUT_TICKS]
  rw [h1]
  simp [hd]

theorem stream_finish (env : Env X) (s : State X) (hd : s.p.rx_state = RxState.data)
    (hc : s.p.rx_cmd = 85) (hR : s.p.rx_args1 = 0) :
    usb_rx_process env s = { s with p := { s.p with rx_state := RxState.idle } } := by
  rw [usb_rx_process_stream env s hd hc]
  have h1 : rx_data_U s = { s with p := { s.p with rx_state := RxState.idle } } := by
    unfold rx_data_U
    rw [if_pos hR]
  rw [h1]
  simp

theorem usb_process_link_up (env : Env X) (s : State X) (h : s.w.linkUp) :
    usb_process env s = usb_tx_process env (usb_rx_process env s) := by
  obtain ⟨h1, h2, h3⟩ := h
  simp [usb_process, h1, h2, h3]

/-- C11: a stream-write (`'U'`) in the Data state with `R = rx_args[1] > 0`
bytes remaining and staging capacity `L = read_length > 0`, no chunk in flight.
On a link-up tick with the DMA engine ready the tick starts exactly one
transfer, into memory, at `read_address` of length `min L R`, and clears
`read_ready`, so that `usb_prepare_read` fails and changes nothing.  On the next
link-up tick with the engine ready the same chunk is subtracted from
`rx_args[1]` and `read_length` (the chunk is at most each of them), added to
`read_address`, `read_ready` is set and the timer re-armed to 100.  When
`L = R` both are 0 then, and the following link-up tick leaves the receive
machine Idle with `response_pending` clear. -/
theorem c11_stream_write_chunk (env : Env X) (s : State X) (w1 w2 : World X)
    (hup : s.w.linkUp) (hd : s.p.rx_state = RxState.data) (hc : s.p.rx_cmd = 85)
    (hR : 0 < s.p.rx_args1) (hR32 : s.p.rx_args1 < U32)
    (hL : 0 < s.p.read_length) (hL32 : s.p.read_length < U32)
    (hrun : s.p.rx_dma_running = false) (hrp : s.p.response_pending = false)
    (hready : s.w.dma_busy = false)
    (hup1 : w1.linkUp) (hready1 : w1.dma_busy = false) (hup2 : w2.linkUp) :
    (∃ evs, (usb_process env s).w.trace = s.w.trace ++ evs ∧
      ∀ a l, dma_starts evs a l =
        [(s.p.read_address, min s.p.read_length s.p.rx_args1, DmaScr.DIRECTION_START)]) ∧
    (usb_process env s).p.read_ready = false ∧
    (usb_process env s).p.rx_dma_running = true ∧
    (∀ a l, usb_prepare_read a l (usb_process env s).p = (false, (usb_process env s).p)) ∧
    min s.p.read_length s.p.rx_args1 ≤ s.p.rx_args1 ∧
    min s.p.read_length s.p.rx_args1 ≤ s.p.read_length ∧
    (usb_process env { p := (usb_process env s).p, w := w1 }).p.rx_args1 =
      s.p.rx_args1 - min s.p.read_length s.p.rx_args1 ∧
    (usb_process env { p := (usb_process env s).p, w := w1 }).p.read_length =
      s.p.read_length - min s.p.read_length s.p.rx_args1 ∧
    (usb_process env { p := (usb_process env s).p, w := w1 }).p.read_address =
      (s.p.read_address + min s.p.read_length s.p.rx_args1) % U32 ∧
    (usb_process env { p := (usb_process env s).p, w := w1 }).p.read_ready = true ∧
    (usb_process env { p := (usb_process env s).p, w := w1 }).p.rx_state = RxState.data ∧
    (usb_process env { p := (usb_process env s).p, w := w1 }).w.timer = 100 ∧
    (∃ evs, (usb_process env { p := (usb_process env s).p, w := w1 }).w.trace =
      w1.trace ++ Ev.timer_set 100 :: evs) ∧
    (s.p.read_length = s.p.rx_args1 →
      (usb_process env { p := (usb_process env s).p, w := w1 }).p.rx_args1 = 0 ∧
      (usb_process env { p := (usb_process env s).p, w := w1 }).p.read_length = 0 ∧
      (usb_process env { p := (usb_process env
          { p := (usb_process env s).p, w := w1 }).p, w := w2 }).p.rx_state = RxState.idle ∧
      (usb_process env { p := (usb_process env
          { p := (usb_process env s).p, w := w1 }).p, w := w2 }).p.response_pending = false) := by
  -- first tick
  have hs1 := usb_process_link_up env s hup
  rw [stream_start env s hd hc hR hL hrun hready] at hs1
  obtain ⟨ts, tc, ti, tt, tdr, rp, pp, c, sp, busy, evs, ext, hf, hrp1, -, hdma⟩ :=
    usb_tx_process_frame env
      { p := { s.p with rx_dma_running := true, read_ready := false },
        w := { s.w with dma_busy := true, trace := s.w.trace ++
          [Ev.reg_set_dma_address s.p.read_address,
           Ev.reg_set_dma_length (min s.p.read_length s.p.rx_args1),
           Ev.reg_set_dma_scr DmaScr.DIRECTION_START] } }
  rw [hf] at hs1
  have hevs : start_writes evs = [] := by
    rcases hdma with ⟨-, h⟩ | ⟨h, -, -⟩
    · exact h
    · cases h
  have hrpf : rp = false := by
    cases rp
    · rfl
    · exact (hrp1 rfl).symm.trans hrp |>.symm ▸ rfl
  generalize usb_process env s = s1 at hs1 ⊢
  subst hs1
  -- second tick
  have hs2 := usb_process_link_up env
    { p := { s.p with rx_dma_running := true, read_ready := false, tx_state := ts,
                      tx_counter := tc, tx_info := ti, tx_token := tt, tx_dma_running := tdr,
                      response_pending := rp, packet_pending := pp, usb_tx_word_counter := c },
      w := w1 } hup1
  rw [stream_confirm env
    { p := { s.p with rx_dma_running := true, read_ready := false, tx_state := ts,
                      tx_counter := tc, tx_info := ti, tx_token := tt, tx_dma_running := tdr,
                      response_pending := rp, packet_pending := pp, usb_tx_word_counter := c },
      w := w1 } hd hc hR hL hR32 hL32 rfl hready1] at hs2
  obtain ⟨ts2, tc2, ti2, tt2, tdr2, rp2, pp2, c2, sp2, busy2, evs2, ext2, hf2, hrp2, -, -⟩ :=
    usb_tx_process_frame env
      { p := { s.p with
          rx_args1 := s.p.rx_args1 - min s.p.read_length s.p.rx_args1,
          rx_dma_running := false,
          read_length := s.p.read_length - min s.p.read_length s.p.rx_args1,
          read_address := (s.p.read_address + min s.p.read_length s.p.rx_args1) % U32,
          read_ready := true, tx_state := ts,
          tx_counter := tc, tx_info := ti, tx_token := tt, tx_dma_running := tdr,
          response_pending := rp, packet_pending := pp, usb_tx_word_counter := c },
        w := { w1 with timer := 100, trace := w1.trace ++ [Ev.timer_set 100] } }
  rw [hf2] at hs2
  have hrp2f : rp2 = false := by
    cases rp2
    · rfl
    · have := hrp2 rfl
      simp only [] at this
      rw [hrpf] at this
      cases this
  generalize usb_process env _ = s2 at hs2 ⊢
  subst hs2
  refine ⟨⟨[Ev.reg_set_dma_address s.p.read_address,
        Ev.reg_set_dma_length (min s.p.read_length s.p.rx_args1),
        Ev.reg_set_dma_scr DmaScr.DIRECTION_START] ++ evs, List.append_assoc _ _ _,
      fun a l => ?_⟩, rfl, rfl, fun a l => rfl,
    Nat.min_le_right _ _, Nat.min_le_left _ _, rfl, rfl, rfl, rfl, hd, rfl,
    ⟨evs2, by simp⟩, fun hLR => ?_⟩
  · obtain ⟨a1, l1, h⟩ := dma_starts_append
      [Ev.reg_set_dma_address s.p.read_address,
        Ev.reg_set_dma_length (min s.p.read_length s.p.rx_args1),
        Ev.reg_set_dma_scr DmaScr.DIRECTION_START] evs a l
    rw [h, dma_starts_of_no_start_writes evs hevs]
    simp [dma_starts]
  · have hz : s.p.rx_args1 - min s.p.read_length s.p.rx_args1 = 0 := by
      rw [hLR, Nat.min_self, Nat.sub_self]
    have hz2 : s.p.read_length - min s.p.read_length s.p.rx_args1 = 0 := by
      rw [hLR, Nat.min_self, Nat.sub_self]
    refine ⟨hz, hz2, ?_⟩
    rw [usb_process_link_up env _ hup2]
    rw [stream_finish env
      { p := { s.p with
          rx_args1 := s.p.rx_args1 - min s.p.read_length s.p.rx_args1,
          rx_dma_running := false,
          read_length := s.p.read_length - min s.p.read_length s.p.rx_args1,
          read_address := (s.p.read_address + min s.p.read_length s.p.rx_args1) % U32,
          read_ready := true, tx_state := ts2,
          tx_counter := tc2, tx_info := ti2, tx_token := tt2, tx_dma_running := tdr2,
          response_pending := rp2, packet_pending := pp2, usb_tx_word_counter := c2 },
        w := w2 } hd hc hz]
    obtain ⟨ts3, tc3, ti3, tt3, tdr3, rp3, pp3, c3, sp3, busy3, evs3, ext3, hf3, hrp3, -, -⟩ :=
      usb_tx_process_frame env
        ({ p := { s.p with
            rx_state := RxState.idle,
            rx_args1 := s.p.rx_args1 - min s.p.read_length s.p.rx_args1,
            rx_dma_running := false,
            read_length := s.p.read_length - min s.p.read_length s.p.rx_args1,
            read_address := (s.p.read_address + min s.p.read_length s.p.rx_args1) % U32,
            read_ready := true, tx_state := ts2,
            tx_counter := tc2, tx_info := ti2, tx_token := tt2, tx_dma_running := tdr2,
            response_pending := rp2, packet_pending := pp2, usb_tx_word_counter := c2 },
           w := w2 } : State X)
    rw [hf3]
    refine ⟨rfl, ?_⟩
    cases rp3
    · rfl
    · have := hrp3 rfl
      simp only [] at this
      rw [hrp2f] at this
      cases this

/-- Witness for C11: the stream-write of `State.streamWrite` announces 4 bytes
with 4 bytes of staging capacity: the first tick clears `read_ready`, the
second leaves 0 bytes remaining, the third leaves the receive machine Idle. -/
theorem c11_stream_write_chunk_witness :
    (usb_process Env.sample State.streamWrite).p.read_ready = false ∧
    (usb_process Env.sample
      { p := (usb_process Env.sample State.streamWrite).p, w := World.sample [] 64 }).p.rx_args1
      = 0 ∧
    (usb_process Env.sample
      { p := (usb_process Env.sample
          { p := (usb_process Env.sample State.streamWrite).p, w := World.sample [] 64 }).p,
        w := World.sample [] 64 }).p.rx_state = RxState.idle :=
  have h := c11_stream_write_chunk Env.sample State.streamWrite (World.sample [] 64)
    (World.sample [] 64) ⟨rfl, rfl, rfl⟩ (by decide) (by decide) (by decide) (by decide)
    (by decide) (by decide) (by decide) (by decide) (by decide) ⟨rfl, rfl, rfl⟩ rfl
    ⟨rfl, rfl, rfl⟩
  ⟨h.2.1, (h.2.2.2.2.2.2.2.2.2.2.2.2.2 (by decide)).1,
    (h.2.2.2.2.2.2.2.2.2.2.2.2.2 (by decide)).2.2.1⟩

/-! ## Link down: reset and pending notifications -/

theorem usb_process_reset_pending (env : Env X) (s : State X)
    (h : s.w.scr_reset_pending = true) :
    usb_process env s =
      { p := { s.p with
          rx_state := RxState.idle, tx_state := TxState.idle, response_pending := false,
          packet_pending := false, read_ready := true, read_length := 0, read_address := 0,
          usb_rx_word_counter := 0, usb_rx_word_buffer := 0, usb_tx_word_counter := 0,
          usb_rx_cmd_counter := 0 },
        w := { s.w with
          trace := s.w.trace ++ (callback_events (notify_done s.p) ++
            (callback_events (frame_done s.p) ++
              [Ev.reg_set_dma_scr DmaScr.STOP, Ev.reg_set_usb_scr UsbScr.FIFO_FLUSH,
               Ev.reg_set_usb_scr UsbScr.RESET_ACK])),
          ext := callback_effect env (frame_done s.p)
            (callback_effect env (notify_done s.p) s.w.ext) } } := by
  rcases s with ⟨p, w⟩
  simp only at h
  cases hpp : p.packet_pending <;> cases hpc : p.packet_info.done_callback <;>
    cases hts : p.tx_state <;> cases htc : p.tx_info.done_callback <;>
    simp [usb_process, usb_init, State.emit, State.setExt, run_done_callback, notify_done,
      frame_done, callback_events, callback_effect, h, hpp, hpc, hts, htc]

theorem usb_process_link_paused (env : Env X) (s : State X) (hd : s.w.linkDown)
    (h : s.w.scr_reset_pending = false) :
    usb_process env s =
      { p := { s.p with
          packet_pending := s.p.packet_pending && s.p.packet_info.done_callback.isNone },
        w := { s.w with
          trace := s.w.trace ++ callback_events (notify_done s.p),
          ext := callback_effect env (notify_done s.p) s.w.ext } } := by
  rcases s with ⟨p, w⟩
  rcases p with ⟨rs, rc, rcmd, a0, a1, rdr, ts, tc, ti, tt, tdr, fr, fp, rp, re, ri, pp, pinfo,
    rr, rl, ra, wc, wb, twc, cc⟩
  rcases w with ⟨rx, sp, busy, timer, ps, rst, rpend, d0, d1, tr, ext⟩
  unfold World.linkDown at hd
  simp only at h hd
  subst h
  have hor : ∀ a b : Bool, (a = true ∨ b = true ∨ false = true) → (a = true ∨ b = true) := by
    intro a b hab
    rcases hab with hab | hab | hab
    · exact Or.inl hab
    · exact Or.inr hab
    · cases hab
  have hd1 := hor _ _ hd
  cases pp <;> cases hpc : pinfo.done_callback <;>
    simp [usb_process, State.emit, State.setExt, run_done_callback, notify_done,
      callback_events, callback_effect, hpc, hd1]

theorem callback_events_no_push (o : Option Callback) (b : Nat) :
    Ev.usb_push b ∉ callback_events o := by
  cases o <;> simp [callback_events]

/-- C14: a `usb_process` tick that reads reset-pending appends to the trace the
callback of the pending notification (if one is pending and has a callback),
then the callback of the frame in transmission (if the transmit machine is not
Idle and the frame has one), then DMA stop, FIFO flush and, last, the reset
acknowledge, and nothing else: no byte is pushed, and the inbound FIFO and the
room of the outbound FIFO are as before.  It ends with both machines Idle,
nothing pending, `read_ready` set, `read_length` and `read_address` 0 and the
four static cursors 0. -/
theorem c14_reset_pending_tick (env : Env X) (s : State X)
    (h : s.w.scr_reset_pending = true) :
    (usb_process env s).w.trace =
      s.w.trace ++ (callback_events (notify_done s.p) ++ (callback_events (frame_done s.p) ++
        [Ev.reg_set_dma_scr DmaScr.STOP, Ev.reg_set_usb_scr UsbScr.FIFO_FLUSH,
         Ev.reg_set_usb_scr UsbScr.RESET_ACK])) ∧
    (s.p.tx_state ≠ TxState.idle → frame_done s.p = s.p.tx_info.done_callback) ∧
    (s.p.tx_state = TxState.idle → frame_done s.p = none) ∧
    (usb_process env s).w.rx = s.w.rx ∧
    (usb_process env s).w.tx_space = s.w.tx_space ∧
    (usb_process env s).p.rx_state = RxState.idle ∧
    (usb_process env s).p.tx_state = TxState.idle ∧
    (usb_process env s).p.response_pending = false ∧
    (usb_process env s).p.packet_pending = false ∧
    (usb_process env s).p.read_ready = true ∧
    (usb_process env s).p.read_length = 0 ∧
    (usb_process env s).p.read_address = 0 ∧
    (usb_process env s).p.usb_rx_cmd_counter = 0 ∧
    (usb_process env s).p.usb_rx_word_counter = 0 ∧
    (usb_process env s).p.usb_rx_word_buffer = 0 ∧
    (usb_process env s).p.usb_tx_word_counter = 0 := by
  rw [usb_process_reset_pending env s h]
  refine ⟨rfl, fun hne => ?_, fun he => ?_, rfl, rfl, rfl, rfl, rfl, rfl, rfl, rfl, rfl, rfl,
    rfl, rfl, rfl⟩
  · simp [frame_done, hne]
  · simp [frame_done, he]

/-- Witness for C14: reset-pending while a frame with the callback
`update_start` is in the Data state and a notification with a callback is
pending: both callbacks run, then stop, FIFO flush and acknowledge; the three
inbound bytes and the outbound room stay. -/
theorem c14_reset_pending_tick_witness :
    (usb_process Env.sample State.resetMidFrame).w.trace =
      [Ev.done_callback (Callback.other 1), Ev.done_callback Callback.update_start,
       Ev.reg_set_dma_scr DmaScr.STOP, Ev.reg_set_usb_scr UsbScr.FIFO_FLUSH,
       Ev.reg_set_usb_scr UsbScr.RESET_ACK] ∧
    (usb_process Env.sample State.resetMidFrame).w.rx = [1, 2, 3] ∧
    (usb_process Env.sample State.resetMidFrame).p.tx_state = TxState.idle := by
  have h := c14_reset_pending_tick Env.sample State.resetMidFrame rfl
  exact ⟨h.1.trans (by decide), h.2.2.2.1.trans (by decide), h.2.2.2.2.2.2.1⟩

/-- Counterexample to C15 as stated: a pending notification without completion
callback is not discarded by a tick that reads power-save; it is still pending
afterwards. -/
theorem c15_counterexample :
    State.pausedNotification.p.packet_pending = true ∧
    State.pausedNotification.w.scr_pwrsav = true ∧
    State.pausedNotification.p.packet_info.done_callback = none ∧
    (usb_process Env.sample State.pausedNotification).p.packet_pending = true := by
  decide

/-- C15 as the code has it: with a notification pending, a tick that reads the
link down invokes the notification's callback exactly once if it has one,
before anything else the tick does, and pushes no byte (the room of the
outbound FIFO is as before).  The notification is discarded exactly when it has
a callback or the tick reads reset-pending; a notification without a callback
stays pending, unchanged, over a tick that reads only power-save or
reset-state. -/
theorem c15_link_down_notification (env : Env X) (s : State X)
    (hp : s.p.packet_pending = true) (hd : s.w.linkDown) :
    (∃ rest, (usb_process env s).w.trace =
        s.w.trace ++ (callback_events s.p.packet_info.done_callback ++ rest) ∧
      rest = (if s.w.scr_reset_pending then
        callback_events (frame_done s.p) ++
          [Ev.reg_set_dma_scr DmaScr.STOP, Ev.reg_set_usb_scr UsbScr.FIFO_FLUSH,
           Ev.reg_set_usb_scr UsbScr.RESET_ACK]
        else []) ∧
      ∀ b, Ev.usb_push b ∉ callback_events s.p.packet_info.done_callback ++ rest) ∧
    (usb_process env s).w.tx_space = s.w.tx_space ∧
    ((usb_process env s).p.packet_pending = false ↔
      (s.p.packet_info.done_callback ≠ none ∨ s.w.scr_reset_pending = true)) ∧
    (s.p.packet_info.done_callback = none → s.w.scr_reset_pending = false →
      usb_process env s = s) := by
  have hn : notify_done s.p = s.p.packet_info.done_callback := by simp [notify_done, hp]
  cases hr : s.w.scr_reset_pending
  · rw [usb_process_link_paused env s hd hr, hn]
    refine ⟨⟨[], by simp, by simp, fun b => by simpa using callback_events_no_push _ b⟩, rfl,
      ?_, fun hc _ => ?_⟩
    · cases hc : s.p.packet_info.done_callback <;> simp [hp]
    · rcases s with ⟨p, w⟩
      simp only at hp hc
      simp [hp, hc, callback_events, callback_effect]
      cases p
      simp only at hp
      simp [hp]
  · rw [usb_process_reset_pending env s hr, hn]
    refine ⟨⟨_, rfl, by simp, fun b => ?_⟩, rfl, by simp, fun _ hf => by cases hf⟩
    simp only [Bool.true_eq_false, if_false, List.mem_append, not_or]
    refine ⟨callback_events_no_push _ b, callback_events_no_push _ b, by simp⟩

/-- Witness for C15: the notification with callback pending in
`State.resetMidFrame` is discarded after its callback has run once; the
notification without callback in `State.pausedNotification` survives. -/
theorem c15_link_down_notification_witness :
    (usb_process Env.sample State.resetMidFrame).p.packet_pending = false ∧
    usb_process Env.sample State.pausedNotification = State.pausedNotification :=
  ⟨(c15_link_down_notification Env.sample State.resetMidFrame rfl
      (Or.inr (Or.inr rfl))).2.2.1.mpr (Or.inr rfl),
    (c15_link_down_notification Env.sample State.pausedNotification rfl
      (Or.inl rfl)).2.2.2 rfl rfl⟩

/-! ## Command scanner -/

theorem usb_rx_cmd_nil (s : State X) (h : s.w.rx = []) : usb_rx_cmd s = (none, s) := by
  simp [usb_rx_cmd, h, usb_rx_cmd_loop]

theorem usb_rx_cmd_cons (s : State X) (b : Nat) (tl : List Nat) (h : s.w.rx = b :: tl) :
    usb_rx_cmd s =
      if s.p.usb_rx_cmd_counter = 3 then
        (some (b % U8), { p := { s.p with usb_rx_cmd_counter := 0 },
                          w := { s.w with rx := tl } })
      else if b % U8 ≠ CMD_TOKEN s.p.usb_rx_cmd_counter then
        (none, { p := { s.p with usb_rx_cmd_counter := 0 }, w := { s.w with rx := tl } })
      else
        usb_rx_cmd { p := { s.p with usb_rx_cmd_counter := (s.p.usb_rx_cmd_counter + 1) % U8 },
                     w := { s.w with rx := tl } } := by
  simp only [usb_rx_cmd, h, List.length_cons, usb_rx_cmd_loop, usb_rx_byte]

theorem scan_runs_out (k j : Nat) : ∀ (s : State X), s.p.usb_rx_cmd_counter = k → k + j ≤ 3 →
    s.w.rx = marker_bytes k j →
    usb_rx_cmd s = (none, { p := { s.p with usb_rx_cmd_counter := k + j },
                            w := { s.w with rx := [] } }) := by
  induction j generalizing k with
  | zero =>
    intro s hk _ hrx
    rw [usb_rx_cmd_nil s hrx]
    rcases s with ⟨p, w⟩
    simp only [marker_bytes] at hrx hk
    simp only [Nat.add_zero, ← hk, ← hrx]
  | succ j ih =>
    intro s hk hkj hrx
    rw [usb_rx_cmd_cons s _ _ hrx, hk]
    have hk3 : k ≠ 3 := by omega
    have hm : CMD_TOKEN k % U8 = CMD_TOKEN k := by
      unfold CMD_TOKEN U8; split_ifs <;> rfl
    rw [if_neg hk3, hm, if_neg (by simp)]
    have hmod : (k + 1) % U8 = k + 1 := by unfold U8; omega
    rw [ih (k + 1) _ (by simp only; exact hmod) (by omega) rfl]
    simp only [Nat.add_assoc, Nat.add_comm 1 j]

theorem scan_command (k j x : Nat) (rest : List Nat) : ∀ (s : State X),
    s.p.usb_rx_cmd_counter = k → k + j = 3 → s.w.rx = marker_bytes k j ++ x :: rest →
    usb_rx_cmd s = (some (x % U8), { p := { s.p with usb_rx_cmd_counter := 0 },
                                     w := { s.w with rx := rest } }) := by
  induction j generalizing k with
  | zero =>
    intro s hk hkj hrx
    simp only [marker_bytes, List.nil_append] at hrx
    rw [usb_rx_cmd_cons s _ _ hrx, if_pos (by omega)]
  | succ j ih =>
    intro s hk hkj hrx
    simp only [marker_bytes, List.cons_append] at hrx
    rw [usb_rx_cmd_cons s _ _ hrx, hk]
    have hk3 : k ≠ 3 := by omega
    have hm : CMD_TOKEN k % U8 = CMD_TOKEN k := by
      unfold CMD_TOKEN U8; split_ifs <;> rfl
    rw [if_neg hk3, hm, if_neg (by simp)]
    have hmod : (k + 1) % U8 = k + 1 := by unfold U8; omega
    rw [ih (k + 1) _ (by simp only; exact hmod) (by omega) rfl]

theorem scan_mismatch (k j y : Nat) (rest : List Nat) : ∀ (s : State X),
    s.p.usb_rx_cmd_counter = k → k + j < 3 → y % U8 ≠ CMD_TOKEN (k + j) →
    s.w.rx = marker_bytes k j ++ y :: rest →
    usb_rx_cmd s = (none, { p := { s.p with usb_rx_cmd_counter := 0 },
                            w := { s.w with rx := rest } }) := by
  induction j generalizing k with
  | zero =>
    intro s hk hkj hy hrx
    simp only [marker_bytes, List.nil_append] at hrx
    rw [Nat.add_zero] at hy
    rw [usb_rx_cmd_cons s _ _ hrx, if_neg (by omega), hk, if_pos hy]
  | succ j ih =>
    intro s hk hkj hy hrx
    simp only [marker_bytes, List.cons_append] at hrx
    rw [usb_rx_cmd_cons s _ _ hrx, hk]
    have hk3 : k ≠ 3 := by omega
    have hm : CMD_TOKEN k % U8 = CMD_TOKEN k := by
      unfold CMD_TOKEN U8; split_ifs <;> rfl
    rw [if_neg hk3, hm, if_neg (by simp)]
    have hmod : (k + 1) % U8 = k + 1 := by unfold U8; omega
    have hy1 : y % U8 ≠ CMD_TOKEN (k + 1 + j) := by
      rw [Nat.add_assoc, Nat.add_comm 1 j]; exact hy
    rw [ih (k + 1) _ (by simp only; exact hmod) (by omega) hy1 rfl]

theorem marker_split (x : Nat) : ∀ (c r : List Nat) (k n : Nat), r ≠ [] →
    c ++ r = marker_bytes k n ++ [x] →
    ∃ j, j ≤ n ∧ c = marker_bytes k j ∧ r = marker_bytes (k + j) (n - j) ++ [x] := by
  intro c
  induction c with
  | nil =>
    intro r k n _ h
    exact ⟨0, Nat.zero_le _, rfl, by simpa using h⟩
  | cons b c ih =>
    intro r k n hr h
    cases n with
    | zero =>
      simp only [marker_bytes, List.nil_append, List.cons_append, List.cons.injEq,
        List.append_eq_nil] at h
      exact absurd h.2.2 hr
    | succ n =>
      simp only [marker_bytes, List.cons_append, List.cons.injEq] at h
      obtain ⟨j, hj, hc, hrr⟩ := ih r (k + 1) n hr h.2
      refine ⟨j + 1, by omega, ?_, ?_⟩
      · rw [h.1, hc]; rfl
      · rw [hrr]
        have e1 : k + 1 + j = k + (j + 1) := by omega
        have e2 : n + 1 - (j + 1) = n - j := by omega
        rw [e1, e2]

theorem cmd_calls_cons (c : List Nat) (chunks : List (List Nat)) (s : State X) :
    cmd_calls (c :: chunks) s =
      ((usb_rx_cmd (s.arrive c)).1 :: (cmd_calls chunks (usb_rx_cmd (s.arrive c)).2).1,
        (cmd_calls chunks (usb_rx_cmd (s.arrive c)).2).2) := rfl

theorem cmd_calls_idle : ∀ (post : List (List Nat)) (s : State X), s.w.rx = [] →
    (∀ c ∈ post, c = []) →
    cmd_calls post s = (List.replicate post.length none, s) := by
  intro post
  induction post with
  | nil => intro s _ _; rfl
  | cons c post ih =>
    intro s hrx hall
    have hc : c = [] := hall c (List.mem_cons_self _ _)
    subst hc
    have hs : s.arrive [] = s := by
      rcases s with ⟨p, w⟩
      simp [State.arrive]
    simp only [cmd_calls, hs, usb_rx_cmd_nil s hrx]
    rw [ih s hrx (fun c hc => hall c (List.mem_cons_of_mem _ hc))]
    rfl

theorem cmd_calls_marker (x : Nat) (last : List Nat) (post : List (List Nat))
    (hlast : last ≠ []) (hpost : ∀ c ∈ post, c = []) :
    ∀ (pre : List (List Nat)) (k : Nat) (s : State X), s.p.usb_rx_cmd_counter = k → k ≤ 3 →
      s.w.rx = [] → pre.flatten ++ last = marker_bytes k (3 - k) ++ [x] →
      cmd_calls (pre ++ last :: post) s =
        (List.replicate pre.length none ++ some (x % U8) :: List.replicate post.length none,
          { p := { s.p with usb_rx_cmd_counter := 0 }, w := { s.w with rx := [] } }) := by
  intro pre
  induction pre with
  | nil =>
    intro k s hk hk3 hrx hj
    simp only [List.flatten_nil, List.nil_append] at hj
    simp only [List.nil_append, cmd_calls, List.length_nil, List.replicate_zero]
    rw [scan_command k (3 - k) x [] (s.arrive last) hk (by omega)
      (by simp only [State.arrive, hrx, List.nil_append, hj])]
    simp only []
    rw [cmd_calls_idle post _ rfl hpost]
    rfl
  | cons c pre ih =>
    intro k s hk hk3 hrx hj
    simp only [List.flatten_cons, List.append_assoc] at hj
    have hne : pre.flatten ++ last ≠ [] := by
      intro h
      exact hlast (List.append_eq_nil.mp h).2
    obtain ⟨j, hj3, hc, hr⟩ := marker_split x c (pre.flatten ++ last) k (3 - k) hne hj
    rw [List.cons_append, cmd_calls_cons]
    rw [scan_runs_out k j (s.arrive c) hk (by omega)
      (by simp only [State.arrive, hrx, List.nil_append, hc])]
    simp only []
    have e : 3 - k - j = 3 - (k + j) := by omega
    rw [e] at hr
    rw [ih (k + j) _ rfl (by omega) rfl hr]
    rfl

theorem silent_call : ∀ (rx fut : List Nat) (s : State X), s.w.rx = rx →
    Silent s.p.usb_rx_cmd_counter (rx ++ fut) →
    (usb_rx_cmd s).1 = none ∧
    Silent (usb_rx_cmd s).2.p.usb_rx_cmd_counter ((usb_rx_cmd s).2.w.rx ++ fut) := by
  intro rx
  induction rx with
  | nil =>
    intro fut s hrx hS
    rw [usb_rx_cmd_nil s hrx]
    exact ⟨rfl, by simpa [hrx] using hS⟩
  | cons b tl ih =>
    intro fut s hrx hS
    simp only [List.cons_append, Silent] at hS
    obtain ⟨h3, hS⟩ := hS
    rw [usb_rx_cmd_cons s b tl hrx, if_neg h3]
    by_cases hm : b % U8 ≠ CMD_TOKEN s.p.usb_rx_cmd_counter
    · rw [if_pos hm] at hS ⊢
      exact ⟨rfl, hS⟩
    · rw [if_neg hm] at hS ⊢
      exact ih fut _ rfl hS

theorem cmd_calls_silent : ∀ (chunks : List (List Nat)) (s : State X),
    Silent s.p.usb_rx_cmd_counter (s.w.rx ++ chunks.flatten) →
    ∀ r ∈ (cmd_calls chunks s).1, r = none := by
  intro chunks
  induction chunks with
  | nil => intro s _ r hr; simp [cmd_calls] at hr
  | cons c chunks ih =>
    intro s hS r hr
    simp only [List.flatten_cons, ← List.append_assoc] at hS
    obtain ⟨h1, h2⟩ := silent_call (s.w.rx ++ c) chunks.flatten (s.arrive c) rfl hS
    simp only [cmd_calls, List.mem_cons] at hr
    rcases hr with hr | hr
    · rw [hr, h1]
    · exact ih _ h2 r hr

theorem silent_double_c (x : Nat) : Silent 0 [67, 67, 77, 68, x] := by
  by_cases hx : x % 256 = 67 <;> simp [Silent, CMD_TOKEN, U8, hx]

theorem marker_shape : ∀ (rx : List Nat) (k : Nat), k ≤ 3 → (∀ b ∈ rx, b < U8) →
    ∃ j, k + j ≤ 3 ∧
      (rx = marker_bytes k j ∨
       (k + j = 3 ∧ ∃ x rest, rx = marker_bytes k j ++ x :: rest) ∨
       (k + j < 3 ∧ ∃ y rest, y % U8 ≠ CMD_TOKEN (k + j) ∧
          rx = marker_bytes k j ++ y :: rest)) := by
  intro rx
  induction rx with
  | nil => intro k hk _; exact ⟨0, hk, Or.inl rfl⟩
  | cons b tl ih =>
    intro k hk hb
    by_cases h3 : k = 3
    · exact ⟨0, hk, Or.inr (Or.inl ⟨h3, b, tl, rfl⟩)⟩
    · by_cases hm : b = CMD_TOKEN k
      · obtain ⟨j, hj, hcase⟩ := ih (k + 1) (by omega)
          (fun c hc => hb c (List.mem_cons_of_mem _ hc))
        have e : k + 1 + j = k + (j + 1) := by omega
        rw [e] at hj hcase
        refine ⟨j + 1, hj, ?_⟩
        rcases hcase with h | ⟨h, x, rest, hx⟩ | ⟨h, y, rest, hy, hx⟩
        · exact Or.inl (by rw [h, hm]; rfl)
        · exact Or.inr (Or.inl ⟨h, x, rest, by rw [hx, hm]; rfl⟩)
        · exact Or.inr (Or.inr ⟨h, y, rest, hy, by rw [hx, hm]; rfl⟩)
      · refine ⟨0, hk, Or.inr (Or.inr ⟨by omega, b, tl, ?_, rfl⟩)⟩
        rw [Nat.mod_eq_of_lt (hb b (List.mem_cons_self _ _))]
        exact hm

/-- C19: one call of `usb_rx_cmd` at scanner position `k ≤ 3`.  If the whole
inbound FIFO matches the marker from position `k` on, the call pops all of it,
advances the position by the number of bytes and returns no command.  If the
FIFO reaches position 3, the byte read there is returned as the command, the
position becomes 0 and the bytes after it stay in the FIFO.  If a byte
mismatches the marker before position 3, the call pops it, sets the position
to 0 (also when the byte is `'C'`), returns no command and leaves the bytes
after it in the FIFO.  A FIFO of bytes always has one of these three shapes.
From position 0 with an empty FIFO, the bytes 'C','M','D',x arriving in any
chunks, one call per chunk, give x exactly once, on the call for the chunk that
brings x; the bytes 'C','C','M','D',x, arriving in any chunks, give no command
on any call. -/
theorem c19_command_scanner (s : State X) (k : Nat) (hk : s.p.usb_rx_cmd_counter = k)
    (hk3 : k ≤ 3) :
    (∀ j, k + j ≤ 3 → s.w.rx = marker_bytes k j →
      usb_rx_cmd s = (none, { p := { s.p with usb_rx_cmd_counter := k + j },
                              w := { s.w with rx := [] } })) ∧
    (∀ j x rest, k + j = 3 → s.w.rx = marker_bytes k j ++ x :: rest →
      usb_rx_cmd s = (some (x % U8), { p := { s.p with usb_rx_cmd_counter := 0 },
                                       w := { s.w with rx := rest } })) ∧
    (∀ j y rest, k + j < 3 → y % U8 ≠ CMD_TOKEN (k + j) →
      s.w.rx = marker_bytes k j ++ y :: rest →
      usb_rx_cmd s = (none, { p := { s.p with usb_rx_cmd_counter := 0 },
                              w := { s.w with rx := rest } })) ∧
    ((∀ b ∈ s.w.rx, b < U8) → ∃ j, k + j ≤ 3 ∧
      (s.w.rx = marker_bytes k j ∨
       (k + j = 3 ∧ ∃ x rest, s.w.rx = marker_bytes k j ++ x :: rest) ∨
       (k + j < 3 ∧ ∃ y rest, y % U8 ≠ CMD_TOKEN (k + j) ∧
          s.w.rx = marker_bytes k j ++ y :: rest))) ∧
    (∀ (x : Nat) (pre : List (List Nat)) (last : List Nat) (post : List (List Nat)),
      k = 0 → s.w.rx = [] → pre.flatten ++ last = [67, 77, 68, x] → last ≠ [] →
      (∀ c ∈ post, c = []) →
      (cmd_calls (pre ++ last :: post) s).1 =
        List.replicate pre.length none ++ some (x % U8) :: List.replicate post.length none) ∧
    (∀ (x : Nat) (chunks : List (List Nat)),
      k = 0 → s.w.rx = [] → chunks.flatten = [67, 67, 77, 68, x] →
      ∀ r ∈ (cmd_calls chunks s).1, r = none) := by
  refine ⟨fun j hj hrx => scan_runs_out k j s hk hj hrx,
    fun j x rest hj hrx => scan_command k j x rest s hk hj hrx,
    fun j y rest hj hy hrx => scan_mismatch k j y rest s hk hj hy hrx,
    fun hb => marker_shape s.w.rx k hk3 hb,
    fun x pre last post h0 hrx hj hlast hpost => ?_,
    fun x chunks h0 hrx hj r hr => ?_⟩
  · subst h0
    rw [cmd_calls_marker x last post hlast hpost pre 0 s hk (by omega) hrx
      (by rw [hj]; rfl)]
  · subst h0
    refine cmd_calls_silent chunks s ?_ r hr
    rw [hk, hrx, List.nil_append, hj]
    exact silent_double_c x

/-- Witness for C19: after boot the scanner is at position 0; with the bytes
'C','M','D','v' in the FIFO one call returns `'v'`, and with 'C','X','M' it
returns no command and leaves 'M'. -/
theorem c19_command_scanner_witness :
    (usb_rx_cmd (State.boot [67, 77, 68, 118] 64)).1 = some 118 ∧
    (usb_rx_cmd (State.boot [67, 88, 77] 64)).1 = none ∧
    (usb_rx_cmd (State.boot [67, 88, 77] 64)).2.w.rx = [77] :=
  ⟨congrArg Prod.fst ((c19_command_scanner (State.boot [67, 77, 68, 118] 64) 0 rfl
      (by decide)).2.1 3 118 [] rfl rfl),
    congrArg Prod.fst ((c19_command_scanner (State.boot [67, 88, 77] 64) 0 rfl
      (by decide)).2.2.1 1 88 [77] (by decide) (by decide) rfl),
    congrArg (fun r => r.2.w.rx) ((c19_command_scanner (State.boot [67, 88, 77] 64) 0 rfl
      (by decide)).2.2.1 1 88 [77] (by decide) (by decide) rfl)⟩

/-! ## Word framer -/

theorem usb_tx_word_call (data : Nat) : ∀ (room c : Nat) (s : State X),
    s.p.usb_tx_word_counter = c → c ≤ 3 → s.w.tx_space = room →
    usb_tx_word data s =
      (decide (4 ≤ c + room),
        { p := { s.p with usb_tx_word_counter := if 4 ≤ c + room then 0 else c + room },
          w := { s.w with
            tx_space := room - min room (4 - c),
            trace := s.w.trace ++
              (((tx_word_bytes data).drop c).take room).map Ev.usb_push } }) := by
  intro room c s hc hc3 hroom
  rcases s with ⟨p, w⟩
  rcases p with ⟨rs, rc, rcmd, a0, a1, rdr, ts, tc, ti, tt, tdr, fr, fp, rp, re, ri, pp, pinfo,
    rr, rl, ra, wc, wb, twc, cc⟩
  rcases w with ⟨rx, sp, busy, timer, ps, rst, rpend, d0, d1, tr, ext⟩
  simp only at hc hroom
  subst hc hroom
  interval_cases twc <;> rcases sp with _ | _ | _ | _ | m <;>
    simp [usb_tx_word, usb_tx_word_loop, usb_tx_byte, tx_word_bytes, U8] <;>
    exact ⟨by omega, by rw [if_pos (by omega)]⟩

theorem tx_word_bytes_length (data : Nat) : (tx_word_bytes data).length = 4 := rfl

theorem tx_word_calls_spec (data : Nat) : ∀ (rooms : List Nat) (c : Nat) (s : State X),
    s.p.usb_tx_word_counter = c → c ≤ 3 →
    (tx_word_calls data rooms s).1 = decide (4 ≤ c + rooms.sum) ∧
    (tx_word_calls data rooms s).2.w.trace =
      s.w.trace ++ (((tx_word_bytes data).drop c).take rooms.sum).map Ev.usb_push ∧
    (tx_word_calls data rooms s).2.p =
      { s.p with usb_tx_word_counter := if 4 ≤ c + rooms.sum then 0 else c + rooms.sum } := by
  intro rooms
  induction rooms with
  | nil =>
    intro c s hc hc3
    refine ⟨?_, ?_, ?_⟩
    · simp only [tx_word_calls, List.sum_nil, Nat.add_zero]
      exact (decide_eq_false (by omega)).symm
    · simp [tx_word_calls]
    · simp only [tx_word_calls, List.sum_nil, Nat.add_zero]
      rw [if_neg (by omega), ← hc]
  | cons r rs ih =>
    intro c s hc hc3
    have hcall := usb_tx_word_call data r c (s.room r) hc hc3 rfl
    unfold tx_word_calls
    rw [hcall]
    simp only [List.sum_cons]
    by_cases h4 : 4 ≤ c + r
    · have h4s : 4 ≤ c + (r + rs.sum) := by omega
      simp only [h4, h4s, decide_True, if_true]
      refine ⟨trivial, ?_, rfl⟩
      have hlen : ((tx_word_bytes data).drop c).length ≤ r := by
        rw [List.length_drop, tx_word_bytes_length]; omega
      rw [List.take_of_length_le hlen, List.take_of_length_le (by omega)]
      rfl
    · have hd : decide (4 ≤ c + r) = false := decide_eq_false h4
      rw [hd]
      simp only [if_neg h4]
      obtain ⟨i1, i2, i3⟩ := ih (c + r)
        { p := { (s.room r).p with usb_tx_word_counter := c + r },
          w := { (s.room r).w with
            tx_space := r - min r (4 - c),
            trace := (s.room r).w.trace ++
              (((tx_word_bytes data).drop c).take r).map Ev.usb_push } } rfl (by omega)
      rw [i1, i2, i3]
      have e : c + r + rs.sum = c + (r + rs.sum) := by omega
      refine ⟨by rw [e], ?_, by rw [e]; rfl⟩
      simp only [State.room, List.append_assoc, ← List.map_append]
      rw [List.take_add, List.drop_drop]

theorem usb_rx_word_nil (s : State X) (h : s.w.rx = []) : usb_rx_word s = (none, s) := by
  simp [usb_rx_word, h, usb_rx_word_loop]

theorem usb_rx_word_cons (s : State X) (b : Nat) (tl : List Nat) (h : s.w.rx = b :: tl) :
    usb_rx_word s =
      if (s.p.usb_rx_word_counter + 1) % U8 = 4 then
        (some (rx_word_step s.p.usb_rx_word_buffer b),
          { p := { s.p with usb_rx_word_counter := 0, usb_rx_word_buffer := 0 },
            w := { s.w with rx := tl } })
      else
        usb_rx_word
          { p := { s.p with usb_rx_word_counter := (s.p.usb_rx_word_counter + 1) % U8,
                            usb_rx_word_buffer := rx_word_step s.p.usb_rx_word_buffer b },
            w := { s.w with rx := tl } } := by
  simp only [usb_rx_word, h, List.length_cons, usb_rx_word_loop, usb_rx_byte, rx_word_step]

theorem rx_word_short : ∀ (bytes : List Nat) (c : Nat) (s : State X),
    s.p.usb_rx_word_counter = c → s.w.rx = bytes → c + bytes.length < 4 →
    usb_rx_word s =
      (none, { p := { s.p with usb_rx_word_counter := c + bytes.length,
                               usb_rx_word_buffer :=
                                 bytes.foldl rx_word_step s.p.usb_rx_word_buffer },
               w := { s.w with rx := [] } }) := by
  intro bytes
  induction bytes with
  | nil =>
    intro c s hc hrx _
    rw [usb_rx_word_nil s hrx]
    rcases s with ⟨p, w⟩
    cases w
    simp only at hc hrx
    subst hc hrx
    rfl
  | cons b tl ih =>
    intro c s hc hrx hlen
    simp only [List.length_cons] at hlen
    have hmod : (c + 1) % U8 = c + 1 := by unfold U8; omega
    rw [usb_rx_word_cons s b tl hrx, hc, hmod, if_neg (by omega)]
    rw [ih (c + 1) _ rfl rfl (by omega)]
    simp only [List.length_cons, List.foldl_cons, Nat.add_assoc, Nat.add_comm 1 tl.length]

theorem rx_word_done (b : Nat) (rest : List Nat) : ∀ (pre : List Nat) (c : Nat) (s : State X),
    s.p.usb_rx_word_counter = c → s.w.rx = pre ++ b :: rest → c + pre.length = 3 →
    usb_rx_word s =
      (some ((pre ++ [b]).foldl rx_word_step s.p.usb_rx_word_buffer),
        { p := { s.p with usb_rx_word_counter := 0, usb_rx_word_buffer := 0 },
          w := { s.w with rx := rest } }) := by
  intro pre
  induction pre with
  | nil =>
    intro c s hc hrx hlen
    simp only [List.length_nil, Nat.add_zero] at hlen
    simp only [List.nil_append] at hrx
    have hmod : (c + 1) % U8 = 4 := by unfold U8; omega
    rw [usb_rx_word_cons s b rest hrx, hc, if_pos hmod]
    rfl
  | cons a pre ih =>
    intro c s hc hrx hlen
    simp only [List.length_cons] at hlen
    simp only [List.cons_append] at hrx
    have hmod : (c + 1) % U8 = c + 1 := by unfold U8; omega
    rw [usb_rx_word_cons s a _ hrx, hc, hmod, if_neg (by omega)]
    rw [ih (c + 1) _ rfl rfl (by omega)]
    rfl

theorem rx_word_calls_cons (c : List Nat) (chunks : List (List Nat)) (s : State X) :
    rx_word_calls (c :: chunks) s =
      ((usb_rx_word (s.arrive c)).1 :: (rx_word_calls chunks (usb_rx_word (s.arrive c)).2).1,
        (rx_word_calls chunks (usb_rx_word (s.arrive c)).2).2) := rfl

theorem rx_word_calls_idle : ∀ (post : List (List Nat)) (s : State X), s.w.rx = [] →
    (∀ c ∈ post, c = []) →
    rx_word_calls post s = (List.replicate post.length none, s) := by
  intro post
  induction post with
  | nil => intro s _ _; rfl
  | cons c post ih =>
    intro s hrx hall
    have hc : c = [] := hall c (List.mem_cons_self _ _)
    subst hc
    have hs : s.arrive [] = s := by
      rcases s with ⟨p, w⟩
      simp [State.arrive]
    rw [rx_word_calls_cons, hs, usb_rx_word_nil s hrx]
    simp only []
    rw [ih s hrx (fun c hc => hall c (List.mem_cons_of_mem _ hc))]
    rfl

theorem rx_word_calls_spec (last : List Nat) (post : List (List Nat))
    (hlast : last ≠ []) (hpost : ∀ c ∈ post, c = []) :
    ∀ (pre : List (List Nat)) (c : Nat) (s : State X), s.p.usb_rx_word_counter = c →
      s.w.rx = [] → c + (pre.flatten ++ last).length = 4 →
      rx_word_calls (pre ++ last :: post) s =
        (List.replicate pre.length none ++
            some ((pre.flatten ++ last).foldl rx_word_step s.p.usb_rx_word_buffer) ::
              List.replicate post.length none,
          { p := { s.p with usb_rx_word_counter := 0, usb_rx_word_buffer := 0 },
            w := { s.w with rx := [] } }) := by
  intro pre
  induction pre with
  | nil =>
    intro c s hc hrx hlen
    simp only [List.flatten_nil, List.nil_append] at hlen ⊢
    obtain ⟨b, hb⟩ : ∃ b, last = last.dropLast ++ [b] :=
      ⟨last.getLast hlast, (List.dropLast_append_getLast hlast).symm⟩
    have hl : last.length = last.dropLast.length + 1 := by
      conv_lhs => rw [hb]
      simp
    rw [rx_word_calls_cons]
    rw [rx_word_done b [] last.dropLast c (s.arrive last) hc
      (by simp only [State.arrive, hrx, List.nil_append]; exact hb) (by omega)]
    simp only []
    rw [rx_word_calls_idle post _ rfl hpost, ← hb]
    rfl
  | cons c0 pre ih =>
    intro c s hc hrx hlen
    simp only [List.flatten_cons, List.append_assoc, List.length_append] at hlen
    have hne : 0 < (pre.flatten ++ last).length := by
      rw [List.length_append]
      have := List.length_pos.mpr hlast
      omega
    rw [List.length_append] at hne
    rw [List.cons_append, rx_word_calls_cons]
    rw [rx_word_short c0 c (s.arrive c0) hc
      (by simp only [State.arrive, hrx, List.nil_append]) (by omega)]
    simp only []
    rw [ih (c + c0.length) _ rfl rfl (by rw [List.length_append]; omega)]
    simp only [List.flatten_cons, List.append_assoc, List.foldl_append, List.length_cons,
      List.replicate_succ, List.cons_append]
    rfl

theorem shift_or_byte (a b : Nat) (hb : b < 256) : (a <<< 8) ||| b = a * 256 + b := by
  rw [Nat.shiftLeft_eq, Nat.mul_comm a (2 ^ 8)]
  exact (Nat.mul_add_lt_is_or (by norm_num; exact hb) a).symm

theorem rx_word_value_sum (b0 b1 b2 b3 : Nat) (h0 : b0 < 256) (h1 : b1 < 256) (h2 : b2 < 256)
    (h3 : b3 < 256) :
    rx_word_value b0 b1 b2 b3 = b0 * 16777216 + b1 * 65536 + b2 * 256 + b3 := by
  unfold rx_word_value U8 U32
  rw [Nat.mod_eq_of_lt h0, Nat.mod_eq_of_lt h1, Nat.mod_eq_of_lt h2, Nat.mod_eq_of_lt h3]
  have s0 : (0 <<< 8 ||| b0) % 4294967296 = b0 := by
    rw [shift_or_byte 0 b0 h0]; omega
  rw [s0]
  have s1 : (b0 <<< 8 ||| b1) % 4294967296 = b0 * 256 + b1 := by
    rw [shift_or_byte b0 b1 h1]; omega
  rw [s1]
  have s2 : ((b0 * 256 + b1) <<< 8 ||| b2) % 4294967296 = (b0 * 256 + b1) * 256 + b2 := by
    rw [shift_or_byte _ b2 h2]; omega
  rw [s2]
  rw [shift_or_byte _ b3 h3]
  omega

theorem big_endian_sum (b0 b1 b2 b3 : Nat) (h1 : b1 < 256) (h2 : b2 < 256) (h3 : b3 < 256) :
    b0 <<< 24 ||| b1 <<< 16 ||| b2 <<< 8 ||| b3 =
      b0 * 16777216 + b1 * 65536 + b2 * 256 + b3 := by
  simp only [Nat.shiftLeft_eq]
  have e1 : b0 * 2 ^ 24 ||| b1 * 2 ^ 16 = b0 * 2 ^ 24 + b1 * 2 ^ 16 := by
    have := Nat.mul_add_lt_is_or (i := 24) (b := b1 * 2 ^ 16) (by norm_num; omega) b0
    rw [Nat.mul_comm (2 ^ 24) b0] at this
    exact this.symm
  have e2 : b0 * 2 ^ 24 + b1 * 2 ^ 16 ||| b2 * 2 ^ 8 =
      b0 * 2 ^ 24 + b1 * 2 ^ 16 + b2 * 2 ^ 8 := by
    have := Nat.mul_add_lt_is_or (i := 16) (b := b2 * 2 ^ 8) (by norm_num; omega)
      (b0 * 256 + b1)
    have e : 2 ^ 16 * (b0 * 256 + b1) = b0 * 2 ^ 24 + b1 * 2 ^ 16 := by norm_num; omega
    rw [e] at this
    exact this.symm
  have e3 : b0 * 2 ^ 24 + b1 * 2 ^ 16 + b2 * 2 ^ 8 ||| b3 =
      b0 * 2 ^ 24 + b1 * 2 ^ 16 + b2 * 2 ^ 8 + b3 := by
    have := Nat.mul_add_lt_is_or (i := 8) (b := b3) (by norm_num; omega)
      (b0 * 65536 + b1 * 256 + b2)
    have e : 2 ^ 8 * (b0 * 65536 + b1 * 256 + b2) =
        b0 * 2 ^ 24 + b1 * 2 ^ 16 + b2 * 2 ^ 8 := by norm_num; omega
    rw [e] at this
    exact this.symm
  rw [e1, e2, e3]
  norm_num

theorem word_round_trip (w : Nat) (hw : w < U32) :
    rx_word_value ((w >>> 24) % U8) ((w >>> 16) % U8) ((w >>> 8) % U8) ((w >>> 0) % U8) = w := by
  unfold U32 at hw
  have hU : U8 = 256 := rfl
  rw [hU]
  rw [rx_word_value_sum _ _ _ _ (Nat.mod_lt _ (by norm_num)) (Nat.mod_lt _ (by norm_num))
    (Nat.mod_lt _ (by norm_num)) (Nat.mod_lt _ (by norm_num))]
  simp only [Nat.shiftRight_eq_div_pow]
  norm_num
  omega

theorem tx_word_bytes_masks (w : Nat) (hw : w < U32) :
    tx_word_bytes w = [w >>> 24, (w >>> 16) &&& 0xFF, (w >>> 8) &&& 0xFF, w &&& 0xFF] := by
  unfold U32 at hw
  have hm : ∀ x : Nat, x &&& 0xFF = x % 256 := fun x => Nat.and_pow_two_sub_one_eq_mod x 8
  simp only [tx_word_bytes, hm, U8, Nat.shiftRight_zero]
  have : (w >>> 24) % 256 = w >>> 24 := by
    rw [Nat.shiftRight_eq_div_pow]
    apply Nat.mod_eq_of_lt
    norm_num
    omega
  rw [this]

theorem rx_word_fold (b0 b1 b2 b3 : Nat) :
    List.foldl rx_word_step 0 [b0, b1, b2, b3] = rx_word_value b0 b1 b2 b3 := rfl

/-- C17: word framing, with both word cursors 0, the word buffer 0 and the
inbound FIFO empty at the start.  Transmit: for every 32-bit word `w` and every
list of rooms the outbound FIFO offers call by call, `usb_tx_word w` repeated
until it returns true has pushed the first `min 4 (sum of rooms)` of the bytes
`w >> 24, (w >> 16) & 0xFF, (w >> 8) & 0xFF, w & 0xFF`; it returns true exactly
when the rooms add up to at least 4, and the cursor is 0 then.  Receive: for bytes
`b0 .. b3` arriving in any chunks, one call of `usb_rx_word` per chunk, every
call returns nothing except the call for the chunk that brings `b3`, which
returns `b0 << 24 | b1 << 16 | b2 << 8 | b3`; cursor and buffer are 0
afterwards.  Round trip: the bytes written for `w`, fed back in any chunks,
yield `w`. -/
theorem c17_word_framing (s : State X) (w b0 b1 b2 b3 : Nat) (hw : w < U32)
    (h0 : b0 < 256) (h1 : b1 < 256) (h2 : b2 < 256) (h3 : b3 < 256)
    (htc : s.p.usb_tx_word_counter = 0) (hrc : s.p.usb_rx_word_counter = 0)
    (hrb : s.p.usb_rx_word_buffer = 0) (hrx : s.w.rx = []) :
    (∀ rooms : List Nat,
      (tx_word_calls w rooms s).1 = decide (4 ≤ rooms.sum) ∧
      (tx_word_calls w rooms s).2.w.trace =
        s.w.trace ++ ((tx_word_bytes w).take rooms.sum).map Ev.usb_push ∧
      (tx_word_calls w rooms s).2.p.usb_tx_word_counter =
        (if 4 ≤ rooms.sum then 0 else rooms.sum)) ∧
    tx_word_bytes w = [w >>> 24, (w >>> 16) &&& 0xFF, (w >>> 8) &&& 0xFF, w &&& 0xFF] ∧
    (∀ (pre : List (List Nat)) (last : List Nat) (post : List (List Nat)),
      pre.flatten ++ last = [b0, b1, b2, b3] → last ≠ [] → (∀ c ∈ post, c = []) →
      (rx_word_calls (pre ++ last :: post) s).1 =
        List.replicate pre.length none ++
          some (b0 <<< 24 ||| b1 <<< 16 ||| b2 <<< 8 ||| b3) ::
            List.replicate post.length none ∧
      (rx_word_calls (pre ++ last :: post) s).2.p.usb_rx_word_counter = 0 ∧
      (rx_word_calls (pre ++ last :: post) s).2.p.usb_rx_word_buffer = 0) ∧
    (∀ (pre : List (List Nat)) (last : List Nat) (post : List (List Nat)),
      pre.flatten ++ last = tx_word_bytes w → last ≠ [] → (∀ c ∈ post, c = []) →
      (rx_word_calls (pre ++ last :: post) s).1 =
        List.replicate pre.length none ++ some w :: List.replicate post.length none) := by
  refine ⟨fun rooms => ?_, tx_word_bytes_masks w hw, fun pre last post hj hlast hpost => ?_,
    fun pre last post hj hlast hpost => ?_⟩
  · obtain ⟨i1, i2, i3⟩ := tx_word_calls_spec w rooms 0 s htc (by omega)
    rw [i1, i2, i3]
    simp only [Nat.zero_add, List.drop_zero]
    exact ⟨trivial, trivial, trivial⟩
  · rw [rx_word_calls_spec last post hlast hpost pre 0 s hrc hrx (by rw [hj]; rfl)]
    refine ⟨?_, rfl, rfl⟩
    rw [hj, hrb, big_endian_sum b0 b1 b2 b3 h1 h2 h3, ← rx_word_value_sum b0 b1 b2 b3 h0 h1 h2 h3]
    rw [rx_word_fold]
  · rw [rx_word_calls_spec last post hlast hpost pre 0 s hrc hrx (by rw [hj, tx_word_bytes_length])]
    rw [hj, hrb]
    have hv : List.foldl rx_word_step 0 (tx_word_bytes w) =
        rx_word_value (w >>> 24 % U8) (w >>> 16 % U8) (w >>> 8 % U8) (w >>> 0 % U8) :=
      rx_word_fold _ _ _ _
    rw [hv, word_round_trip w hw]

/-- Witness for C17: after boot, the word `0x12345678` written with rooms 1,
0 and 3 is complete after the third call; the bytes `0x12, 0x34, 0x56, 0x78`
arriving as 3 + 1 give the word on the second call. -/
theorem c17_word_framing_witness :
    (tx_word_calls 0x12345678 [1, 0, 3] (State.boot [] 0)).1 = true ∧
    (rx_word_calls [[0x12, 0x34, 0x56], [0x78]] (State.boot [] 0)).1 =
      [none, some 0x12345678] :=
  have h := c17_word_framing (State.boot [] 0) 0x12345678 0x12 0x34 0x56 0x78 (by decide)
    (by decide) (by decide) (by decide) (by decide) rfl rfl rfl rfl
  ⟨(h.1 [1, 0, 3]).1,
    (h.2.2.1 [[0x12, 0x34, 0x56]] [0x78] [] rfl (by decide) (by simp)).1⟩

/-! ## The transmit machine within a frame -/

theorem txStep_refl (s : State X) (h : TxWf s.p) : TxStep s s :=
  ⟨h, [], by simp, rfl⟩

theorem txStep_trans {s s1 s2 : State X} (h1 : TxStep s s1) (h2 : TxStep s1 s2) :
    TxStep s s2 := by
  obtain ⟨-, e1, t1, r1⟩ := h1
  obtain ⟨w2, e2, t2, r2⟩ := h2
  exact ⟨w2, e1 ++ e2, by rw [t2, t1, List.append_assoc],
    by rw [List.append_assoc, r2, r1]⟩

theorem data_words_cons (info : TxInfo) (i : Nat) (h : i < info.data_length / 4) :
    data_words info i = info.data i :: data_words info (i + 1) := by
  unfold data_words
  have e : info.data_length / 4 - i = (info.data_length / 4 - (i + 1)) + 1 := by omega
  rw [e, List.range_succ_eq_map, List.map_cons, List.map_map]
  simp only [Nat.add_zero, List.cons.injEq, true_and]
  apply List.map_congr_left
  intro j _
  simp only [Function.comp, Nat.succ_eq_add_one]
  congr 1
  omega

theorem data_words_end (info : TxInfo) (i : Nat) (h : info.data_length / 4 ≤ i) :
    data_words info i = [] := by
  unfold data_words
  have e : info.data_length / 4 - i = 0 := by omega
  rw [e]
  rfl

theorem drop_word (data : Nat) (rest : List Nat) (c : Nat) (hc : c ≤ 4) :
    (tx_word_bytes data ++ rest).drop c = (tx_word_bytes data).drop c ++ rest :=
  List.drop_append_of_le_length (by rw [tx_word_bytes_length]; exact hc)

theorem take_drop_word (data c r : Nat) :
    ((tx_word_bytes data).drop c).take r ++ (tx_word_bytes data).drop (c + r) =
      (tx_word_bytes data).drop c := by
  rw [← List.drop_drop]
  exact List.take_append_drop r _

theorem tx_token_word1 (s : State X) (hwf : TxWf s.p) (hst : s.p.tx_state = TxState.token) :
    TxStep s (if s.p.tx_counter = 0 then
      match usb_tx_word (s.p.tx_token ||| s.p.tx_info.cmd) s with
      | (true, s0) => { s0 with p := { s0.p with tx_counter := (s0.p.tx_counter + 1) % U8 } }
      | (false, s0) => s0
    else s) ∧
    (if s.p.tx_counter = 0 then
      match usb_tx_word (s.p.tx_token ||| s.p.tx_info.cmd) s with
      | (true, s0) => { s0 with p := { s0.p with tx_counter := (s0.p.tx_counter + 1) % U8 } }
      | (false, s0) => s0
    else s).p.tx_state = TxState.token := by
  by_cases h0 : s.p.tx_counter = 0
  · rw [if_pos h0]
    obtain ⟨hc3, hidle, hlen, htok, hdata, hdma, hfl⟩ := hwf
    rw [usb_tx_word_call _ s.w.tx_space s.p.usb_tx_word_counter s rfl hc3 rfl]
    by_cases h4 : 4 ≤ s.p.usb_tx_word_counter + s.w.tx_space
    · simp only [h4, decide_True, if_true]
      refine ⟨⟨⟨by simp, by simp [hst], by simpa [hst] using hlen, by simp [hst, h0, U8],
        by simp [hst], by simp [hst], by simp [hst]⟩, _, rfl, ?_⟩, hst⟩
      simp only [tx_remaining, tx_words_left, hst, h0, U8, Nat.zero_add, Nat.reduceMod,
        if_true, ← List.append_assoc, ← List.map_append, List.drop_zero, words_bytes,
        List.nil_append, List.singleton_append, OfNat.ofNat_ne_zero, if_false]
      rw [List.append_assoc (tx_word_bytes _), drop_word _ _ _ (by omega)]
      rw [List.take_of_length_le (by rw [List.length_drop, tx_word_bytes_length]; omega)]
      simp
    · simp only [h4, decide_False, if_false]
      refine ⟨⟨⟨by simp; omega, by simp [hst], by simpa [hst] using hlen, by simp [hst, h0],
        by simp [hst], by simp [hst], by simp [hst]⟩, _, rfl, ?_⟩, hst⟩
      simp only [tx_remaining, tx_words_left, hst, h0, if_true, ← List.append_assoc,
        ← List.map_append, words_bytes, List.singleton_append]
      rw [List.append_assoc (tx_word_bytes _), drop_word _ _ _ (by omega),
        drop_word _ _ _ (by omega), ← List.append_assoc, take_drop_word]
  · rw [if_neg h0]
    exact ⟨txStep_refl s hwf, hst⟩

theorem tx_token_word2 (s : State X) (hwf : TxWf s.p) (hst : s.p.tx_state = TxState.token) :
    TxStep s (if s.p.tx_counter = 1 then
      match usb_tx_word ((s.p.tx_info.data_length + s.p.tx_info.dma_length) % U32) s with
      | (true, s2) => { s2 with p := { s2.p with tx_state := TxState.data, tx_counter := 0 } }
      | (false, s2) => s2
    else s) := by
  by_cases h1 : s.p.tx_counter = 1
  · rw [if_pos h1]
    obtain ⟨hc3, hidle, hlen, htok, hdata, hdma, hfl⟩ := hwf
    have hl := hlen (by rw [hst]; decide)
    rw [usb_tx_word_call _ s.w.tx_space s.p.usb_tx_word_counter s rfl hc3 rfl]
    by_cases h4 : 4 ≤ s.p.usb_tx_word_counter + s.w.tx_space
    · simp only [h4, decide_True, if_true]
      refine ⟨⟨by simp, by simp, by simpa using hl, by simp, ?_, by simp, by simp⟩, _, rfl, ?_⟩
      · simp only [forall_true_left, and_true]
        omega
      · simp only [tx_remaining, tx_words_left, hst, h1, if_false, ← List.append_assoc,
          ← List.map_append, List.drop_zero, words_bytes, List.nil_append, one_ne_zero]
        rw [drop_word _ _ _ (by omega)]
        rw [List.take_of_length_le (by rw [List.length_drop, tx_word_bytes_length]; omega)]
    · simp only [h4, decide_False, if_false]
      refine ⟨⟨by simp; omega, by simp [hst], by simpa [hst] using hlen, by simp [hst, h1],
        by simp [hst], by simp [hst], by simp [hst]⟩, _, rfl, ?_⟩
      simp only [tx_remaining, tx_words_left, hst, h1, if_false, ← List.append_assoc,
        ← List.map_append, words_bytes, List.nil_append, one_ne_zero]
      rw [drop_word _ _ _ (by omega), drop_word _ _ _ (by omega), ← List.append_assoc,
        take_drop_word]
  · rw [if_neg h1]
    exact txStep_refl s hwf

theorem tx_token_step (s : State X) (hwf : TxWf s.p) (hst : s.p.tx_state = TxState.token) :
    TxStep s (tx_token s) := by
  obtain ⟨h1, h1s⟩ := tx_token_word1 s hwf hst
  exact txStep_trans h1 (tx_token_word2 _ h1.1 h1s)

theorem tx_data_loop_step : ∀ (n : Nat) (s : State X), TxWf s.p →
    s.p.tx_state = TxState.data → s.p.tx_counter < s.p.tx_info.data_length / 4 →
    TxStep s (tx_data_loop n s) := by
  intro n
  induction n with
  | zero => intro s hwf _ _; exact txStep_refl s hwf
  | succ n ih =>
    intro s hwf hst hcnt
    unfold tx_data_loop
    obtain ⟨hc3, hidle, hlen, htok, hdata, hdma, hfl⟩ := hwf
    have hl := hlen (by rw [hst]; decide)
    rw [usb_tx_word_call _ s.w.tx_space s.p.usb_tx_word_counter s rfl hc3 rfl]
    by_cases h4 : 4 ≤ s.p.usb_tx_word_counter + s.w.tx_space
    · simp only [h4, decide_True, if_true]
      have hmod : (s.p.tx_counter + 1) % U8 = s.p.tx_counter + 1 := by unfold U8; omega
      rw [hmod]
      by_cases hend : s.p.tx_counter + 1 = s.p.tx_info.data_length / 4
      · rw [if_pos hend]
        refine ⟨⟨by simp, by simp, by simpa using hl, by simp, by simp, by simp, by simp⟩,
          _, rfl, ?_⟩
        simp only [tx_remaining, tx_words_left, hst, ← List.append_assoc,
          ← List.map_append, List.drop_zero, words_bytes, List.nil_append, List.map_nil,
          List.drop_nil]
        rw [data_words_cons _ _ hcnt, data_words_end _ _ (by omega)]
        simp only [words_bytes, List.append_nil]
        rw [List.take_of_length_le (by rw [List.length_drop, tx_word_bytes_length]; omega)]
      · rw [if_neg hend]
        refine txStep_trans ?_ (ih _ ?_ hst (by simp only; omega))
        · refine ⟨⟨by simp, by simp [hst], by simpa [hst] using hlen, by simp [hst],
            ?_, by simp [hst], by simp [hst]⟩, _, rfl, ?_⟩
          · intro _
            right
            simp only
            omega
          · simp only [tx_remaining, tx_words_left, hst, ← List.append_assoc,
              ← List.map_append, List.drop_zero]
            rw [data_words_cons _ _ hcnt]
            simp only [words_bytes]
            rw [drop_word _ _ _ (by omega)]
            rw [List.take_of_length_le
              (by rw [List.length_drop, tx_word_bytes_length]; omega)]
        · refine ⟨by simp, by simp [hst], by simpa [hst] using hlen, by simp [hst],
            ?_, by simp [hst], by simp [hst]⟩
          intro _
          right
          simp only
          omega
    · simp only [h4, decide_False, if_false]
      refine ⟨⟨by simp; omega, by simp [hst], by simpa [hst] using hlen, by simp [hst],
        ?_, by simp [hst], by simp [hst]⟩, _, rfl, ?_⟩
      · intro _
        right
        exact hcnt
      · simp only [tx_remaining, tx_words_left, hst, ← List.append_assoc,
          ← List.map_append]
        rw [data_words_cons _ _ hcnt]
        simp only [words_bytes]
        rw [drop_word _ _ _ (by omega), drop_word _ _ _ (by omega), ← List.append_assoc,
          take_drop_word]

theorem tx_data_step (s : State X) (hwf : TxWf s.p) (hst : s.p.tx_state = TxState.data) :
    TxStep s (tx_data s) := by
  unfold tx_data
  obtain ⟨hc3, hidle, hlen, htok, hdata, hdma, hfl⟩ := hwf
  have hl := hlen (by rw [hst]; decide)
  by_cases h : s.p.tx_info.data_length > 0
  · rw [if_pos h]
    rcases hdata hst with ⟨h0, -⟩ | hcnt
    · omega
    · exact tx_data_loop_step _ s ⟨hc3, hidle, hlen, htok, hdata, hdma, hfl⟩ hst hcnt
  · rw [if_neg h]
    rcases hdata hst with ⟨h0, hc0⟩ | hcnt
    · refine ⟨⟨by simpa using hc3, by simp, by simpa using hl, by simp, by simp,
        by simpa using hc0, by simp⟩, [], by simp, ?_⟩
      simp only [tx_remaining, tx_words_left, hst, List.nil_append, words_bytes,
        List.drop_nil, List.map_nil]
      rw [data_words_end _ _ (by omega)]
      simp [words_bytes]
    · omega

theorem tx_dma_step (s : State X) (hwf : TxWf s.p) (hst : s.p.tx_state = TxState.dma) :
    TxStep s (tx_dma s) := by
  unfold tx_dma usb_dma_ready
  obtain ⟨hc3, hidle, hlen, htok, hdata, hdma, hfl⟩ := hwf
  have hl := hlen (by rw [hst]; decide)
  have hc0 := hdma hst
  have hflush : TxStep s { s with p := { s.p with tx_state := TxState.flush } } ↔
      tx_remaining s.p = commit_events s.p.tx_info := by
    constructor
    · rintro ⟨-, evs, ht, hr⟩
      have : evs = [] := by simpa using ht
      rw [this] at hr
      simpa [tx_remaining] using hr.symm
    · intro h
      exact ⟨⟨by simpa using hc3, by simp, by simpa using hl, by simp, by simp, by simp,
        by simpa using hc0⟩, [], by simp, by simpa [tx_remaining] using h.symm⟩
  by_cases h1 : s.p.tx_info.dma_length > 0
  · rw [if_pos h1]
    by_cases h2 : (!s.w.dma_busy) = true
    · rw [if_pos h2]
      by_cases h3 : (!s.p.tx_dma_running) = true
      · rw [if_pos h3]
        have h3f : s.p.tx_dma_running = false := by simpa using h3
        refine ⟨⟨by simpa [dma_start, State.emit] using hc3, by simp [dma_start, State.emit, hst],
          by simpa [dma_start, State.emit, hst] using hl,
          by simp [dma_start, State.emit, hst], by simp [dma_start, State.emit, hst],
          by simpa [dma_start, State.emit, hst] using hc0,
          by simp [dma_start, State.emit, hst]⟩, dma_events s.p.tx_info, ?_, ?_⟩
        · simp [dma_start, State.emit, dma_events]
        · simp [tx_remaining, tx_words_left, hst, dma_start, State.emit, words_bytes, h1, h3f]
      · rw [if_neg h3]
        have h3t : s.p.tx_dma_running = true := by simpa using h3
        rw [hflush]
        simp [tx_remaining, tx_words_left, hst, words_bytes, h3t]
    · rw [if_neg h2]
      exact txStep_refl s ⟨hc3, hidle, hlen, htok, hdata, hdma, hfl⟩
  · rw [if_neg h1]
    rw [hflush]
    simp [tx_remaining, tx_words_left, hst, words_bytes, h1]

theorem tx_flush_step (env : Env X) (s : State X) (hwf : TxWf s.p)
    (hst : s.p.tx_state = TxState.flush) : TxStep s (tx_flush env s) := by
  obtain ⟨hc3, hidle, hlen, htok, hdata, hdma, hfl⟩ := hwf
  have hc0 := hfl hst
  cases h : s.p.tx_info.done_callback with
  | none =>
    rw [tx_flush_none env s h]
    refine ⟨⟨by simpa using hc3, by simpa using hc0, by simp, by simp, by simp, by simp,
      by simp⟩, commit_events s.p.tx_info, ?_, ?_⟩
    · simp [commit_events, callback_events, h]
    · simp [tx_remaining, hst]
  | some cb =>
    rw [tx_flush_some env s cb h]
    refine ⟨⟨by simpa using hc3, by simpa using hc0, by simp, by simp, by simp, by simp,
      by simp⟩, commit_events s.p.tx_info, ?_, ?_⟩
    · simp [commit_events, callback_events, h]
    · simp [tx_remaining, hst]

theorem usb_tx_process_step (env : Env X) (s : State X) (hwf : TxWf s.p)
    (hne : s.p.tx_state ≠ TxState.idle) : TxStep s (usb_tx_process env s) := by
  have b2 : ∀ s1 : State X, TxWf s1.p →
      TxStep s1 (if s1.p.tx_state = TxState.token then tx_token s1 else s1) := by
    intro s1 h
    split_ifs with hs
    · exact tx_token_step s1 h hs
    · exact txStep_refl s1 h
  have b3 : ∀ s1 : State X, TxWf s1.p →
      TxStep s1 (if s1.p.tx_state = TxState.data then tx_data s1 else s1) := by
    intro s1 h
    split_ifs with hs
    · exact tx_data_step s1 h hs
    · exact txStep_refl s1 h
  have b4 : ∀ s1 : State X, TxWf s1.p →
      TxStep s1 (if s1.p.tx_state = TxState.dma then tx_dma s1 else s1) := by
    intro s1 h
    split_ifs with hs
    · exact tx_dma_step s1 h hs
    · exact txStep_refl s1 h
  have b5 : ∀ s1 : State X, TxWf s1.p →
      TxStep s1 (if s1.p.tx_state = TxState.flush then tx_flush env s1 else s1) := by
    intro s1 h
    split_ifs with hs
    · exact tx_flush_step env s1 h hs
    · exact txStep_refl s1 h
  have e : usb_tx_process env s =
      (fun s4 : State X => if s4.p.tx_state = TxState.flush then tx_flush env s4 else s4)
      ((fun s3 : State X => if s3.p.tx_state = TxState.dma then tx_dma s3 else s3)
      ((fun s2 : State X => if s2.p.tx_state = TxState.data then tx_data s2 else s2)
      ((fun s1 : State X => if s1.p.tx_state = TxState.token then tx_token s1 else s1) s))) := by
    simp only [usb_tx_process, if_neg hne]
  rw [e]
  have h2 := b2 s hwf
  have h3 := b3 _ h2.1
  have h4 := b4 _ h3.1
  have h5 := b5 _ h4.1
  exact txStep_trans h2 (txStep_trans h3 (txStep_trans h4 h5))

theorem usb_tx_process_pickup (env : Env X) (s : State X) (hi : s.p.tx_state = TxState.idle)
    (hp : (tx_idle s).p.tx_state ≠ TxState.idle) :
    usb_tx_process env s = usb_tx_process env (tx_idle s) := by
  simp only [usb_tx_process, hi, if_true, if_neg hp]

theorem tx_idle_response (s : State X)
    (hc : s.p.usb_tx_word_counter = 0) (hp : s.p.response_pending = true)
    (hl : s.p.response_info.data_length % 4 = 0 ∧ s.p.response_info.data_length ≤ 16) :
    (tx_idle s).p.tx_state = TxState.token ∧ TxWf (tx_idle s).p ∧
    (tx_idle s).w = s.w ∧
    tx_remaining (tx_idle s).p =
      frame_events (if s.p.response_error then ERR_TOKEN else CMP_TOKEN) s.p.response_info := by
  unfold tx_idle
  rw [if_pos hp]
  refine ⟨rfl, ⟨by simp [hc], by simp, by simpa using hl, by simp, by simp, by simp, by simp⟩,
    rfl, ?_⟩
  simp [tx_remaining, tx_words_left, frame_events, hc, words_bytes]

theorem tx_idle_packet (s : State X)
    (hc : s.p.usb_tx_word_counter = 0) (hr : s.p.response_pending = false)
    (hp : s.p.packet_pending = true)
    (hl : s.p.packet_info.data_length % 4 = 0 ∧ s.p.packet_info.data_length ≤ 16) :
    (tx_idle s).p.tx_state = TxState.token ∧ TxWf (tx_idle s).p ∧
    (tx_idle s).w = s.w ∧
    tx_remaining (tx_idle s).p = frame_events PKT_TOKEN s.p.packet_info := by
  unfold tx_idle
  rw [if_neg (by simp [hr]), if_pos hp]
  refine ⟨rfl, ⟨by simp [hc], by simp, by simpa using hl, by simp, by simp, by simp, by simp⟩,
    rfl, ?_⟩
  simp [tx_remaining, tx_words_left, frame_events, hc, words_bytes]

/-! ## Room of the outbound FIFO and progress of the transmit machine -/

theorem txRoom_refl (s : State X) : TxRoom s s := ⟨rfl, rfl, rfl, rfl⟩

theorem txRoom_trans {s s1 s2 : State X} (h1 : TxRoom s s1) (h2 : TxRoom s1 s2) :
    TxRoom s s2 := by
  obtain ⟨a1, b1, c1, d1⟩ := h1
  obtain ⟨a2, b2, c2, d2⟩ := h2
  exact ⟨by omega, b2.trans b1, c2.trans c1, d2.trans d1⟩

theorem tx_token_word1_room (s : State X) (hwf : TxWf s.p) (hst : s.p.tx_state = TxState.token) :
    TxRoom s (if s.p.tx_counter = 0 then
      match usb_tx_word (s.p.tx_token ||| s.p.tx_info.cmd) s with
      | (true, s0) => { s0 with p := { s0.p with tx_counter := (s0.p.tx_counter + 1) % U8 } }
      | (false, s0) => s0
    else s) ∧
    ((if s.p.tx_counter = 0 then
      match usb_tx_word (s.p.tx_token ||| s.p.tx_info.cmd) s with
      | (true, s0) => { s0 with p := { s0.p with tx_counter := (s0.p.tx_counter + 1) % U8 } }
      | (false, s0) => s0
    else s).p.tx_counter = 0 →
     (if s.p.tx_counter = 0 then
      match usb_tx_word (s.p.tx_token ||| s.p.tx_info.cmd) s with
      | (true, s0) => { s0 with p := { s0.p with tx_counter := (s0.p.tx_counter + 1) % U8 } }
      | (false, s0) => s0
    else s).w.tx_space = 0) := by
  by_cases h0 : s.p.tx_counter = 0
  · rw [if_pos h0]
    obtain ⟨hc3, hidle, hlen, htok, hdata, hdma, hfl⟩ := hwf
    rw [usb_tx_word_call _ s.w.tx_space s.p.usb_tx_word_counter s rfl hc3 rfl]
    by_cases h4 : 4 ≤ s.p.usb_tx_word_counter + s.w.tx_space
    · simp only [h4, decide_True, if_true]
      refine ⟨⟨?_, rfl, rfl, rfl⟩, fun h => ?_⟩
      · simp only [owed_bytes, hst, h0, U8, if_true, Nat.zero_add, Nat.reduceMod,
          OfNat.ofNat_ne_zero, if_false, one_ne_zero]
        omega
      · simp [h0, U8] at h
    · simp only [h4, decide_False, if_false]
      refine ⟨⟨?_, rfl, rfl, rfl⟩, fun _ => ?_⟩
      · simp only [owed_bytes, hst, h0, if_true]
        omega
      · show s.w.tx_space - min s.w.tx_space (4 - s.p.usb_tx_word_counter) = 0
        omega
  · rw [if_neg h0]
    exact ⟨txRoom_refl s, fun h => absurd h h0⟩

theorem tx_token_word2_room (s : State X) (hwf : TxWf s.p) (hst : s.p.tx_state = TxState.token) :
    TxRoom s (if s.p.tx_counter = 1 then
      match usb_tx_word ((s.p.tx_info.data_length + s.p.tx_info.dma_length) % U32) s with
      | (true, s2) => { s2 with p := { s2.p with tx_state := TxState.data, tx_counter := 0 } }
      | (false, s2) => s2
    else s) ∧
    (s.p.tx_counter = 1 →
     (if s.p.tx_counter = 1 then
      match usb_tx_word ((s.p.tx_info.data_length + s.p.tx_info.dma_length) % U32) s with
      | (true, s2) => { s2 with p := { s2.p with tx_state := TxState.data, tx_counter := 0 } }
      | (false, s2) => s2
    else s).p.tx_state = TxState.token →
     (if s.p.tx_counter = 1 then
      match usb_tx_word ((s.p.tx_info.data_length + s.p.tx_info.dma_length) % U32) s with
      | (true, s2) => { s2 with p := { s2.p with tx_state := TxState.data, tx_counter := 0 } }
      | (false, s2) => s2
    else s).w.tx_space = 0) := by
  by_cases h1 : s.p.tx_counter = 1
  · rw [if_pos h1]
    obtain ⟨hc3, hidle, hlen, htok, hdata, hdma, hfl⟩ := hwf
    rw [usb_tx_word_call _ s.w.tx_space s.p.usb_tx_word_counter s rfl hc3 rfl]
    by_cases h4 : 4 ≤ s.p.usb_tx_word_counter + s.w.tx_space
    · simp only [h4, decide_True, if_true]
      refine ⟨⟨?_, rfl, rfl, rfl⟩, fun _ h => ?_⟩
      · simp only [owed_bytes, hst, h1, if_false, one_ne_zero]
        omega
      · simp at h
    · simp only [h4, decide_False, if_false]
      refine ⟨⟨?_, rfl, rfl, rfl⟩, fun _ _ => ?_⟩
      · simp only [owed_bytes, hst, h1, if_false, one_ne_zero]
        omega
      · show s.w.tx_space - min s.w.tx_space (4 - s.p.usb_tx_word_counter) = 0
        omega
  · rw [if_neg h1]
    exact ⟨txRoom_refl s, fun h => absurd h h1⟩

theorem tx_token_room (s : State X) (hwf : TxWf s.p) (hst : s.p.tx_state = TxState.token) :
    TxRoom s (tx_token s) ∧ ((tx_token s).p.tx_state = TxState.token → (tx_token s).w.tx_space = 0)
    := by
  obtain ⟨h1, h1s⟩ := tx_token_word1 s hwf hst
  obtain ⟨r1, z1⟩ := tx_token_word1_room s hwf hst
  obtain ⟨r2, z2⟩ := tx_token_word2_room _ h1.1 h1s
  refine ⟨txRoom_trans r1 r2, fun h => ?_⟩
  have hcnt := h1.1.2.2.2.1 h1s
  have hnum : ∀ n : Nat, n ≤ 1 → n = 0 ∨ n = 1 := by intro n hn; omega
  rcases hnum _ hcnt with h0 | h1c
  · have hz := z1 h0
    have hskip : ∀ s1 : State X, s1.p.tx_counter = 0 →
        (if s1.p.tx_counter = 1 then
          match usb_tx_word ((s1.p.tx_info.data_length + s1.p.tx_info.dma_length) % U32) s1 with
          | (true, s2) => { s2 with p := { s2.p with tx_state := TxState.data, tx_counter := 0 } }
          | (false, s2) => s2
        else s1) = s1 := by
      intro s1 h
      rw [if_neg (by rw [h]; decide)]
    have e := hskip _ h0
    exact (congrArg (fun t : State X => t.w.tx_space) e).trans hz
  · exact z2 h1c h

theorem tx_data_loop_room : ∀ (n : Nat) (s : State X), TxWf s.p →
    s.p.tx_state = TxState.data → s.p.tx_counter < s.p.tx_info.data_length / 4 →
    s.w.tx_space ≤ n →
    TxRoom s (tx_data_loop n s) ∧
    ((tx_data_loop n s).p.tx_state = TxState.data → (tx_data_loop n s).w.tx_space = 0) := by
  intro n
  induction n with
  | zero =>
    intro s _ _ _ hn
    exact ⟨txRoom_refl s, fun _ => Nat.le_zero.mp hn⟩
  | succ n ih =>
    intro s hwf hst hcnt hn
    unfold tx_data_loop
    obtain ⟨hc3, hidle, hlen, htok, hdata, hdma, hfl⟩ := hwf
    have hl := hlen (by rw [hst]; decide)
    rw [usb_tx_word_call _ s.w.tx_space s.p.usb_tx_word_counter s rfl hc3 rfl]
    by_cases h4 : 4 ≤ s.p.usb_tx_word_counter + s.w.tx_space
    · simp only [h4, decide_True, if_true]
      have hmod : (s.p.tx_counter + 1) % U8 = s.p.tx_counter + 1 := by unfold U8; omega
      rw [hmod]
      by_cases hend : s.p.tx_counter + 1 = s.p.tx_info.data_length / 4
      · rw [if_pos hend]
        refine ⟨⟨?_, rfl, rfl, rfl⟩, fun h => ?_⟩
        · simp only [owed_bytes, hst]
          omega
        · simp at h
      · rw [if_neg hend]
        have hwf1 : TxWf
            { s.p with
              usb_tx_word_counter := 0
              tx_counter := s.p.tx_counter + 1 } := by
          refine ⟨by simp, by simp [hst], by simpa [hst] using hlen, by simp [hst],
            ?_, by simp [hst], by simp [hst]⟩
          intro _
          right
          simp only
          omega
        obtain ⟨r, z⟩ := ih
          ⟨{ s.p with
              usb_tx_word_counter := 0
              tx_counter := s.p.tx_counter + 1 },
           { s.w with
              tx_space := s.w.tx_space - min s.w.tx_space (4 - s.p.usb_tx_word_counter)
              trace := s.w.trace ++
                (((tx_word_bytes (s.p.tx_info.data s.p.tx_counter)).drop
                  s.p.usb_tx_word_counter).take s.w.tx_space).map Ev.usb_push }⟩
          hwf1 hst (by show s.p.tx_counter + 1 < s.p.tx_info.data_length / 4; omega)
          (by show s.w.tx_space - min s.w.tx_space (4 - s.p.usb_tx_word_counter) ≤ n; omega)
        refine ⟨txRoom_trans ?_ r, z⟩
        refine ⟨?_, rfl, rfl, rfl⟩
        simp only [owed_bytes, hst]
        omega
    · simp only [h4, decide_False, if_false]
      refine ⟨⟨?_, rfl, rfl, rfl⟩, fun _ => ?_⟩
      · simp only [owed_bytes, hst]
        omega
      · show s.w.tx_space - min s.w.tx_space (4 - s.p.usb_tx_word_counter) = 0
        omega

theorem tx_data_room (s : State X) (hwf : TxWf s.p) (hst : s.p.tx_state = TxState.data) :
    TxRoom s (tx_data s) ∧
    ((tx_data s).p.tx_state = TxState.data →
      (tx_data s).w.tx_space = 0 ∧ 0 < (tx_data s).p.tx_info.data_length) ∧
    (tx_data s).p.tx_state ≠ TxState.token := by
  have hstep := tx_data_step s hwf hst
  unfold tx_data at hstep ⊢
  obtain ⟨hc3, hidle, hlen, htok, hdata, hdma, hfl⟩ := hwf
  by_cases h : s.p.tx_info.data_length > 0
  · rw [if_pos h] at hstep ⊢
    rcases hdata hst with ⟨h0, -⟩ | hcnt
    · omega
    · obtain ⟨r, z⟩ := tx_data_loop_room _ s ⟨hc3, hidle, hlen, htok, hdata, hdma, hfl⟩ hst
        hcnt (Nat.le_refl _)
      obtain ⟨st, cnt, c, sp, bytes, hfr, hst1⟩ := tx_data_loop_frame s.w.tx_space s
      refine ⟨r, fun hd => ⟨z hd, ?_⟩, ?_⟩
      · rw [r.2.2.1]; exact h
      · rw [hfr]
        rcases hst1 with h1 | h1 <;> simp [h1, hst]
  · rw [if_neg h]
    refine ⟨⟨?_, rfl, rfl, rfl⟩, fun hd => ?_, by simp⟩
    · simp only [owed_bytes, hst]
      omega
    · simp at hd

theorem tx_dma_stall (s : State X) (hst : s.p.tx_state = TxState.dma) :
    ((tx_dma s).p.tx_state = TxState.dma ∨ (tx_dma s).p.tx_state = TxState.flush) ∧
    ((tx_dma s).p.tx_state = TxState.dma →
      s.w.dma_busy = true ∨ (tx_dma s).p.tx_dma_running = true) := by
  unfold tx_dma usb_dma_ready
  by_cases h1 : s.p.tx_info.dma_length > 0
  · rw [if_pos h1]
    by_cases h2 : (!s.w.dma_busy) = true
    · rw [if_pos h2]
      by_cases h3 : (!s.p.tx_dma_running) = true
      · rw [if_pos h3]
        exact ⟨Or.inl (by simp [dma_start, State.emit, hst]),
          fun _ => Or.inr (by simp [dma_start, State.emit])⟩
      · rw [if_neg h3]
        exact ⟨Or.inr rfl, fun h => by simp at h⟩
    · rw [if_neg h2]
      exact ⟨Or.inl hst, fun _ => Or.inl (by simpa using h2)⟩
  · rw [if_neg h1]
    exact ⟨Or.inr rfl, fun h => by simp at h⟩

theorem tx_flush_idle (env : Env X) (s : State X) : (tx_flush env s).p.tx_state = TxState.idle
    := by
  cases h : s.p.tx_info.done_callback with
  | none => rw [tx_flush_none env s h]
  | some cb => rw [tx_flush_some env s cb h]

theorem owed_bytes_pos (p : Process) (hwf : TxWf p)
    (h : p.tx_state = TxState.token ∨
      (p.tx_state = TxState.data ∧ 0 < p.tx_info.data_length)) : 0 < owed_bytes p := by
  obtain ⟨hc3, hidle, hlen, htok, hdata, hdma, hfl⟩ := hwf
  rcases h with h | ⟨h, hl⟩
  · simp only [owed_bytes, h]
    split_ifs <;> omega
  · simp only [owed_bytes, h]
    rcases hdata h with ⟨h0, -⟩ | hc
    · omega
    · omega

/-- Progress of one call of the transmit machine within a frame: if it ends in
the Token or Data state the outbound FIFO is full and every byte of room the
call found has been used for the frame; it never ends in the Flush state; if
it ends in the Dma state the engine was busy when the call began or the
transfer has been started. -/
theorem usb_tx_process_progress (env : Env X) (s : State X) (hwf : TxWf s.p)
    (hne : s.p.tx_state ≠ TxState.idle) :
    (((usb_tx_process env s).p.tx_state = TxState.token ∨
        (usb_tx_process env s).p.tx_state = TxState.data) →
      (usb_tx_process env s).w.tx_space = 0 ∧
      owed_bytes s.p = s.w.tx_space + owed_bytes (usb_tx_process env s).p ∧
      0 < owed_bytes (usb_tx_process env s).p) ∧
    (usb_tx_process env s).p.tx_state ≠ TxState.flush ∧
    ((usb_tx_process env s).p.tx_state = TxState.dma →
      s.w.dma_busy = true ∨ (usb_tx_process env s).p.tx_dma_running = true) := by
  -- the Token block
  have b2 : ∀ s1 : State X, TxWf s1.p →
      TxWf (if s1.p.tx_state = TxState.token then tx_token s1 else s1).p ∧
      TxRoom s1 (if s1.p.tx_state = TxState.token then tx_token s1 else s1) ∧
      ((if s1.p.tx_state = TxState.token then tx_token s1 else s1).p.tx_state = TxState.token →
        (if s1.p.tx_state = TxState.token then tx_token s1 else s1).w.tx_space = 0) := by
    intro s1 h
    by_cases hs : s1.p.tx_state = TxState.token
    · rw [if_pos hs]
      exact ⟨(tx_token_step s1 h hs).1, (tx_token_room s1 h hs).1, (tx_token_room s1 h hs).2⟩
    · rw [if_neg hs]
      exact ⟨h, txRoom_refl s1, fun h' => absurd h' hs⟩
  -- the Data block
  have b3 : ∀ s1 : State X, TxWf s1.p →
      (s1.p.tx_state = TxState.token → s1.w.tx_space = 0) →
      TxWf (if s1.p.tx_state = TxState.data then tx_data s1 else s1).p ∧
      TxRoom s1 (if s1.p.tx_state = TxState.data then tx_data s1 else s1) ∧
      ((if s1.p.tx_state = TxState.data then tx_data s1 else s1).p.tx_state = TxState.token →
        (if s1.p.tx_state = TxState.data then tx_data s1 else s1).w.tx_space = 0) ∧
      ((if s1.p.tx_state = TxState.data then tx_data s1 else s1).p.tx_state = TxState.data →
        (if s1.p.tx_state = TxState.data then tx_data s1 else s1).w.tx_space = 0 ∧
        0 < (if s1.p.tx_state = TxState.data then tx_data s1 else s1).p.tx_info.data_length)
      := by
    intro s1 h hz
    by_cases hs : s1.p.tx_state = TxState.data
    · rw [if_pos hs]
      obtain ⟨r, z, nt⟩ := tx_data_room s1 h hs
      exact ⟨(tx_data_step s1 h hs).1, r, fun h' => absurd h' nt, z⟩
    · rw [if_neg hs]
      exact ⟨h, txRoom_refl s1, hz, fun h' => absurd h' hs⟩
  -- the Dma block
  have b4 : ∀ s1 : State X, TxWf s1.p →
      TxWf (if s1.p.tx_state = TxState.dma then tx_dma s1 else s1).p ∧
      (((if s1.p.tx_state = TxState.dma then tx_dma s1 else s1).p.tx_state = TxState.token ∨
        (if s1.p.tx_state = TxState.dma then tx_dma s1 else s1).p.tx_state = TxState.data) →
        (if s1.p.tx_state = TxState.dma then tx_dma s1 else s1) = s1) ∧
      ((if s1.p.tx_state = TxState.dma then tx_dma s1 else s1).p.tx_state = TxState.dma →
        s1.w.dma_busy = true ∨
        (if s1.p.tx_state = TxState.dma then tx_dma s1 else s1).p.tx_dma_running = true) := by
    intro s1 h
    by_cases hs : s1.p.tx_state = TxState.dma
    · rw [if_pos hs]
      obtain ⟨a, b⟩ := tx_dma_stall s1 hs
      refine ⟨(tx_dma_step s1 h hs).1, fun h' => ?_, b⟩
      rcases a with a | a <;> rcases h' with h' | h' <;> rw [a] at h' <;> cases h'
    · rw [if_neg hs]
      exact ⟨h, fun _ => rfl, fun h' => absurd h' hs⟩
  -- the Flush block
  have b5 : ∀ s1 : State X,
      (if s1.p.tx_state = TxState.flush then tx_flush env s1 else s1).p.tx_state ≠
        TxState.flush ∧
      ((if s1.p.tx_state = TxState.flush then tx_flush env s1 else s1).p.tx_state ≠
        TxState.idle → (if s1.p.tx_state = TxState.flush then tx_flush env s1 else s1) = s1)
      := by
    intro s1
    by_cases hs : s1.p.tx_state = TxState.flush
    · rw [if_pos hs]
      exact ⟨by rw [tx_flush_idle]; decide, fun h' => absurd (tx_flush_idle env s1) h'⟩
    · rw [if_neg hs]
      exact ⟨hs, fun _ => rfl⟩
  have e : usb_tx_process env s =
      (fun s4 : State X => if s4.p.tx_state = TxState.flush then tx_flush env s4 else s4)
      ((fun s3 : State X => if s3.p.tx_state = TxState.dma then tx_dma s3 else s3)
      ((fun s2 : State X => if s2.p.tx_state = TxState.data then tx_data s2 else s2)
      ((fun s1 : State X => if s1.p.tx_state = TxState.token then tx_token s1 else s1) s))) := by
    simp only [usb_tx_process, if_neg hne]
  rw [e]
  beta_reduce
  obtain ⟨w2, r2, z2⟩ := b2 s hwf
  generalize (if s.p.tx_state = TxState.token then tx_token s else s) = s2 at w2 r2 z2 ⊢
  obtain ⟨w3, r3, z3, d3⟩ := b3 s2 w2 z2
  generalize (if s2.p.tx_state = TxState.data then tx_data s2 else s2) = s3 at w3 r3 z3 d3 ⊢
  obtain ⟨w4, k4, d4⟩ := b4 s3 w3
  generalize (if s3.p.tx_state = TxState.dma then tx_dma s3 else s3) = s4 at w4 k4 d4 ⊢
  obtain ⟨f5, k5⟩ := b5 s4
  generalize (if s4.p.tx_state = TxState.flush then tx_flush env s4 else s4) = s5 at f5 k5 ⊢
  have r13 := txRoom_trans r2 r3
  refine ⟨fun h => ?_, f5, fun h => ?_⟩
  · have h5 : s5 = s4 := k5 (by rcases h with h | h <;> rw [h] <;> decide)
    subst h5
    have h4 : s5 = s3 := k4 h
    subst h4
    have hsp : s5.w.tx_space = 0 := by
      rcases h with h | h
      · exact z3 h
      · exact (d3 h).1
    have hpos : 0 < owed_bytes s5.p := by
      refine owed_bytes_pos s5.p w3 ?_
      rcases h with h | h
      · exact Or.inl h
      · exact Or.inr ⟨h, (d3 h).2⟩
    refine ⟨hsp, ?_, hpos⟩
    have := r13.1
    omega
  · have h5 : s5 = s4 := k5 (by rw [h]; decide)
    subst h5
    rcases d4 h with hb | hr
    · left
      rw [← r13.2.1]
      exact hb
    · exact Or.inr hr

/-- What a call of the transmit machine within a frame leaves alone: the two
pending flags, the two queued descriptors, and the descriptor and token of the
frame in transmission. -/
theorem usb_tx_process_pending (env : Env X) (s : State X)
    (hne : s.p.tx_state ≠ TxState.idle) :
    (usb_tx_process env s).p.response_pending = s.p.response_pending ∧
    (usb_tx_process env s).p.packet_pending = s.p.packet_pending ∧
    (usb_tx_process env s).p.response_info = s.p.response_info ∧
    (usb_tx_process env s).p.packet_info = s.p.packet_info := by
  obtain ⟨ts, tc, ti, tt, tdr, rp, pp, c, sp, busy, evs, ext, hf, -, -, -⟩ :=
    usb_tx_process_frame env s
  have hpend : ∀ s1 : State X, s1.p.tx_state ≠ TxState.idle →
      (usb_tx_process env s1).p.response_pending = s1.p.response_pending ∧
      (usb_tx_process env s1).p.packet_pending = s1.p.packet_pending := by
    intro s1 h1
    have b2 : ∀ s2 : State X,
        (if s2.p.tx_state = TxState.token then tx_token s2 else s2).p.response_pending =
          s2.p.response_pending ∧
        (if s2.p.tx_state = TxState.token then tx_token s2 else s2).p.packet_pending =
          s2.p.packet_pending := by
      intro s2
      split_ifs
      · have w1 : ∀ (d : Nat) (t : State X),
            (usb_tx_word d t).2.p.response_pending = t.p.response_pending ∧
            (usb_tx_word d t).2.p.packet_pending = t.p.packet_pending := by
          intro d t
          obtain ⟨c, sp, bytes, h⟩ := usb_tx_word_frame d t
          rw [h]
          exact ⟨rfl, rfl⟩
        unfold tx_token
        simp only []
        have a1 := w1 (s2.p.tx_token ||| s2.p.tx_info.cmd) s2
        rcases hr : usb_tx_word (s2.p.tx_token ||| s2.p.tx_info.cmd) s2 with ⟨r, s0⟩
        rw [hr] at a1
        simp only [] at a1
        by_cases h0 : s2.p.tx_counter = 0
        · simp only [h0, if_true]
          cases r
          · simp only []
            by_cases h1' : s0.p.tx_counter = 1
            · rw [if_pos h1']
              have a2 := w1 ((s0.p.tx_info.data_length + s0.p.tx_info.dma_length) % U32) s0
              rcases hr2 : usb_tx_word
                ((s0.p.tx_info.data_length + s0.p.tx_info.dma_length) % U32) s0 with ⟨r2, s3⟩
              rw [hr2] at a2
              simp only [] at a2
              cases r2 <;> exact ⟨a2.1.trans a1.1, a2.2.trans a1.2⟩
            · rw [if_neg h1']
              exact a1
          · simp only []
            by_cases h1' : (s0.p.tx_counter + 1) % U8 = 1
            · rw [if_pos h1']
              have a2 := w1 ((s0.p.tx_info.data_length + s0.p.tx_info.dma_length) % U32)
                { s0 with p := { s0.p with tx_counter := (s0.p.tx_counter + 1) % U8 } }
              rcases hr2 : usb_tx_word
                ((s0.p.tx_info.data_length + s0.p.tx_info.dma_length) % U32)
                { s0 with p := { s0.p with tx_counter := (s0.p.tx_counter + 1) % U8 } }
                with ⟨r2, s3⟩
              rw [hr2] at a2
              simp only [] at a2
              cases r2 <;> exact ⟨a2.1.trans a1.1, a2.2.trans a1.2⟩
            · rw [if_neg h1']
              exact a1
        · simp only [h0, if_false]
          by_cases h1' : s2.p.tx_counter = 1
          · rw [if_pos h1']
            have a2 := w1 ((s2.p.tx_info.data_length + s2.p.tx_info.dma_length) % U32) s2
            rcases hr2 : usb_tx_word
              ((s2.p.tx_info.data_length + s2.p.tx_info.dma_length) % U32) s2 with ⟨r2, s3⟩
            rw [hr2] at a2
            simp only [] at a2
            cases r2 <;> exact a2
          · rw [if_neg h1']
            exact ⟨rfl, rfl⟩
      · exact ⟨rfl, rfl⟩
    have b3 : ∀ s2 : State X,
        (if s2.p.tx_state = TxState.data then tx_data s2 else s2).p.response_pending =
          s2.p.response_pending ∧
        (if s2.p.tx_state = TxState.data then tx_data s2 else s2).p.packet_pending =
          s2.p.packet_pending := by
      intro s2
      split_ifs
      · unfold tx_data
        split_ifs
        · obtain ⟨st, cnt, c, sp, bytes, h, -⟩ := tx_data_loop_frame s2.w.tx_space s2
          rw [h]
          exact ⟨rfl, rfl⟩
        · exact ⟨rfl, rfl⟩
      · exact ⟨rfl, rfl⟩
    have b4 : ∀ s2 : State X,
        (if s2.p.tx_state = TxState.dma then tx_dma s2 else s2).p.response_pending =
          s2.p.response_pending ∧
        (if s2.p.tx_state = TxState.dma then tx_dma s2 else s2).p.packet_pending =
          s2.p.packet_pending := by
      intro s2
      split_ifs
      · unfold tx_dma
        split_ifs <;> exact ⟨rfl, rfl⟩
      · exact ⟨rfl, rfl⟩
    have b5 : ∀ s2 : State X,
        (if s2.p.tx_state = TxState.flush then tx_flush env s2 else s2).p.response_pending =
          s2.p.response_pending ∧
        (if s2.p.tx_state = TxState.flush then tx_flush env s2 else s2).p.packet_pending =
          s2.p.packet_pending := by
      intro s2
      split_ifs
      · cases h : s2.p.tx_info.done_callback with
        | none => rw [tx_flush_none env s2 h]; exact ⟨rfl, rfl⟩
        | some cb => rw [tx_flush_some env s2 cb h]; exact ⟨rfl, rfl⟩
      · exact ⟨rfl, rfl⟩
    have e : usb_tx_process env s1 =
        (fun s4 : State X => if s4.p.tx_state = TxState.flush then tx_flush env s4 else s4)
        ((fun s3 : State X => if s3.p.tx_state = TxState.dma then tx_dma s3 else s3)
        ((fun s2 : State X => if s2.p.tx_state = TxState.data then tx_data s2 else s2)
        ((fun s1 : State X => if s1.p.tx_state = TxState.token then tx_token s1 else s1) s1)))
        := by
      simp only [usb_tx_process, if_neg h1]
    rw [e]
    beta_reduce
    have h2 := b2 s1
    generalize (if s1.p.tx_state = TxState.token then tx_token s1 else s1) = s2 at h2 ⊢
    have h3 := b3 s2
    generalize (if s2.p.tx_state = TxState.data then tx_data s2 else s2) = s3 at h3 ⊢
    have h4 := b4 s3
    generalize (if s3.p.tx_state = TxState.dma then tx_dma s3 else s3) = s4 at h4 ⊢
    have h5 := b5 s4
    exact ⟨h5.1.trans (h4.1.trans (h3.1.trans h2.1)), h5.2.trans (h4.2.trans (h3.2.trans h2.2))⟩
  obtain ⟨p1, p2⟩ := hpend s hne
  refine ⟨p1, p2, ?_, ?_⟩
  · rw [hf]
  · rw [hf]

/-! ## A whole frame over any schedule -/

theorem tx_frame_calls_cons (env : Env X) (room : Nat) (ready : Bool)
    (schedule : List (Nat × Bool)) (s : State X) :
    tx_frame_calls env ((room, ready) :: schedule) s =
      if (usb_tx_process env (s.offer room ready)).p.tx_state = TxState.idle then
        usb_tx_process env (s.offer room ready)
      else tx_frame_calls env schedule (usb_tx_process env (s.offer room ready)) := rfl

theorem txStep_offer (s : State X) (room : Nat) (ready : Bool) (hwf : TxWf s.p) :
    TxStep s (s.offer room ready) :=
  ⟨hwf, [], by simp [State.offer], rfl⟩

/-- What a run of calls within a frame does: the actions appended are the next
ones of those owed, and the pending flags and queued descriptors are as
before. -/
theorem tx_frame_calls_step (env : Env X) : ∀ (schedule : List (Nat × Bool)) (s : State X),
    TxWf s.p → s.p.tx_state ≠ TxState.idle →
    TxStep s (tx_frame_calls env schedule s) ∧
    (tx_frame_calls env schedule s).p.response_pending = s.p.response_pending ∧
    (tx_frame_calls env schedule s).p.packet_pending = s.p.packet_pending ∧
    (tx_frame_calls env schedule s).p.response_info = s.p.response_info ∧
    (tx_frame_calls env schedule s).p.packet_info = s.p.packet_info := by
  intro schedule
  induction schedule with
  | nil => intro s hwf _; exact ⟨txStep_refl s hwf, rfl, rfl, rfl, rfl⟩
  | cons e schedule ih =>
    intro s hwf hne
    obtain ⟨room, ready⟩ := e
    rw [tx_frame_calls_cons]
    have h1 := usb_tx_process_step env (s.offer room ready) hwf hne
    have hp := usb_tx_process_pending env (s.offer room ready) hne
    have h01 := txStep_trans (txStep_offer s room ready hwf) h1
    by_cases hi : (usb_tx_process env (s.offer room ready)).p.tx_state = TxState.idle
    · rw [if_pos hi]
      exact ⟨h01, hp⟩
    · rw [if_neg hi]
      obtain ⟨h2, q1, q2, q3, q4⟩ := ih _ h1.1 hi
      exact ⟨txStep_trans h01 h2, q1.trans hp.1, q2.trans hp.2.1, q3.trans hp.2.2.1,
        q4.trans hp.2.2.2⟩

theorem commit_events_ne_nil (info : TxInfo) : commit_events info ≠ [] := by
  simp [commit_events]

theorem tx_remaining_ne_nil (p : Process) (h : p.tx_state ≠ TxState.idle) :
    tx_remaining p ≠ [] := by
  unfold tx_remaining
  cases hs : p.tx_state with
  | idle => exact absurd hs h
  | flush => simp [commit_events]
  | token => simp [commit_events]
  | data => simp [commit_events]
  | dma => simp [commit_events]

theorem tx_remaining_idle (p : Process) (h : p.tx_state = TxState.idle) :
    tx_remaining p = [] := by
  simp [tx_remaining, h]

theorem usb_tx_process_confirm (env : Env X) (s : State X) (hst : s.p.tx_state = TxState.dma)
    (hrun : s.p.tx_dma_running = true) (hready : s.w.dma_busy = false) :
    (usb_tx_process env s).p.tx_state = TxState.idle := by
  have e : usb_tx_process env s = tx_flush env { s with p := { s.p with tx_state := TxState.flush } }
      := by
    by_cases h1 : s.p.tx_info.dma_length > 0 <;>
      simp [usb_tx_process, hst, tx_dma, usb_dma_ready, hready, hrun, h1]
  rw [e]
  exact tx_flush_idle env _

/-- From a frame just picked up, a call that finds room for the whole frame
and the engine ready, followed by another call that finds the engine ready,
ends the frame. -/
theorem tx_frame_calls_complete (env : Env X) (s : State X) (room room2 : Nat)
    (hwf : TxWf s.p) (hne : s.p.tx_state ≠ TxState.idle)
    (hroom : owed_bytes s.p ≤ room) :
    (tx_frame_calls env [(room, true), (room2, true)] s).p.tx_state = TxState.idle := by
  rw [tx_frame_calls_cons]
  by_cases hi : (usb_tx_process env (s.offer room true)).p.tx_state = TxState.idle
  · rw [if_pos hi]
    exact hi
  · rw [if_neg hi, tx_frame_calls_cons]
    obtain ⟨hstall, hnf, hdma⟩ := usb_tx_process_progress env (s.offer room true) hwf hne
    have hst : (usb_tx_process env (s.offer room true)).p.tx_state = TxState.dma := by
      cases hs : (usb_tx_process env (s.offer room true)).p.tx_state with
      | idle => exact absurd hs hi
      | flush => exact absurd hs hnf
      | dma => rfl
      | token =>
        obtain ⟨-, hc, hpos⟩ := hstall (Or.inl hs)
        have e1 : owed_bytes (s.offer room true).p = owed_bytes s.p := rfl
        have e2 : (s.offer room true).w.tx_space = room := rfl
        omega
      | data =>
        obtain ⟨-, hc, hpos⟩ := hstall (Or.inr hs)
        have e1 : owed_bytes (s.offer room true).p = owed_bytes s.p := rfl
        have e2 : (s.offer room true).w.tx_space = room := rfl
        omega
    have hrun : (usb_tx_process env (s.offer room true)).p.tx_dma_running = true := by
      rcases hdma hst with hb | hr
      · simp [State.offer] at hb
      · exact hr
    have hfin := usb_tx_process_confirm env
      ((usb_tx_process env (s.offer room true)).offer room2 true) hst hrun rfl
    rw [if_pos hfin]
    exact hfin

theorem offer_tx_idle (s : State X) (room : Nat) (ready : Bool) :
    (tx_idle (s.offer room ready)).offer room ready = tx_idle (s.offer room ready) := by
  unfold tx_idle
  split_ifs <;> rfl

theorem tx_idle_pickup (s : State X) (hc : s.p.usb_tx_word_counter = 0)
    (hpend : s.p.response_pending = true ∨ s.p.packet_pending = true)
    (hl : (frame_info s.p).data_length % 4 = 0 ∧ (frame_info s.p).data_length ≤ 16) :
    (tx_idle s).p.tx_state = TxState.token ∧ TxWf (tx_idle s).p ∧ (tx_idle s).w = s.w ∧
    tx_remaining (tx_idle s).p = frame_events (frame_token s.p) (frame_info s.p) ∧
    owed_bytes (tx_idle s).p = 8 + (frame_info s.p).data_length ∧
    (tx_idle s).p.response_pending = false ∧
    (tx_idle s).p.packet_pending = (s.p.response_pending && s.p.packet_pending) ∧
    (tx_idle s).p.packet_info = s.p.packet_info := by
  cases hr : s.p.response_pending with
  | true =>
    simp only [frame_info, frame_token, hr, if_true] at hl ⊢
    obtain ⟨a, b, c, d⟩ := tx_idle_response s hc hr hl
    refine ⟨a, b, c, d, ?_, ?_, ?_, ?_⟩
    · simp only [tx_idle, hr, if_true, owed_bytes]
      omega
    · simp [tx_idle, hr]
    · simp [tx_idle, hr]
    · simp [tx_idle, hr]
  | false =>
    have hp : s.p.packet_pending = true := by
      rcases hpend with h | h
      · rw [hr] at h; cases h
      · exact h
    simp only [frame_info, frame_token, hr, Bool.false_eq_true, if_false] at hl ⊢
    obtain ⟨a, b, c, d⟩ := tx_idle_packet s hc hr hp hl
    refine ⟨a, b, c, d, ?_, ?_, ?_, ?_⟩
    · simp only [tx_idle, hr, hp, Bool.false_eq_true, if_false, if_true, owed_bytes]
      omega
    · simp [tx_idle, hr, hp]
    · simp [tx_idle, hr, hp]
    · simp [tx_idle, hr, hp]

/-- C16: the transmit machine Idle with the word cursor 0 and a response or a
notification pending whose inline length is a multiple of 4 and at most 16.
The frame is that of the response if one is pending, else of the notification;
its token is `ERR_TOKEN`, `CMP_TOKEN` or `PKT_TOKEN` accordingly.  For every
schedule of rooms of the outbound FIFO and of readiness of the DMA engine, one
`usb_tx_process` call per entry until a call ends Idle: the actions appended to
the trace are a prefix of the frame (bytes of `token | cmd`, of
`(data_length + dma_length) mod 2^32` and of the inline words in order, then
the one out-of-memory DMA start if `dma_length > 0`, then the one output
commit and the callback), the whole frame when the run has ended Idle and a
proper prefix otherwise.  The response flag is clear afterwards; when a
response was picked, a pending notification stays pending.  A call finding
room for the frame and the engine ready, followed by a call finding the engine
ready, ends the frame. -/
theorem c16_transmit_frame (env : Env X) (s : State X) (room : Nat) (ready : Bool)
    (schedule : List (Nat × Bool))
    (hi : s.p.tx_state = TxState.idle) (hc : s.p.usb_tx_word_counter = 0)
    (hpend : s.p.response_pending = true ∨ s.p.packet_pending = true)
    (hl : (frame_info s.p).data_length % 4 = 0 ∧ (frame_info s.p).data_length ≤ 16) :
    ((tx_frame_calls env ((room, ready) :: schedule) s).p.tx_state = TxState.idle →
      (tx_frame_calls env ((room, ready) :: schedule) s).w.trace =
        s.w.trace ++ frame_events (frame_token s.p) (frame_info s.p)) ∧
    ((tx_frame_calls env ((room, ready) :: schedule) s).p.tx_state ≠ TxState.idle →
      ∃ evs rest, (tx_frame_calls env ((room, ready) :: schedule) s).w.trace =
          s.w.trace ++ evs ∧
        evs ++ rest = frame_events (frame_token s.p) (frame_info s.p) ∧ rest ≠ []) ∧
    (tx_frame_calls env ((room, ready) :: schedule) s).p.response_pending = false ∧
    (s.p.response_pending = true →
      (tx_frame_calls env ((room, ready) :: schedule) s).p.packet_pending =
        s.p.packet_pending ∧
      (tx_frame_calls env ((room, ready) :: schedule) s).p.packet_info = s.p.packet_info) ∧
    (s.p.response_pending = false →
      (tx_frame_calls env ((room, ready) :: schedule) s).p.packet_pending = false) ∧
    (∀ room2, 8 + (frame_info s.p).data_length ≤ room →
      (tx_frame_calls env [(room, true), (room2, true)] s).p.tx_state = TxState.idle) := by
  have pick : ∀ rdy : Bool,
      (tx_idle (s.offer room rdy)).p.tx_state = TxState.token ∧
      TxWf (tx_idle (s.offer room rdy)).p ∧
      (tx_idle (s.offer room rdy)).w.trace = s.w.trace ∧
      tx_remaining (tx_idle (s.offer room rdy)).p =
        frame_events (frame_token s.p) (frame_info s.p) ∧
      owed_bytes (tx_idle (s.offer room rdy)).p = 8 + (frame_info s.p).data_length ∧
      (tx_idle (s.offer room rdy)).p.response_pending = false ∧
      (tx_idle (s.offer room rdy)).p.packet_pending =
        (s.p.response_pending && s.p.packet_pending) ∧
      (tx_idle (s.offer room rdy)).p.packet_info = s.p.packet_info := by
    intro rdy
    obtain ⟨a, b, c, d, e, f, g, h⟩ := tx_idle_pickup (s.offer room rdy) hc hpend hl
    exact ⟨a, b, by rw [c]; rfl, d, e, f, g, h⟩
  have run : ∀ (rdy : Bool) (sched : List (Nat × Bool)),
      tx_frame_calls env ((room, rdy) :: sched) s =
        tx_frame_calls env ((room, rdy) :: sched) (tx_idle (s.offer room rdy)) := by
    intro rdy sched
    rw [tx_frame_calls_cons, tx_frame_calls_cons, offer_tx_idle,
      usb_tx_process_pickup env (s.offer room rdy) hi (by rw [(pick rdy).1]; decide)]
  obtain ⟨p1, p2, p3, p4, p5, p6, p7, p8⟩ := pick ready
  have hne : (tx_idle (s.offer room ready)).p.tx_state ≠ TxState.idle := by rw [p1]; decide
  obtain ⟨⟨-, evs, ht, hr⟩, q1, q2, -, q4⟩ :=
    tx_frame_calls_step env ((room, ready) :: schedule) _ p2 hne
  rw [← run ready schedule] at ht hr q1 q2 q4
  rw [p3] at ht
  rw [p4] at hr
  refine ⟨fun hidle => ?_, fun hnidle => ?_, q1.trans p6, fun hrp => ?_, fun hrp => ?_,
    fun room2 hroom => ?_⟩
  · rw [tx_remaining_idle _ hidle, List.append_nil] at hr
    rw [ht, hr]
  · exact ⟨evs, _, ht, hr, tx_remaining_ne_nil _ hnidle⟩
  · refine ⟨?_, q4.trans p8⟩
    rw [q2, p7, hrp, Bool.true_and]
  · rw [q2, p7, hrp, Bool.false_and]
  · rw [run true [(room2, true)]]
    obtain ⟨t1, t2, -, -, t5, -⟩ := pick true
    exact tx_frame_calls_complete env _ room room2 t2 (by rw [t1]; decide) (by omega)

/-- Witness for C16: the notification `TxInfo.sample` (one inline word, a
callback, no DMA part), transmitted over calls that find room for 3, 0 and 64
bytes: header `PKT_TOKEN | 'B'`, length 4, the word `0xCAFE`, the output
commit, the callback. -/
theorem c16_transmit_frame_witness :
    (tx_frame_calls Env.sample [(3, true), (0, false), (64, true)] State.notification).w.trace =
      [Ev.usb_push 0x50, Ev.usb_push 0x4B, Ev.usb_push 0x54, Ev.usb_push 0x42,
       Ev.usb_push 0, Ev.usb_push 0, Ev.usb_push 0, Ev.usb_push 4,
       Ev.usb_push 0, Ev.usb_push 0, Ev.usb_push 0xCA, Ev.usb_push 0xFE,
       Ev.reg_set_usb_scr UsbScr.WRITE_FLUSH, Ev.done_callback (Callback.other 1)] :=
  ((c16_transmit_frame Env.sample State.notification 3 true [(0, false), (64, true)]
    rfl rfl (Or.inr rfl) (by decide)).1 (by decide)).trans (by decide)

/-! ## Frame of the receive machine: the opcodes -/

theorem rxFrame_refl (s : State X) : RxFrame s s :=
  ⟨rfl, rfl, rfl, rfl, rfl, rfl, rfl, rfl, rfl, rfl, [], by simp, by simp, dmaUse_refl _ _⟩

theorem rxFrame_trans {s s1 s2 : State X} (h1 : RxFrame s s1) (h2 : RxFrame s1 s2) :
    RxFrame s s2 := by
  obtain ⟨a1, a2, a3, a4, a5, a6, a7, a8, a9, a10, e1, t1, q1, d1⟩ := h1
  obtain ⟨b1, b2, b3, b4, b5, b6, b7, b8, b9, b10, e2, t2, q2, d2⟩ := h2
  refine ⟨b1.trans a1, b2.trans a2, b3.trans a3, b4.trans a4, b5.trans a5, b6.trans a6,
    b7.trans a7, b8.trans a8, b9.trans a9, b10.trans a10, e1 ++ e2,
    by rw [t2, t1, List.append_assoc], ?_, dmaUse_trans d1 d2⟩
  intro e he
  rcases List.mem_append.mp he with h | h
  · exact q1 e h
  · exact q2 e h

theorem start_writes_quiet (evs : List Ev) (h : ∀ e ∈ evs, e.rx_quiet = true) :
    start_writes evs = [] := by
  induction evs with
  | nil => rfl
  | cons e es ih =>
    have he := h e (List.mem_cons_self _ _)
    have ht := ih (fun x hx => h x (List.mem_cons_of_mem _ hx))
    cases e <;> simp_all [start_writes, Ev.rx_quiet]

theorem rxFrame_of_quiet (s s1 : State X) (evs : List Ev)
    (h1 : s1.p.tx_state = s.p.tx_state) (h2 : s1.p.tx_counter = s.p.tx_counter)
    (h3 : s1.p.tx_info = s.p.tx_info) (h4 : s1.p.tx_token = s.p.tx_token)
    (h5 : s1.p.tx_dma_running = s.p.tx_dma_running)
    (h6 : s1.p.usb_tx_word_counter = s.p.usb_tx_word_counter)
    (h7 : s1.w.tx_space = s.w.tx_space) (h8 : s1.w.scr_pwrsav = s.w.scr_pwrsav)
    (h9 : s1.w.scr_reset_state = s.w.scr_reset_state)
    (h10 : s1.w.scr_reset_pending = s.w.scr_reset_pending)
    (hb : s1.w.dma_busy = s.w.dma_busy)
    (ht : s1.w.trace = s.w.trace ++ evs) (hq : ∀ e ∈ evs, e.rx_quiet = true) :
    RxFrame s s1 := by
  refine ⟨h1, h2, h3, h4, h5, h6, h7, h8, h9, h10, evs, ht, fun e he => ?_,
    Or.inl ⟨hb, start_writes_quiet evs hq⟩⟩
  have := hq e he
  cases e <;> simp_all [Ev.rx_quiet, Ev.tx_side]

theorem rx_data_v_frame (env : Env X) (s : State X) : RxFrame s (rx_data_v env s) :=
  rxFrame_of_quiet s _ [Ev.call Collab.cfg_get_identifier []] rfl rfl rfl rfl rfl rfl rfl rfl
    rfl rfl rfl rfl (by decide)

theorem rx_data_V_frame (env : Env X) (s : State X) : RxFrame s (rx_data_V env s) :=
  rxFrame_of_quiet s _ [Ev.call Collab.version_firmware []] rfl rfl rfl rfl rfl rfl rfl rfl
    rfl rfl rfl rfl (by decide)

theorem rx_data_R_frame (env : Env X) (s : State X) : RxFrame s (rx_data_R env s) :=
  rxFrame_of_quiet s _ [Ev.call Collab.cfg_reset_state [], Ev.call Collab.cic_reset_parameters []]
    rfl rfl rfl rfl rfl rfl rfl rfl rfl rfl rfl
    (by simp [rx_data_R, State.call, State.emit, State.setExt, State.respond]) (by decide)

theorem rxFrame_of_quiet_ex (s s1 : State X)
    (h1 : s1.p.tx_state = s.p.tx_state) (h2 : s1.p.tx_counter = s.p.tx_counter)
    (h3 : s1.p.tx_info = s.p.tx_info) (h4 : s1.p.tx_token = s.p.tx_token)
    (h5 : s1.p.tx_dma_running = s.p.tx_dma_running)
    (h6 : s1.p.usb_tx_word_counter = s.p.usb_tx_word_counter)
    (h7 : s1.w.tx_space = s.w.tx_space) (h8 : s1.w.scr_pwrsav = s.w.scr_pwrsav)
    (h9 : s1.w.scr_reset_state = s.w.scr_reset_state)
    (h10 : s1.w.scr_reset_pending = s.w.scr_reset_pending)
    (hb : s1.w.dma_busy = s.w.dma_busy)
    (ht : ∃ evs, s1.w.trace = s.w.trace ++ evs ∧ ∀ e ∈ evs, e.rx_quiet = true) :
    RxFrame s s1 := by
  obtain ⟨evs, ht, hq⟩ := ht
  exact rxFrame_of_quiet s s1 evs h1 h2 h3 h4 h5 h6 h7 h8 h9 h10 hb ht hq

theorem rx_data_B_frame (env : Env X) (s : State X) : RxFrame s (rx_data_B env s) := by
  refine rxFrame_of_quiet_ex s _ rfl rfl rfl rfl rfl rfl rfl rfl rfl rfl rfl ?_
  simp [rx_data_B, State.call, State.emit, State.respond, State.setInfo, State.setExt,
    State.setArgs, Ev.rx_quiet]

theorem rx_data_c_frame (env : Env X) (s : State X) : RxFrame s (rx_data_c env s) := by
  refine rxFrame_of_quiet_ex s _ rfl rfl rfl rfl rfl rfl rfl rfl rfl rfl rfl ?_
  simp [rx_data_c, State.call, State.emit, State.respond, State.setInfo, State.setExt,
    State.setArgs, Ev.rx_quiet]

theorem rx_data_C_frame (env : Env X) (s : State X) : RxFrame s (rx_data_C env s) := by
  refine rxFrame_of_quiet_ex s _ rfl rfl rfl rfl rfl rfl rfl rfl rfl rfl rfl ?_
  simp [rx_data_C, State.call, State.emit, State.respond, State.setInfo, State.setExt,
    State.setArgs, Ev.rx_quiet]

theorem rx_data_a_frame (env : Env X) (s : State X) : RxFrame s (rx_data_a env s) := by
  refine rxFrame_of_quiet_ex s _ rfl rfl rfl rfl rfl rfl rfl rfl rfl rfl rfl ?_
  simp [rx_data_a, State.call, State.emit, State.respond, State.setInfo, State.setExt,
    State.setArgs, Ev.rx_quiet]

theorem rx_data_A_frame (env : Env X) (s : State X) : RxFrame s (rx_data_A env s) := by
  refine rxFrame_of_quiet_ex s _ rfl rfl rfl rfl rfl rfl rfl rfl rfl rfl rfl ?_
  simp [rx_data_A, State.call, State.emit, State.respond, State.setInfo, State.setExt,
    State.setArgs, Ev.rx_quiet]

theorem rx_data_t_frame (env : Env X) (s : State X) : RxFrame s (rx_data_t env s) := by
  refine rxFrame_of_quiet_ex s _ rfl rfl rfl rfl rfl rfl rfl rfl rfl rfl rfl ?_
  simp [rx_data_t, State.call, State.emit, State.respond, State.setInfo, State.setExt,
    State.setArgs, Ev.rx_quiet]

theorem rx_data_T_frame (env : Env X) (s : State X) : RxFrame s (rx_data_T env s) := by
  refine rxFrame_of_quiet_ex s _ rfl rfl rfl rfl rfl rfl rfl rfl rfl rfl rfl ?_
  simp [rx_data_T, State.call, State.emit, State.respond, State.setInfo, State.setExt,
    State.setArgs, Ev.rx_quiet]

theorem rx_data_D_frame (env : Env X) (s : State X) : RxFrame s (rx_data_D env s) := by
  refine rxFrame_of_quiet_ex s _ rfl rfl rfl rfl rfl rfl rfl rfl rfl rfl rfl ?_
  simp [rx_data_D, State.call, State.emit, State.respond, State.setInfo, State.setExt,
    State.setArgs, Ev.rx_quiet]

theorem rx_data_W_frame (env : Env X) (s : State X) : RxFrame s (rx_data_W env s) := by
  refine rxFrame_of_quiet_ex s _ rfl rfl rfl rfl rfl rfl rfl rfl rfl rfl rfl ?_
  simp [rx_data_W, State.call, State.emit, State.respond, State.setInfo, State.setExt,
    State.setArgs, Ev.rx_quiet]

theorem rx_data_f_frame (env : Env X) (s : State X) : RxFrame s (rx_data_f env s) := by
  refine rxFrame_of_quiet_ex s _ rfl rfl rfl rfl rfl rfl rfl rfl rfl rfl rfl ?_
  simp [rx_data_f, State.call, State.emit, State.respond, State.setInfo, State.setExt,
    State.setArgs, Ev.rx_quiet]

theorem rx_data_debug_frame (s : State X) : RxFrame s (rx_data_debug s) := by
  refine rxFrame_of_quiet_ex s _ rfl rfl rfl rfl rfl rfl rfl rfl rfl rfl rfl ?_
  simp [rx_data_debug, State.call, State.emit, State.respond, State.setInfo, State.setExt,
    State.setArgs, Ev.rx_quiet]

theorem rx_data_stack_frame (env : Env X) (s : State X) : RxFrame s (rx_data_stack env s) := by
  refine rxFrame_of_quiet_ex s _ rfl rfl rfl rfl rfl rfl rfl rfl rfl rfl rfl ?_
  simp [rx_data_stack, State.call, State.emit, State.respond, State.setInfo, State.setExt,
    State.setArgs, Ev.rx_quiet]

theorem rx_data_default_frame (s : State X) : RxFrame s (rx_data_default s) := by
  refine rxFrame_of_quiet_ex s _ rfl rfl rfl rfl rfl rfl rfl rfl rfl rfl rfl ?_
  simp [rx_data_default, State.call, State.emit, State.respond, State.setInfo, State.setExt,
    State.setArgs, Ev.rx_quiet]

theorem rx_data_m_frame (s : State X) : RxFrame s (rx_data_m s) := by
  unfold rx_data_m
  simp only []
  split_ifs <;>
  · refine rxFrame_of_quiet_ex s _ rfl rfl rfl rfl rfl rfl rfl rfl rfl rfl rfl ?_
    simp [State.call, State.emit, State.respond, State.setInfo, State.setExt,
      State.setArgs, Ev.rx_quiet]

theorem rx_data_p_frame (env : Env X) (s : State X) : RxFrame s (rx_data_p env s) := by
  unfold rx_data_p
  simp only []
  split_ifs <;>
  · refine rxFrame_of_quiet_ex s _ rfl rfl rfl rfl rfl rfl rfl rfl rfl rfl rfl ?_
    simp [State.call, State.emit, State.respond, State.setInfo, State.setExt,
      State.setArgs, Ev.rx_quiet]

theorem rx_data_P_frame (env : Env X) (s : State X) : RxFrame s (rx_data_P env s) := by
  unfold rx_data_P
  simp only []
  split_ifs <;>
  · refine rxFrame_of_quiet_ex s _ rfl rfl rfl rfl rfl rfl rfl rfl rfl rfl rfl ?_
    simp [State.call, State.emit, State.respond, State.setInfo, State.setExt,
      State.setArgs, Ev.rx_quiet]

theorem rx_data_F_frame (env : Env X) (s : State X) : RxFrame s (rx_data_F env s) := by
  unfold rx_data_F
  simp only []
  split_ifs <;>
  · refine rxFrame_of_quiet_ex s _ rfl rfl rfl rfl rfl rfl rfl rfl rfl rfl rfl ?_
    simp [State.call, State.emit, State.respond, State.setInfo, State.setExt,
      State.setArgs, Ev.rx_quiet]

theorem rxFrame_of_start (s s1 : State X) (a l : Nat)
    (h1 : s1.p.tx_state = s.p.tx_state) (h2 : s1.p.tx_counter = s.p.tx_counter)
    (h3 : s1.p.tx_info = s.p.tx_info) (h4 : s1.p.tx_token = s.p.tx_token)
    (h5 : s1.p.tx_dma_running = s.p.tx_dma_running)
    (h6 : s1.p.usb_tx_word_counter = s.p.usb_tx_word_counter)
    (h7 : s1.w.tx_space = s.w.tx_space) (h8 : s1.w.scr_pwrsav = s.w.scr_pwrsav)
    (h9 : s1.w.scr_reset_state = s.w.scr_reset_state)
    (h10 : s1.w.scr_reset_pending = s.w.scr_reset_pending)
    (hb0 : s.w.dma_busy = false) (hb1 : s1.w.dma_busy = true)
    (ht : s1.w.trace = s.w.trace ++ [Ev.reg_set_dma_address a, Ev.reg_set_dma_length l,
      Ev.reg_set_dma_scr DmaScr.DIRECTION_START]) :
    RxFrame s s1 :=
  ⟨h1, h2, h3, h4, h5, h6, h7, h8, h9, h10, _, ht, by simp [Ev.tx_side],
    Or.inr ⟨hb0, hb1, rfl⟩⟩

/-- Opcode `'M'`: what it leaves alone; it starts a transfer only to stay in
the Data state with `rx_dma_running` set; while the engine is busy it changes
nothing. -/
theorem rx_data_M_frame (s : State X) :
    RxFrame s (rx_data_M s) ∧
    (s.w.dma_busy = false → (rx_data_M s).w.dma_busy = true →
      (rx_data_M s).p.rx_state = s.p.rx_state ∧ (rx_data_M s).p.rx_dma_running = true) ∧
    (s.w.dma_busy = true → rx_data_M s = s) := by
  unfold rx_data_M usb_dma_ready
  by_cases h1 : (!s.w.dma_busy) = true
  · have hb : s.w.dma_busy = false := by simpa using h1
    rw [if_pos h1]
    by_cases h2 : (!s.p.rx_dma_running) = true
    · rw [if_pos h2]
      by_cases h3 : usb_validate_address_length s.p.rx_args0 s.p.rx_args1 true = true
      · rw [if_pos h3]
        refine ⟨rxFrame_of_quiet_ex s _ rfl rfl rfl rfl rfl rfl rfl rfl rfl rfl rfl
          ⟨[], by simp, by simp⟩, fun _ h => ?_, fun h => ?_⟩
        · simp only [hb] at h
          cases h
        · rw [hb] at h; cases h
      · rw [if_neg h3]
        refine ⟨rxFrame_of_start s _ s.p.rx_args0 s.p.rx_args1 ?_ ?_ ?_ ?_ ?_ ?_ ?_ ?_ ?_ ?_
          hb ?_ ?_, fun _ _ => ⟨?_, rfl⟩, fun h => ?_⟩
        all_goals (first | (rw [hb] at h; cases h) | simp [dma_start, State.emit])
    · rw [if_neg h2]
      refine ⟨rxFrame_of_quiet_ex s _ rfl rfl rfl rfl rfl rfl rfl rfl rfl rfl rfl
        ⟨[], by simp [State.respond], by simp⟩, fun _ h => ?_, fun h => ?_⟩
      · simp only [State.respond, hb] at h
        cases h
      · rw [hb] at h; cases h
  · rw [if_neg h1]
    have hb : s.w.dma_busy = true := by simpa using h1
    refine ⟨rxFrame_refl s, fun h => ?_, fun _ => rfl⟩
    rw [hb] at h; cases h

/-- Opcode `'U'`: what it leaves alone; it starts a transfer only to stay in
the Data state with `rx_dma_running` set; while the engine is busy and bytes
remain it changes nothing. -/
theorem rx_data_U_frame (s : State X) :
    RxFrame s (rx_data_U s) ∧
    (s.w.dma_busy = false → (rx_data_U s).w.dma_busy = true →
      (rx_data_U s).p.rx_state = s.p.rx_state ∧ (rx_data_U s).p.rx_dma_running = true) ∧
    (s.w.dma_busy = true → s.p.rx_args1 ≠ 0 → rx_data_U s = s) := by
  unfold rx_data_U usb_dma_ready
  by_cases h0 : s.p.rx_args1 = 0
  · rw [if_pos h0]
    refine ⟨rxFrame_of_quiet_ex s _ rfl rfl rfl rfl rfl rfl rfl rfl rfl rfl rfl
      ⟨[], by simp, by simp⟩, fun hb h => ?_, fun _ h => absurd h0 h⟩
    simp only [hb] at h
    cases h
  · rw [if_neg h0]
    by_cases h1 : (!s.w.dma_busy) = true
    · have hb : s.w.dma_busy = false := by simpa using h1
      rw [if_pos h1]
      by_cases h2 : s.p.read_length > 0
      · rw [if_pos h2]
        simp only []
        by_cases h3 : (!s.p.rx_dma_running) = true
        · rw [if_pos h3]
          refine ⟨rxFrame_of_start s _ s.p.read_address
            (if s.p.read_length > s.p.rx_args1 then s.p.rx_args1 else s.p.read_length)
            ?_ ?_ ?_ ?_ ?_ ?_ ?_ ?_ ?_ ?_ hb ?_ ?_, fun _ _ => ⟨?_, rfl⟩, fun h => ?_⟩
          all_goals (first | (rw [hb] at h; cases h) | simp [dma_start, State.emit])
        · rw [if_neg h3]
          refine ⟨rxFrame_of_quiet_ex s _ rfl rfl rfl rfl rfl rfl rfl rfl rfl rfl rfl
            ⟨[Ev.timer_set DEBUG_WRITE_TIMEOUT_TICKS], rfl, by simp [Ev.rx_quiet]⟩,
            fun _ h => ?_, fun h => ?_⟩
          · simp only [timer_set, State.emit, hb] at h
            cases h
          · rw [hb] at h; cases h
      · rw [if_neg h2]
        by_cases h4 : s.w.timer = 0
        · rw [if_pos h4]
          refine ⟨rxFrame_of_quiet_ex s _ rfl rfl rfl rfl rfl rfl rfl rfl rfl rfl rfl
            ⟨[], by simp, by simp⟩, fun _ h => ?_, fun h => ?_⟩
          · simp only [hb] at h
            cases h
          · rw [hb] at h; cases h
        · rw [if_neg h4]
          refine ⟨rxFrame_refl s, fun _ h => ?_, fun _ _ => rfl⟩
          rw [hb] at h; cases h
    · rw [if_neg h1]
      have hb : s.w.dma_busy = true := by simpa using h1
      refine ⟨rxFrame_refl s, fun h => ?_, fun _ _ => rfl⟩
      rw [hb] at h; cases h

/-! ## Frame of the receive machine: whole calls, and DMA arbitration -/

theorem rx_data_M_cmd (s : State X) : (rx_data_M s).p.rx_cmd = s.p.rx_cmd := by
  unfold rx_data_M
  split_ifs <;> simp [dma_start, State.emit, State.respond]

theorem rx_data_U_cmd (s : State X) :
    (rx_data_U s).p.rx_cmd = s.p.rx_cmd ∧
    (s.w.dma_busy = false → (rx_data_U s).w.dma_busy = true →
      (rx_data_U s).p.rx_args1 ≠ 0) := by
  unfold rx_data_U usb_dma_ready
  by_cases h0 : s.p.rx_args1 = 0
  · rw [if_pos h0]
    exact ⟨rfl, fun hb h => by simp only [hb] at h; cases h⟩
  · rw [if_neg h0]
    by_cases h1 : (!s.w.dma_busy) = true
    · rw [if_pos h1]
      by_cases h2 : s.p.read_length > 0
      · rw [if_pos h2]
        simp only []
        by_cases h3 : (!s.p.rx_dma_running) = true
        · rw [if_pos h3]
          exact ⟨by simp [dma_start, State.emit], fun _ _ => by simpa [dma_start, State.emit] using h0⟩
        · rw [if_neg h3]
          exact ⟨rfl, fun hb h => by simp only [timer_set, State.emit, hb] at h; cases h⟩
      · rw [if_neg h2]
        split_ifs
        · exact ⟨rfl, fun hb h => by simp only [hb] at h; cases h⟩
        · exact ⟨rfl, fun hb h => by rw [hb] at h; cases h⟩
    · rw [if_neg h1]
      exact ⟨rfl, fun hb h => by rw [hb] at h; cases h⟩

theorem rxBlock_of_quiet {s s1 : State X} (h : RxFrame s s1)
    (hb : s1.w.dma_busy = s.w.dma_busy) :
    RxFrame s s1 ∧ (s.w.dma_busy = false → s1.w.dma_busy = true →
      s1.p.rx_state = RxState.data ∧ s1.p.rx_dma_running = true ∧
      (s1.p.rx_cmd = 77 ∨ (s1.p.rx_cmd = 85 ∧ s1.p.rx_args1 ≠ 0))) := by
  refine ⟨h, fun h0 h1 => ?_⟩
  rw [hb, h0] at h1
  cases h1

theorem rxQuiet {s s1 : State X} (h : RxFrame s s1) (hb : s1.w.dma_busy = s.w.dma_busy) :
    RxFrame s s1 ∧ s1.w.dma_busy = s.w.dma_busy := ⟨h, hb⟩

theorem rx_data_block (env : Env X) (s : State X) (hd : s.p.rx_state = RxState.data) :
    RxFrame s (rx_data env s) ∧ (s.w.dma_busy = false → (rx_data env s).w.dma_busy = true →
      (rx_data env s).p.rx_state = RxState.data ∧ (rx_data env s).p.rx_dma_running = true ∧
      ((rx_data env s).p.rx_cmd = 77 ∨
        ((rx_data env s).p.rx_cmd = 85 ∧ (rx_data env s).p.rx_args1 ≠ 0))) := by
  unfold rx_data
  by_cases h1 : s.p.rx_cmd = 118
  · rw [if_pos h1]; exact rxBlock_of_quiet (rx_data_v_frame env s) rfl
  rw [if_neg h1]
  by_cases h2 : s.p.rx_cmd = 86
  · rw [if_pos h2]; exact rxBlock_of_quiet (rx_data_V_frame env s) rfl
  rw [if_neg h2]
  by_cases h3 : s.p.rx_cmd = 82
  · rw [if_pos h3]; exact rxBlock_of_quiet (rx_data_R_frame env s) rfl
  rw [if_neg h3]
  by_cases h4 : s.p.rx_cmd = 66
  · rw [if_pos h4]; exact rxBlock_of_quiet (rx_data_B_frame env s) rfl
  rw [if_neg h4]
  by_cases h5 : s.p.rx_cmd = 99
  · rw [if_pos h5]; exact rxBlock_of_quiet (rx_data_c_frame env s) rfl
  rw [if_neg h5]
  by_cases h6 : s.p.rx_cmd = 67
  · rw [if_pos h6]; exact rxBlock_of_quiet (rx_data_C_frame env s) rfl
  rw [if_neg h6]
  by_cases h7 : s.p.rx_cmd = 97
  · rw [if_pos h7]; exact rxBlock_of_quiet (rx_data_a_frame env s) rfl
  rw [if_neg h7]
  by_cases h8 : s.p.rx_cmd = 65
  · rw [if_pos h8]; exact rxBlock_of_quiet (rx_data_A_frame env s) rfl
  rw [if_neg h8]
  by_cases h9 : s.p.rx_cmd = 116
  · rw [if_pos h9]; exact rxBlock_of_quiet (rx_data_t_frame env s) rfl
  rw [if_neg h9]
  by_cases h10 : s.p.rx_cmd = 84
  · rw [if_pos h10]; exact rxBlock_of_quiet (rx_data_T_frame env s) rfl
  rw [if_neg h10]
  by_cases h11 : s.p.rx_cmd = 109
  · rw [if_pos h11]
    exact rxBlock_of_quiet (rx_data_m_frame s) (by unfold rx_data_m; simp only []; split_ifs <;> rfl)
  rw [if_neg h11]
  by_cases h12 : s.p.rx_cmd = 77
  · rw [if_pos h12]
    obtain ⟨f, st, -⟩ := rx_data_M_frame s
    exact ⟨f, fun a b => ⟨(st a b).1.trans hd, (st a b).2,
      Or.inl ((rx_data_M_cmd s).trans h12)⟩⟩
  rw [if_neg h12]
  by_cases h13 : s.p.rx_cmd = 85
  · rw [if_pos h13]
    obtain ⟨f, st, -⟩ := rx_data_U_frame s
    exact ⟨f, fun a b => ⟨(st a b).1.trans hd, (st a b).2,
      Or.inr ⟨(rx_data_U_cmd s).1.trans h13, (rx_data_U_cmd s).2 a b⟩⟩⟩
  rw [if_neg h13]
  by_cases h14 : s.p.rx_cmd = 68
  · rw [if_pos h14]; exact rxBlock_of_quiet (rx_data_D_frame env s) rfl
  rw [if_neg h14]
  by_cases h15 : s.p.rx_cmd = 87
  · rw [if_pos h15]; exact rxBlock_of_quiet (rx_data_W_frame env s) rfl
  rw [if_neg h15]
  by_cases h16 : s.p.rx_cmd = 112
  · rw [if_pos h16]
    exact rxBlock_of_quiet (rx_data_p_frame env s)
      (by unfold rx_data_p; simp only []; split_ifs <;> rfl)
  rw [if_neg h16]
  by_cases h17 : s.p.rx_cmd = 80
  · rw [if_pos h17]
    exact rxBlock_of_quiet (rx_data_P_frame env s)
      (by unfold rx_data_P; simp only []; split_ifs <;> rfl)
  rw [if_neg h17]
  by_cases h18 : s.p.rx_cmd = 102
  · rw [if_pos h18]; exact rxBlock_of_quiet (rx_data_f_frame env s) rfl
  rw [if_neg h18]
  by_cases h19 : s.p.rx_cmd = 70
  · rw [if_pos h19]
    exact rxBlock_of_quiet (rx_data_F_frame env s)
      (by unfold rx_data_F; simp only []; split_ifs <;> rfl)
  rw [if_neg h19]
  by_cases h20 : s.p.rx_cmd = 63
  · rw [if_pos h20]; exact rxBlock_of_quiet (rx_data_debug_frame s) rfl
  rw [if_neg h20]
  by_cases h21 : s.p.rx_cmd = 37
  · rw [if_pos h21]; exact rxBlock_of_quiet (rx_data_stack_frame env s) rfl
  rw [if_neg h21]
  exact rxBlock_of_quiet (rx_data_default_frame s) rfl

theorem rx_idle_block (s : State X) :
    RxFrame s (rx_idle s) ∧ (rx_idle s).w.dma_busy = s.w.dma_busy := by
  unfold rx_idle
  split_ifs with h1
  · exact rxQuiet (rxFrame_refl s) rfl
  · obtain ⟨c, rx, h⟩ := usb_rx_cmd_frame s
    rcases hw : usb_rx_cmd s with ⟨r, s1⟩
    rw [hw] at h
    simp only [] at h
    subst h
    cases r with
    | none =>
      exact rxQuiet (rxFrame_of_quiet_ex s _ rfl rfl rfl rfl rfl rfl rfl rfl rfl rfl
        rfl ⟨[], by simp, by simp⟩) rfl
    | some cmd =>
      simp only []
      split_ifs with h2
      · exact rxQuiet (rxFrame_of_quiet_ex s _ rfl rfl rfl rfl rfl rfl rfl rfl rfl rfl
          rfl ⟨[Ev.timer_set DEBUG_WRITE_TIMEOUT_TICKS], rfl, by simp [Ev.rx_quiet]⟩) rfl
      · exact rxQuiet (rxFrame_of_quiet_ex s _ rfl rfl rfl rfl rfl rfl rfl rfl rfl rfl
          rfl ⟨[], by simp, by simp⟩) rfl

theorem rx_args_block (s : State X) :
    RxFrame s (rx_args s) ∧ (rx_args s).w.dma_busy = s.w.dma_busy := by
  obtain ⟨st, cnt, a0, a1, c, b, rx, h, -⟩ := rx_args_loop_frame s.w.rx.length s
  unfold rx_args
  rw [h]
  exact rxQuiet (rxFrame_of_quiet_ex s _ rfl rfl rfl rfl rfl rfl rfl rfl rfl rfl
    rfl ⟨[], by simp, by simp⟩) rfl

theorem rxFlushQuiet {s s1 : State X} (h : RxFrame s s1)
    (hb : s1.w.dma_busy = s.w.dma_busy) :
    RxFrame s s1 ∧ (s.w.dma_busy = false → s1.w.dma_busy = true →
      s1.p.rx_state = RxState.flush) := by
  refine ⟨h, fun h0 h1 => ?_⟩
  rw [hb, h0] at h1
  cases h1

theorem rx_flush_block (env : Env X) (s : State X) (hf : s.p.rx_state = RxState.flush) :
    (RxFrame s (rx_flush env s) ∧ (s.w.dma_busy = false → (rx_flush env s).w.dma_busy = true →
      (rx_flush env s).p.rx_state = RxState.flush)) ∧
    (s.w.dma_busy = true → rx_flush env s = s) := by
  unfold rx_flush usb_dma_ready
  by_cases h1 : (!s.w.dma_busy) = true
  · have hb : s.w.dma_busy = false := by simpa using h1
    rw [if_pos h1]
    refine ⟨?_, fun h => by rw [hb] at h; cases h⟩
    by_cases h2 : s.p.rx_args1 ≠ 0
    · rw [if_pos h2]
      simp only []
      refine ⟨rxFrame_of_start s _ RX_FLUSH_ADDRESS
        (if s.p.rx_args1 > RX_FLUSH_LENGTH then RX_FLUSH_LENGTH else s.p.rx_args1)
        ?_ ?_ ?_ ?_ ?_ ?_ ?_ ?_ ?_ ?_ hb ?_ ?_, fun _ _ => ?_⟩
      all_goals (simp [dma_start, State.emit, hf])
    · rw [if_neg h2]
      by_cases h3 : s.p.flush_response = true
      · rw [if_pos h3]
        exact rxFlushQuiet (rxFrame_of_quiet_ex s _ rfl rfl rfl rfl rfl rfl rfl rfl rfl rfl
          rfl ⟨[], by simp, by simp⟩) rfl
      · rw [if_neg h3]
        by_cases h4 : s.p.flush_packet = true
        · rw [if_pos h4]
          simp only []
          by_cases h5 : (usb_enqueue_packet (usb_create_packet env.PACKET_CMD_DATA_FLUSHED) s.p).1
              = true
          · rw [if_pos h5]
            refine rxFlushQuiet (rxFrame_of_quiet_ex s _ ?_ ?_ ?_ ?_ ?_ ?_ rfl rfl rfl rfl
              rfl ⟨[], by simp, by simp⟩) rfl
            all_goals (unfold usb_enqueue_packet; split_ifs <;> rfl)
          · rw [if_neg h5]
            refine rxFlushQuiet (rxFrame_of_quiet_ex s _ ?_ ?_ ?_ ?_ ?_ ?_ rfl rfl rfl rfl
              rfl ⟨[], by simp, by simp⟩) rfl
            all_goals (unfold usb_enqueue_packet; split_ifs <;> rfl)
        · rw [if_neg h4]
          exact rxFlushQuiet (rxFrame_of_quiet_ex s _ rfl rfl rfl rfl rfl rfl rfl rfl rfl rfl
            rfl ⟨[], by simp, by simp⟩) rfl
  · rw [if_neg h1]
    exact ⟨rxFlushQuiet (rxFrame_refl s) rfl, fun _ => rfl⟩

/-- What a call of the receive machine leaves alone, and how it uses the DMA
engine: if it has started a transfer it ends waiting for the engine. -/
theorem usb_rx_process_block (env : Env X) (s : State X) :
    RxBlock s (usb_rx_process env s) := by
  have b1 : ∀ t : State X,
      RxFrame t (if t.p.rx_state = RxState.idle then rx_idle t else t) ∧
      (if t.p.rx_state = RxState.idle then rx_idle t else t).w.dma_busy = t.w.dma_busy := by
    intro t
    split_ifs
    · exact rx_idle_block t
    · exact ⟨rxFrame_refl t, rfl⟩
  have b2 : ∀ t : State X,
      RxFrame t (if t.p.rx_state = RxState.args then rx_args t else t) ∧
      (if t.p.rx_state = RxState.args then rx_args t else t).w.dma_busy = t.w.dma_busy := by
    intro t
    split_ifs
    · exact rx_args_block t
    · exact ⟨rxFrame_refl t, rfl⟩
  have b3 : ∀ t : State X,
      RxFrame t (if t.p.rx_state = RxState.data then rx_data env t else t) ∧
      (t.w.dma_busy = false →
        (if t.p.rx_state = RxState.data then rx_data env t else t).w.dma_busy = true →
        (if t.p.rx_state = RxState.data then rx_data env t else t).p.rx_state = RxState.data ∧
        (if t.p.rx_state = RxState.data then rx_data env t else t).p.rx_dma_running = true ∧
        ((if t.p.rx_state = RxState.data then rx_data env t else t).p.rx_cmd = 77 ∨
          ((if t.p.rx_state = RxState.data then rx_data env t else t).p.rx_cmd = 85 ∧
           (if t.p.rx_state = RxState.data then rx_data env t else t).p.rx_args1 ≠ 0)))
      := by
    intro t
    split_ifs with h
    · exact rx_data_block env t h
    · exact rxBlock_of_quiet (rxFrame_refl t) rfl
  have b4 : ∀ t : State X,
      RxFrame t (if t.p.rx_state = RxState.flush then rx_flush env t else t) ∧
      (t.w.dma_busy = false →
        (if t.p.rx_state = RxState.flush then rx_flush env t else t).w.dma_busy = true →
        (if t.p.rx_state = RxState.flush then rx_flush env t else t).p.rx_state =
          RxState.flush) ∧
      (t.p.rx_state ≠ RxState.flush →
        (if t.p.rx_state = RxState.flush then rx_flush env t else t) = t) := by
    intro t
    split_ifs with h
    · exact ⟨(rx_flush_block env t h).1.1, (rx_flush_block env t h).1.2, fun h' => absurd h h'⟩
    · exact ⟨rxFrame_refl t, (rxFlushQuiet (rxFrame_refl t) rfl).2, fun _ => rfl⟩
  have e : usb_rx_process env s =
      (fun s3 : State X => if s3.p.rx_state = RxState.flush then rx_flush env s3 else s3)
      ((fun s2 : State X => if s2.p.rx_state = RxState.data then rx_data env s2 else s2)
      ((fun s1 : State X => if s1.p.rx_state = RxState.args then rx_args s1 else s1)
      ((fun s0 : State X => if s0.p.rx_state = RxState.idle then rx_idle s0 else s0) s))) := rfl
  rw [e]
  beta_reduce
  obtain ⟨f1, q1⟩ := b1 s
  generalize (if s.p.rx_state = RxState.idle then rx_idle s else s) = s1 at f1 q1 ⊢
  obtain ⟨f2, q2⟩ := b2 s1
  generalize (if s1.p.rx_state = RxState.args then rx_args s1 else s1) = s2 at f2 q2 ⊢
  obtain ⟨f3, q3⟩ := b3 s2
  generalize (if s2.p.rx_state = RxState.data then rx_data env s2 else s2) = s3 at f3 q3 ⊢
  obtain ⟨f4, q4, k4⟩ := b4 s3
  generalize (if s3.p.rx_state = RxState.flush then rx_flush env s3 else s3) = s4 at f4 q4 k4 ⊢
  refine ⟨rxFrame_trans f1 (rxFrame_trans f2 (rxFrame_trans f3 f4)), fun h0 h1 => ?_⟩
  have h2 : s2.w.dma_busy = false := by rw [q2, q1, h0]
  cases h3 : s3.w.dma_busy with
  | true =>
    obtain ⟨a, b, c⟩ := q3 h2 h3
    have e4 : s4 = s3 := k4 (by rw [a]; decide)
    subst e4
    exact Or.inl ⟨a, b, c⟩
  | false => exact Or.inr (q4 h3 h1)

theorem tx_token_struct (s : State X) :
    ∃ (st : TxState) (cnt c sp : Nat) (tr : List Ev), tx_token s =
      { p := { s.p with tx_state := st, tx_counter := cnt, usb_tx_word_counter := c },
        w := { s.w with tx_space := sp, trace := tr } } := by
  have w1 : ∀ (d : Nat) (t : State X), ∃ (c sp : Nat) (tr : List Ev),
      (usb_tx_word d t).2 = { p := { t.p with usb_tx_word_counter := c },
                              w := { t.w with tx_space := sp, trace := tr } } := by
    intro d t
    obtain ⟨c, sp, bytes, h⟩ := usb_tx_word_frame d t
    exact ⟨c, sp, _, h⟩
  have step2 : ∀ s1 : State X, ∃ (st : TxState) (cnt c sp : Nat) (tr : List Ev),
      (if s1.p.tx_counter = 1 then
        match usb_tx_word ((s1.p.tx_info.data_length + s1.p.tx_info.dma_length) % U32) s1 with
        | (true, s2) => { s2 with p := { s2.p with tx_state := TxState.data, tx_counter := 0 } }
        | (false, s2) => s2
      else s1) =
      { p := { s1.p with tx_state := st, tx_counter := cnt, usb_tx_word_counter := c },
        w := { s1.w with tx_space := sp, trace := tr } } := by
    intro s1
    by_cases h : s1.p.tx_counter = 1
    · rw [if_pos h]
      obtain ⟨c, sp, tr, hw⟩ := w1 ((s1.p.tx_info.data_length + s1.p.tx_info.dma_length) % U32) s1
      rcases hr : usb_tx_word ((s1.p.tx_info.data_length + s1.p.tx_info.dma_length) % U32) s1
        with ⟨r, s0⟩
      rw [hr] at hw
      simp only [] at hw
      subst hw
      cases r
      · exact ⟨s1.p.tx_state, s1.p.tx_counter, c, sp, tr, rfl⟩
      · exact ⟨TxState.data, 0, c, sp, tr, rfl⟩
    · rw [if_neg h]
      exact ⟨s1.p.tx_state, s1.p.tx_counter, s1.p.usb_tx_word_counter, s1.w.tx_space,
        s1.w.trace, rfl⟩
  have step1 : ∃ (cnt c sp : Nat) (tr : List Ev),
      (if s.p.tx_counter = 0 then
        match usb_tx_word (s.p.tx_token ||| s.p.tx_info.cmd) s with
        | (true, s0) => { s0 with p := { s0.p with tx_counter := (s0.p.tx_counter + 1) % U8 } }
        | (false, s0) => s0
      else s) =
      { p := { s.p with tx_counter := cnt, usb_tx_word_counter := c },
        w := { s.w with tx_space := sp, trace := tr } } := by
    by_cases h : s.p.tx_counter = 0
    · rw [if_pos h]
      obtain ⟨c, sp, tr, hw⟩ := w1 (s.p.tx_token ||| s.p.tx_info.cmd) s
      rcases hr : usb_tx_word (s.p.tx_token ||| s.p.tx_info.cmd) s with ⟨r, s0⟩
      rw [hr] at hw
      simp only [] at hw
      subst hw
      cases r
      · exact ⟨s.p.tx_counter, c, sp, tr, rfl⟩
      · exact ⟨(s.p.tx_counter + 1) % U8, c, sp, tr, rfl⟩
    · rw [if_neg h]
      exact ⟨s.p.tx_counter, s.p.usb_tx_word_counter, s.w.tx_space, s.w.trace, rfl⟩
  obtain ⟨cnt1, c1, sp1, tr1, h1⟩ := step1
  have e : tx_token s =
      (fun s1 : State X => if s1.p.tx_counter = 1 then
        match usb_tx_word ((s1.p.tx_info.data_length + s1.p.tx_info.dma_length) % U32) s1 with
        | (true, s2) => { s2 with p := { s2.p with tx_state := TxState.data, tx_counter := 0 } }
        | (false, s2) => s2
      else s1)
      (if s.p.tx_counter = 0 then
        match usb_tx_word (s.p.tx_token ||| s.p.tx_info.cmd) s with
        | (true, s0) => { s0 with p := { s0.p with tx_counter := (s0.p.tx_counter + 1) % U8 } }
        | (false, s0) => s0
      else s) := rfl
  rw [e, h1]
  beta_reduce
  obtain ⟨st, cnt, c, sp, tr, h2⟩ := step2
    { p := { s.p with tx_counter := cnt1, usb_tx_word_counter := c1 },
      w := { s.w with tx_space := sp1, trace := tr1 } }
  rw [h2]
  exact ⟨st, cnt, c, sp, tr, rfl⟩

/-- How a call of the transmit machine uses the DMA engine: it leaves the busy
flag alone, or it found the flag clear and ends in the Dma state with
`tx_dma_running` set and the flag set. -/
theorem usb_tx_process_started (env : Env X) (s : State X) :
    (usb_tx_process env s).w.dma_busy = s.w.dma_busy ∨
    (s.w.dma_busy = false ∧ (usb_tx_process env s).w.dma_busy = true ∧
      TxWaiting (usb_tx_process env s).p) := by
  have b1 : ∀ t : State X,
      (if t.p.tx_state = TxState.idle then tx_idle t else t).w.dma_busy = t.w.dma_busy := by
    intro t
    split_ifs
    · unfold tx_idle
      split_ifs <;> rfl
    · rfl
  have b2 : ∀ t : State X,
      (if t.p.tx_state = TxState.token then tx_token t else t).w.dma_busy = t.w.dma_busy := by
    intro t
    split_ifs
    · obtain ⟨st, cnt, c, sp, tr, h⟩ := tx_token_struct t
      rw [h]
    · rfl
  have b3 : ∀ t : State X,
      (if t.p.tx_state = TxState.data then tx_data t else t).w.dma_busy = t.w.dma_busy := by
    intro t
    split_ifs
    · unfold tx_data
      split_ifs
      · obtain ⟨st, cnt, c, sp, bytes, h, -⟩ := tx_data_loop_frame t.w.tx_space t
        rw [h]
      · rfl
    · rfl
  have b4 : ∀ t : State X,
      ((if t.p.tx_state = TxState.dma then tx_dma t else t).w.dma_busy = t.w.dma_busy) ∨
      (t.w.dma_busy = false ∧
        (if t.p.tx_state = TxState.dma then tx_dma t else t).w.dma_busy = true ∧
        TxWaiting (if t.p.tx_state = TxState.dma then tx_dma t else t).p) := by
    intro t
    by_cases hs : t.p.tx_state = TxState.dma
    · rw [if_pos hs]
      unfold tx_dma usb_dma_ready
      by_cases h1 : t.p.tx_info.dma_length > 0
      · rw [if_pos h1]
        by_cases h2 : (!t.w.dma_busy) = true
        · rw [if_pos h2]
          by_cases h3 : (!t.p.tx_dma_running) = true
          · rw [if_pos h3]
            exact Or.inr ⟨by simpa using h2, by simp [dma_start, State.emit],
              by simp [dma_start, State.emit, hs], by simp [dma_start, State.emit],
              by simpa [dma_start, State.emit] using h1⟩
          · rw [if_neg h3]
            exact Or.inl rfl
        · rw [if_neg h2]
          exact Or.inl rfl
      · rw [if_neg h1]
        exact Or.inl rfl
    · rw [if_neg hs]
      exact Or.inl rfl
  have b5 : ∀ t : State X,
      (if t.p.tx_state = TxState.flush then tx_flush env t else t).w.dma_busy = t.w.dma_busy ∧
      (t.p.tx_state = TxState.dma →
        (if t.p.tx_state = TxState.flush then tx_flush env t else t) = t) := by
    intro t
    by_cases hs : t.p.tx_state = TxState.flush
    · rw [if_pos hs]
      refine ⟨?_, fun h => ?_⟩
      · cases h : t.p.tx_info.done_callback with
        | none => rw [tx_flush_none env t h]
        | some cb => rw [tx_flush_some env t cb h]
      · rw [hs] at h; cases h
    · rw [if_neg hs]
      exact ⟨rfl, fun _ => rfl⟩
  have e : usb_tx_process env s =
      (fun s4 : State X => if s4.p.tx_state = TxState.flush then tx_flush env s4 else s4)
      ((fun s3 : State X => if s3.p.tx_state = TxState.dma then tx_dma s3 else s3)
      ((fun s2 : State X => if s2.p.tx_state = TxState.data then tx_data s2 else s2)
      ((fun s1 : State X => if s1.p.tx_state = TxState.token then tx_token s1 else s1)
      ((fun s0 : State X => if s0.p.tx_state = TxState.idle then tx_idle s0 else s0) s))))
      := rfl
  rw [e]
  beta_reduce
  have h1 := b1 s
  generalize (if s.p.tx_state = TxState.idle then tx_idle s else s) = s1 at h1 ⊢
  have h2 := b2 s1
  generalize (if s1.p.tx_state = TxState.token then tx_token s1 else s1) = s2 at h2 ⊢
  have h3 := b3 s2
  generalize (if s2.p.tx_state = TxState.data then tx_data s2 else s2) = s3 at h3 ⊢
  have h4 := b4 s3
  generalize (if s3.p.tx_state = TxState.dma then tx_dma s3 else s3) = s4 at h4 ⊢
  obtain ⟨h5, k5⟩ := b5 s4
  generalize (if s4.p.tx_state = TxState.flush then tx_flush env s4 else s4) = s5 at h5 k5 ⊢
  have h03 : s3.w.dma_busy = s.w.dma_busy := h3.trans (h2.trans h1)
  rcases h4 with h4 | ⟨a, b, c⟩
  · exact Or.inl (h5.trans (h4.trans h03))
  · have e5 : s5 = s4 := k5 c.1
    subst e5
    exact Or.inr ⟨h03 ▸ a, b, c⟩

theorem usb_rx_process_waiting (env : Env X) (s : State X) (hb : s.w.dma_busy = true)
    (hw : RxWaiting s.p) : usb_rx_process env s = s := by
  rcases hw with ⟨hd, -, hc | ⟨hc, ha⟩⟩ | hf
  rotate_left 2
  · have e := (rx_flush_block env s hf).2 hb
    simp only [usb_rx_process, hf, if_true, e, reduceCtorEq, if_false]
  · have e := (rx_data_M_frame s).2.2 hb
    have e2 : rx_data env s = rx_data_M s := by simp [rx_data, hc]
    simp only [usb_rx_process, hd, if_true, e2, e, reduceCtorEq, if_false]
  · have e := (rx_data_U_frame s).2.2 hb ha
    simp only [usb_rx_process, hd, if_true, rx_data_stream env s hc, e, reduceCtorEq,
      if_false]

theorem usb_tx_process_waiting (env : Env X) (s : State X) (hb : s.w.dma_busy = true)
    (hw : TxWaiting s.p) : usb_tx_process env s = s := by
  obtain ⟨hs, -, hl⟩ := hw
  simp [usb_tx_process, hs, tx_dma, usb_dma_ready, hb, hl]

/-- C20: DMA arbitration on a link-up `usb_process` tick, the busy flag set
by every start write.  The tick appends the actions of the receive machine,
then those of the transmit machine.  The receive machine writes no start and
leaves the busy flag alone, or it found the flag clear and writes one start,
with the into-memory direction bit; the transmit machine likewise, seeing the
flag as the receive machine left it, with a start without the direction bit.
Hence the tick writes at most one start, none if the flag was set when the tick
began, none on the transmit side if the receive side wrote one, and the flag
is set after a start.  A machine that has written a start ends the tick
waiting for the engine, and a machine that waits while the flag reads busy
does nothing at all. -/
theorem c20_dma_arbitration (env : Env X) (s : State X) (hup : s.w.linkUp) :
    ∃ rx_evs tx_evs : List Ev,
      (usb_rx_process env s).w.trace = s.w.trace ++ rx_evs ∧
      (usb_process env s).w.trace = s.w.trace ++ (rx_evs ++ tx_evs) ∧
      DmaUse DmaScr.DIRECTION_START s.w.dma_busy (usb_rx_process env s).w.dma_busy rx_evs ∧
      DmaUse DmaScr.START (usb_rx_process env s).w.dma_busy (usb_process env s).w.dma_busy
        tx_evs ∧
      (start_writes (rx_evs ++ tx_evs)).length ≤ 1 ∧
      (s.w.dma_busy = true → start_writes (rx_evs ++ tx_evs) = []) ∧
      (start_writes rx_evs ≠ [] → start_writes tx_evs = []) ∧
      (start_writes (rx_evs ++ tx_evs) ≠ [] → (usb_process env s).w.dma_busy = true) ∧
      (start_writes rx_evs ≠ [] → RxWaiting (usb_process env s).p) ∧
      (start_writes tx_evs ≠ [] → TxWaiting (usb_process env s).p) ∧
      (∀ t : State X, t.w.dma_busy = true → RxWaiting t.p → usb_rx_process env t = t) ∧
      (∀ t : State X, t.w.dma_busy = true → TxWaiting t.p → usb_tx_process env t = t) := by
  rw [usb_process_link_up env s hup]
  obtain ⟨⟨-, -, -, -, -, -, -, -, -, -, rx_evs, hrt, -, hrd⟩, hrw⟩ :=
    usb_rx_process_block env s
  obtain ⟨ts, tc, ti, tt, tdr, rp, pp, c, sp, busy, tx_evs, ext, hf, -, -, htd⟩ :=
    usb_tx_process_frame env (usb_rx_process env s)
  have hst := usb_tx_process_started env (usb_rx_process env s)
  have htt : (usb_tx_process env (usb_rx_process env s)).w.trace =
      s.w.trace ++ (rx_evs ++ tx_evs) := by
    rw [hf]
    simp only [hrt, List.append_assoc]
  have hbusy : (usb_tx_process env (usb_rx_process env s)).w.dma_busy = busy := by rw [hf]
  have hrx : (usb_tx_process env (usb_rx_process env s)).p.rx_state =
        (usb_rx_process env s).p.rx_state ∧
      (usb_tx_process env (usb_rx_process env s)).p.rx_dma_running =
        (usb_rx_process env s).p.rx_dma_running ∧
      (usb_tx_process env (usb_rx_process env s)).p.rx_cmd = (usb_rx_process env s).p.rx_cmd ∧
      (usb_tx_process env (usb_rx_process env s)).p.rx_args1 =
        (usb_rx_process env s).p.rx_args1 := by
    rw [hf]
    exact ⟨rfl, rfl, rfl, rfl⟩
  rw [← hbusy] at htd
  refine ⟨rx_evs, tx_evs, hrt, htt, hrd, htd, ?_, fun hb => ?_, fun hr => ?_, fun hne => ?_,
    fun hr => ?_, fun ht => ?_, fun t hb hw => usb_rx_process_waiting env t hb hw,
    fun t hb hw => usb_tx_process_waiting env t hb hw⟩
  · rw [start_writes_append]
    rcases hrd with ⟨-, h1⟩ | ⟨-, hb1, h1⟩ <;> rcases htd with ⟨-, h2⟩ | ⟨hb2, -, h2⟩
    · simp [h1, h2]
    · simp [h1, h2]
    · simp [h1, h2]
    · rw [hb1] at hb2; cases hb2
  · rw [start_writes_append]
    rcases hrd with ⟨hb1, h1⟩ | ⟨hb1, -, -⟩
    · rcases htd with ⟨-, h2⟩ | ⟨hb2, -, -⟩
      · simp [h1, h2]
      · rw [hb1, hb] at hb2; cases hb2
    · rw [hb] at hb1; cases hb1
  · rcases hrd with ⟨-, h1⟩ | ⟨-, hb1, -⟩
    · exact absurd h1 hr
    · rcases htd with ⟨-, h2⟩ | ⟨hb2, -, -⟩
      · exact h2
      · rw [hb1] at hb2; cases hb2
  · rw [start_writes_append] at hne
    rcases htd with ⟨hb2, h2⟩ | ⟨-, hb2, -⟩
    · rcases hrd with ⟨-, h1⟩ | ⟨-, hb1, -⟩
      · simp [h1, h2] at hne
      · rw [hb2, hb1]
    · exact hb2
  · rcases hrd with ⟨-, h1⟩ | ⟨hb0, hb1, -⟩
    · exact absurd h1 hr
    · have hw := hrw hb0 hb1
      unfold RxWaiting at hw ⊢
      rw [hrx.1, hrx.2.1, hrx.2.2.1, hrx.2.2.2]
      exact hw
  · rcases htd with ⟨-, h2⟩ | ⟨hb1, hb2, -⟩
    · exact absurd h2 ht
    · rcases hst with h | ⟨-, -, h⟩
      · rw [hb1, hb2] at h; cases h
      · exact h

/-- Witness for C20: the first tick of the stream-write of `State.streamWrite`
writes one start, on the receive side, and leaves the receive machine
waiting. -/
theorem c20_dma_arbitration_witness :
    ∃ rx_evs tx_evs : List Ev,
      (usb_process Env.sample State.streamWrite).w.trace =
        State.streamWrite.w.trace ++ (rx_evs ++ tx_evs) ∧
      (start_writes (rx_evs ++ tx_evs)).length ≤ 1 ∧
      (usb_process Env.sample State.streamWrite).w.dma_busy = true := by
  obtain ⟨rx_evs, tx_evs, -, h2, -, -, h5, -, -, -, -, -, -, -⟩ :=
    c20_dma_arbitration Env.sample State.streamWrite ⟨rfl, rfl, rfl⟩
  exact ⟨rx_evs, tx_evs, h2, h5, by decide⟩

/-! ## Prepare-update: the callback follows the response -/

/-- A run of calls from Idle with a descriptor to pick up appends a prefix of
the frame: what is appended, followed by what is still owed, is the frame. -/
theorem tx_frame_calls_prefix (env : Env X) (s : State X) (room : Nat) (ready : Bool)
    (schedule : List (Nat × Bool))
    (hi : s.p.tx_state = TxState.idle) (hc : s.p.usb_tx_word_counter = 0)
    (hpend : s.p.response_pending = true ∨ s.p.packet_pending = true)
    (hl : (frame_info s.p).data_length % 4 = 0 ∧ (frame_info s.p).data_length ≤ 16) :
    ∃ evs, (tx_frame_calls env ((room, ready) :: schedule) s).w.trace = s.w.trace ++ evs ∧
      evs ++ tx_remaining (tx_frame_calls env ((room, ready) :: schedule) s).p =
        frame_events (frame_token s.p) (frame_info s.p) := by
  obtain ⟨p1, p2, p3, p4, -⟩ := tx_idle_pickup (s.offer room ready) hc hpend hl
  have run : tx_frame_calls env ((room, ready) :: schedule) s =
      tx_frame_calls env ((room, ready) :: schedule) (tx_idle (s.offer room ready)) := by
    rw [tx_frame_calls_cons, tx_frame_calls_cons, offer_tx_idle,
      usb_tx_process_pickup env (s.offer room ready) hi (by rw [p1]; decide)]
  obtain ⟨⟨-, evs, ht, hr⟩, -⟩ :=
    tx_frame_calls_step env ((room, ready) :: schedule) _ p2 (by rw [p1]; decide)
  rw [← run] at ht hr
  rw [p3] at ht
  rw [p4] at hr
  exact ⟨evs, ht, hr⟩

theorem pushes_no_callback (bytes : List Nat) (cb : Callback) :
    Ev.done_callback cb ∉ bytes.map Ev.usb_push := by
  simp
theorem tx_word_bytes_pkt (op : Nat) (h : op < 256) :
    tx_word_bytes (PKT_TOKEN ||| op) = [0x50, 0x4B, 0x54, op] := by
  have : PKT_TOKEN = 256 * 0x504B54 := by decide
  rw [this, token_or_cmd _ _ h]
  simp only [tx_word_bytes, U8, Nat.shiftRight_eq_div_pow]
  norm_num
  refine ⟨?_, ?_, ?_, ?_⟩ <;> omega

theorem usb_tx_process_notify (env : Env X) (s : State X) (m : Nat)
    (hts : s.p.tx_state = TxState.idle) (hrp : s.p.response_pending = false)
    (hpp : s.p.packet_pending = true)
    (hdl : s.p.packet_info.data_length = 0) (hml : s.p.packet_info.dma_length = 0)
    (hcb : s.p.packet_info.done_callback = none)
    (hc : s.p.usb_tx_word_counter = 0) (hsp : s.w.tx_space = m + 8) :
    usb_tx_process env s =
      { p := { s.p with
          packet_pending := false,
          tx_counter := 0,
          tx_info := s.p.packet_info,
          tx_token := PKT_TOKEN,
          tx_dma_running := false },
        w := { s.w with
          tx_space := m,
          trace := s.w.trace ++
            (tx_word_bytes (PKT_TOKEN ||| s.p.packet_info.cmd) ++
              tx_word_bytes 0).map Ev.usb_push ++
            [Ev.reg_set_usb_scr UsbScr.WRITE_FLUSH] } } := by
  rcases s with ⟨p, w⟩
  cases p
  cases w
  simp only at hts hrp hpp hdl hml hcb hc hsp
  subst hts hrp hpp hc hsp
  simp [hdl, hml, hcb, usb_tx_process, tx_idle, tx_token, tx_data, tx_dma, tx_flush,
    usb_tx_word, usb_tx_word_loop, usb_tx_byte, tx_word_bytes, U8, U32, State.emit]

theorem tick_ready_link_up (env : Env X) (t : State X) (h1 : t.w.scr_pwrsav = false)
    (h2 : t.w.scr_reset_state = false) (h3 : t.w.scr_reset_pending = false) :
    tick_ready env t = usb_tx_process env (usb_rx_process env t.dmaDone) := by
  unfold tick_ready usb_process
  have : (t.dmaDone.w.scr_pwrsav || t.dmaDone.w.scr_reset_state ||
      t.dmaDone.w.scr_reset_pending) = false := by
    show (t.w.scr_pwrsav || t.w.scr_reset_state || t.w.scr_reset_pending) = false
    rw [h1, h2, h3]; rfl
  rw [this]
  simp

set_option maxRecDepth 4000 in
theorem notify_tick_burst (env : Env X) (s : State X) (r m : Nat) (h : NotifyQuiet s r m)
    (hr : 0 < r) :
    NotifyQuiet (tick_ready env s)
      (r - (if r > RX_FLUSH_LENGTH then RX_FLUSH_LENGTH else r)) m ∧
    (tick_ready env s).p.rx_state = RxState.flush ∧
    (tick_ready env s).p.flush_packet = true ∧
    (tick_ready env s).w.trace =
      s.w.trace ++ burst_events [if r > RX_FLUSH_LENGTH then RX_FLUSH_LENGTH else r] := by
  obtain ⟨h0, h1, h2, h3, h4, h5, h6, h7, h8, h9, h10, h11, h12⟩ := h
  have hne : r ≠ 0 := Nat.pos_iff_ne_zero.mp hr
  have harith : (r + U32 - (if RX_FLUSH_LENGTH < r then RX_FLUSH_LENGTH else r)) % U32 =
      r - (if RX_FLUSH_LENGTH < r then RX_FLUSH_LENGTH else r) := by
    simp only [U32, RX_FLUSH_LENGTH] at *
    split_ifs <;> omega
  have hlt : r - (if RX_FLUSH_LENGTH < r then RX_FLUSH_LENGTH else r) < U32 := by
    simp only [U32, RX_FLUSH_LENGTH] at *
    split_ifs <;> omega
  rcases s with ⟨p, w⟩
  cases p
  cases w
  simp only at h0 h1 h2 h3 h5 h6 h7 h8 h9 h10 h11 h12
  subst h1 h2 h3 h5 h6 h7 h8 h9 h10 h11 h12
  rcases h0 with ⟨a, b⟩ | ⟨a, b, c, -⟩
  · subst a b
    simp [tick_ready, State.dmaDone, usb_process, usb_rx_process, rx_flush, usb_dma_ready, hne,
      dma_start, State.emit, usb_tx_process, tx_idle, NotifyQuiet, TxQuiet, harith, hlt,
      burst_events]
  · subst a b c
    simp [tick_ready, State.dmaDone, usb_process, usb_rx_process, rx_data, rx_data_U, rx_flush,
      usb_dma_ready, hne, dma_start, State.emit, usb_tx_process, tx_idle, NotifyQuiet, TxQuiet,
      harith, hlt, burst_events]

set_option maxRecDepth 4000 in
theorem notify_tick_final (env : Env X) (s : State X) (m : Nat) (h : NotifyQuiet s 0 m) :
    (tick_ready env s).w.trace = s.w.trace ++ notify_frame env ∧
    (tick_ready env s).p.rx_state = RxState.idle ∧
    (tick_ready env s).p.tx_state = TxState.idle ∧
    (tick_ready env s).p.response_pending = false ∧
    (tick_ready env s).p.packet_pending = false ∧
    (tick_ready env s).p.tx_token = PKT_TOKEN ∧
    (tick_ready env s).p.tx_info = usb_create_packet env.PACKET_CMD_DATA_FLUSHED := by
  obtain ⟨h0, h1, h2, h3, h4, h5, h6, h7, h8, h9, h10, h11, h12⟩ := h
  rcases h0 with ⟨ha, hb⟩ | ⟨-, -, -, hc⟩
  swap
  · exact absurd hc (by decide)
  have hb1 : tx_word_bytes (PKT_TOKEN ||| env.PACKET_CMD_DATA_FLUSHED % U8) =
      [0x50, 0x4B, 0x54, env.PACKET_CMD_DATA_FLUSHED % 256] :=
    tx_word_bytes_pkt _ (Nat.mod_lt _ (by decide))
  have hb2 : tx_word_bytes 0 = [0, 0, 0, 0] := by decide
  have hrx : usb_rx_process env s.dmaDone =
      { p := { s.p with rx_state := RxState.idle, packet_pending := true,
                        packet_info := usb_create_packet env.PACKET_CMD_DATA_FLUSHED },
        w := { s.w with dma_busy := false } } := by
    rcases s with ⟨p, w⟩
    cases p
    cases w
    simp only at ha hb h1 h2 h3 h5 h6 h7 h8 h9 h10 h11 h12
    subst ha hb h1 h2 h3 h5 h6 h7 h8 h9 h10 h11 h12
    simp [State.dmaDone, usb_rx_process, rx_flush, usb_dma_ready, usb_enqueue_packet]
  have ht := usb_tx_process_notify env (usb_rx_process env s.dmaDone) m
    (by rw [hrx]; exact h6) (by rw [hrx]; exact h5) (by rw [hrx]) (by rw [hrx]; rfl)
    (by rw [hrx]; rfl) (by rw [hrx]; rfl) (by rw [hrx]; exact h8) (by rw [hrx]; exact h12)
  rw [tick_ready_link_up env s h9 h10 h11, ht, hrx]
  simp [hb1, hb2, h5, h6, notify_frame, usb_create_packet]

theorem notify_run (env : Env X) (k : Nat) :
    ∀ (r : Nat) (s : State X) (m : Nat), NotifyQuiet s r m → (burst_lengths r).length = k →
      (∀ j, j ≤ k →
        NotifyQuiet (ticks_ready env j s) (r - ((burst_lengths r).take j).sum) m ∧
        (1 ≤ j → (ticks_ready env j s).p.rx_state = RxState.flush ∧
          (ticks_ready env j s).p.flush_packet = true) ∧
        (ticks_ready env j s).w.trace =
          s.w.trace ++ burst_events ((burst_lengths r).take j)) ∧
      (ticks_ready env (k + 1) s).w.trace =
        s.w.trace ++ burst_events (burst_lengths r) ++ notify_frame env ∧
      (ticks_ready env (k + 1) s).p.rx_state = RxState.idle ∧
      (ticks_ready env (k + 1) s).p.tx_state = TxState.idle ∧
      (ticks_ready env (k + 1) s).p.response_pending = false ∧
      (ticks_ready env (k + 1) s).p.packet_pending = false ∧
      (ticks_ready env (k + 1) s).p.tx_token = PKT_TOKEN ∧
      (ticks_ready env (k + 1) s).p.tx_info = usb_create_packet env.PACKET_CMD_DATA_FLUSHED := by
  induction k with
  | zero =>
    intro r s m hq hlen
    have hnil : burst_lengths r = [] := List.length_eq_zero.mp hlen
    have hr0 : r = 0 := by
      have := burst_lengths_sum r
      rw [hnil] at this
      exact this.symm
    subst hr0
    refine ⟨fun j hj => ?_, ?_⟩
    · have : j = 0 := Nat.le_zero.mp hj
      subst this
      simp [ticks_ready, burst_events]
      exact hq
    · have hf := notify_tick_final env s m hq
      simp only [ticks_ready, hnil, burst_events, List.append_nil]
      exact hf
  | succ k ih =>
    intro r s m hq hlen
    have hr : 0 < r := by
      rcases Nat.eq_zero_or_pos r with h | h
      · subst h
        rw [burst_lengths_zero] at hlen
        cases hlen
      · exact h
    have hcons := burst_lengths_pos r hr
    obtain ⟨hq1, hfl, hfp, ht1⟩ := notify_tick_burst env s r m hq hr
    have hlen1 : (burst_lengths
        (r - (if r > RX_FLUSH_LENGTH then RX_FLUSH_LENGTH else r))).length = k := by
      rw [hcons] at hlen
      simpa using hlen
    obtain ⟨ihj, ihf⟩ := ih _ _ m hq1 hlen1
    refine ⟨fun j hj => ?_, ?_⟩
    · cases j with
      | zero =>
        simp [ticks_ready, burst_events]
        exact hq
      | succ j =>
        obtain ⟨a, b, c⟩ := ihj j (Nat.le_of_succ_le_succ hj)
        rw [hcons]
        simp only [ticks_ready, List.take_succ_cons, List.sum_cons, burst_events]
        refine ⟨?_, fun _ => ?_, ?_⟩
        · rw [← Nat.sub_sub]
          exact a
        · cases j with
          | zero => exact ⟨hfl, hfp⟩
          | succ i => exact b (Nat.succ_le_succ (Nat.zero_le _))
        · rw [c, ht1]
          simp [burst_events]
    · obtain ⟨a, b⟩ := ihf
      refine ⟨?_, b⟩
      show (ticks_ready env (k + 1) (tick_ready env s)).w.trace = _
      rw [a, ht1]
      conv_rhs => rw [hcons]
      simp [burst_events]

theorem stream_accept (env : Env X) (s : State X) (a0 a1 a2 a3 a4 a5 a6 a7 : Nat)
    (rest : List Nat)
    (hst : s.p.rx_state = RxState.idle) (hrp : s.p.response_pending = false)
    (hcc : s.p.usb_rx_cmd_counter = 0)
    (hc : s.p.usb_rx_word_counter = 0) (hb : s.p.usb_rx_word_buffer = 0)
    (hrl : s.p.read_length = 0)
    (hrx : s.w.rx = 67 :: 77 :: 68 :: 85 :: a0 :: a1 :: a2 :: a3 :: a4 :: a5 :: a6 :: a7 :: rest)
    (hr : 0 < rx_word_value a4 a5 a6 a7) :
    usb_rx_process env s =
      { p := { s.p with
          rx_state := RxState.data, rx_cmd := 85, rx_counter := 0,
          rx_dma_running := false, flush_response := false, flush_packet := false,
          response_error := false,
          response_info := { s.p.response_info with
            cmd := 85, data_length := 0, dma_length := 0, done_callback := none },
          rx_args0 := rx_word_value a0 a1 a2 a3,
          rx_args1 := rx_word_value a4 a5 a6 a7 },
        w := { s.w with rx := rest, timer := 100,
                        trace := s.w.trace ++ [Ev.timer_set 100] } } := by
  have hm := usb_rx_cmd_marker s 85 (a0 :: a1 :: a2 :: a3 :: a4 :: a5 :: a6 :: a7 :: rest)
    hcc hrx
  have hidle : rx_idle s =
      { p := { s.p with
          rx_state := RxState.args, rx_cmd := 85, rx_counter := 0,
          rx_dma_running := false, flush_response := false, flush_packet := false,
          response_error := false,
          response_info := { s.p.response_info with
            cmd := 85, data_length := 0, dma_length := 0, done_callback := none } },
        w := { s.w with rx := a0 :: a1 :: a2 :: a3 :: a4 :: a5 :: a6 :: a7 :: rest,
                        timer := 100, trace := s.w.trace ++ [Ev.timer_set 100] } } := by
    simp [rx_idle, hrp, hm, U8, timer_set, State.emit, DEBUG_WRITE_TIMEOUT_TICKS]
  have hargs := rx_args_eight (rx_idle s) a0 a1 a2 a3 a4 a5 a6 a7 rest
    (by rw [hidle]) (by rw [hidle]; exact hc) (by rw [hidle]; exact hb) (by rw [hidle])
  have hne : rx_word_value a4 a5 a6 a7 ≠ 0 := Nat.pos_iff_ne_zero.mp hr
  unfold usb_rx_process
  simp only [hst, if_true]
  rw [hargs, hidle]
  simp [rx_data, rx_data_U, hne, hrl]

theorem stream_stall (env : Env X) (t : State X) (r : Nat) (h : StreamStalled t.p r)
    (hw : t.w.timer ≠ 0 ∨ t.w.dma_busy = true) :
    usb_rx_process env t = t := by
  obtain ⟨h1, h2, h3, h4, -, h6, -, -⟩ := h
  have hne : t.p.rx_args1 ≠ 0 := by rw [h3]; exact Nat.pos_iff_ne_zero.mp h4
  have hU : rx_data_U t = t := by
    unfold rx_data_U
    rw [if_neg hne]
    rcases hw with hw | hw
    · simp [h6, hw]
    · simp [usb_dma_ready, hw]
  rw [usb_rx_process_stream env t h1 h2, hU, if_neg (by rw [h1]; decide)]

theorem link_up_or_down (w : World X) : w.linkUp ∨ w.linkDown := by
  unfold World.linkUp World.linkDown
  cases w.scr_pwrsav <;> cases w.scr_reset_state <;> cases w.scr_reset_pending <;> simp

theorem stream_stall_tick (env : Env X) (t : State X) (r : Nat) (h : StreamStalled t.p r)
    (hp : t.w.scr_reset_pending = false)
    (hw : t.w.timer ≠ 0 ∨ t.w.dma_busy = true) :
    StreamStalled (usb_process env t).p r ∧ (usb_process env t).w.timer = t.w.timer := by
  rcases link_up_or_down t.w with hup | hdown
  · rw [usb_process_link_up env t hup, stream_stall env t r h hw]
    obtain ⟨ts, tc, ti, tt, tdr, rp, pp, c, sp, busy, evs, ext, hf, hrp, -, -⟩ :=
      usb_tx_process_frame env t
    rw [hf]
    obtain ⟨h1, h2, h3, h4, h5, h6, h7, h8⟩ := h
    refine ⟨⟨h1, h2, h3, h4, h5, h6, h7, ?_⟩, rfl⟩
    show rp = false
    cases rp with
    | false => rfl
    | true => rw [hrp rfl] at h8; cases h8
  · rw [usb_process_link_paused env t hdown hp]
    exact ⟨h, rfl⟩

theorem notify_retry (env : Env X) (t : State X) (hf : t.p.rx_state = RxState.flush)
    (h0 : t.p.rx_args1 = 0) (hfr : t.p.flush_response = false)
    (hfp : t.p.flush_packet = true) (hready : t.w.dma_busy = false) :
    usb_rx_process env t =
      if t.p.packet_pending then t
      else { t with p := { t.p with
               rx_state := RxState.idle, packet_pending := true,
               packet_info := usb_create_packet env.PACKET_CMD_DATA_FLUSHED } } := by
  rcases t with ⟨p, w⟩
  cases p
  cases w
  simp only at hf h0 hfr hfp hready
  subst hf h0 hfr hfp hready
  simp only [usb_rx_process, reduceCtorEq, if_false, if_true, rx_flush, usb_dma_ready,
    usb_enqueue_packet]
  split_ifs <;> simp_all

theorem notify_frame_events (env : Env X) :
    frame_events PKT_TOKEN (usb_create_packet env.PACKET_CMD_DATA_FLUSHED) =
      notify_frame env := by
  have hb1 : tx_word_bytes (PKT_TOKEN ||| env.PACKET_CMD_DATA_FLUSHED % U8) =
      [0x50, 0x4B, 0x54, env.PACKET_CMD_DATA_FLUSHED % 256] :=
    tx_word_bytes_pkt _ (Nat.mod_lt _ (by decide))
  have hb2 : tx_word_bytes 0 = [0, 0, 0, 0] := by decide
  simp [frame_events, usb_create_packet, data_words, words_bytes, commit_events,
    callback_events, notify_frame, hb1, hb2, U32]

theorem txFrame_stalled {s s1 : State X} (r : Nat) (hf : TxFrame s s1)
    (h : StreamStalled s.p r) :
    StreamStalled s1.p r ∧ s1.w.timer = s.w.timer := by
  obtain ⟨ts, tc, ti, tt, tdr, rp, pp, c, sp, busy, evs, ext, hf, hrp, -, -⟩ := hf
  rw [hf]
  obtain ⟨h1, h2, h3, h4, h5, h6, h7, h8⟩ := h
  refine ⟨⟨h1, h2, h3, h4, h5, h6, h7, ?_⟩, rfl⟩
  show rp = false
  cases rp with
  | false => rfl
  | true => rw [hrp rfl] at h8; cases h8

theorem notify_frame_plain (env : Env X) : (notify_frame env).all Ev.plain = true := by
  simp [notify_frame, Ev.plain]

/-- C12: a stream-write (`'U'`) announcing `r > 0` bytes while the consumer
provides no staging capacity (`read_length` is 0), on ticks that read the link
up.  The call that accepts the request arms the idle timer with 100 ticks and
leaves the request waiting in the Data state, no response pending.  While
the request waits, on every tick on which the timer reads non-zero (or the DMA
engine is busy) the receive machine changes nothing and the request keeps
waiting.  On the first DMA-ready tick on which the timer reads 0, with the
transmit machine quiet, the machine enters Flush with the notify intent and
starts the first burst to the scratch region; one burst follows per DMA-ready
tick, the bursts summing to `r`, each of at most `RX_FLUSH_LENGTH` bytes; on
the tick after the last burst the notification `PACKET_CMD_DATA_FLUSHED` with
inline length 0 and DMA length 0 is queued, the machine returns to Idle, and the
trace ends with the bursts followed by the one NOTIFY frame (`50 4B 54`, the
code, total length 0, output commit).  When the notification slot is occupied
the Flush block changes nothing and tries again next tick.  No response is
pending at any of these points.  Under every schedule of room and DMA
readiness the queued notification is sent as a prefix of that one frame. -/
theorem c12_stream_write_timeout (env : Env X) (s : State X)
    (a0 a1 a2 a3 a4 a5 a6 a7 : Nat) (rest : List Nat)
    (hst : s.p.rx_state = RxState.idle) (hrp : s.p.response_pending = false)
    (hcc : s.p.usb_rx_cmd_counter = 0)
    (hc : s.p.usb_rx_word_counter = 0) (hb : s.p.usb_rx_word_buffer = 0)
    (hrl : s.p.read_length = 0) (hup : s.w.linkUp)
    (hrx : s.w.rx = 67 :: 77 :: 68 :: 85 :: a0 :: a1 :: a2 :: a3 :: a4 :: a5 :: a6 :: a7 :: rest)
    (hr : 0 < rx_word_value a4 a5 a6 a7) :
    ((usb_rx_process env s).w.trace = s.w.trace ++ [Ev.timer_set 100] ∧
      (usb_process env s).w.timer = 100 ∧
      StreamStalled (usb_process env s).p (rx_word_value a4 a5 a6 a7) ∧
      (usb_process env s).p.flush_packet = false) ∧
    (∀ (t : State X) (r : Nat), StreamStalled t.p r →
      (t.w.timer ≠ 0 ∨ t.w.dma_busy = true) →
      usb_rx_process env t = t ∧
      (t.w.scr_reset_pending = false →
        StreamStalled (usb_process env t).p r ∧ (usb_process env t).w.timer = t.w.timer)) ∧
    (∀ (t : State X) (r m : Nat), StreamStalled t.p r → t.w.timer = 0 → TxQuiet t m →
      (∀ j, 1 ≤ j → j ≤ (burst_lengths r).length →
        (ticks_ready env j t).p.rx_state = RxState.flush ∧
        (ticks_ready env j t).p.flush_packet = true ∧
        (ticks_ready env j t).p.response_pending = false ∧
        (ticks_ready env j t).p.packet_pending = false ∧
        (ticks_ready env j t).w.trace =
          t.w.trace ++ burst_events ((burst_lengths r).take j)) ∧
      (ticks_ready env ((burst_lengths r).length + 1) t).w.trace =
        t.w.trace ++ burst_events (burst_lengths r) ++ notify_frame env ∧
      (ticks_ready env ((burst_lengths r).length + 1) t).p.rx_state = RxState.idle ∧
      (ticks_ready env ((burst_lengths r).length + 1) t).p.tx_state = TxState.idle ∧
      (ticks_ready env ((burst_lengths r).length + 1) t).p.response_pending = false ∧
      (ticks_ready env ((burst_lengths r).length + 1) t).p.packet_pending = false ∧
      (ticks_ready env ((burst_lengths r).length + 1) t).p.tx_token = PKT_TOKEN ∧
      (ticks_ready env ((burst_lengths r).length + 1) t).p.tx_info =
        usb_create_packet env.PACKET_CMD_DATA_FLUSHED ∧
      (∀ a l, dma_starts (burst_events (burst_lengths r) ++ notify_frame env) a l =
        (burst_lengths r).map (fun n => (RX_FLUSH_ADDRESS, n, DmaScr.DIRECTION_START))) ∧
      (burst_lengths r).sum = r ∧
      (∀ n ∈ burst_lengths r, 0 < n ∧ n ≤ RX_FLUSH_LENGTH) ∧
      1 ≤ (burst_lengths r).length) ∧
    (∀ t : State X, t.p.rx_state = RxState.flush → t.p.rx_args1 = 0 →
      t.p.flush_response = false → t.p.flush_packet = true → t.w.dma_busy = false →
      usb_rx_process env t =
        if t.p.packet_pending then t
        else { t with p := { t.p with
                 rx_state := RxState.idle, packet_pending := true,
                 packet_info := usb_create_packet env.PACKET_CMD_DATA_FLUSHED } }) ∧
    ((usb_create_packet env.PACKET_CMD_DATA_FLUSHED).cmd = env.PACKET_CMD_DATA_FLUSHED % U8 ∧
      (usb_create_packet env.PACKET_CMD_DATA_FLUSHED).data_length = 0 ∧
      (usb_create_packet env.PACKET_CMD_DATA_FLUSHED).dma_length = 0 ∧
      (usb_create_packet env.PACKET_CMD_DATA_FLUSHED).done_callback = none) ∧
    (∀ (t : State X) (room : Nat) (ready : Bool) (schedule : List (Nat × Bool)),
      t.p.tx_state = TxState.idle → t.p.usb_tx_word_counter = 0 →
      t.p.response_pending = false → t.p.packet_pending = true →
      t.p.packet_info = usb_create_packet env.PACKET_CMD_DATA_FLUSHED →
      ∃ evs, (tx_frame_calls env ((room, ready) :: schedule) t).w.trace = t.w.trace ++ evs ∧
        evs ++ tx_remaining (tx_frame_calls env ((room, ready) :: schedule) t).p =
          notify_frame env) := by
  refine ⟨?_, ?_, ?_, ?_, ⟨rfl, rfl, rfl, rfl⟩, ?_⟩
  · have hacc := stream_accept env s a0 a1 a2 a3 a4 a5 a6 a7 rest hst hrp hcc hc hb hrl hrx hr
    have hstall : StreamStalled (usb_rx_process env s).p (rx_word_value a4 a5 a6 a7) := by
      rw [hacc]
      exact ⟨rfl, rfl, rfl, hr, Nat.mod_lt _ (by decide), hrl, rfl, hrp⟩
    obtain ⟨q1, q2⟩ := txFrame_stalled _ (usb_tx_process_frame env (usb_rx_process env s)) hstall
    rw [usb_process_link_up env s hup]
    refine ⟨by rw [hacc], ?_, q1, ?_⟩
    · rw [q2, hacc]
    · obtain ⟨ts, tc, ti, tt, tdr, rp, pp, c, sp, busy, evs, ext, hf, -, -, -⟩ :=
        usb_tx_process_frame env (usb_rx_process env s)
      rw [hf, hacc]
  · intro t r hs hw
    exact ⟨stream_stall env t r hs hw, fun hp => stream_stall_tick env t r hs hp hw⟩
  · intro t r m hs h0 hq
    obtain ⟨h1, h2, h3, h4, h5, h6, h7, h8⟩ := hs
    have hn : NotifyQuiet t r m := ⟨Or.inr ⟨h1, h6, h0, h4⟩, h2, h7, h3, h5, h8, hq⟩
    obtain ⟨hj, hf⟩ := notify_run env _ r t m hn rfl
    have hlen : 1 ≤ (burst_lengths r).length := by
      rw [burst_lengths_pos r h4]
      simp
    refine ⟨fun j j1 j2 => ?_, hf.1, hf.2.1, hf.2.2.1, hf.2.2.2.1, hf.2.2.2.2.1,
      hf.2.2.2.2.2.1, hf.2.2.2.2.2.2, fun a l => ?_, burst_lengths_sum _,
      fun n hn => burst_lengths_bound _ n hn, hlen⟩
    · obtain ⟨a, b, c⟩ := hj j j2
      exact ⟨(b j1).1, (b j1).2, a.2.2.2.2.2.1, a.2.2.2.2.2.2.2.1, c⟩
    · exact dma_starts_bursts _ _ a l (notify_frame_plain env)
  · intro t hf h0 hfr hfp hready
    exact notify_retry env t hf h0 hfr hfp hready
  · intro t room ready schedule hti htc hrp hpp hinfo
    have hfi : frame_info t.p = usb_create_packet env.PACKET_CMD_DATA_FLUSHED := by
      simp [frame_info, hrp, hinfo]
    have hft : frame_token t.p = PKT_TOKEN := by
      simp [frame_token, hrp]
    obtain ⟨evs, ht, hr⟩ := tx_frame_calls_prefix env t room ready schedule hti htc (Or.inr hpp)
      (by rw [hfi]; exact ⟨rfl, Nat.zero_le _⟩)
    rw [hfi, hft, notify_frame_events] at hr
    exact ⟨evs, ht, hr⟩

/-- Witness for C12: after boot a stream-write announcing 4 bytes is accepted
with no staging capacity; once the timer has run out, two DMA-ready ticks
produce the burst of 4 bytes to the scratch region and the NOTIFY frame. -/
theorem c12_stream_write_timeout_witness :
    (usb_rx_process Env.sample State.streamRequest).w.trace = [Ev.timer_set 100] ∧
    (ticks_ready Env.sample 2 State.stalledStream).w.trace =
      [Ev.timer_set 100, Ev.reg_set_dma_address RX_FLUSH_ADDRESS, Ev.reg_set_dma_length 4,
       Ev.reg_set_dma_scr DmaScr.DIRECTION_START,
       Ev.usb_push 0x50, Ev.usb_push 0x4B, Ev.usb_push 0x54, Ev.usb_push 71,
       Ev.usb_push 0, Ev.usb_push 0, Ev.usb_push 0, Ev.usb_push 0,
       Ev.reg_set_usb_scr UsbScr.WRITE_FLUSH] := by
  have h := c12_stream_write_timeout Env.sample State.streamRequest 0 0 0 0 0 0 0 4 []
    rfl rfl rfl rfl rfl rfl ⟨rfl, rfl, rfl⟩ rfl (by decide)
  obtain ⟨⟨h1, -⟩, -, h3, -⟩ := h
  have hd := (h3 State.stalledStream 4 56
    ⟨by decide, by decide, by decide, by decide, by decide, by decide, by decide, by decide⟩
    (by decide) ⟨by decide, by decide, by decide, by decide, by decide, by decide,
      by decide⟩).2.1
  have hl : burst_lengths 4 = [4] := by
    simp [burst_lengths, RX_FLUSH_LENGTH]
  rw [hl] at hd
  exact ⟨h1, hd.trans (by decide)⟩

/-! ## Inline lengths and array bounds: theorems -/

theorem usb_tx_word_loop_checked_eq (data : Nat) : ∀ (n : Nat) (s : State X),
    s.p.usb_tx_word_counter ≤ 3 →
    usb_tx_word_loop_checked data n s = some (usb_tx_word_loop data n s) ∧
    (usb_tx_word_loop data n s).2.p.usb_tx_word_counter ≤ 3 := by
  intro n
  induction n with
  | zero =>
    intro s h
    simp [usb_tx_word_loop_checked, usb_tx_word_loop, h]
  | succ n ih =>
    intro s h
    simp only [usb_tx_word_loop_checked, usb_tx_word_loop, if_pos h]
    unfold usb_tx_byte
    by_cases h0 : s.w.tx_space = 0
    · simp only [h0, if_true]
      exact ⟨trivial, h⟩
    · simp only [h0, if_false]
      by_cases h4 : (s.p.usb_tx_word_counter + 1) % U8 = 4
      · simp only [h4, if_true]
        exact ⟨trivial, Nat.zero_le _⟩
      · simp only [h4, if_false]
        refine ih _ ?_
        show (s.p.usb_tx_word_counter + 1) % U8 ≤ 3
        simp only [U8] at h4 ⊢
        omega

theorem usb_tx_word_checked_eq (data : Nat) (s : State X) (h : s.p.usb_tx_word_counter ≤ 3) :
    usb_tx_word_checked data s = some (usb_tx_word data s) ∧
    (usb_tx_word data s).2.p.usb_tx_word_counter ≤ 3 :=
  usb_tx_word_loop_checked_eq data _ s h

theorem usb_rx_cmd_loop_checked_eq : ∀ (n : Nat) (s : State X),
    s.p.usb_rx_cmd_counter ≤ 3 →
    usb_rx_cmd_loop_checked n s = some (usb_rx_cmd_loop n s) ∧
    (usb_rx_cmd_loop n s).2.p.usb_rx_cmd_counter ≤ 3 := by
  intro n
  induction n with
  | zero =>
    intro s h
    exact ⟨rfl, h⟩
  | succ n ih =>
    intro s h
    simp only [usb_rx_cmd_loop_checked, usb_rx_cmd_loop]
    unfold usb_rx_byte
    rcases hrx : s.w.rx with _ | ⟨b, bs⟩
    · simp only []
      exact ⟨trivial, h⟩
    · simp only []
      by_cases h3 : s.p.usb_rx_cmd_counter = 3
      · simp only [h3, if_true]
        exact ⟨trivial, Nat.zero_le _⟩
      · have hlt : ¬ 3 ≤ s.p.usb_rx_cmd_counter := by omega
        simp only [h3, hlt, if_false]
        by_cases hm : b % U8 ≠ CMD_TOKEN s.p.usb_rx_cmd_counter
        · rw [if_pos hm, if_pos hm]
          exact ⟨rfl, Nat.zero_le _⟩
        · rw [if_neg hm, if_neg hm]
          refine ih _ ?_
          show (s.p.usb_rx_cmd_counter + 1) % U8 ≤ 3
          simp only [U8]
          omega

theorem usb_rx_cmd_checked_eq (s : State X) (h : s.p.usb_rx_cmd_counter ≤ 3) :
    usb_rx_cmd_checked s = some (usb_rx_cmd s) ∧
    (usb_rx_cmd s).2.p.usb_rx_cmd_counter ≤ 3 :=
  usb_rx_cmd_loop_checked_eq _ s h

theorem usb_rx_word_keeps (s : State X) :
    (usb_rx_word s).2.p.rx_counter = s.p.rx_counter ∧
    (usb_rx_word s).2.p.rx_state = s.p.rx_state := by
  obtain ⟨c, b, rx, h⟩ := usb_rx_word_frame s
  rw [h]
  exact ⟨rfl, rfl⟩

theorem rx_args_loop_checked_eq : ∀ (n : Nat) (s : State X),
    s.p.rx_counter ≤ 1 → s.p.rx_state = RxState.args →
    rx_args_loop_checked n s = some (rx_args_loop n s) ∧
    ((rx_args_loop n s).p.rx_state = RxState.args → (rx_args_loop n s).p.rx_counter ≤ 1) := by
  intro n
  induction n with
  | zero =>
    intro s h _
    have h2 : s.p.rx_counter < 2 := by omega
    simp only [rx_args_loop_checked, rx_args_loop, if_pos h2]
    exact ⟨trivial, fun _ => h⟩
  | succ n ih =>
    intro s h hst
    have h2 : s.p.rx_counter < 2 := by omega
    simp only [rx_args_loop_checked, rx_args_loop, if_pos h2]
    obtain ⟨k1, k2⟩ := usb_rx_word_keeps s
    rcases hw : usb_rx_word s with ⟨_ | word, s1⟩
    · rw [hw] at k1
      simp only at k1 ⊢
      exact ⟨trivial, fun _ => by rw [k1]; exact h⟩
    · rw [hw] at k1 k2
      simp only at k1 k2 ⊢
      have hc : (set_rx_arg s1.p word).rx_counter = s1.p.rx_counter := by
        unfold set_rx_arg
        split_ifs <;> rfl
      have hs : (set_rx_arg s1.p word).rx_state = s1.p.rx_state := by
        unfold set_rx_arg
        split_ifs <;> rfl
      by_cases hh : ((set_rx_arg s1.p word).rx_counter + 1) % U8 = 2
      · simp only [hh, if_true]
        exact ⟨trivial, fun h => by cases h⟩
      · simp only [hh, if_false]
        refine ih _ ?_ ?_
        · show ((set_rx_arg s1.p word).rx_counter + 1) % U8 ≤ 1
          rw [hc, k1] at hh ⊢
          simp only [U8] at hh ⊢
          omega
        · show (set_rx_arg s1.p word).rx_state = RxState.args
          rw [hs, k2, hst]

theorem rx_data_v_len (env : Env X) (s : State X) : RxLen s (rx_data_v env s) := by
  unfold rx_data_v
  simp only [RxLen, State.respond, State.setInfo, State.call, State.emit, State.setExt,
    State.setArgs, TxInfo.lenOk, dma_start, timer_set, usb_dma_ready]
  try split_ifs
  all_goals simp

theorem rx_data_V_len (env : Env X) (s : State X) : RxLen s (rx_data_V env s) := by
  unfold rx_data_V
  simp only [RxLen, State.respond, State.setInfo, State.call, State.emit, State.setExt,
    State.setArgs, TxInfo.lenOk, dma_start, timer_set, usb_dma_ready]
  try split_ifs
  all_goals simp

theorem rx_data_R_len (env : Env X) (s : State X) : RxLen s (rx_data_R env s) := by
  unfold rx_data_R
  simp only [RxLen, State.respond, State.setInfo, State.call, State.emit, State.setExt,
    State.setArgs, TxInfo.lenOk, dma_start, timer_set, usb_dma_ready]
  try split_ifs
  all_goals simp

theorem rx_data_B_len (env : Env X) (s : State X) : RxLen s (rx_data_B env s) := by
  unfold rx_data_B
  simp only [RxLen, State.respond, State.setInfo, State.call, State.emit, State.setExt,
    State.setArgs, TxInfo.lenOk, dma_start, timer_set, usb_dma_ready]
  try split_ifs
  all_goals simp

theorem rx_data_c_len (env : Env X) (s : State X) : RxLen s (rx_data_c env s) := by
  unfold rx_data_c
  simp only [RxLen, State.respond, State.setInfo, State.call, State.emit, State.setExt,
    State.setArgs, TxInfo.lenOk, dma_start, timer_set, usb_dma_ready]
  try split_ifs
  all_goals simp

theorem rx_data_C_len (env : Env X) (s : State X) : RxLen s (rx_data_C env s) := by
  unfold rx_data_C
  simp only [RxLen, State.respond, State.setInfo, State.call, State.emit, State.setExt,
    State.setArgs, TxInfo.lenOk, dma_start, timer_set, usb_dma_ready]
  try split_ifs
  all_goals simp

theorem rx_data_a_len (env : Env X) (s : State X) : RxLen s (rx_data_a env s) := by
  unfold rx_data_a
  simp only [RxLen, State.respond, State.setInfo, State.call, State.emit, State.setExt,
    State.setArgs, TxInfo.lenOk, dma_start, timer_set, usb_dma_ready]
  try split_ifs
  all_goals simp

theorem rx_data_A_len (env : Env X) (s : State X) : RxLen s (rx_data_A env s) := by
  unfold rx_data_A
  simp only [RxLen, State.respond, State.setInfo, State.call, State.emit, State.setExt,
    State.setArgs, TxInfo.lenOk, dma_start, timer_set, usb_dma_ready]
  try split_ifs
  all_goals simp

theorem rx_data_t_len (env : Env X) (s : State X) : RxLen s (rx_data_t env s) := by
  unfold rx_data_t
  simp only [RxLen, State.respond, State.setInfo, State.call, State.emit, State.setExt,
    State.setArgs, TxInfo.lenOk, dma_start, timer_set, usb_dma_ready]
  try split_ifs
  all_goals simp

theorem rx_data_T_len (env : Env X) (s : State X) : RxLen s (rx_data_T env s) := by
  unfold rx_data_T
  simp only [RxLen, State.respond, State.setInfo, State.call, State.emit, State.setExt,
    State.setArgs, TxInfo.lenOk, dma_start, timer_set, usb_dma_ready]
  try split_ifs
  all_goals simp

theorem rx_data_D_len (env : Env X) (s : State X) : RxLen s (rx_data_D env s) := by
  unfold rx_data_D
  simp only [RxLen, State.respond, State.setInfo, State.call, State.emit, State.setExt,
    State.setArgs, TxInfo.lenOk, dma_start, timer_set, usb_dma_ready]
  try split_ifs
  all_goals simp

theorem rx_data_W_len (env : Env X) (s : State X) : RxLen s (rx_data_W env s) := by
  unfold rx_data_W
  simp only [RxLen, State.respond, State.setInfo, State.call, State.emit, State.setExt,
    State.setArgs, TxInfo.lenOk, dma_start, timer_set, usb_dma_ready]
  try split_ifs
  all_goals simp

theorem rx_data_p_len (env : Env X) (s : State X) : RxLen s (rx_data_p env s) := by
  unfold rx_data_p
  simp only [RxLen, State.respond, State.setInfo, State.call, State.emit, State.setExt,
    State.setArgs, TxInfo.lenOk, dma_start, timer_set, usb_dma_ready]
  try split_ifs
  all_goals simp

theorem rx_data_P_len (env : Env X) (s : State X) : RxLen s (rx_data_P env s) := by
  unfold rx_data_P
  simp only [RxLen, State.respond, State.setInfo, State.call, State.emit, State.setExt,
    State.setArgs, TxInfo.lenOk, dma_start, timer_set, usb_dma_ready]
  try split_ifs
  all_goals simp

theorem rx_data_f_len (env : Env X) (s : State X) : RxLen s (rx_data_f env s) := by
  unfold rx_data_f
  simp only [RxLen, State.respond, State.setInfo, State.call, State.emit, State.setExt,
    State.setArgs, TxInfo.lenOk, dma_start, timer_set, usb_dma_ready]
  try split_ifs
  all_goals simp

theorem rx_data_F_len (env : Env X) (s : State X) : RxLen s (rx_data_F env s) := by
  unfold rx_data_F
  simp only [RxLen, State.respond, State.setInfo, State.call, State.emit, State.setExt,
    State.setArgs, TxInfo.lenOk, dma_start, timer_set, usb_dma_ready]
  try split_ifs
  all_goals simp

theorem rx_data_stack_len (env : Env X) (s : State X) : RxLen s (rx_data_stack env s) := by
  unfold rx_data_stack
  simp only [RxLen, State.respond, State.setInfo, State.call, State.emit, State.setExt,
    State.setArgs, TxInfo.lenOk, dma_start, timer_set, usb_dma_ready]
  try split_ifs
  all_goals simp

theorem rx_data_m_len (s : State X) : RxLen s (rx_data_m s) := by
  unfold rx_data_m
  simp only [RxLen, State.respond, State.setInfo, State.call, State.emit, State.setExt,
    State.setArgs, TxInfo.lenOk, dma_start, timer_set, usb_dma_ready]
  try split_ifs
  all_goals simp

theorem rx_data_M_len (s : State X) : RxLen s (rx_data_M s) := by
  unfold rx_data_M
  simp only [RxLen, State.respond, State.setInfo, State.call, State.emit, State.setExt,
    State.setArgs, TxInfo.lenOk, dma_start, timer_set, usb_dma_ready]
  try split_ifs
  all_goals simp

theorem rx_data_U_len (s : State X) : RxLen s (rx_data_U s) := by
  unfold rx_data_U
  simp only [RxLen, State.respond, State.setInfo, State.call, State.emit, State.setExt,
    State.setArgs, TxInfo.lenOk, dma_start, timer_set, usb_dma_ready]
  try split_ifs
  all_goals simp

theorem rx_data_debug_len (s : State X) : RxLen s (rx_data_debug s) := by
  unfold rx_data_debug
  simp only [RxLen, State.respond, State.setInfo, State.call, State.emit, State.setExt,
    State.setArgs, TxInfo.lenOk, dma_start, timer_set, usb_dma_ready]
  try split_ifs
  all_goals simp

theorem rx_data_default_len (s : State X) : RxLen s (rx_data_default s) := by
  unfold rx_data_default
  simp only [RxLen, State.respond, State.setInfo, State.call, State.emit, State.setExt,
    State.setArgs, TxInfo.lenOk, dma_start, timer_set, usb_dma_ready]
  try split_ifs
  all_goals simp

theorem rx_data_len (env : Env X) (s : State X) : RxLen s (rx_data env s) := by
  unfold rx_data
  by_cases h0 : s.p.rx_cmd = 118
  · rw [if_pos h0]; exact rx_data_v_len env s
  rw [if_neg h0]
  by_cases h1 : s.p.rx_cmd = 86
  · rw [if_pos h1]; exact rx_data_V_len env s
  rw [if_neg h1]
  by_cases h2 : s.p.rx_cmd = 82
  · rw [if_pos h2]; exact rx_data_R_len env s
  rw [if_neg h2]
  by_cases h3 : s.p.rx_cmd = 66
  · rw [if_pos h3]; exact rx_data_B_len env s
  rw [if_neg h3]
  by_cases h4 : s.p.rx_cmd = 99
  · rw [if_pos h4]; exact rx_data_c_len env s
  rw [if_neg h4]
  by_cases h5 : s.p.rx_cmd = 67
  · rw [if_pos h5]; exact rx_data_C_len env s
  rw [if_neg h5]
  by_cases h6 : s.p.rx_cmd = 97
  · rw [if_pos h6]; exact rx_data_a_len env s
  rw [if_neg h6]
  by_cases h7 : s.p.rx_cmd = 65
  · rw [if_pos h7]; exact rx_data_A_len env s
  rw [if_neg h7]
  by_cases h8 : s.p.rx_cmd = 116
  · rw [if_pos h8]; exact rx_data_t_len env s
  rw [if_neg h8]
  by_cases h9 : s.p.rx_cmd = 84
  · rw [if_pos h9]; exact rx_data_T_len env s
  rw [if_neg h9]
  by_cases h10 : s.p.rx_cmd = 109
  · rw [if_pos h10]; exact rx_data_m_len s
  rw [if_neg h10]
  by_cases h11 : s.p.rx_cmd = 77
  · rw [if_pos h11]; exact rx_data_M_len s
  rw [if_neg h11]
  by_cases h12 : s.p.rx_cmd = 85
  · rw [if_pos h12]; exact rx_data_U_len s
  rw [if_neg h12]
  by_cases h13 : s.p.rx_cmd = 68
  · rw [if_pos h13]; exact rx_data_D_len env s
  rw [if_neg h13]
  by_cases h14 : s.p.rx_cmd = 87
  · rw [if_pos h14]; exact rx_data_W_len env s
  rw [if_neg h14]
  by_cases h15 : s.p.rx_cmd = 112
  · rw [if_pos h15]; exact rx_data_p_len env s
  rw [if_neg h15]
  by_cases h16 : s.p.rx_cmd = 80
  · rw [if_pos h16]; exact rx_data_P_len env s
  rw [if_neg h16]
  by_cases h17 : s.p.rx_cmd = 102
  · rw [if_pos h17]; exact rx_data_f_len env s
  rw [if_neg h17]
  by_cases h18 : s.p.rx_cmd = 70
  · rw [if_pos h18]; exact rx_data_F_len env s
  rw [if_neg h18]
  by_cases h19 : s.p.rx_cmd = 63
  · rw [if_pos h19]; exact rx_data_debug_len s
  rw [if_neg h19]
  by_cases h20 : s.p.rx_cmd = 37
  · rw [if_pos h20]; exact rx_data_stack_len env s
  rw [if_neg h20]
  exact rx_data_default_len s

theorem rx_data_wf (env : Env X) (s : State X) (h : RxWf s.p)
    (hd : s.p.rx_state = RxState.data) : RxWf (rx_data env s).p := by
  obtain ⟨h1, h2, -, h4⟩ := h
  obtain ⟨l1, l2, l3, l4, l5⟩ := rx_data_len env s
  refine ⟨fun _ => l1 (h1 (Or.inr (by rw [hd]; decide))), ?_, ?_, ?_⟩
  · rw [l2, l3]
    exact h2
  · intro ha
    rw [hd] at l5
    rcases l5 with l5 | l5 | l5 <;> rw [l5] at ha <;> cases ha
  · rw [l4]
    exact h4

theorem usb_create_packet_lenOk (cmd : Nat) : (usb_create_packet cmd).lenOk :=
  ⟨rfl, Nat.zero_le _⟩

theorem rx_flush_wf (env : Env X) (s : State X) (h : RxWf s.p)
    (hf : s.p.rx_state = RxState.flush) : RxWf (rx_flush env s).p := by
  obtain ⟨h1, h2, h3, h4⟩ := h
  have hl := h1 (Or.inr (by rw [hf]; decide))
  have hc := usb_create_packet_lenOk env.PACKET_CMD_DATA_FLUSHED
  unfold rx_flush
  by_cases hr : usb_dma_ready s = true
  · rw [if_pos hr]
    by_cases ha : s.p.rx_args1 ≠ 0
    · rw [if_pos ha]
      exact ⟨fun _ => hl, h2, fun ha => absurd (show RxState.flush = RxState.args from hf.symm.trans ha) (by decide), h4⟩
    · rw [if_neg ha]
      by_cases hfr : s.p.flush_response = true
      · rw [if_pos hfr]
        exact ⟨fun _ => hl, h2, fun ha => absurd (show RxState.idle = RxState.args from ha) (by decide), h4⟩
      · rw [if_neg hfr]
        by_cases hfp : s.p.flush_packet = true
        · rw [if_pos hfp]
          unfold usb_enqueue_packet
          by_cases hpp : s.p.packet_pending = true
          · rw [if_pos hpp]
            exact ⟨h1, h2, h3, h4⟩
          · rw [if_neg hpp, if_pos rfl]
            exact ⟨fun _ => hl, fun _ => hc, fun ha => absurd (show RxState.idle = RxState.args from ha) (by decide), h4⟩
        · rw [if_neg hfp]
          exact ⟨fun _ => hl, h2, fun ha => absurd (show RxState.idle = RxState.args from ha) (by decide), h4⟩
  · rw [if_neg hr]
    exact ⟨h1, h2, h3, h4⟩

theorem rx_idle_wf (s : State X) (h : RxWf s.p) :
    rx_idle_checked s = some (rx_idle s) ∧ RxWf (rx_idle s).p := by
  obtain ⟨h1, h2, h3, h4⟩ := h
  unfold rx_idle_checked rx_idle
  by_cases hp : s.p.response_pending = true
  · rw [if_pos hp, if_pos hp]
    exact ⟨rfl, h1, h2, h3, h4⟩
  · rw [if_neg hp, if_neg hp]
    obtain ⟨e, le3⟩ := usb_rx_cmd_checked_eq s h4
    obtain ⟨c, rx, hfr⟩ := usb_rx_cmd_frame s
    rw [e]
    rcases hcmd : usb_rx_cmd s with ⟨_ | cmd, s1⟩
    · rw [hcmd] at hfr le3
      simp only at hfr le3 ⊢
      refine ⟨trivial, ?_⟩
      rw [hfr] at le3 ⊢
      exact ⟨h1, h2, h3, le3⟩
    · rw [hcmd] at hfr le3
      simp only at hfr le3 ⊢
      refine ⟨trivial, ?_⟩
      have hpk : s1.p.packet_pending = s.p.packet_pending ∧
          s1.p.packet_info = s.p.packet_info := by
        rw [hfr]
        exact ⟨rfl, rfl⟩
      split_ifs
      all_goals
        refine ⟨fun _ => ⟨rfl, Nat.zero_le _⟩, ?_, fun _ => Nat.zero_le _, le3⟩
        show s1.p.packet_pending = true → s1.p.packet_info.lenOk
        rw [hpk.1, hpk.2]
        exact h2

theorem rx_args_wf (s : State X) (h : RxWf s.p) (ha : s.p.rx_state = RxState.args) :
    rx_args_checked s = some (rx_args s) ∧ RxWf (rx_args s).p := by
  obtain ⟨h1, h2, h3, h4⟩ := h
  obtain ⟨e, hb⟩ := rx_args_loop_checked_eq s.w.rx.length s (h3 ha) ha
  refine ⟨e, ?_⟩
  have hl := h1 (Or.inr (by rw [ha]; decide))
  unfold rx_args at *
  obtain ⟨st, cnt, a0, a1, c, b, rx, hfr, -⟩ := rx_args_loop_frame s.w.rx.length s
  rw [hfr] at hb ⊢
  exact ⟨fun _ => hl, h2, hb, h4⟩

theorem usb_rx_process_wf (env : Env X) (s : State X) (h : RxWf s.p) :
    usb_rx_process_checked env s = some (usb_rx_process env s) ∧
    RxWf (usb_rx_process env s).p := by
  have e1 : (if s.p.rx_state = RxState.idle then rx_idle_checked s else some s) =
      some (if s.p.rx_state = RxState.idle then rx_idle s else s) ∧
      RxWf (if s.p.rx_state = RxState.idle then rx_idle s else s).p := by
    split_ifs with hi
    · exact rx_idle_wf s h
    · exact ⟨rfl, h⟩
  have e2 : ∀ t : State X, RxWf t.p →
      (if t.p.rx_state = RxState.args then rx_args_checked t else some t) =
        some (if t.p.rx_state = RxState.args then rx_args t else t) ∧
      RxWf (if t.p.rx_state = RxState.args then rx_args t else t).p := by
    intro t ht
    split_ifs with ha
    · exact rx_args_wf t ht ha
    · exact ⟨rfl, ht⟩
  have e3 : ∀ t : State X, RxWf t.p →
      RxWf (if t.p.rx_state = RxState.data then rx_data env t else t).p := by
    intro t ht
    split_ifs with hd
    · exact rx_data_wf env t ht hd
    · exact ht
  have e4 : ∀ t : State X, RxWf t.p →
      RxWf (if t.p.rx_state = RxState.flush then rx_flush env t else t).p := by
    intro t ht
    split_ifs with hf
    · exact rx_flush_wf env t ht hf
    · exact ht
  obtain ⟨a1, b1⟩ := e1
  obtain ⟨a2, b2⟩ := e2 _ b1
  refine ⟨?_, e4 _ (e3 _ b2)⟩
  unfold usb_rx_process_checked usb_rx_process
  rw [a1, Option.some_bind, a2, Option.some_bind]

theorem tx_token_checked_eq (s : State X) (hc : s.p.usb_tx_word_counter ≤ 3) :
    tx_token_checked s = some (tx_token s) := by
  have step1 : (if s.p.tx_counter = 0 then
        match usb_tx_word_checked (s.p.tx_token ||| s.p.tx_info.cmd) s with
        | none => none
        | some (true, s0) =>
          some { s0 with p := { s0.p with tx_counter := (s0.p.tx_counter + 1) % U8 } }
        | some (false, s0) => some s0
      else some s) =
      some (if s.p.tx_counter = 0 then
        match usb_tx_word (s.p.tx_token ||| s.p.tx_info.cmd) s with
        | (true, s0) => { s0 with p := { s0.p with tx_counter := (s0.p.tx_counter + 1) % U8 } }
        | (false, s0) => s0
      else s) ∧
      (if s.p.tx_counter = 0 then
        match usb_tx_word (s.p.tx_token ||| s.p.tx_info.cmd) s with
        | (true, s0) => { s0 with p := { s0.p with tx_counter := (s0.p.tx_counter + 1) % U8 } }
        | (false, s0) => s0
      else s).p.usb_tx_word_counter ≤ 3 := by
    by_cases h0 : s.p.tx_counter = 0
    · rw [if_pos h0, if_pos h0]
      obtain ⟨e, le3⟩ := usb_tx_word_checked_eq (s.p.tx_token ||| s.p.tx_info.cmd) s hc
      rw [e]
      rcases hw : usb_tx_word (s.p.tx_token ||| s.p.tx_info.cmd) s with ⟨_ | _, s0⟩
      · rw [hw] at le3
        exact ⟨rfl, le3⟩
      · rw [hw] at le3
        exact ⟨rfl, le3⟩
    · rw [if_neg h0, if_neg h0]
      exact ⟨rfl, hc⟩
  have step2 : ∀ s1 : State X, s1.p.usb_tx_word_counter ≤ 3 →
      (if s1.p.tx_counter = 1 then
        match usb_tx_word_checked
            ((s1.p.tx_info.data_length + s1.p.tx_info.dma_length) % U32) s1 with
        | none => none
        | some (true, s2) =>
          some { s2 with p := { s2.p with tx_state := TxState.data, tx_counter := 0 } }
        | some (false, s2) => some s2
      else some s1) =
      some (if s1.p.tx_counter = 1 then
        match usb_tx_word ((s1.p.tx_info.data_length + s1.p.tx_info.dma_length) % U32) s1 with
        | (true, s2) => { s2 with p := { s2.p with tx_state := TxState.data, tx_counter := 0 } }
        | (false, s2) => s2
      else s1) := by
    intro s1 h1
    by_cases h0 : s1.p.tx_counter = 1
    · rw [if_pos h0, if_pos h0]
      obtain ⟨e, -⟩ := usb_tx_word_checked_eq
        ((s1.p.tx_info.data_length + s1.p.tx_info.dma_length) % U32) s1 h1
      rw [e]
      rcases usb_tx_word ((s1.p.tx_info.data_length + s1.p.tx_info.dma_length) % U32) s1
        with ⟨_ | _, s0⟩ <;> rfl
    · rw [if_neg h0, if_neg h0]
  unfold tx_token_checked tx_token
  rw [step1.1, Option.some_bind]
  exact step2 _ step1.2

theorem usb_tx_word_keeps (data : Nat) (s : State X) :
    (usb_tx_word data s).2.p.tx_state = s.p.tx_state ∧
    (usb_tx_word data s).2.p.tx_counter = s.p.tx_counter ∧
    (usb_tx_word data s).2.p.tx_info = s.p.tx_info := by
  obtain ⟨c, sp, bytes, h⟩ := usb_tx_word_frame data s
  rw [h]
  exact ⟨rfl, rfl, rfl⟩

theorem tx_data_loop_checked_eq : ∀ (n : Nat) (s : State X),
    s.p.usb_tx_word_counter ≤ 3 → s.p.tx_info.data_length ≤ 16 →
    s.p.tx_counter < s.p.tx_info.data_length / 4 →
    tx_data_loop_checked n s = some (tx_data_loop n s) := by
  intro n
  induction n with
  | zero =>
    intro s hc hl hlt
    have h4 : s.p.tx_counter < 4 ∧ s.p.usb_tx_word_counter ≤ 3 := ⟨by omega, hc⟩
    simp only [tx_data_loop_checked, tx_data_loop, if_pos h4]
  | succ n ih =>
    intro s hc hl hlt
    have h4 : s.p.tx_counter < 4 := by omega
    simp only [tx_data_loop_checked, tx_data_loop, if_pos h4]
    obtain ⟨e, le3⟩ := usb_tx_word_checked_eq (s.p.tx_info.data s.p.tx_counter) s hc
    obtain ⟨-, k2, k3⟩ := usb_tx_word_keeps (s.p.tx_info.data s.p.tx_counter) s
    rw [e]
    rcases hw : usb_tx_word (s.p.tx_info.data s.p.tx_counter) s with ⟨_ | _, s1⟩
    · rfl
    · rw [hw] at le3 k2 k3
      simp only at le3 k2 k3 ⊢
      by_cases hh : (s1.p.tx_counter + 1) % U8 = s1.p.tx_info.data_length / 4
      · rw [if_pos hh, if_pos hh]
      · rw [if_neg hh, if_neg hh]
        refine ih _ le3 (by show s1.p.tx_info.data_length ≤ 16; rw [k3]; exact hl) ?_
        show (s1.p.tx_counter + 1) % U8 < s1.p.tx_info.data_length / 4
        rw [k2, k3] at hh ⊢
        simp only [U8] at hh ⊢
        omega

theorem tx_data_checked_eq (s : State X) (hwf : TxWf s.p) (hst : s.p.tx_state = TxState.data) :
    tx_data_checked s = some (tx_data s) := by
  obtain ⟨w1, -, w3, -, w5, -, -⟩ := hwf
  unfold tx_data_checked tx_data
  by_cases h0 : s.p.tx_info.data_length > 0
  · rw [if_pos h0, if_pos h0]
    have hl := (w3 (by rw [hst]; decide)).2
    rcases w5 hst with ⟨hz, -⟩ | hlt
    · omega
    · exact tx_data_loop_checked_eq _ s w1 hl hlt
  · rw [if_neg h0, if_neg h0]

theorem tx_idle_wf (s : State X) (hwf : TxWf s.p) (hrx : RxWf s.p)
    (hi : s.p.tx_state = TxState.idle) : TxWf (tx_idle s).p := by
  have hc : s.p.usb_tx_word_counter = 0 := hwf.2.1 hi
  by_cases hp : s.p.response_pending = true
  · exact (tx_idle_response s hc hp (hrx.1 (Or.inl hp))).2.1
  · have hp0 : s.p.response_pending = false := by simpa using hp
    by_cases hq : s.p.packet_pending = true
    · exact (tx_idle_packet s hc hp0 hq (hrx.2.1 hq)).2.1
    · have e : tx_idle s = s := by
        unfold tx_idle
        rw [if_neg hp, if_neg hq]
      rw [e]
      exact hwf

theorem txFrame_rxWf {s s1 : State X} (hf : TxFrame s s1) (h : RxWf s.p) : RxWf s1.p := by
  obtain ⟨ts, tc, ti, tt, tdr, rp, pp, c, sp, busy, evs, ext, hf, hrp, hpp, -⟩ := hf
  obtain ⟨h1, h2, h3, h4⟩ := h
  rw [hf]
  refine ⟨fun hh => ?_, fun hh => h2 (hpp hh), h3, h4⟩
  rcases hh with hh | hh
  · exact h1 (Or.inl (hrp hh))
  · exact h1 (Or.inr hh)

theorem usb_tx_process_wf (env : Env X) (s : State X) (hwf : TxWf s.p) (hrx : RxWf s.p) :
    usb_tx_process_checked env s = some (usb_tx_process env s) ∧
    TxWf (usb_tx_process env s).p ∧ RxWf (usb_tx_process env s).p := by
  have w1 : TxWf (if s.p.tx_state = TxState.idle then tx_idle s else s).p := by
    split_ifs with hi
    · exact tx_idle_wf s hwf hrx hi
    · exact hwf
  have e2 : ∀ t : State X, TxWf t.p →
      (if t.p.tx_state = TxState.token then tx_token_checked t else some t) =
        some (if t.p.tx_state = TxState.token then tx_token t else t) ∧
      TxWf (if t.p.tx_state = TxState.token then tx_token t else t).p := by
    intro t ht
    split_ifs with hh
    · exact ⟨tx_token_checked_eq t ht.1, (tx_token_step t ht hh).1⟩
    · exact ⟨rfl, ht⟩
  have e3 : ∀ t : State X, TxWf t.p →
      (if t.p.tx_state = TxState.data then tx_data_checked t else some t) =
        some (if t.p.tx_state = TxState.data then tx_data t else t) ∧
      TxWf (if t.p.tx_state = TxState.data then tx_data t else t).p := by
    intro t ht
    split_ifs with hh
    · exact ⟨tx_data_checked_eq t ht hh, (tx_data_step t ht hh).1⟩
    · exact ⟨rfl, ht⟩
  have e4 : ∀ t : State X, TxWf t.p →
      TxWf (if t.p.tx_state = TxState.dma then tx_dma t else t).p := by
    intro t ht
    split_ifs with hh
    · exact (tx_dma_step t ht hh).1
    · exact ht
  have e5 : ∀ t : State X, TxWf t.p →
      TxWf (if t.p.tx_state = TxState.flush then tx_flush env t else t).p := by
    intro t ht
    split_ifs with hh
    · exact (tx_flush_step env t ht hh).1
    · exact ht
  obtain ⟨a2, b2⟩ := e2 _ w1
  obtain ⟨a3, b3⟩ := e3 _ b2
  refine ⟨?_, e5 _ (e4 _ b3), txFrame_rxWf (usb_tx_process_frame env s) hrx⟩
  unfold usb_tx_process_checked usb_tx_process
  simp only []
  rw [a2, Option.some_bind, a3, Option.some_bind]

theorem rxFrame_txWf {s s1 : State X} (hf : RxFrame s s1) (h : TxWf s.p) : TxWf s1.p := by
  obtain ⟨f1, f2, f3, -, -, f6, -⟩ := hf
  unfold TxWf at h ⊢
  rw [f1, f2, f3, f6]
  exact h

theorem usb_init_wf (s0 : State X) : TxWf (usb_init s0).p ∧ RxWf (usb_init s0).p := by
  refine ⟨⟨Nat.zero_le _, fun _ => rfl, fun h => absurd rfl h, ?_, ?_, ?_, ?_⟩,
    ⟨?_, ?_, ?_, Nat.zero_le _⟩⟩
  · intro h
    exact absurd (show TxState.idle = TxState.token from h) (by decide)
  · intro h
    exact absurd (show TxState.idle = TxState.data from h) (by decide)
  · intro _
    rfl
  · intro _
    rfl
  · intro h
    rcases h with h | h
    · exact absurd (show false = true from h) (by decide)
    · exact absurd rfl h
  · intro h
    exact absurd (show false = true from h) (by decide)
  · intro h
    exact absurd (show RxState.idle = RxState.args from h) (by decide)

theorem usb_process_wf (env : Env X) (s : State X) (hwf : TxWf s.p) (hrx : RxWf s.p) :
    usb_process_checked env s = some (usb_process env s) ∧
    TxWf (usb_process env s).p ∧ RxWf (usb_process env s).p := by
  rcases link_up_or_down s.w with hup | hdown
  · have hc : (s.w.scr_pwrsav || s.w.scr_reset_state || s.w.scr_reset_pending) = false := by
      obtain ⟨a, b, c⟩ := hup
      rw [a, b, c]
      rfl
    obtain ⟨e1, r1⟩ := usb_rx_process_wf env s hrx
    have t1 := rxFrame_txWf (usb_rx_process_block env s).1 hwf
    obtain ⟨e2, t2, r2⟩ := usb_tx_process_wf env (usb_rx_process env s) t1 r1
    rw [usb_process_link_up env s hup]
    refine ⟨?_, t2, r2⟩
    unfold usb_process_checked
    rw [hc, e1, Option.some_bind, e2]
    rfl
  · have hc : (s.w.scr_pwrsav || s.w.scr_reset_state || s.w.scr_reset_pending) = true := by
      rcases hdown with a | a | a <;> rw [a] <;> simp
    refine ⟨by unfold usb_process_checked; rw [hc]; rfl, ?_⟩
    by_cases hp : s.w.scr_reset_pending = true
    · rw [usb_process_reset_pending env s hp]
      refine ⟨⟨Nat.zero_le _, fun _ => rfl, fun h => absurd rfl h, ?_, ?_, fun _ => rfl,
        fun _ => rfl⟩, ⟨?_, ?_, ?_, Nat.zero_le _⟩⟩
      · intro h
        exact absurd (show TxState.idle = TxState.token from h) (by decide)
      · intro h
        exact absurd (show TxState.idle = TxState.data from h) (by decide)
      · intro h
        rcases h with h | h
        · exact absurd (show false = true from h) (by decide)
        · exact absurd rfl h
      · intro h
        exact absurd (show false = true from h) (by decide)
      · intro h
        exact absurd (show RxState.idle = RxState.args from h) (by decide)
    · have hp0 : s.w.scr_reset_pending = false := by simpa using hp
      rw [usb_process_link_paused env s hdown hp0]
      obtain ⟨h1, h2, h3, h4⟩ := hrx
      refine ⟨hwf, h1, fun h => h2 ?_, h3, h4⟩
      have h5 : (s.p.packet_pending && s.p.packet_info.done_callback.isNone) = true := h
      rw [Bool.and_eq_true] at h5
      exact h5.1

theorem reachableAligned_wf (env : Env X) (s : State X) (h : ReachableAligned env s) :
    TxWf s.p ∧ RxWf s.p := by
  induction h with
  | init s0 => exact usb_init_wf s0
  | tick _ ih => exact (usb_process_wf env _ ih.1 ih.2).2
  | prepare_read address length _ ih =>
    obtain ⟨t, r⟩ := ih
    unfold usb_prepare_read
    split_ifs
    · exact ⟨t, r⟩
    · exact ⟨t, r⟩
  | enqueue_packet info hl _ ih =>
    obtain ⟨t, r⟩ := ih
    unfold usb_enqueue_packet
    split_ifs
    · exact ⟨t, r⟩
    · exact ⟨t, r.1, fun _ => hl, r.2.2.1, r.2.2.2⟩
  | hardware w _ _ ih => exact ih

/-- C18: in every state reachable from `usb_init` by `usb_process` ticks,
`usb_prepare_read` calls and `usb_enqueue_packet` calls with an inline length
of 0, 4, 8, 12 or 16, the inline length of a pending response, of a pending
notification and of the frame in transmission is a multiple of 4 and at most
16.  In the Data state of the transmit machine with inline data, `tx_counter`
is below `data_length / 4`, which is at most 4; in the Args state `rx_counter`
is below 2; the scanner position is at most 3, so below 3 whenever `CMD_TOKEN`
is indexed; the cursor of `usb_tx_word` is below 4, so the shift amount is 0,
8, 16 or 24.  The next tick, run with every index into `data`, `rx_args` and
`CMD_TOKEN` and every shift amount checked at each evaluation, returns its
result without a fault. -/
theorem c18_inline_length_bounds (env : Env X) (s : State X)
    (h : ReachableAligned env s) :
    (s.p.response_pending = true → s.p.response_info.lenOk) ∧
    (s.p.packet_pending = true → s.p.packet_info.lenOk) ∧
    (s.p.tx_state ≠ TxState.idle → s.p.tx_info.lenOk) ∧
    (s.p.tx_state = TxState.data → 0 < s.p.tx_info.data_length →
      s.p.tx_counter < s.p.tx_info.data_length / 4 ∧ s.p.tx_info.data_length / 4 ≤ 4) ∧
    (s.p.rx_state = RxState.args → s.p.rx_counter < 2) ∧
    (s.p.usb_rx_cmd_counter ≠ 3 → s.p.usb_rx_cmd_counter < 3) ∧
    s.p.usb_tx_word_counter < 4 ∧
    (3 - s.p.usb_tx_word_counter) * 8 ∈ [0, 8, 16, 24] ∧
    usb_process_checked env s = some (usb_process env s) := by
  obtain ⟨t, r⟩ := reachableAligned_wf env s h
  have hchk := (usb_process_wf env s t r).1
  obtain ⟨t1, -, t3, -, t5, -, -⟩ := t
  obtain ⟨r1, r2, r3, r4⟩ := r
  refine ⟨fun hp => r1 (Or.inl hp), r2, t3, fun hd hpos => ?_, fun ha => ?_, fun hne => ?_,
    by omega, ?_, hchk⟩
  · have hl := (t3 (by rw [hd]; decide)).2
    rcases t5 hd with ⟨hz, -⟩ | hlt
    · omega
    · exact ⟨hlt, by omega⟩
  · have := r3 ha
    omega
  · omega
  · have h3 : s.p.usb_tx_word_counter = 0 ∨ s.p.usb_tx_word_counter = 1 ∨
        s.p.usb_tx_word_counter = 2 ∨ s.p.usb_tx_word_counter = 3 := by omega
    rcases h3 with h3 | h3 | h3 | h3 <;> rw [h3] <;> decide

/-- Witness for C18: after `usb_init` at program start a notification with one
inline word is queued and one tick runs; the state reached keeps the
notification with a sound inline length, and the next tick runs without a
fault. -/
theorem c18_inline_length_bounds_witness :
    ReachableAligned Env.sample
      (usb_process Env.sample
        { usb_init State.identifierRequest with
          p := (usb_enqueue_packet TxInfo.sample (usb_init State.identifierRequest).p).2 }) ∧
    (usb_process Env.sample
        { usb_init State.identifierRequest with
          p := (usb_enqueue_packet TxInfo.sample
            (usb_init State.identifierRequest).p).2 }).p.packet_info.lenOk ∧
    usb_process_checked Env.sample
      (usb_process Env.sample
        { usb_init State.identifierRequest with
          p := (usb_enqueue_packet TxInfo.sample (usb_init State.identifierRequest).p).2 }) =
      some (usb_process Env.sample (usb_process Env.sample
        { usb_init State.identifierRequest with
          p := (usb_enqueue_packet TxInfo.sample
            (usb_init State.identifierRequest).p).2 })) :=
  have hr : ReachableAligned Env.sample
      (usb_process Env.sample
        { usb_init State.identifierRequest with
          p := (usb_enqueue_packet TxInfo.sample (usb_init State.identifierRequest).p).2 }) :=
    ReachableAligned.tick (ReachableAligned.enqueue_packet TxInfo.sample ⟨by decide, by decide⟩
      (ReachableAligned.init State.identifierRequest))
  ⟨hr, (c18_inline_length_bounds Env.sample _ hr).2.1 (by decide),
    (c18_inline_length_bounds Env.sample _ hr).2.2.2.2.2.2.2.2⟩

/-- The checks are effective: from the unreachable state whose cursor holds 4
the checked tick faults at the first shift. -/
theorem usb_process_checked_fault :
    (usb_process_checked Env.sample State.cursorOutOfRange).isNone = true := by
  decide

/-! ## Bootloader protection: whole calls -/

theorem usb_rx_process_data (env : Env X) (s : State X) (hd : s.p.rx_state = RxState.data) :
    usb_rx_process env s =
      if (rx_data env s).p.rx_state = RxState.flush then rx_flush env (rx_data env s)
      else rx_data env s := by
  simp [usb_rx_process, hd]

theorem rx_data_write (env : Env X) (s : State X) (hc : s.p.rx_cmd = 77) :
    rx_data env s = rx_data_M s := by
  simp [rx_data, hc]

theorem rx_data_erase (env : Env X) (s : State X) (hc : s.p.rx_cmd = 80) :
    rx_data env s = rx_data_P env s := by
  simp [rx_data, hc]

theorem burst_min (a : Nat) :
    (if a > RX_FLUSH_LENGTH then RX_FLUSH_LENGTH else a) = min a RX_FLUSH_LENGTH := by
  split_ifs with h
  · exact (Nat.min_eq_right (Nat.le_of_lt h)).symm
  · exact (Nat.min_eq_left (Nat.le_of_not_gt h)).symm

/-- One call of `usb_rx_process` in the Flush state writes nothing to
hardware, or starts one into-memory transfer to the scratch region. -/
theorem flush_call (env : Env X) (s : State X) (hf : s.p.rx_state = RxState.flush) :
    (usb_rx_process env s).w.trace = s.w.trace ∨
    ((usb_rx_process env s).w.trace = s.w.trace ++
        [Ev.reg_set_dma_address RX_FLUSH_ADDRESS,
         Ev.reg_set_dma_length (min s.p.rx_args1 RX_FLUSH_LENGTH),
         Ev.reg_set_dma_scr DmaScr.DIRECTION_START] ∧
      0 < s.p.rx_args1 ∧ (usb_rx_process env s).p.rx_state = RxState.flush) := by
  have e : usb_rx_process env s = rx_flush env s := by
    simp [usb_rx_process, hf]
  rw [e]
  unfold rx_flush
  by_cases hr : usb_dma_ready s = true
  · rw [if_pos hr]
    by_cases ha : s.p.rx_args1 ≠ 0
    · rw [if_pos ha, burst_min]
      right
      refine ⟨?_, Nat.pos_of_ne_zero ha, hf⟩
      simp [dma_start, State.emit]
    · rw [if_neg ha]
      left
      unfold usb_enqueue_packet
      split_ifs <;> rfl
  · rw [if_neg hr]
    exact Or.inl rfl

/-- One call of `usb_rx_process` in the Data state of opcode `'M'`. -/
theorem memory_write_call (env : Env X) (s : State X)
    (h0 : s.p.rx_args0 < U32) (h1 : s.p.rx_args1 < U32)
    (hd : s.p.rx_state = RxState.data) (hc : s.p.rx_cmd = 77) :
    (usb_rx_process env s).w.trace = s.w.trace ∨
    ((usb_rx_process env s).w.trace = s.w.trace ++
        [Ev.reg_set_dma_address s.p.rx_args0, Ev.reg_set_dma_length s.p.rx_args1,
         Ev.reg_set_dma_scr DmaScr.DIRECTION_START] ∧
      s.p.rx_args0 + s.p.rx_args1 ≤ 0x05002980 ∧
      ¬ (s.p.rx_args0 + s.p.rx_args1 > 0x04E00000 ∧ s.p.rx_args0 < 0x04FE0000)) ∨
    ((usb_rx_process env s).w.trace = s.w.trace ++
        [Ev.reg_set_dma_address RX_FLUSH_ADDRESS,
         Ev.reg_set_dma_length (min s.p.rx_args1 RX_FLUSH_LENGTH),
         Ev.reg_set_dma_scr DmaScr.DIRECTION_START] ∧
      ¬ (s.p.rx_args0 + s.p.rx_args1 ≤ 0x05002980 ∧
        ¬ (s.p.rx_args0 + s.p.rx_args1 > 0x04E00000 ∧ s.p.rx_args0 < 0x04FE0000)) ∧
      0 < s.p.rx_args1 ∧ (usb_rx_process env s).p.rx_state = RxState.flush) := by
  have hv := usb_validate_address_length_exact s.p.rx_args0 s.p.rx_args1 true h0 h1
  simp only [BOOTLOADER_ADDRESS, BOOTLOADER_LENGTH, MEMORY_LENGTH] at hv
  norm_num at hv
  rw [usb_rx_process_data env s hd, rx_data_write env s hc]
  unfold rx_data_M
  by_cases hr : usb_dma_ready s = true
  · rw [if_pos hr]
    by_cases hrun : (!s.p.rx_dma_running) = true
    · rw [if_pos hrun]
      cases hval : usb_validate_address_length s.p.rx_args0 s.p.rx_args1 true
      · have hcond := hv.1 hval
        simp only [Bool.false_eq_true, if_false]
        rw [if_neg (by simp [dma_start, State.emit, hd])]
        right
        left
        refine ⟨by simp [dma_start, State.emit], hcond.2.1, ?_⟩
        have := hcond.2.2
        omega
      · simp only [if_true]
        have hfl := flush_call env
          { s with p := { s.p with rx_state := RxState.flush, flush_response := true } } rfl
        have e : usb_rx_process env
            { s with p := { s.p with rx_state := RxState.flush, flush_response := true } } =
            rx_flush env
              { s with p := { s.p with rx_state := RxState.flush, flush_response := true } } := by
          simp [usb_rx_process]
        rw [e] at hfl
        rcases hfl with hfl | ⟨a, b, c⟩
        · exact Or.inl hfl
        · refine Or.inr (Or.inr ⟨a, fun hcond => ?_, b, c⟩)
          have hpos : 0 < s.p.rx_args1 := b
          have := hv.2 ⟨by omega, hcond.1, fun h => by have := hcond.2; omega⟩
          rw [hval] at this
          cases this
    · rw [if_neg hrun, if_neg (by simp [State.respond])]
      exact Or.inl rfl
  · rw [if_neg hr, if_neg (by rw [hd]; decide)]
    exact Or.inl rfl

/-- One call of `usb_rx_process` in the Data state of opcode `'P'`. -/
theorem erase_block_call (env : Env X) (s : State X)
    (h0 : s.p.rx_args0 < U32) (hB : env.FLASH_ERASE_BLOCK_SIZE < U32)
    (hd : s.p.rx_state = RxState.data) (hc : s.p.rx_cmd = 80) :
    (usb_rx_process env s).w.trace = s.w.trace ∨
    ((usb_rx_process env s).w.trace = s.w.trace ++
        [Ev.call Collab.flash_erase_block [s.p.rx_args0]] ∧
      s.p.rx_args0 + env.FLASH_ERASE_BLOCK_SIZE ≤ 0x05002980 ∧
      ¬ (s.p.rx_args0 + env.FLASH_ERASE_BLOCK_SIZE > 0x04E00000 ∧
          s.p.rx_args0 < 0x04FE0000)) := by
  have hv := usb_validate_address_length_exact s.p.rx_args0
    (env.FLASH_ERASE_BLOCK_SIZE % U32) true h0 (Nat.mod_lt _ (by decide))
  rw [Nat.mod_eq_of_lt hB] at hv
  simp only [BOOTLOADER_ADDRESS, BOOTLOADER_LENGTH, MEMORY_LENGTH] at hv
  norm_num at hv
  have hi : (rx_data_P env s).p.rx_state = RxState.idle := by
    unfold rx_data_P
    simp only []
    split_ifs <;> rfl
  rw [usb_rx_process_data env s hd, rx_data_erase env s hc, if_neg (by rw [hi]; decide)]
  unfold rx_data_P
  rw [Nat.mod_eq_of_lt hB]
  cases hval : usb_validate_address_length s.p.rx_args0 env.FLASH_ERASE_BLOCK_SIZE true
  · right
    have := hv.1 hval
    refine ⟨by simp [State.respond, State.call, State.emit, State.setExt], this.2.1, ?_⟩
    have := this.2.2
    omega
  · left
    simp [State.respond]

/-- C2 (as stated, refuted): after boot, the call of `usb_rx_process` that
receives the memory-write request for 4 bytes at `0x07F00000` programs the DMA
engine with address `0x07F00000` and length 4, that is with `(arg0, arg1)`,
although `arg0 + arg1` exceeds `0x05002980`. -/
theorem c2_counterexample :
    State.scratchRequest.w.rx = [67, 77, 68, 77, 0x07, 0xF0, 0x00, 0x00, 0, 0, 0, 4] ∧
    rx_word_value 0x07 0xF0 0x00 0x00 = 0x07F00000 ∧
    rx_word_value 0 0 0 4 = 4 ∧
    (usb_rx_process Env.sample State.scratchRequest).w.trace =
      [Ev.reg_set_dma_address 0x07F00000, Ev.reg_set_dma_length 4,
       Ev.reg_set_dma_scr DmaScr.DIRECTION_START] ∧
    ¬ (0x07F00000 + 4 ≤ 0x05002980) := by
  decide

/-- C2 (amended), on whole calls of `usb_rx_process`.  In the Data state of
opcode `'M'` a call writes nothing to hardware, or programs the DMA engine
with `(rx_args[0], rx_args[1])`, into memory, and then in exact arithmetic
`arg0 + arg1 <= 0x05002980` and not (`arg0 + arg1 > 0x04E00000` and
`arg0 < 0x04FE0000`), or, the range having failed that condition, enters the
Flush state and programs the engine with the scratch address `RX_FLUSH_ADDRESS`
and `min(arg1, RX_FLUSH_LENGTH)` bytes; in the Flush state a call writes
nothing or programs one such scratch transfer for the bytes left.  In the Data
state of opcode `'P'` a call calls nothing, or calls
`flash_erase_block(rx_args[0])`, and then the condition holds for
`(arg0, FLASH_ERASE_BLOCK_SIZE)`.  The same holds for the call that receives
the request bytes from Idle, with the arguments taken big-endian from the
FIFO.  On a tick with the link up the transmit machine, which runs after
`usb_rx_process`, starts no into-memory transfer.  The 32-bit sum inside
`usb_validate_address_length` does not wrap whenever it is reached. -/
theorem c2_memory_write_dma (env : Env X) (s : State X)
    (h0 : s.p.rx_args0 < U32) (h1 : s.p.rx_args1 < U32)
    (hB : env.FLASH_ERASE_BLOCK_SIZE < U32) :
    (s.p.rx_state = RxState.data → s.p.rx_cmd = 77 →
      (usb_rx_process env s).w.trace = s.w.trace ∨
      ((usb_rx_process env s).w.trace = s.w.trace ++
          [Ev.reg_set_dma_address s.p.rx_args0, Ev.reg_set_dma_length s.p.rx_args1,
           Ev.reg_set_dma_scr DmaScr.DIRECTION_START] ∧
        s.p.rx_args0 + s.p.rx_args1 ≤ 0x05002980 ∧
        ¬ (s.p.rx_args0 + s.p.rx_args1 > 0x04E00000 ∧ s.p.rx_args0 < 0x04FE0000)) ∨
      ((usb_rx_process env s).w.trace = s.w.trace ++
          [Ev.reg_set_dma_address RX_FLUSH_ADDRESS,
           Ev.reg_set_dma_length (min s.p.rx_args1 RX_FLUSH_LENGTH),
           Ev.reg_set_dma_scr DmaScr.DIRECTION_START] ∧
        ¬ (s.p.rx_args0 + s.p.rx_args1 ≤ 0x05002980 ∧
          ¬ (s.p.rx_args0 + s.p.rx_args1 > 0x04E00000 ∧ s.p.rx_args0 < 0x04FE0000)) ∧
        0 < s.p.rx_args1 ∧ (usb_rx_process env s).p.rx_state = RxState.flush)) ∧
    (s.p.rx_state = RxState.flush →
      (usb_rx_process env s).w.trace = s.w.trace ∨
      ((usb_rx_process env s).w.trace = s.w.trace ++
          [Ev.reg_set_dma_address RX_FLUSH_ADDRESS,
           Ev.reg_set_dma_length (min s.p.rx_args1 RX_FLUSH_LENGTH),
           Ev.reg_set_dma_scr DmaScr.DIRECTION_START] ∧
        0 < s.p.rx_args1 ∧ (usb_rx_process env s).p.rx_state = RxState.flush)) ∧
    (s.p.rx_state = RxState.data → s.p.rx_cmd = 80 →
      (usb_rx_process env s).w.trace = s.w.trace ∨
      ((usb_rx_process env s).w.trace = s.w.trace ++
          [Ev.call Collab.flash_erase_block [s.p.rx_args0]] ∧
        s.p.rx_args0 + env.FLASH_ERASE_BLOCK_SIZE ≤ 0x05002980 ∧
        ¬ (s.p.rx_args0 + env.FLASH_ERASE_BLOCK_SIZE > 0x04E00000 ∧
            s.p.rx_args0 < 0x04FE0000))) ∧
    (∀ (t : State X) (a0 a1 a2 a3 a4 a5 a6 a7 : Nat) (rest : List Nat),
      t.p.rx_state = RxState.idle → t.p.response_pending = false →
      t.p.usb_rx_cmd_counter = 0 → t.p.usb_rx_word_counter = 0 →
      t.p.usb_rx_word_buffer = 0 →
      t.w.rx = 67 :: 77 :: 68 :: 77 :: a0 :: a1 :: a2 :: a3 :: a4 :: a5 :: a6 :: a7 :: rest →
      (usb_rx_process env t).w.trace = t.w.trace ∨
      ((usb_rx_process env t).w.trace = t.w.trace ++
          [Ev.reg_set_dma_address (rx_word_value a0 a1 a2 a3),
           Ev.reg_set_dma_length (rx_word_value a4 a5 a6 a7),
           Ev.reg_set_dma_scr DmaScr.DIRECTION_START] ∧
        rx_word_value a0 a1 a2 a3 + rx_word_value a4 a5 a6 a7 ≤ 0x05002980 ∧
        ¬ (rx_word_value a0 a1 a2 a3 + rx_word_value a4 a5 a6 a7 > 0x04E00000 ∧
          rx_word_value a0 a1 a2 a3 < 0x04FE0000)) ∨
      ((usb_rx_process env t).w.trace = t.w.trace ++
          [Ev.reg_set_dma_address RX_FLUSH_ADDRESS,
           Ev.reg_set_dma_length (min (rx_word_value a4 a5 a6 a7) RX_FLUSH_LENGTH),
           Ev.reg_set_dma_scr DmaScr.DIRECTION_START] ∧
        ¬ (rx_word_value a0 a1 a2 a3 + rx_word_value a4 a5 a6 a7 ≤ 0x05002980 ∧
          ¬ (rx_word_value a0 a1 a2 a3 + rx_word_value a4 a5 a6 a7 > 0x04E00000 ∧
            rx_word_value a0 a1 a2 a3 < 0x04FE0000)) ∧
        0 < rx_word_value a4 a5 a6 a7 ∧
        (usb_rx_process env t).p.rx_state = RxState.flush)) ∧
    (∀ (t : State X) (a0 a1 a2 a3 a4 a5 a6 a7 : Nat) (rest : List Nat),
      t.p.rx_state = RxState.idle → t.p.response_pending = false →
      t.p.usb_rx_cmd_counter = 0 → t.p.usb_rx_word_counter = 0 →
      t.p.usb_rx_word_buffer = 0 →
      t.w.rx = 67 :: 77 :: 68 :: 80 :: a0 :: a1 :: a2 :: a3 :: a4 :: a5 :: a6 :: a7 :: rest →
      (usb_rx_process env t).w.trace = t.w.trace ∨
      ((usb_rx_process env t).w.trace = t.w.trace ++
          [Ev.call Collab.flash_erase_block [rx_word_value a0 a1 a2 a3]] ∧
        rx_word_value a0 a1 a2 a3 + env.FLASH_ERASE_BLOCK_SIZE ≤ 0x05002980 ∧
        ¬ (rx_word_value a0 a1 a2 a3 + env.FLASH_ERASE_BLOCK_SIZE > 0x04E00000 ∧
            rx_word_value a0 a1 a2 a3 < 0x04FE0000))) ∧
    (s.w.linkUp →
      ∃ evs, (usb_process env s).w.trace = (usb_rx_process env s).w.trace ++ evs ∧
        DmaScr.DIRECTION_START ∉ start_writes evs) ∧
    (∀ address length : Nat, address < U32 → length < U32 →
      ¬ (address ≥ MEMORY_LENGTH ∨ length > MEMORY_LENGTH) →
      (address + length) % U32 = address + length) := by
  refine ⟨fun hd hc => memory_write_call env s h0 h1 hd hc, fun hf => flush_call env s hf,
    fun hd hc => erase_block_call env s h0 hB hd hc, ?_, ?_, ?_, ?_⟩
  · intro t a0 a1 a2 a3 a4 a5 a6 a7 rest hst hrp hcc hc hb hrx
    have hreq := usb_rx_process_request env t 77 a0 a1 a2 a3 a4 a5 a6 a7 rest hst hrp hcc hc hb
      (by decide) (by decide) hrx
    have hdat := usb_rx_process_data env
      { p := { t.p with
          rx_state := RxState.data, rx_cmd := 77, rx_counter := 0,
          rx_dma_running := false, flush_response := false, flush_packet := false,
          response_error := false,
          response_info := { t.p.response_info with
            cmd := 77, data_length := 0, dma_length := 0, done_callback := none },
          rx_args0 := rx_word_value a0 a1 a2 a3,
          rx_args1 := rx_word_value a4 a5 a6 a7 },
        w := { t.w with rx := rest } } rfl
    rw [hreq, ← hdat]
    exact memory_write_call env _ (Nat.mod_lt _ (by decide)) (Nat.mod_lt _ (by decide)) rfl rfl
  · intro t a0 a1 a2 a3 a4 a5 a6 a7 rest hst hrp hcc hc hb hrx
    have hreq := usb_rx_process_request env t 80 a0 a1 a2 a3 a4 a5 a6 a7 rest hst hrp hcc hc hb
      (by decide) (by decide) hrx
    have hdat := usb_rx_process_data env
      { p := { t.p with
          rx_state := RxState.data, rx_cmd := 80, rx_counter := 0,
          rx_dma_running := false, flush_response := false, flush_packet := false,
          response_error := false,
          response_info := { t.p.response_info with
            cmd := 80, data_length := 0, dma_length := 0, done_callback := none },
          rx_args0 := rx_word_value a0 a1 a2 a3,
          rx_args1 := rx_word_value a4 a5 a6 a7 },
        w := { t.w with rx := rest } } rfl
    rw [hreq, ← hdat]
    exact erase_block_call env _ (Nat.mod_lt _ (by decide)) hB rfl rfl
  · intro hup
    rw [usb_process_link_up env s hup]
    obtain ⟨ts, tc, ti, tt, tdr, rp, pp, c, sp, busy, evs, ext, hf, -, -, hdma⟩ :=
      usb_tx_process_frame env (usb_rx_process env s)
    refine ⟨evs, by rw [hf], ?_⟩
    rcases hdma with ⟨-, h⟩ | ⟨-, -, h⟩ <;> rw [h] <;> simp
  · intro a l ha hl h
    simp only [U32, MEMORY_LENGTH] at *
    omega

/-- Witness for C2 (amended): the call that serves a memory-write of 16 bytes
at address 0 programs exactly that transfer, and the range is within bounds. -/
theorem c2_memory_write_dma_witness :
    (usb_rx_process Env.sample (State.request 77 0 16)).w.trace =
      (State.request 77 0 16).w.trace ++
        [Ev.reg_set_dma_address 0, Ev.reg_set_dma_length 16,
         Ev.reg_set_dma_scr DmaScr.DIRECTION_START] ∧
    (State.request 77 0 16).p.rx_args0 + (State.request 77 0 16).p.rx_args1 ≤ 0x05002980 := by
  have h := (c2_memory_write_dma Env.sample (State.request 77 0 16)
    (by decide) (by decide) (by decide)).1 (by decide) (by decide)
  rcases h with h | h | h
  · exact absurd h (by decide)
  · exact ⟨h.1, h.2.1⟩
  · exact absurd h.1 (by decide)

/-! ## A response is produced: theorems -/

theorem rx_data_v_answers (env : Env X) (s : State X) : Answered (rx_data_v env s).p := by
  unfold rx_data_v
  simp only [Answered, State.respond, State.setInfo, State.call, State.emit, State.setExt,
    State.setArgs]
  try split_ifs
  all_goals simp

theorem rx_data_V_answers (env : Env X) (s : State X) : Answered (rx_data_V env s).p := by
  unfold rx_data_V
  simp only [Answered, State.respond, State.setInfo, State.call, State.emit, State.setExt,
    State.setArgs]
  try split_ifs
  all_goals simp

theorem rx_data_R_answers (env : Env X) (s : State X) : Answered (rx_data_R env s).p := by
  unfold rx_data_R
  simp only [Answered, State.respond, State.setInfo, State.call, State.emit, State.setExt,
    State.setArgs]
  try split_ifs
  all_goals simp

theorem rx_data_B_answers (env : Env X) (s : State X) : Answered (rx_data_B env s).p := by
  unfold rx_data_B
  simp only [Answered, State.respond, State.setInfo, State.call, State.emit, State.setExt,
    State.setArgs]
  try split_ifs
  all_goals simp

theorem rx_data_c_answers (env : Env X) (s : State X) : Answered (rx_data_c env s).p := by
  unfold rx_data_c
  simp only [Answered, State.respond, State.setInfo, State.call, State.emit, State.setExt,
    State.setArgs]
  try split_ifs
  all_goals simp

theorem rx_data_C_answers (env : Env X) (s : State X) : Answered (rx_data_C env s).p := by
  unfold rx_data_C
  simp only [Answered, State.respond, State.setInfo, State.call, State.emit, State.setExt,
    State.setArgs]
  try split_ifs
  all_goals simp

theorem rx_data_a_answers (env : Env X) (s : State X) : Answered (rx_data_a env s).p := by
  unfold rx_data_a
  simp only [Answered, State.respond, State.setInfo, State.call, State.emit, State.setExt,
    State.setArgs]
  try split_ifs
  all_goals simp

theorem rx_data_A_answers (env : Env X) (s : State X) : Answered (rx_data_A env s).p := by
  unfold rx_data_A
  simp only [Answered, State.respond, State.setInfo, State.call, State.emit, State.setExt,
    State.setArgs]
  try split_ifs
  all_goals simp

theorem rx_data_t_answers (env : Env X) (s : State X) : Answered (rx_data_t env s).p := by
  unfold rx_data_t
  simp only [Answered, State.respond, State.setInfo, State.call, State.emit, State.setExt,
    State.setArgs]
  try split_ifs
  all_goals simp

theorem rx_data_T_answers (env : Env X) (s : State X) : Answered (rx_data_T env s).p := by
  unfold rx_data_T
  simp only [Answered, State.respond, State.setInfo, State.call, State.emit, State.setExt,
    State.setArgs]
  try split_ifs
  all_goals simp

theorem rx_data_D_answers (env : Env X) (s : State X) : Answered (rx_data_D env s).p := by
  unfold rx_data_D
  simp only [Answered, State.respond, State.setInfo, State.call, State.emit, State.setExt,
    State.setArgs]
  try split_ifs
  all_goals simp

theorem rx_data_W_answers (env : Env X) (s : State X) : Answered (rx_data_W env s).p := by
  unfold rx_data_W
  simp only [Answered, State.respond, State.setInfo, State.call, State.emit, State.setExt,
    State.setArgs]
  try split_ifs
  all_goals simp

theorem rx_data_p_answers (env : Env X) (s : State X) : Answered (rx_data_p env s).p := by
  unfold rx_data_p
  simp only [Answered, State.respond, State.setInfo, State.call, State.emit, State.setExt,
    State.setArgs]
  try split_ifs
  all_goals simp

theorem rx_data_P_answers (env : Env X) (s : State X) : Answered (rx_data_P env s).p := by
  unfold rx_data_P
  simp only [Answered, State.respond, State.setInfo, State.call, State.emit, State.setExt,
    State.setArgs]
  try split_ifs
  all_goals simp

theorem rx_data_f_answers (env : Env X) (s : State X) : Answered (rx_data_f env s).p := by
  unfold rx_data_f
  simp only [Answered, State.respond, State.setInfo, State.call, State.emit, State.setExt,
    State.setArgs]
  try split_ifs
  all_goals simp

theorem rx_data_F_answers (env : Env X) (s : State X) : Answered (rx_data_F env s).p := by
  unfold rx_data_F
  simp only [Answered, State.respond, State.setInfo, State.call, State.emit, State.setExt,
    State.setArgs]
  try split_ifs
  all_goals simp

theorem rx_data_stack_answers (env : Env X) (s : State X) : Answered (rx_data_stack env s).p := by
  unfold rx_data_stack
  simp only [Answered, State.respond, State.setInfo, State.call, State.emit, State.setExt,
    State.setArgs]
  try split_ifs
  all_goals simp

theorem rx_data_m_answers (s : State X) : Answered (rx_data_m s).p := by
  unfold rx_data_m
  simp only [Answered, State.respond, State.setInfo, State.call, State.emit, State.setExt,
    State.setArgs]
  try split_ifs
  all_goals simp

theorem rx_data_debug_answers (s : State X) : Answered (rx_data_debug s).p := by
  unfold rx_data_debug
  simp only [Answered, State.respond, State.setInfo, State.call, State.emit, State.setExt,
    State.setArgs]
  try split_ifs
  all_goals simp

theorem rx_data_default_answers (s : State X) : Answered (rx_data_default s).p := by
  unfold rx_data_default
  simp only [Answered, State.respond, State.setInfo, State.call, State.emit, State.setExt,
    State.setArgs]
  try split_ifs
  all_goals simp

theorem rx_data_answers (env : Env X) (s : State X) (hM : s.p.rx_cmd ≠ 77)
    (hU : s.p.rx_cmd ≠ 85) : Answered (rx_data env s).p := by
  unfold rx_data
  by_cases h0 : s.p.rx_cmd = 118
  · rw [if_pos h0]; exact rx_data_v_answers env s
  rw [if_neg h0]
  by_cases h1 : s.p.rx_cmd = 86
  · rw [if_pos h1]; exact rx_data_V_answers env s
  rw [if_neg h1]
  by_cases h2 : s.p.rx_cmd = 82
  · rw [if_pos h2]; exact rx_data_R_answers env s
  rw [if_neg h2]
  by_cases h3 : s.p.rx_cmd = 66
  · rw [if_pos h3]; exact rx_data_B_answers env s
  rw [if_neg h3]
  by_cases h4 : s.p.rx_cmd = 99
  · rw [if_pos h4]; exact rx_data_c_answers env s
  rw [if_neg h4]
  by_cases h5 : s.p.rx_cmd = 67
  · rw [if_pos h5]; exact rx_data_C_answers env s
  rw [if_neg h5]
  by_cases h6 : s.p.rx_cmd = 97
  · rw [if_pos h6]; exact rx_data_a_answers env s
  rw [if_neg h6]
  by_cases h7 : s.p.rx_cmd = 65
  · rw [if_pos h7]; exact rx_data_A_answers env s
  rw [if_neg h7]
  by_cases h8 : s.p.rx_cmd = 116
  · rw [if_pos h8]; exact rx_data_t_answers env s
  rw [if_neg h8]
  by_cases h9 : s.p.rx_cmd = 84
  · rw [if_pos h9]; exact rx_data_T_answers env s
  rw [if_neg h9]
  by_cases h10 : s.p.rx_cmd = 109
  · rw [if_pos h10]; exact rx_data_m_answers s
  rw [if_neg h10]
  rw [if_neg hM]
  rw [if_neg hU]
  by_cases h13 : s.p.rx_cmd = 68
  · rw [if_pos h13]; exact rx_data_D_answers env s
  rw [if_neg h13]
  by_cases h14 : s.p.rx_cmd = 87
  · rw [if_pos h14]; exact rx_data_W_answers env s
  rw [if_neg h14]
  by_cases h15 : s.p.rx_cmd = 112
  · rw [if_pos h15]; exact rx_data_p_answers env s
  rw [if_neg h15]
  by_cases h16 : s.p.rx_cmd = 80
  · rw [if_pos h16]; exact rx_data_P_answers env s
  rw [if_neg h16]
  by_cases h17 : s.p.rx_cmd = 102
  · rw [if_pos h17]; exact rx_data_f_answers env s
  rw [if_neg h17]
  by_cases h18 : s.p.rx_cmd = 70
  · rw [if_pos h18]; exact rx_data_F_answers env s
  rw [if_neg h18]
  by_cases h19 : s.p.rx_cmd = 63
  · rw [if_pos h19]; exact rx_data_debug_answers s
  rw [if_neg h19]
  by_cases h20 : s.p.rx_cmd = 37
  · rw [if_pos h20]; exact rx_data_stack_answers env s
  rw [if_neg h20]
  exact rx_data_default_answers s

theorem usb_rx_process_answers (env : Env X) (s : State X)
    (hd : s.p.rx_state = RxState.data) (hM : s.p.rx_cmd ≠ 77) (hU : s.p.rx_cmd ≠ 85) :
    Answered (usb_rx_process env s).p := by
  have h := rx_data_answers env s hM hU
  rw [usb_rx_process_data env s hd, if_neg (by rw [h.1]; decide)]
  exact h

theorem write_call_flush (env : Env X) (s : State X) (hf : s.p.rx_state = RxState.flush)
    (hfr : s.p.flush_response = true) (hrp : s.p.response_pending = false)
    (hc : s.p.rx_cmd = 77) (h32 : s.p.rx_args1 < U32) (hready : s.w.dma_busy = false) :
    (write_ticks_left s.p = 0 → Answered (usb_rx_process env s).p) ∧
    (0 < write_ticks_left s.p →
      Serving (usb_rx_process env s).p ∧ (usb_rx_process env s).p.rx_cmd = 77 ∧
      (usb_rx_process env s).p.rx_args1 < U32 ∧
      write_ticks_left (usb_rx_process env s).p + 1 = write_ticks_left s.p) := by
  have e : usb_rx_process env s = rx_flush env s := by
    simp [usb_rx_process, hf]
  have hleft : write_ticks_left s.p = (burst_lengths s.p.rx_args1).length := by
    simp only [write_ticks_left, hf, if_true]
  have hr : usb_dma_ready s = true := by
    simp [usb_dma_ready, hready]
  rw [e, hleft]
  unfold rx_flush
  rw [if_pos hr]
  by_cases ha : s.p.rx_args1 ≠ 0
  · rw [if_pos ha]
    have hpos : 0 < s.p.rx_args1 := Nat.pos_of_ne_zero ha
    have hcons := burst_lengths_pos s.p.rx_args1 hpos
    have harith : (s.p.rx_args1 + U32 -
        (if s.p.rx_args1 > RX_FLUSH_LENGTH then RX_FLUSH_LENGTH else s.p.rx_args1)) % U32 =
        s.p.rx_args1 -
          (if s.p.rx_args1 > RX_FLUSH_LENGTH then RX_FLUSH_LENGTH else s.p.rx_args1) := by
      simp only [U32, RX_FLUSH_LENGTH] at *
      split_ifs <;> omega
    refine ⟨fun h0 => ?_, fun _ => ⟨⟨hrp, Or.inr ⟨hf, Or.inl ⟨hc, hfr⟩⟩⟩, hc,
      Nat.mod_lt _ (by decide), ?_⟩⟩
    · rw [hcons] at h0
      simp at h0
    · show write_ticks_left
          { s.p with rx_args1 := (s.p.rx_args1 + U32 -
            (if s.p.rx_args1 > RX_FLUSH_LENGTH then RX_FLUSH_LENGTH else s.p.rx_args1)) % U32 }
          + 1 = _
      rw [harith]
      conv_rhs => rw [hcons]
      simp only [write_ticks_left, hf, if_true, List.length_cons]
  · rw [if_neg ha, if_pos hfr]
    refine ⟨fun _ => ⟨rfl, rfl⟩, fun h0 => ?_⟩
    have hz : s.p.rx_args1 = 0 := by
      by_contra h
      exact ha h
    rw [hz, burst_lengths_zero] at h0
    simp at h0

theorem write_call (env : Env X) (s : State X) (hS : Serving s.p) (hc : s.p.rx_cmd = 77)
    (h32 : s.p.rx_args1 < U32) (hready : s.w.dma_busy = false) :
    (write_ticks_left s.p = 0 → Answered (usb_rx_process env s).p) ∧
    (0 < write_ticks_left s.p →
      Serving (usb_rx_process env s).p ∧ (usb_rx_process env s).p.rx_cmd = 77 ∧
      (usb_rx_process env s).p.rx_args1 < U32 ∧
      write_ticks_left (usb_rx_process env s).p + 1 = write_ticks_left s.p) := by
  obtain ⟨hrp, ⟨hd, hfr0⟩ | ⟨hf, hk⟩⟩ := hS
  swap
  · rcases hk with ⟨-, hfr⟩ | ⟨h85, -⟩
    · exact write_call_flush env s hf hfr hrp hc h32 hready
    · rw [hc] at h85
      exact absurd h85 (by decide)
  have hr : usb_dma_ready s = true := by
    simp [usb_dma_ready, hready]
  have hnf : s.p.rx_state ≠ RxState.flush := by
    rw [hd]
    decide
  rw [usb_rx_process_data env s hd, rx_data_write env s hc]
  unfold rx_data_M
  rw [if_pos hr]
  by_cases hrun : (!s.p.rx_dma_running) = true
  · have hrun0 : s.p.rx_dma_running = false := by simpa using hrun
    rw [if_pos hrun]
    cases hval : usb_validate_address_length s.p.rx_args0 s.p.rx_args1 true
    · simp only [Bool.false_eq_true, if_false]
      rw [if_neg (by simp [dma_start, State.emit, hd])]
      have hleft : write_ticks_left s.p = 1 := by
        simp [write_ticks_left, hd, hrun0, hval]
      rw [hleft]
      refine ⟨fun h => absurd h (by decide), fun _ => ⟨⟨hrp, Or.inl ⟨hd, hfr0⟩⟩, hc, h32, ?_⟩⟩
      simp [write_ticks_left, dma_start, State.emit, hd]
    · simp only [if_true]
      have hleft : write_ticks_left s.p = write_ticks_left
          { s.p with rx_state := RxState.flush, flush_response := true } := by
        simp [write_ticks_left, hd, hrun0, hval]
      have hfl := write_call_flush env
        { s with p := { s.p with rx_state := RxState.flush, flush_response := true } }
        rfl rfl hrp hc h32 hready
      have e : usb_rx_process env
          { s with p := { s.p with rx_state := RxState.flush, flush_response := true } } =
          rx_flush env
            { s with p := { s.p with rx_state := RxState.flush, flush_response := true } } := by
        simp [usb_rx_process]
      rw [e] at hfl
      rw [hleft]
      exact hfl
  · have hrun1 : s.p.rx_dma_running = true := by simpa using hrun
    rw [if_neg hrun, if_neg (by simp [State.respond])]
    refine ⟨fun _ => ⟨rfl, rfl⟩, fun h0 => ?_⟩
    simp [write_ticks_left, hd, hrun1] at h0

theorem txFrame_write {r t : State X} (hf : TxFrame r t) (hS : Serving r.p) :
    Serving t.p ∧ t.p.rx_cmd = r.p.rx_cmd ∧ t.p.rx_args1 = r.p.rx_args1 ∧
    write_ticks_left t.p = write_ticks_left r.p ∧
    t.w.scr_pwrsav = r.w.scr_pwrsav ∧ t.w.scr_reset_state = r.w.scr_reset_state ∧
    t.w.scr_reset_pending = r.w.scr_reset_pending := by
  obtain ⟨ts, tc, ti, tt, tdr, rp, pp, c, sp, busy, evs, ext, hf, hrp, -, -⟩ := hf
  have hrp0 : rp = false := by
    cases rp with
    | false => rfl
    | true =>
      have := hrp rfl
      rw [hS.1] at this
      cases this
  rw [hf]
  refine ⟨⟨hrp0, hS.2⟩, rfl, rfl, rfl, rfl, rfl, rfl⟩

/-- One DMA-ready tick with the link up on a memory-write in service: the call
of `usb_rx_process` answers it when no tick is left, else the request is in
service after the tick with one tick less to go. -/
theorem write_tick (env : Env X) (s : State X) (hS : Serving s.p) (hc : s.p.rx_cmd = 77)
    (h32 : s.p.rx_args1 < U32) (hup : s.w.linkUp) :
    (write_ticks_left s.p = 0 → Answered (usb_rx_process env s.dmaDone).p) ∧
    (0 < write_ticks_left s.p →
      Serving (tick_ready env s).p ∧ (tick_ready env s).p.rx_cmd = 77 ∧
      (tick_ready env s).p.rx_args1 < U32 ∧ (tick_ready env s).w.linkUp ∧
      write_ticks_left (tick_ready env s).p + 1 = write_ticks_left s.p) := by
  obtain ⟨u1, u2, u3⟩ := hup
  obtain ⟨a, b⟩ := write_call env s.dmaDone hS hc h32 rfl
  refine ⟨a, fun hpos => ?_⟩
  obtain ⟨b1, b2, b3, b4⟩ := b hpos
  obtain ⟨-, -, -, -, -, -, -, r8, r9, r10, -⟩ := (usb_rx_process_block env s.dmaDone).1
  obtain ⟨t1, t2, t3, t4, t5, t6, t7⟩ :=
    txFrame_write (usb_tx_process_frame env (usb_rx_process env s.dmaDone)) b1
  rw [tick_ready_link_up env s u1 u2 u3]
  refine ⟨t1, t2.trans b2, by rw [t3]; exact b3, ⟨?_, ?_, ?_⟩, by rw [t4]; exact b4⟩
  · rw [t5, r8]
    exact u1
  · rw [t6, r9]
    exact u2
  · rw [t7, r10]
    exact u3

theorem write_run (env : Env X) : ∀ (n : Nat) (s : State X), Serving s.p → s.p.rx_cmd = 77 →
    s.p.rx_args1 < U32 → s.w.linkUp → write_ticks_left s.p = n →
    (∀ j, j ≤ n →
      Serving (ticks_ready env j s).p ∧ (ticks_ready env j s).p.rx_cmd = 77 ∧
      write_ticks_left (ticks_ready env j s).p = n - j) ∧
    Answered (usb_rx_process env (ticks_ready env n s).dmaDone).p := by
  intro n
  induction n with
  | zero =>
    intro s hS hc h32 hup hn
    refine ⟨fun j hj => ?_, (write_tick env s hS hc h32 hup).1 hn⟩
    have : j = 0 := Nat.le_zero.mp hj
    subst this
    exact ⟨hS, hc, hn⟩
  | succ n ih =>
    intro s hS hc h32 hup hn
    obtain ⟨t1, t2, t3, t4, t5⟩ := (write_tick env s hS hc h32 hup).2 (by omega)
    obtain ⟨ihj, iha⟩ := ih (tick_ready env s) t1 t2 t3 t4 (by omega)
    refine ⟨fun j hj => ?_, iha⟩
    cases j with
    | zero => exact ⟨hS, hc, hn⟩
    | succ j =>
      obtain ⟨a, b, c⟩ := ihj j (by omega)
      refine ⟨a, b, ?_⟩
      show write_ticks_left (ticks_ready env j (tick_ready env s)).p = n + 1 - (j + 1)
      rw [c]
      omega

theorem write_ticks_left_le (p : Process) :
    write_ticks_left p ≤ (burst_lengths p.rx_args1).length + 1 := by
  unfold write_ticks_left
  split_ifs <;> omega

theorem stream_poll (env : Env X) (s : State X) (hd : s.p.rx_state = RxState.data)
    (hc : s.p.rx_cmd = 85) (h0 : s.p.rx_args1 = 0) :
    (usb_rx_process env s).p.rx_state = RxState.idle ∧
    (usb_rx_process env s).p.response_pending = s.p.response_pending := by
  have e : rx_data_U s = { s with p := { s.p with rx_state := RxState.idle } } := by
    unfold rx_data_U
    rw [if_pos h0]
  rw [usb_rx_process_stream env s hd hc, e,
    if_neg (fun h => absurd (show RxState.idle = RxState.flush from h) (by decide))]
  exact ⟨rfl, rfl⟩

/-- C5 (amended): for every opcode and every pair of arguments, while a request
is in service (Data or Flush state) no response is pending; each call of
`usb_rx_process` either keeps it in service, or returns the machine to Idle and
at that moment sets `response_pending` if the opcode is not `'U'` and leaves it
false if the opcode is `'U'` (whatever `arg1` is); and `usb_tx_process`,
`usb_enqueue_packet` and `usb_prepare_read` keep the request in service without
setting `response_pending`.  A response is in fact produced: every opcode
other than `'M'` and `'U'` is answered by the call that serves it in the Data
state; a memory-write, with the link up and the DMA engine ready on every
tick, stays in service for `write_ticks_left` ticks (none while its transfer
runs, one to start the transfer, one per scratch burst of a rejected range)
and is answered by the call of the next tick; a stream-write with `arg1 = 0`
is back in Idle after the call that serves it, with no response.  So exactly
one response is queued per request, on its return to Idle, except for
stream-write requests, which queue none. -/
theorem c5_one_response_per_request (env : Env X) (s : State X) (info : TxInfo)
    (address length : Nat) (hS : Serving s.p) :
    s.p.response_pending = false ∧
    (Completed s (usb_rx_process env s) ∨ StillServing s (usb_rx_process env s)) ∧
    StillServing s (usb_tx_process env s) ∧
    Serving (usb_enqueue_packet info s.p).2 ∧
    Serving (usb_prepare_read address length s.p).2 ∧
    (s.p.rx_state = RxState.data → s.p.rx_cmd ≠ 77 → s.p.rx_cmd ≠ 85 →
      (usb_rx_process env s).p.rx_state = RxState.idle ∧
      (usb_rx_process env s).p.response_pending = true) ∧
    (s.p.rx_cmd = 77 → s.w.linkUp → s.p.rx_args1 < U32 →
      (∀ j, j ≤ write_ticks_left s.p →
        Serving (ticks_ready env j s).p ∧ (ticks_ready env j s).p.rx_cmd = 77 ∧
        write_ticks_left (ticks_ready env j s).p = write_ticks_left s.p - j) ∧
      (usb_rx_process env
        (ticks_ready env (write_ticks_left s.p) s).dmaDone).p.rx_state = RxState.idle ∧
      (usb_rx_process env
        (ticks_ready env (write_ticks_left s.p) s).dmaDone).p.response_pending = true ∧
      write_ticks_left s.p ≤ (burst_lengths s.p.rx_args1).length + 1) ∧
    (s.p.rx_state = RxState.data → s.p.rx_cmd = 85 → s.p.rx_args1 = 0 →
      (usb_rx_process env s).p.rx_state = RxState.idle ∧
      (usb_rx_process env s).p.response_pending = false) := by
  refine ⟨hS.1, usb_rx_process_step env s hS, ?_, ?_, ?_, ?_, ?_, ?_⟩
  · have h := usb_tx_process_rxKept env s
    exact ⟨serving_of_rxKept h hS, h.2.1⟩
  · unfold usb_enqueue_packet
    split_ifs
    · exact hS
    · exact hS
  · unfold usb_prepare_read
    split_ifs
    · exact hS
    · exact hS
  · intro hd hM hU
    exact usb_rx_process_answers env s hd hM hU
  · intro hc hup h32
    obtain ⟨hj, ha⟩ := write_run env _ s hS hc h32 hup rfl
    exact ⟨hj, ha.1, ha.2, write_ticks_left_le s.p⟩
  · intro hd hc h0
    obtain ⟨a, b⟩ := stream_poll env s hd hc h0
    exact ⟨a, b.trans hS.1⟩

/-- Witness for C5 (amended): after boot, a memory-write of 16 bytes at
address 0 in the Data state has one tick to go and is answered by the call of
the second tick; a query-identifier request in the Data state is answered by
the call that serves it. -/
theorem c5_one_response_per_request_witness :
    Serving State.servingWrite.p ∧
    write_ticks_left State.servingWrite.p = 1 ∧
    (usb_rx_process Env.sample
      (ticks_ready Env.sample 1 State.servingWrite).dmaDone).p.response_pending = true ∧
    (usb_rx_process Env.sample (State.request 118 0 0)).p.response_pending = true := by
  have hS : Serving State.servingWrite.p := by
    unfold Serving
    decide
  have hQ : Serving (State.request 118 0 0).p := by
    unfold Serving
    decide
  have hl : write_ticks_left State.servingWrite.p = 1 := by decide
  have h := (c5_one_response_per_request Env.sample State.servingWrite TxInfo.zero 0 0
    hS).2.2.2.2.2.2.1 (by decide) ⟨rfl, rfl, rfl⟩ (by decide)
  have hq := (c5_one_response_per_request Env.sample (State.request 118 0 0) TxInfo.zero 0 0
    hQ).2.2.2.2.2.1 (by decide) (by decide) (by decide)
  rw [hl] at h
  exact ⟨hS, hl, h.2.2.1, hq.2⟩

end SC64
